import Mathlib

/-!
# Rainfall_Trap (Rainmeter skin engine): verification development

Shallow embedding of parts of `src/Common/Gfx/Canvas.cpp` and
`src/Library/Skin.cpp`, with theorems about them.

Conventions.
* C++ `int` values are `Int`; `UINT`/`size_t` values are `Nat`.
* A COM smart pointer is modelled by a `Bool`: `true` when it holds an object.
* The outcome of a call into the platform (Direct3D, Direct2D, DXGI, Win32) is
  not decided by the program; it is an explicit argument (an environment
  record) of the function that makes the call.
* Calls whose order matters are recorded in an explicit log carried by the
  state.
-/

namespace Gfx

/-! ## Canvas: the shared device stack (`Canvas::Initialize`) -/

/-- The three outcomes of a `HRESULT` that `Canvas::Initialize` tells apart. -/
inductive HResult where
  | ok
  | invalidArg
  | fail
  deriving DecidableEq, Repr

/-- The C++ `FAILED(hr)` test. -/
def HResult.failed : HResult → Bool
  | .ok => false
  | _ => true

/-- The static members of `Canvas` (Canvas.cpp lines 20-28). -/
structure Shared where
  c_Instances : Nat
  c_D3DDevice : Bool
  c_D3DContext : Bool
  c_D2DDevice : Bool
  c_DxgiDevice : Bool
  c_D2DFactory : Bool
  c_DWFactory : Bool
  c_WICFactory : Bool
  deriving DecidableEq, Repr

/-- The static members before the first `Canvas::Initialize`. -/
def Shared.initial : Shared :=
  { c_Instances := 0, c_D3DDevice := false, c_D3DContext := false, c_D2DDevice := false,
    c_DxgiDevice := false, c_D2DFactory := false, c_DWFactory := false, c_WICFactory := false }

/-- The device stack the rest of the canvas relies on: Direct3D device, Direct2D
factory and device, imaging factory and text factory are all present. -/
def Shared.deviceStack (s : Shared) : Bool :=
  s.c_D3DDevice && s.c_D2DFactory && s.c_D2DDevice && s.c_WICFactory && s.c_DWFactory

/-- What the platform answers to each creation call made by `Canvas::Initialize`. -/
structure InitEnv where
  hardware : HResult        -- D3D11CreateDevice, hardware driver, all feature levels
  hardwareRetry : HResult   -- the same without feature level 11_1
  warp : HResult            -- D3D11CreateDevice, WARP rasterizer
  asDxgi : HResult          -- c_D3DDevice.As(&c_DxgiDevice)
  d2dFactory : HResult      -- D2D1CreateFactory
  d2dDevice : HResult       -- c_D2DFactory->CreateDevice
  wicFactory : HResult      -- CoCreateInstance(CLSID_WICImagingFactory)
  dwFactory : HResult       -- DWriteCreateFactory
  fontLoader : HResult      -- RegisterFontCollectionLoader
  deriving DecidableEq, Repr

/-- The lambda `tryCreateContext`: on success the device and its context are stored. -/
def tryCreateContext (hr : HResult) (s : Shared) : HResult × Shared :=
  if hr.failed then (hr, s) else (hr, { s with c_D3DDevice := true, c_D3DContext := true })

/-- `Canvas::Initialize(bool hardwareAccelerated)`, Canvas.cpp lines 47-144. -/
def Canvas.Initialize (hardwareAccelerated : Bool) (env : InitEnv) (s0 : Shared) : Bool × Shared :=
  let s := { s0 with c_Instances := s0.c_Instances + 1 }
  if s.c_Instances == 1 then
    let (hr, s) : HResult × Shared :=
      if hardwareAccelerated then
        let (hr, s) := tryCreateContext env.hardware s
        if hr == HResult.invalidArg then tryCreateContext env.hardwareRetry s else (hr, s)
      else (HResult.fail, s)
    let (hr, s) : HResult × Shared :=
      if hr.failed then tryCreateContext env.warp s else (hr, s)
    if hr.failed then (false, s) else
    if env.asDxgi.failed then (false, s) else
    let s := { s with c_DxgiDevice := true }
    if env.d2dFactory.failed then (false, s) else
    let s := { s with c_D2DFactory := true }
    if env.d2dDevice.failed then (false, s) else
    let s := { s with c_D2DDevice := true }
    if env.wicFactory.failed then (false, s) else
    let s := { s with c_WICFactory := true }
    if env.dwFactory.failed then (false, s) else
    let s := { s with c_DWFactory := true }
    if env.fontLoader.failed then (false, s) else
    (true, s)
  else
    (true, s)

/-- The fallback policy of `Rainmeter::Initialize` (Rainmeter.cpp lines 229-238): a failed
first call is retried with hardware acceleration disabled. The result is the value of
the last call made. -/
def RainmeterInitializeCanvas (hardwareAccelerated : Bool) (env : InitEnv) (s : Shared) :
    Bool × Shared :=
  let r := Canvas.Initialize hardwareAccelerated env s
  if r.1 then r else Canvas.Initialize false env r.2

/-- A host on which no Direct3D device can be created at all. -/
def InitEnv.noDevice : InitEnv :=
  { hardware := .fail, hardwareRetry := .fail, warp := .fail, asDxgi := .fail,
    d2dFactory := .fail, d2dDevice := .fail, wicFactory := .fail, dwFactory := .fail,
    fontLoader := .fail }

/-! ## Canvas: the drawing session (`BeginDraw` / `EndDraw`) -/

/-- A call made on the device objects, in the order it is made. -/
inductive DeviceCall where
  | clearResources
  | createDeviceContext (multithreaded : Bool)
  | getMaximumBitmapSize
  | setTarget (bitmap : Bool)      -- `m_Target->SetTarget`, `false` for `nullptr`
  | resizeBuffers (w h : Int)
  | getBuffer
  | createBitmapFromDxgiSurface
  | targetBeginDraw
  | targetEndDraw
  deriving DecidableEq, Repr

/-- The members of one `Canvas` that the drawing session uses. -/
structure Canvas where
  m_Target : Bool
  m_TargetBitmap : Bool
  m_BackBuffer : Bool
  m_W : Int
  m_H : Int
  m_MaxBitmapSize : Nat
  m_IsDrawing : Bool
  calls : List DeviceCall
  deriving DecidableEq, Repr

/-- What the platform answers to the calls of one `BeginDraw` or `EndDraw`. -/
structure DrawEnv where
  d2dDevice : Bool             -- `c_D2DDevice` holds a device
  createContextMT : HResult    -- CreateDeviceContext, multithreaded optimizations
  createContext : HResult      -- CreateDeviceContext, no options
  maxBitmapSize : Nat          -- GetMaximumBitmapSize of a new context
  resizeBuffers : HResult
  getBuffer : HResult
  createBitmap : HResult       -- CreateBitmapFromDxgiSurface
  endDraw : HResult            -- m_Target->EndDraw
  deriving DecidableEq, Repr

/-- Appends a device call to the log. -/
def Canvas.call (c : Canvas) (e : DeviceCall) : Canvas := { c with calls := c.calls ++ [e] }

/-- `Canvas::CreateRenderTarget`, Canvas.cpp lines 782-820. `ReleaseAndGetAddressOf`
empties `m_Target` before each attempt. -/
def Canvas.CreateRenderTarget (env : DrawEnv) (c : Canvas) : HResult × Canvas :=
  let (hr, c) : HResult × Canvas :=
    if env.d2dDevice then
      let c := c.call .clearResources
      let c := { c.call (.createDeviceContext true) with m_Target := !env.createContextMT.failed }
      if env.createContextMT.failed then
        (env.createContext,
          { c.call (.createDeviceContext false) with m_Target := !env.createContext.failed })
      else (env.createContextMT, c)
    else (HResult.fail, c)
  if !hr.failed then
    (hr, { c.call .getMaximumBitmapSize with m_MaxBitmapSize := env.maxBitmapSize })
  else (hr, c)

/-- `Canvas::CreateTargetBitmap`, Canvas.cpp lines 822-848. -/
def Canvas.CreateTargetBitmap (env : DrawEnv) (c : Canvas) : Bool × Canvas :=
  let c := c.call .getBuffer
  if env.getBuffer.failed then (false, c) else
  let c := { c with m_BackBuffer := true }
  let c := c.call .createBitmapFromDxgiSurface
  if env.createBitmap.failed then (false, c) else
  let c := { c with m_TargetBitmap := true }
  (true, c.call (.setTarget true))

/-- `Canvas::Resize`, Canvas.cpp lines 261-287. -/
def Canvas.Resize (env : DrawEnv) (w h : Int) (c : Canvas) : Canvas :=
  let w := if w > (c.m_MaxBitmapSize : Int) then (c.m_MaxBitmapSize : Int) else w
  let h := if h > (c.m_MaxBitmapSize : Int) then (c.m_MaxBitmapSize : Int) else h
  let c := { c with m_W := w, m_H := h }
  let c := c.call (.setTarget false)
  let c := { c with m_TargetBitmap := false, m_BackBuffer := false }
  let c := c.call (.resizeBuffers w h)
  if env.resizeBuffers.failed then c else
  (c.CreateTargetBitmap env).2

/-- `Canvas::BeginDraw`, Canvas.cpp lines 289-307. -/
def Canvas.BeginDraw (env : DrawEnv) (c : Canvas) : Bool × Canvas :=
  if !c.m_Target then
    let (hr, c) := c.CreateRenderTarget env
    if hr.failed then
      (false, { c with m_IsDrawing := false })
    else
      -- Recreate target bitmap
      let c := c.Resize env c.m_W c.m_H
      let c := c.call .targetBeginDraw
      (true, { c with m_IsDrawing := true })
  else
    let c := c.call .targetBeginDraw
    (true, { c with m_IsDrawing := true })

/-- `Canvas::EndDraw`, Canvas.cpp lines 309-318. -/
def Canvas.EndDraw (env : DrawEnv) (c : Canvas) : Canvas :=
  let c := c.call .targetEndDraw
  let c := if env.endDraw.failed then { c with m_Target := false } else c
  { c with m_IsDrawing := false }

/-- Whether `CreateRenderTarget` can succeed under `env`: the shared Direct2D device
exists and one of the two `CreateDeviceContext` attempts succeeds. -/
def DrawEnv.canCreateTarget (env : DrawEnv) : Bool :=
  env.d2dDevice && (!env.createContextMT.failed || !env.createContext.failed)

/-- The `CreateDeviceContext` attempts `CreateRenderTarget` makes when the device exists. -/
def DrawEnv.contextCalls (env : DrawEnv) : List DeviceCall :=
  if env.createContextMT.failed then
    [.clearResources, .createDeviceContext true, .createDeviceContext false]
  else [.clearResources, .createDeviceContext true]

/-- The calls by which `CreateTargetBitmap` rebuilds the target bitmap. -/
def DrawEnv.bitmapCalls (env : DrawEnv) : List DeviceCall :=
  if env.resizeBuffers.failed then []
  else if env.getBuffer.failed then [.getBuffer]
  else if env.createBitmap.failed then [.getBuffer, .createBitmapFromDxgiSurface]
  else [.getBuffer, .createBitmapFromDxgiSurface, .setTarget true]

end Gfx

/-! ## Skin runtime: data model

`Meter.h`, `Measure.h`, `Section.h`, `Mouse.h` and `Skin.h` are not among the sources; the
records below carry exactly the members that `Skin.cpp` reads or writes through their
accessors. Section and group names are compared without regard to case in the program
(`_wcsicmp`); the model keeps names in case-folded form and compares them with `==`. -/

/-- `enum STATE` of the skin life cycle. -/
inductive STATE where
  | STATE_INITIALIZING
  | STATE_REFRESHING
  | STATE_RUNNING
  | STATE_CLOSING
  deriving DecidableEq, Repr

/-- `enum RESIZEMODE`; `RESIZEMODE_NONE` is the value that tests false. -/
inductive RESIZEMODE where
  | RESIZEMODE_NONE
  | RESIZEMODE_CHECK
  | RESIZEMODE_RESET
  deriving DecidableEq, Repr

/-- `enum TIMER`, Skin.cpp lines 37-47. -/
inductive TIMER where
  | TIMER_METER
  | TIMER_MOUSE
  | TIMER_FADE
  | TIMER_TRANSITION
  | TIMER_DEACTIVATE
  deriving DecidableEq, Repr

/-- `INTERVAL_MOUSE`. -/
def INTERVAL_MOUSE : Int := 500
/-- `INTERVAL_FADE`. -/
def INTERVAL_FADE : Int := 10

/-- The mouse actions named in `Skin.cpp`. -/
inductive MOUSEACTION where
  | MOUSE_LMB_UP | MOUSE_LMB_DOWN | MOUSE_LMB_DBLCLK
  | MOUSE_MMB_UP | MOUSE_MMB_DOWN | MOUSE_MMB_DBLCLK
  | MOUSE_RMB_UP | MOUSE_RMB_DOWN | MOUSE_RMB_DBLCLK
  | MOUSE_X1MB_UP | MOUSE_X1MB_DOWN | MOUSE_X1MB_DBLCLK
  | MOUSE_X2MB_UP | MOUSE_X2MB_DOWN | MOUSE_X2MB_DBLCLK
  | MOUSE_MW_UP | MOUSE_MW_DOWN | MOUSE_MW_LEFT | MOUSE_MW_RIGHT
  | MOUSE_OVER | MOUSE_LEAVE
  deriving DecidableEq, Repr

/-- The part of class `Mouse` that the skin queries. -/
structure Mouse where
  overAction : String                        -- GetOverAction
  leaveAction : String                       -- GetLeaveAction
  hasActionCommand : MOUSEACTION → Bool      -- HasActionCommand
  actionCommand : MOUSEACTION → String       -- GetActionCommand

/-- The members of a `Meter` that the skin reads or writes. -/
structure Meter where
  name : String
  groups : List String
  hidden : Bool
  x : Int
  y : Int
  updateDivider : Int
  updateCounter : Int
  dynamicVariables : Bool
  onUpdateAction : String
  hasActiveTransition : Bool     -- what HasActiveTransition answers
  isButton : Bool                -- GetTypeID() == TypeID<MeterButton>()
  focus : Bool                   -- MeterButton::SetFocus
  mouseOver : Bool               -- IsMouseOver / SetMouseOver
  mouse : Mouse

/-- The members of a `Measure` that the skin reads or writes. -/
structure Measure where
  name : String
  groups : List String
  disabled : Bool
  paused : Bool
  updateDivider : Int
  updateCounter : Int
  dynamicVariables : Bool
  onUpdateAction : String
  isNetwork : Bool               -- IsNetworkMeasure

/-- A call that leaves the skin object, in the order it is made. -/
inductive Call where
  | setTimer (t : TIMER) (interval : Int)
  | killTimer (t : TIMER)
  | showWindow (visible : Bool)                 -- SW_SHOWNOACTIVATE / SW_HIDE
  | updateLayeredWindow (alpha : Int)
  | executeCommand (command : String) (sec : Option String)
  | netUpdate                                   -- MeasureNet::UpdateIFTable, UpdateStats
  | measureReadOptions (measure : String)
  | measureUpdate (measure : String)
  | measureChangeAction (measure : String)      -- Measure::DoChangeAction
  | meterReadOptions (meter : String)
  | meterUpdate (meter : String)
  | updateRelativeMeters
  | dialogAboutUpdateMeasures
  | resizeWindow (reset : Bool)
  | paint                                       -- the canvas part of Redraw
  | logError (message : String)
  | removeSkin
  | addUnmanagedSkin
  | removeUnmanagedSkin
  | deleteThis
  | setCurrentParser (set : Bool)
  | dispose
  | readSkin
  | showMessage
  | mapCoordsToScreen
  | setWindowPos
  | screenToWindow
  | changeZPos
  | blur (visible : Bool)
  | setMouseLeaveEvent (cancel : Bool)
  | registerMouseInput
  | unregisterMouseInput
  | writeOptions                                -- WriteOptions(OPTION_...)
  | createDoubleBuffer (cx cy : Int)
  | removeWindowExStyle
  deriving DecidableEq, Repr

/-- Which of the skin's timers are armed (`SetTimer` / `KillTimer` on `m_Window`). -/
structure Timers where
  meter : Bool
  mouse : Bool
  fade : Bool
  transition : Bool
  deactivate : Bool
  deriving DecidableEq, Repr

/-- Arms or cancels one timer. -/
def Timers.put (ts : Timers) (t : TIMER) (armed : Bool) : Timers :=
  match t with
  | .TIMER_METER => { ts with meter := armed }
  | .TIMER_MOUSE => { ts with mouse := armed }
  | .TIMER_FADE => { ts with fade := armed }
  | .TIMER_TRANSITION => { ts with transition := armed }
  | .TIMER_DEACTIVATE => { ts with deactivate := armed }

/-- The members of `Skin` used by the life cycle, the update tick, the bangs, the fade
and the mouse dispatch, together with the window's visibility, its armed timers and the
log of outgoing calls. -/
structure Skin where
  m_State : STATE
  m_Meters : List Meter
  m_Measures : List Measure
  m_ResizeWindow : RESIZEMODE
  m_UpdateCounter : Nat
  m_HasNetMeasures : Bool
  m_HasButtons : Bool
  m_DynamicWindowSize : Bool
  m_ActiveTransition : Bool
  m_TransitionUpdate : Int
  m_WindowUpdate : Int
  m_OnUpdateAction : String
  m_OnRefreshAction : String
  m_WindowStartHidden : Bool
  m_FadeOutMode : Bool             -- m_WindowHide == HIDEMODE_FADEOUT
  m_BlurModeNone : Bool            -- m_BlurMode == BLURMODE_NONE
  m_KeepOnScreen : Bool
  m_AlphaValue : Int
  m_FadeDuration : Int
  m_NewFadeDuration : Int
  m_FadeStartTime : Nat
  m_FadeStartValue : Int
  m_FadeEndValue : Int
  m_ActiveFade : Bool
  m_TransparencyValue : Int
  m_Hidden : Bool
  m_MouseOver : Bool
  m_MouseInputRegistered : Bool
  m_HasMouseScrollAction : Bool
  m_MouseMoveCounter : Nat
  m_Mouse : Mouse
  windowVisible : Bool             -- IsWindowVisible(m_Window)
  deleted : Bool                   -- `delete this` has run
  timers : Timers
  calls : List Call

namespace Skin

/-- Records an outgoing call. -/
def call (s : Skin) (c : Call) : Skin := { s with calls := s.calls ++ [c] }

/-- `SetTimer(m_Window, t, interval, nullptr)`. -/
def SetTimer (s : Skin) (t : TIMER) (interval : Int) : Skin :=
  { s.call (.setTimer t interval) with timers := s.timers.put t true }

/-- `KillTimer(m_Window, t)`. -/
def KillTimer (s : Skin) (t : TIMER) : Skin :=
  { s.call (.killTimer t) with timers := s.timers.put t false }

/-- `ShowWindow(m_Window, SW_SHOWNOACTIVATE)` for `true`, `SW_HIDE` for `false`. -/
def ShowWindow (s : Skin) (visible : Bool) : Skin :=
  { s.call (.showWindow visible) with windowVisible := visible }

/-- Modelled from the spec: `SetResizeWindowMode` is declared in `Skin.h`, which is not
among the sources. A geometry-affecting bang "schedules a recheck window size": the
requested mode becomes the pending mode. -/
def SetResizeWindowMode (s : Skin) (mode : RESIZEMODE) : Skin :=
  { s with m_ResizeWindow := mode }

end Skin

/-- Modelled from the spec: `Meter::Show` and `Meter::Hide` are in `Meter.cpp`, which is not
among the sources; they set the visibility flag of the meter. -/
def Meter.Show (m : Meter) : Meter := { m with hidden := false }
/-- Modelled from the spec: see `Meter.Show`. -/
def Meter.Hide (m : Meter) : Meter := { m with hidden := true }

/-- Modelled from the spec: `Measure::Enable`, `Disable`, `Pause` and `Unpause` are in
`Measure.h`, which is not among the sources; they set the two flags of the measure. -/
def Measure.Enable (m : Measure) : Measure := { m with disabled := false }
/-- Modelled from the spec: see `Measure.Enable`. -/
def Measure.Disable (m : Measure) : Measure := { m with disabled := true }
/-- Modelled from the spec: see `Measure.Enable`. -/
def Measure.Pause (m : Measure) : Measure := { m with paused := true }
/-- Modelled from the spec: see `Measure.Enable`. -/
def Measure.Unpause (m : Measure) : Measure := { m with paused := false }

/-- `CompareName` (Skin.cpp line 1302) for a meter: group membership or name equality. -/
def Meter.CompareName (m : Meter) (name : String) (group : Bool) : Bool :=
  if group then m.groups.contains name else m.name == name

/-- `CompareName` (Skin.cpp line 1302) for a measure. -/
def Measure.CompareName (m : Measure) (name : String) (group : Bool) : Bool :=
  if group then m.groups.contains name else m.name == name

/-! ## Skin runtime: update dividers, the update tick, the bangs -/

/-- The command interpreter (`CommandHandler`, outside the sources) seen from one skin:
the change a command makes to this skin when it calls back into it. -/
def Interp : Type := String → Option String → Skin → Skin

/-- An interpreter whose commands do not call back into the skin. -/
def Interp.inert : Interp := fun _ _ s => s

/-- `GetRainmeter().ExecuteCommand(command, this)` and `ExecuteActionCommand(command,
section)`: the call is recorded and the interpreter runs the command. -/
def Skin.ExecuteCommand (ex : Interp) (command : String) (sec : Option String) (s : Skin) :
    Skin :=
  ex command sec (s.call (.executeCommand command sec))

/-- Modelled from the spec: `Section::UpdateCheck` is in `Section.cpp`, which is not among
the sources. "The divider counts elapsed ticks, the section updates when the count
reaches the divider, and the count then resets"; a negative divider is only reached
by a forced update, which always updates. The result is the verdict and the new counter. -/
def UpdateCheck (updateDivider updateCounter : Int) : Bool × Int :=
  if updateDivider ≥ 0 then
    if updateCounter + 1 < updateDivider then (false, updateCounter + 1) else (true, 0)
  else (true, updateCounter)

/-- Modelled from the spec: `Section::ResetUpdateCounter` is in `Section.h`, which is not
among the sources. A forced update "updates when force is set": the counter is put at
the divider, so that the next check passes. -/
def Measure.ResetUpdateCounter (m : Measure) : Measure := { m with updateCounter := m.updateDivider }
/-- Modelled from the spec: see `Measure.ResetUpdateCounter`. -/
def Meter.ResetUpdateCounter (m : Meter) : Meter := { m with updateCounter := m.updateDivider }

/-- Modelled from the spec: `Measure::Update(rereadOptions)` is in `Measure.cpp`, which is
not among the sources. It re-reads the options when asked and updates the value when
the divider check passes; the result tells whether it updated. The calls it stands for
are returned as a list. -/
def Measure.Update (m : Measure) (rereadOptions : Bool) : Bool × Measure × List Call :=
  let (upd, counter) := UpdateCheck m.updateDivider m.updateCounter
  (upd, { m with updateCounter := counter },
    (if rereadOptions then [Call.measureReadOptions m.name] else []) ++
      [Call.measureUpdate m.name])

/-- Modelled from the spec: `Meter::Update()` is in `Meter.cpp`, which is not among the
sources; meters are updated "in the same manner" as measures. -/
def Meter.Update (m : Meter) : Bool × Meter × List Call :=
  let (upd, counter) := UpdateCheck m.updateDivider m.updateCounter
  (upd, { m with updateCounter := counter }, [Call.meterUpdate m.name])

namespace Skin

/-- `Skin::UpdateMeasure(Measure* measure, bool force)`, Skin.cpp lines 3181-3198. -/
def UpdateMeasure (measure : Measure) (force : Bool) : Bool × Measure × List Call :=
  let measure := if force then measure.ResetUpdateCounter else measure
  let updateDivider := measure.updateDivider
  if updateDivider ≥ 0 || force then
    let rereadOptions :=
      measure.dynamicVariables && decide (measure.updateCounter + 1 ≥ updateDivider)
    measure.Update rereadOptions
  else (false, measure, [])

/-- `Skin::UpdateMeter(Meter* meter, bool& bActiveTransition, bool force)`, Skin.cpp lines
3204-3247. The tooltip and container refresh touch members the model does not carry.
The result is `bUpdate`, the meter, the new `bActiveTransition` and the calls made. -/
def UpdateMeter (meter : Meter) (bActiveTransition : Bool) (force : Bool) :
    Bool × Meter × Bool × List Call :=
  let meter := if force then meter.ResetUpdateCounter else meter
  let updateDivider := meter.updateDivider
  let (bUpdate, meter, calls) : Bool × Meter × List Call :=
    if updateDivider ≥ 0 || force then
      let reread := meter.dynamicVariables && decide (meter.updateCounter + 1 ≥ updateDivider)
      let (b, m, cs) := meter.Update
      (b, m, (if reread then [Call.meterReadOptions meter.name] else []) ++ cs)
    else (false, meter, [])
  let bActiveTransition :=
    if !bActiveTransition && meter.hasActiveTransition then true else bActiveTransition
  (bUpdate, meter, bActiveTransition, calls)

/-- `Skin::PostUpdate`, Skin.cpp lines 3162-3175. -/
def PostUpdate (s : Skin) (bActiveTransition : Bool) : Skin :=
  if bActiveTransition && !s.m_ActiveTransition then
    { s.SetTimer .TIMER_TRANSITION s.m_TransitionUpdate with m_ActiveTransition := true }
  else if s.m_ActiveTransition && !bActiveTransition then
    { s.KillTimer .TIMER_TRANSITION with m_ActiveTransition := false }
  else s

/-- `Skin::Redraw`, Skin.cpp lines 2877-3060: the pending resize is resolved first
(lines 2881-2885); the canvas work that follows is one recorded call. -/
def Redraw (s : Skin) : Skin :=
  let s :=
    if s.m_ResizeWindow ≠ .RESIZEMODE_NONE then
      (s.call (.resizeWindow (s.m_ResizeWindow == .RESIZEMODE_RESET))).SetResizeWindowMode
        .RESIZEMODE_NONE
    else s
  s.call .paint

/-- The body of the measure loop of `Skin::Update`, Skin.cpp lines 3270-3274, for the
measure `m` found at index `i`. -/
def measureStep (ex : Interp) (refresh : Bool) (i : Nat) (m : Measure) (s : Skin) : Skin :=
  let (b, m, cs) := UpdateMeasure m refresh
  let s := { s with m_Measures := s.m_Measures.set i m, calls := s.calls ++ cs }
  if b then
    -- DoUpdateAction, DoChangeAction
    let s := if m.onUpdateAction ≠ "" then s.ExecuteCommand ex m.onUpdateAction (some m.name)
             else s
    s.call (.measureChangeAction m.name)
  else s

/-- The measure loop of `Skin::Update`, Skin.cpp lines 3267-3275, from index `i` on;
`fuel` bounds the number of iterations by the length of the list. -/
def updateMeasures (ex : Interp) (refresh : Bool) : Nat → Nat → Skin → Skin
  | 0, _, s => s
  | fuel + 1, i, s =>
    match s.m_Measures.get? i with
    | none => s
    | some m => updateMeasures ex refresh fuel (i + 1) (measureStep ex refresh i m s)

/-- The body of the meter loop of `Skin::Update`, Skin.cpp lines 3286-3291, for the meter
`m` found at index `i`. The result carries `bActiveTransition` and `bUpdate`. -/
def meterStep (ex : Interp) (refresh : Bool) (i : Nat) (m : Meter) (bActive bUpdate : Bool)
    (s : Skin) : Skin × Bool × Bool :=
  let (b, m, bActive, cs) := UpdateMeter m bActive refresh
  let s := { s with m_Meters := s.m_Meters.set i m, calls := s.calls ++ cs }
  let s :=
    if b then
      if m.onUpdateAction ≠ "" then s.ExecuteCommand ex m.onUpdateAction (some m.name) else s
    else s
  (s, bActive, bUpdate || b)

/-- The meter loop of `Skin::Update`, Skin.cpp lines 3281-3292, from index `i` on. -/
def updateMeters (ex : Interp) (refresh : Bool) :
    Nat → Nat → Bool → Bool → Skin → Skin × Bool × Bool
  | 0, _, bActive, bUpdate, s => (s, bActive, bUpdate)
  | fuel + 1, i, bActive, bUpdate, s =>
    match s.m_Meters.get? i with
    | none => (s, bActive, bUpdate)
    | some m =>
      let r := meterStep ex refresh i m bActive bUpdate s
      updateMeters ex refresh fuel (i + 1) r.2.1 r.2.2 r.1

/-- `Skin::Update(bool refresh)`, Skin.cpp lines 3253-3320. `redrawable` is the answer of
`GetRainmeter().IsRedrawable()`. -/
def Update (ex : Interp) (redrawable : Bool) (refresh : Bool) (s : Skin) : Skin :=
  let s := { s with m_UpdateCounter := s.m_UpdateCounter + 1 }
  let s :=
    if !s.m_Measures.isEmpty then
      let s := if s.m_HasNetMeasures then s.call .netUpdate else s
      updateMeasures ex refresh s.m_Measures.length 0 s
    else s
  let s := s.call .dialogAboutUpdateMeasures
  let (s, bActiveTransition, bUpdate) := updateMeters ex refresh s.m_Meters.length 0 false false s
  let s := s.call .updateRelativeMeters
  let s :=
    if bUpdate || s.m_ResizeWindow ≠ .RESIZEMODE_NONE || refresh then
      let s := if s.m_DynamicWindowSize then s.SetResizeWindowMode .RESIZEMODE_CHECK else s
      if redrawable then s.Redraw else s
    else s
  let s := s.PostUpdate bActiveTransition
  if s.m_OnUpdateAction ≠ "" then s.ExecuteCommand ex s.m_OnUpdateAction none else s

end Skin

/-! ## Skin runtime: bangs that address meters and measures -/

namespace Skin

/-- The loop shared by `ShowMeter`, `HideMeter`, `ToggleMeter` (Skin.cpp lines 1307-1366)
and `MoveMeter` (lines 1368-1385): `op` is applied to each meter that `CompareName`
accepts, the resize recheck is requested for it, and a bang that is not a group bang
returns at the first match. The third component tells whether a meter matched. -/
def meterLoop (op : Meter → Meter) (name : String) (group : Bool) :
    List Meter → Skin → List Meter × Skin × Bool
  | [], s => ([], s, false)
  | m :: ms, s =>
    if m.CompareName name group then
      let s := s.SetResizeWindowMode .RESIZEMODE_CHECK  -- Need to recalculate the window size
      if !group then (op m :: ms, s, true)
      else
        let r := meterLoop op name group ms s
        (op m :: r.1, r.2.1, true)
    else
      let r := meterLoop op name group ms s
      (m :: r.1, r.2.1, r.2.2)

/-- The common shape of the four meter bangs: run the loop, store the meters, and log
the "not found" error when a non-group bang matched nothing. -/
def meterBang (op : Meter → Meter) (bang : String) (name : String) (group : Bool) (s : Skin) :
    Skin :=
  let r := meterLoop op name group s.m_Meters s
  let s := { r.2.1 with m_Meters := r.1 }
  if !group && !r.2.2 then s.call (.logError ("!" ++ bang ++ ": [" ++ name ++ "] not found")) else s

/-- `Skin::ShowMeter`, Skin.cpp lines 1307-1323. -/
def ShowMeter (name : String) (group : Bool) (s : Skin) : Skin :=
  meterBang Meter.Show "ShowMeter" name group s

/-- `Skin::HideMeter`, Skin.cpp lines 1325-1341. -/
def HideMeter (name : String) (group : Bool) (s : Skin) : Skin :=
  meterBang Meter.Hide "HideMeter" name group s

/-- `Skin::ToggleMeter`, Skin.cpp lines 1343-1366. -/
def ToggleMeter (name : String) (group : Bool) (s : Skin) : Skin :=
  meterBang (fun m => if m.hidden then m.Show else m.Hide) "ToggleMeter" name group s

/-- `Skin::MoveMeter`, Skin.cpp lines 1368-1385. -/
def MoveMeter (name : String) (x y : Int) (s : Skin) : Skin :=
  meterBang (fun m => { m with x := x, y := y }) "MoveMeter" name false s

/-- The loop shared by the measure bangs `EnableMeasure` ... `TogglePauseMeasure`
(Skin.cpp lines 1549-1663). -/
def measureLoop (op : Measure → Measure) (name : String) (group : Bool) :
    List Measure → List Measure × Bool
  | [] => ([], false)
  | m :: ms =>
    if m.CompareName name group then
      if !group then (op m :: ms, true)
      else ((op m) :: (measureLoop op name group ms).1, true)
    else
      let r := measureLoop op name group ms
      (m :: r.1, r.2)

/-- The common shape of the six measure bangs. -/
def measureBang (op : Measure → Measure) (bang : String) (name : String) (group : Bool)
    (s : Skin) : Skin :=
  let r := measureLoop op name group s.m_Measures
  let s := { s with m_Measures := r.1 }
  if !group && !r.2 then s.call (.logError ("!" ++ bang ++ ": [" ++ name ++ "] not found")) else s

/-- `Skin::EnableMeasure`, Skin.cpp lines 1549-1564. -/
def EnableMeasure (name : String) (group : Bool) (s : Skin) : Skin :=
  measureBang Measure.Enable "EnableMeasure" name group s
/-- `Skin::DisableMeasure`, Skin.cpp lines 1566-1581. -/
def DisableMeasure (name : String) (group : Bool) (s : Skin) : Skin :=
  measureBang Measure.Disable "DisableMeasure" name group s
/-- `Skin::ToggleMeasure`, Skin.cpp lines 1583-1605. -/
def ToggleMeasure (name : String) (group : Bool) (s : Skin) : Skin :=
  measureBang (fun m => if m.disabled then m.Enable else m.Disable) "ToggleMeasure" name group s
/-- `Skin::PauseMeasure`, Skin.cpp lines 1607-1622. -/
def PauseMeasure (name : String) (group : Bool) (s : Skin) : Skin :=
  measureBang Measure.Pause "PauseMeasure" name group s
/-- `Skin::UnpauseMeasure`, Skin.cpp lines 1624-1639. -/
def UnpauseMeasure (name : String) (group : Bool) (s : Skin) : Skin :=
  measureBang Measure.Unpause "UnpauseMeasure" name group s
/-- `Skin::TogglePauseMeasure`, Skin.cpp lines 1641-1663. -/
def TogglePauseMeasure (name : String) (group : Bool) (s : Skin) : Skin :=
  measureBang (fun m => if m.paused then m.Unpause else m.Pause) "TogglePauseMeasure" name group s

/-- The loop of `Skin::UpdateMeter(name, group)`, Skin.cpp lines 1400-1425, from index `i`
on. The result carries `bActiveTransition` and `bContinue`. -/
def updateMeterLoop (ex : Interp) (all group : Bool) (name : String) :
    Nat → Nat → Bool → Bool → Skin → Skin × Bool × Bool
  | 0, _, bActive, bContinue, s => (s, bActive, bContinue)
  | fuel + 1, i, bActive, bContinue, s =>
    match s.m_Meters.get? i with
    | none => (s, bActive, bContinue)
    | some m =>
      if all || (bContinue && m.CompareName name group) then
        let r := UpdateMeter m bActive true
        let s := { s with m_Meters := s.m_Meters.set i r.2.1, calls := s.calls ++ r.2.2.2 }
        let s :=
          if r.1 then
            if r.2.1.onUpdateAction ≠ "" then
              s.ExecuteCommand ex r.2.1.onUpdateAction (some r.2.1.name)
            else s
          else s
        let s := s.SetResizeWindowMode .RESIZEMODE_CHECK  -- Need to recalculate the window size
        if !group then
          if r.2.2.1 then (s, r.2.2.1, false)
          else updateMeterLoop ex all group name fuel (i + 1) r.2.2.1 false s
        else updateMeterLoop ex all group name fuel (i + 1) r.2.2.1 bContinue s
      else
        -- Check for transitions
        if !bActive && m.hasActiveTransition then
          if !group && !bContinue then (s, true, bContinue)
          else updateMeterLoop ex all group name fuel (i + 1) true bContinue s
        else updateMeterLoop ex all group name fuel (i + 1) bActive bContinue s

/-- `Skin::UpdateMeter(const std::wstring& name, bool group)`, Skin.cpp lines 1387-1431. -/
def UpdateMeterByName (ex : Interp) (name : String) (group : Bool) (s : Skin) : Skin :=
  let all := !group && name == "*"   -- Allow [!UpdateMeter *]
  let group := group || all
  let r := updateMeterLoop ex all group name s.m_Meters.length 0 false true s
  -- Post-updates
  let s := r.1.PostUpdate r.2.1
  if !group && r.2.2 then s.call (.logError ("!UpdateMeter: [" ++ name ++ "] not found")) else s

/-- The loop of `Skin::UpdateMeasure(name, group)`, Skin.cpp lines 1677-1696, from index
`i` on. The result carries `bNetStats` and whether the function returned from inside
the loop. -/
def updateMeasureLoop (ex : Interp) (all group : Bool) (name : String) :
    Nat → Nat → Bool → Skin → Skin × Bool × Bool
  | 0, _, bNetStats, s => (s, bNetStats, false)
  | fuel + 1, i, bNetStats, s =>
    match s.m_Measures.get? i with
    | none => (s, bNetStats, false)
    | some m =>
      if all || m.CompareName name group then
        let net := bNetStats && m.isNetwork
        let s := if net then s.call .netUpdate else s
        let bNetStats := if net then false else bNetStats
        let r := UpdateMeasure m true
        let s := { s with m_Measures := s.m_Measures.set i r.2.1, calls := s.calls ++ r.2.2 }
        let s :=
          if r.1 then
            let s := if r.2.1.onUpdateAction ≠ "" then
                       s.ExecuteCommand ex r.2.1.onUpdateAction (some r.2.1.name)
                     else s
            s.call (.measureChangeAction r.2.1.name)
          else s
        if !group then (s, bNetStats, true)
        else updateMeasureLoop ex all group name fuel (i + 1) bNetStats s
      else updateMeasureLoop ex all group name fuel (i + 1) bNetStats s

/-- `Skin::UpdateMeasure(const std::wstring& name, bool group)`, Skin.cpp lines 1665-1699. -/
def UpdateMeasureByName (ex : Interp) (name : String) (group : Bool) (s : Skin) : Skin :=
  let all := !group && name == "*"   -- Allow [!UpdateMeasure *]
  let group := group || all
  let r := updateMeasureLoop ex all group name s.m_Measures.length 0 s.m_HasNetMeasures s
  if r.2.2 then r.1
  else if !group then r.1.call (.logError ("!UpdateMeasure: [" ++ name ++ "] not found"))
  else r.1

end Skin

/-! ## Skin runtime: fade start, deactivation, refresh -/

namespace Skin

/-- `Skin::UpdateWindowTransparency`, Skin.cpp lines 3354-3359. -/
def UpdateWindowTransparency (s : Skin) (alpha : Int) : Skin :=
  { s.call (.updateLayeredWindow alpha) with m_TransparencyValue := alpha }

/-- `Skin::UpdateFadeDuration`, Skin.cpp lines 4220-4228. -/
def UpdateFadeDuration (s : Skin) : Skin :=
  if s.m_NewFadeDuration ≥ 0 then
    { ({ s with m_FadeDuration := s.m_NewFadeDuration } : Skin).call .writeOptions with
      m_NewFadeDuration := -1 }
  else s

/-- `Skin::FadeWindow(int from, int to)`, Skin.cpp lines 3507-3548. -/
def FadeWindow (s : Skin) (from_ to_ : Int) : Skin :=
  let s := s.UpdateFadeDuration
  if s.m_FadeDuration = 0 then
    if to_ = 0 then
      s.ShowWindow false
    else
      let s := if s.m_FadeDuration = 0 then s.UpdateWindowTransparency to_ else s
      if from_ = 0 then
        if !s.m_Hidden then s.ShowWindow true else s
      else s
  else
    let s := { s with m_FadeStartValue := from_, m_FadeEndValue := to_ }
    let s := s.UpdateWindowTransparency from_
    let s :=
      if from_ = 0 then
        if !s.m_Hidden then s.ShowWindow true else s
      else s
    let s := { s with m_ActiveFade := true }
    s.SetTimer .TIMER_FADE INTERVAL_FADE

/-- `Skin::HideFade`, Skin.cpp lines 3550-3557. -/
def HideFade (s : Skin) : Skin :=
  let s := { s with m_Hidden := true }
  if s.windowVisible then s.FadeWindow s.m_AlphaValue 0 else s

/-- `Skin::ShowFade`, Skin.cpp lines 3559-3566. -/
def ShowFade (s : Skin) : Skin :=
  let s := { s with m_Hidden := false }
  if !s.windowVisible then s.FadeWindow 0 (if s.m_FadeOutMode then 255 else s.m_AlphaValue)
  else s

/-- `Skin::Deactivate`, Skin.cpp lines 399-413. -/
def Deactivate (s : Skin) : Skin :=
  let s := s.UpdateFadeDuration
  if s.m_State = .STATE_CLOSING then s else
  let s := { s with m_State := .STATE_CLOSING }
  let s := s.call .removeSkin
  let s := s.call .addUnmanagedSkin
  let s := s.HideFade
  s.SetTimer .TIMER_DEACTIVATE (s.m_FadeDuration + 50)

/-- `Rainmeter::DeactivateSkin(skin, -1)`, Rainmeter.cpp lines 1173-1198, seen from the
skin: the registry entry and the tray icon are outside the model. -/
def RainmeterDeactivateSkin (s : Skin) : Skin := s.Deactivate

/-- `Skin::Dispose(true)`, Skin.cpp lines 200-264, the branch taken on a refresh. -/
def DisposeRefresh (s : Skin) : Skin :=
  let s := s.KillTimer .TIMER_METER
  let s := s.KillTimer .TIMER_MOUSE
  let s := s.KillTimer .TIMER_FADE
  let s := s.KillTimer .TIMER_TRANSITION
  let s := { s with m_FadeStartTime := 0 }
  let s := if s.m_MouseInputRegistered then
             { s.call .unregisterMouseInput with m_MouseInputRegistered := false }
           else s
  let s := { s with m_HasMouseScrollAction := false, m_ActiveTransition := false,
                    m_MouseOver := false }
  let s := s.call (.setMouseLeaveEvent true)
  let s := { s with m_Meters := [], m_Measures := [] }
  s.call .dispose

end Skin

/-- What `ReadSkin` finds on disk: whether the skin file exists, the `AppVersion` it
asks for, and the options, measures and meters its sections yield. -/
structure SkinFile where
  fileExists : Bool
  appVersion : Nat
  update : Int
  transitionUpdate : Int
  dynamicWindowSize : Bool
  onRefreshAction : String
  onUpdateAction : String
  measures : List Measure
  meters : List Meter

namespace Skin

/-- `Skin::ReadSkin`, Skin.cpp lines 2384-2773, as far as the members of the model go.
`version` is `RAINMETER_VERSION` (declared in `Version.h`, outside the sources). The
three failures are the missing file (line 2394), the newer `AppVersion` (line 2437) and
the absence of meters (line 2727). -/
def ReadSkin (file : SkinFile) (version : Nat) (s : Skin) : Bool × Skin :=
  let s := s.call .readSkin
  if !file.fileExists then (false, s.call .showMessage) else
  -- Gotta have some kind of buffer during initialization
  let s := s.call (.createDoubleBuffer 1 1)
  if file.appVersion > version then (false, s.call .showMessage) else
  let s := { s with m_OnRefreshAction := file.onRefreshAction,
                    m_OnUpdateAction := file.onUpdateAction,
                    m_WindowUpdate := file.update,
                    m_TransitionUpdate := file.transitionUpdate,
                    m_DynamicWindowSize := file.dynamicWindowSize }
  let s := { s with m_HasNetMeasures := file.measures.any (fun m => m.isNetwork),
                    m_HasButtons := file.meters.any (fun m => m.isButton),
                    m_Measures := s.m_Measures ++ file.measures,
                    m_Meters := s.m_Meters ++ file.meters }
  if s.m_Meters.isEmpty then (false, s.call .showMessage) else
  let s := s.call .updateRelativeMeters
  -- Set window size (and CURRENTCONFIGWIDTH/HEIGHT) temporarily
  let s := { s with m_Meters := s.m_Meters.map (fun m => (UpdateMeter m true true).2.1) }
  (true, s.call (.resizeWindow true))

/-- `Skin::Refresh`, lines 422-433: the steps before `ReadSkin`. -/
def refreshEnter (init : Bool) (s : Skin) : Skin :=
  let s := { s with m_State := .STATE_REFRESHING }
  let s := s.call (.setCurrentParser true)
  let s := s.SetResizeWindowMode .RESIZEMODE_RESET
  if !init then s.DisposeRefresh else s

/-- `Skin::Refresh`, lines 443-493: the steps after a successful `ReadSkin`. The argument
`all` of `Refresh` only selects between z-order calls. -/
def refreshFinish (ex : Interp) (redrawable : Bool) (s : Skin) : Skin :=
  -- Remove transparent flag
  let s := s.call .removeWindowExStyle
  let s := { s with m_Hidden := s.m_WindowStartHidden, m_TransparencyValue := s.m_AlphaValue }
  let s := s.Update ex redrawable true
  let s := s.call (.blur (!s.m_BlurModeNone))
  let s := if s.m_KeepOnScreen then s.call .mapCoordsToScreen else s
  let s := s.call .setWindowPos
  let s := s.call .screenToWindow
  let s := s.call .changeZPos
  -- Start the timers
  let s := if s.m_WindowUpdate ≥ 0 then s.SetTimer .TIMER_METER s.m_WindowUpdate else s
  let s := s.SetTimer .TIMER_MOUSE INTERVAL_MOUSE
  let s := s.call (.setCurrentParser false)
  let s := { s with m_State := .STATE_RUNNING }
  if s.m_OnRefreshAction ≠ "" then s.ExecuteCommand ex s.m_OnRefreshAction none else s

/-- `Skin::Refresh(bool init, bool all)`, Skin.cpp lines 419-494. -/
def Refresh (ex : Interp) (redrawable : Bool) (file : SkinFile) (version : Nat)
    (init : Bool) (s : Skin) : Skin :=
  if s.m_State = .STATE_CLOSING then s else
  let s := s.refreshEnter init
  let r := s.ReadSkin file version
  if !r.1 then
    RainmeterDeactivateSkin r.2
  else
    refreshFinish ex redrawable r.2

end Skin

/-! ## Skin runtime: bang dispatch -/

/-- The bangs of `enum class Bang` that reach the members of the model. -/
inductive Bang where
  | Redraw | Update
  | ToggleMeter | ShowMeter | HideMeter | UpdateMeter
  | ToggleMeterGroup | ShowMeterGroup | HideMeterGroup | UpdateMeterGroup
  | ToggleMeasure | EnableMeasure | DisableMeasure
  | PauseMeasure | UnpauseMeasure | TogglePauseMeasure | UpdateMeasure
  | DisableMeasureGroup | ToggleMeasureGroup | EnableMeasureGroup
  | PauseMeasureGroup | UnpauseMeasureGroup | TogglePauseMeasureGroup | UpdateMeasureGroup
  | Show | Hide | Toggle | ShowFade | HideFade | ToggleFade | FadeDuration
  | MoveMeter
  deriving DecidableEq, Repr

namespace Skin

/-- `Skin::DoBang`, Skin.cpp lines 801-1168, for the bangs of `Bang`. `parseInt` is
`m_Parser.ParseInt(arg, 0)`; `args[i]` of a too short list reads as the empty string
(the program requires the right number of arguments). -/
def DoBang (ex : Interp) (redrawable : Bool) (parseInt : String → Int) (bang : Bang)
    (args : List String) (s : Skin) : Skin :=
  match bang with
  | .Redraw => s.Redraw
  | .Update =>
    let s := s.KillTimer .TIMER_METER  -- Kill timer temporarily
    let s := s.Update ex redrawable false
    if s.m_WindowUpdate ≥ 0 then s.SetTimer .TIMER_METER s.m_WindowUpdate else s
  | .ToggleMeter => s.ToggleMeter (args.getD 0 "") false
  | .ShowMeter => s.ShowMeter (args.getD 0 "") false
  | .HideMeter => s.HideMeter (args.getD 0 "") false
  | .UpdateMeter => s.UpdateMeterByName ex (args.getD 0 "") false
  | .ToggleMeterGroup => s.ToggleMeter (args.getD 0 "") true
  | .ShowMeterGroup => s.ShowMeter (args.getD 0 "") true
  | .HideMeterGroup => s.HideMeter (args.getD 0 "") true
  | .UpdateMeterGroup => s.UpdateMeterByName ex (args.getD 0 "") true
  | .ToggleMeasure => s.ToggleMeasure (args.getD 0 "") false
  | .EnableMeasure => s.EnableMeasure (args.getD 0 "") false
  | .DisableMeasure => s.DisableMeasure (args.getD 0 "") false
  | .PauseMeasure => s.PauseMeasure (args.getD 0 "") false
  | .UnpauseMeasure => s.UnpauseMeasure (args.getD 0 "") false
  | .TogglePauseMeasure => s.TogglePauseMeasure (args.getD 0 "") false
  | .UpdateMeasure =>
    (s.UpdateMeasureByName ex (args.getD 0 "") false).call .dialogAboutUpdateMeasures
  | .DisableMeasureGroup => s.DisableMeasure (args.getD 0 "") true
  | .ToggleMeasureGroup => s.ToggleMeasure (args.getD 0 "") true
  | .EnableMeasureGroup => s.EnableMeasure (args.getD 0 "") true
  | .PauseMeasureGroup => s.PauseMeasure (args.getD 0 "") true
  | .UnpauseMeasureGroup => s.UnpauseMeasure (args.getD 0 "") true
  | .TogglePauseMeasureGroup => s.TogglePauseMeasure (args.getD 0 "") true
  | .UpdateMeasureGroup =>
    (s.UpdateMeasureByName ex (args.getD 0 "") true).call .dialogAboutUpdateMeasures
  | .Show =>
    let s := { s with m_Hidden := false }
    let s := s.ShowWindow true
    s.UpdateWindowTransparency (if s.m_FadeOutMode then 255 else s.m_AlphaValue)
  | .Hide =>
    let s := { s with m_Hidden := true }
    s.ShowWindow false
  | .Toggle =>
    if s.m_Hidden then
      let s := { s with m_Hidden := false }
      let s := s.ShowWindow true
      s.UpdateWindowTransparency (if s.m_FadeOutMode then 255 else s.m_AlphaValue)
    else
      let s := { s with m_Hidden := true }
      s.ShowWindow false
  | .ShowFade => s.ShowFade
  | .HideFade => s.HideFade
  | .ToggleFade => if s.m_Hidden then s.ShowFade else s.HideFade
  | .FadeDuration =>
    let duration := parseInt (args.getD 0 "")
    { s with m_NewFadeDuration := max duration 0 }
  | .MoveMeter =>
    let x := parseInt (args.getD 0 "")
    let y := parseInt (args.getD 1 "")
    s.MoveMeter (args.getD 2 "") x y

end Skin

/-- The bangs that address one meter or one measure by name and take the name as their
only argument. -/
def Bang.namesOneSection : Bang → Bool
  | .ShowMeter | .HideMeter | .ToggleMeter
  | .EnableMeasure | .DisableMeasure | .ToggleMeasure
  | .PauseMeasure | .UnpauseMeasure | .TogglePauseMeasure => true
  | _ => false

/-! ## Skin runtime: mouse dispatch -/

namespace Skin

/-- The meter loop of `Skin::DoAction`, Skin.cpp lines 4954-4967, over the meters in
reverse registration order: the first meter that is not hidden, has a command for the
action and passes its hit test. -/
def doActionScan (hit : Meter → Bool) (action : MOUSEACTION) : List Meter → Option Meter
  | [] => none
  | m :: rest =>
    -- Hidden meters are ignored
    if m.hidden then doActionScan hit action rest
    else if m.mouse.hasActionCommand action && hit m then some m
    else doActionScan hit action rest

/-- `Skin::DoAction(int x, int y, MOUSEACTION action, bool test)`, Skin.cpp lines
4948-4995. `hit m` is `m->HitTest(x, y)` and `skinHit` is `HitTest(x, y)` of the skin. -/
def DoAction (ex : Interp) (hit : Meter → Bool) (skinHit : Bool) (action : MOUSEACTION)
    (test : Bool) (s : Skin) : Bool × Skin :=
  let meter := doActionScan hit action s.m_Meters.reverse
  let command : String :=
    match meter with
    | some m => m.mouse.actionCommand action
    | none => ""
  let command :=
    if command = "" then
      if s.m_Mouse.hasActionCommand action && skinHit then s.m_Mouse.actionCommand action
      else command
    else command
  if command ≠ "" then
    if !test then
      match meter with
      | some m => (true, s.ExecuteCommand ex command (some m.name))
      | none => (true, s.ExecuteCommand ex command none)
    else (true, s)
  else (false, s)

/-- `Skin::RegisterMouseInput`, Skin.cpp lines 347-361; the registration is taken to
succeed. -/
def RegisterMouseInput (s : Skin) : Skin :=
  if !s.m_MouseInputRegistered && s.m_HasMouseScrollAction then
    { s.call .registerMouseInput with m_MouseInputRegistered := true }
  else s

/-- `Skin::UnregisterMouseInput`, Skin.cpp lines 363-375. -/
def UnregisterMouseInput (s : Skin) : Skin :=
  if s.m_MouseInputRegistered then
    { s.call .unregisterMouseInput with m_MouseInputRegistered := false }
  else s

/-- The skin is entered: lines 5017-5019 and 5103-5105 of `DoMoveAction`. -/
def mouseEnter (s : Skin) : Skin :=
  let s := { s with m_MouseOver := true }
  let s := s.call (.setMouseLeaveEvent false)
  s.RegisterMouseInput

/-- The place at which `DoMoveAction` returns after running a command, or `none` when it
runs through to its final `return false`. A meter is named by its index in `m_Meters`. -/
inductive MoveExit where
  | skinOver
  | meterOver (i : Nat)
  | meterLeave (i : Nat)
  | skinLeave
  | none
  deriving DecidableEq, Repr

/-- The button handling of lines 5029-5046 for a hit meter. The result is the meter and
the new `buttonFound`. -/
def moveButton (hasButtons : Bool) (buttonFound : Bool) (m : Meter) : Meter × Bool :=
  if hasButtons && m.isButton then
    if !buttonFound then ({ m with focus := true }, true)
    else ({ m with focus := false }, buttonFound)
  else (m, buttonFound)

/-- The body of the meter loop of `Skin::DoMoveAction`, Skin.cpp lines 5009-5092, for the
meter `m` of index `i`. The result is the meter, the skin, `buttonFound` and the place
of return, `MoveExit.none` when the loop goes on. -/
def moveMeter (hit : Meter → Bool) (action : MOUSEACTION) (i : Nat) (m : Meter)
    (buttonFound : Bool) (s : Skin) : Meter × Skin × Bool × MoveExit :=
  if !m.hidden && hit m then
    if action = .MOUSE_OVER then
      -- If the mouse is over a meter it's also over the main window
      if !s.m_MouseOver && s.m_Mouse.overAction ≠ "" then
        (m, s.mouseEnter, buttonFound, .skinOver)
      else
        let s := if !s.m_MouseOver then s.mouseEnter else s
        -- Handle button
        let b := moveButton s.m_HasButtons buttonFound m
        let button := s.m_HasButtons && m.isButton
        let m := b.1
        if !m.mouseOver &&
            (m.mouse.overAction ≠ "" || m.mouse.leaveAction ≠ "" || button) then
          let m := { m with mouseOver := true }
          if m.mouse.overAction ≠ "" then (m, s, b.2, .meterOver i)
          else (m, s, b.2, .none)
        else (m, s, b.2, .none)
    else (m, s, buttonFound, .none)
  else
    if action = .MOUSE_LEAVE then
      if m.mouseOver then
        -- Handle button
        let m := if s.m_HasButtons && m.isButton then { m with focus := false } else m
        let m := { m with mouseOver := false }
        if m.mouse.leaveAction ≠ "" then (m, s, buttonFound, .meterLeave i)
        else (m, s, buttonFound, .none)
      else (m, s, buttonFound, .none)
    else (m, s, buttonFound, .none)

/-- The meter loop of `Skin::DoMoveAction`, Skin.cpp lines 5006-5093, over the meters in
reverse registration order (`m :: rest` is the meter of index `rest.length`). The
result is the meters in the same order, the skin, and the place of return. -/
def moveScan (hit : Meter → Bool) (action : MOUSEACTION) :
    List Meter → Bool → Skin → List Meter × Skin × MoveExit
  | [], _, s => ([], s, .none)
  | m :: rest, buttonFound, s =>
    let r := moveMeter hit action rest.length m buttonFound s
    if r.2.2.2 ≠ .none then (r.1 :: rest, r.2.1, r.2.2.2)
    else
      let q := moveScan hit action rest r.2.2.1 r.2.1
      (r.1 :: q.1, q.2.1, q.2.2)

/-- The default actions of the skin in `Skin::DoMoveAction`, Skin.cpp lines 5095-5135,
reached when no meter caused an action. Commands are not run yet. -/
def moveTail (skinHit : Bool) (action : MOUSEACTION) (s : Skin) : Skin × MoveExit :=
  if skinHit then
    -- If no meters caused actions, do the default actions
    if action = .MOUSE_OVER then
      if !s.m_MouseOver then
        (s.mouseEnter, if s.m_Mouse.overAction ≠ "" then .skinOver else .none)
      else (s, .none)
    else (s, .none)
  else
    if action = .MOUSE_LEAVE then
      -- Mouse leave happens when the mouse is outside the window
      if s.m_MouseOver then
        let t := { s with m_MouseOver := false }
        let t := t.call (.setMouseLeaveEvent true)
        (t.UnregisterMouseInput, if s.m_Mouse.leaveAction ≠ "" then .skinLeave else .none)
      else (s, .none)
    else (s, .none)

/-- `Skin::DoMoveAction` up to the point of return: the meter loop, then the default
actions of the skin. Commands are not run yet. -/
def moveOutcome (hit : Meter → Bool) (skinHit : Bool) (action : MOUSEACTION) (s : Skin) :
    Skin × MoveExit :=
  let r := moveScan hit action s.m_Meters.reverse false s
  let s := { r.2.1 with m_Meters := r.1.reverse }
  if r.2.2 ≠ .none then (s, r.2.2) else moveTail skinHit action s

/-- The command that is run at a place of return, with the section it is run for. -/
def exitCommand (s : Skin) : MoveExit → Option (String × Option String)
  | .skinOver => some (s.m_Mouse.overAction, Option.none)
  | .skinLeave => some (s.m_Mouse.leaveAction, Option.none)
  | .meterOver i => (s.m_Meters.get? i).map (fun m => (m.mouse.overAction, some m.name))
  | .meterLeave i => (s.m_Meters.get? i).map (fun m => (m.mouse.leaveAction, some m.name))
  | .none => Option.none

/-- `Skin::DoMoveAction(int x, int y, MOUSEACTION action)`, Skin.cpp lines 5001-5138: the
command of the place of return is run; an over action returns whether
`m_MouseMoveCounter` is what it was before the command, a leave action returns true,
running through returns false. -/
def DoMoveAction (ex : Interp) (hit : Meter → Bool) (skinHit : Bool) (action : MOUSEACTION)
    (s : Skin) : Bool × Skin :=
  let r := moveOutcome hit skinHit action s
  match exitCommand r.1 r.2 with
  | Option.none => (false, r.1)
  | some (command, sec) =>
    let t := r.1.ExecuteCommand ex command sec
    match r.2 with
    | .skinLeave => (true, t)
    | .meterLeave _ => (true, t)
    | _ => (r.1.m_MouseMoveCounter == t.m_MouseMoveCounter, t)

end Skin

/-- A meter that can claim a mouse action: not hidden, with a command for the action, and
hit by the pointer. -/
def Meter.claims (hit : Meter → Bool) (action : MOUSEACTION) (m : Meter) : Bool :=
  !m.hidden && (m.mouse.hasActionCommand action && hit m)

namespace Skin

/-- What one `DoMoveAction` call does to the meter of index `i`, given the place of return
`e`: everything but focus and hover flag is kept; if the call returned from the over
(leave) action of this meter, the call was a `MOUSE_OVER` (`MOUSE_LEAVE`) call that
found the flag clear (set) and set (cleared) it, and the action is not empty; if it
returned elsewhere and the meter has both actions, its flag is unchanged. -/
def moveLocal (action : MOUSEACTION) (e : MoveExit) (i : Nat) (m m' : Meter) : Prop :=
  m'.mouse = m.mouse ∧ m'.name = m.name ∧ m'.hidden = m.hidden ∧ m'.isButton = m.isButton ∧
  (e = .meterOver i → action = .MOUSE_OVER ∧ m.mouseOver = false ∧ m'.mouseOver = true ∧
      m.mouse.overAction ≠ "") ∧
  (e = .meterLeave i → action = .MOUSE_LEAVE ∧ m.mouseOver = true ∧ m'.mouseOver = false ∧
      m.mouse.leaveAction ≠ "") ∧
  (e ≠ .meterOver i → e ≠ .meterLeave i → m.mouse.overAction ≠ "" → m.mouse.leaveAction ≠ "" →
      m'.mouseOver = m.mouseOver)

/-- `moveLocal` along two lists of meters in reverse registration order, the head of a
list of length `n + 1` being the meter of index `n`. -/
def moveRel (action : MOUSEACTION) (e : MoveExit) : List Meter → List Meter → Prop
  | [], [] => True
  | m :: rest, m' :: rest' =>
    moveLocal action e rest.length m m' ∧ moveRel action e rest rest'
  | _, _ => False

/-- The inputs of one `DoMoveAction` call: the action, the hit test of the meters and the
hit test of the skin at the pointer position. -/
structure MoveInput where
  action : MOUSEACTION
  hit : Meter → Bool
  skinHit : Bool

/-- The places of return of a sequence of `DoMoveAction` calls, each call being made on
the skin the call before it left, commands being run by the interpreter `ex`. -/
def moveRun (ex : Interp) : List MoveInput → Skin → List MoveExit
  | [], _ => []
  | i :: rest, s =>
    (s.moveOutcome i.hit i.skinHit i.action).2 ::
      moveRun ex rest (s.DoMoveAction ex i.hit i.skinHit i.action).2

/-- Whether, in a list of places of return, those of kind `over` and `leave` alternate,
the first of them being `over` when `expectOver` holds and `leave` otherwise. -/
def alternate (over leave : MoveExit) : Bool → List MoveExit → Bool
  | _, [] => true
  | expectOver, e :: l =>
    if e = over then expectOver && alternate over leave false l
    else if e = leave then !expectOver && alternate over leave true l
    else alternate over leave expectOver l

end Skin

namespace Skin

/-- What the meter loop of `DoMoveAction` guarantees for its result `r` on the meters `l`
(in reverse registration order) and the skin `s`: the per-meter relation, the range of
the place of return, and the skin being either untouched or entered. -/
def scanGood (action : MOUSEACTION) (l : List Meter) (s : Skin)
    (r : List Meter × Skin × MoveExit) : Prop :=
  moveRel action r.2.2 l r.1 ∧
  (r.2.2 = .none ∨ r.2.2 = .skinOver ∨
    ∃ i, i < l.length ∧ (r.2.2 = .meterOver i ∨ r.2.2 = .meterLeave i)) ∧
  ((r.2.1 = s ∧ r.2.2 ≠ .skinOver) ∨
    (r.2.1 = s.mouseEnter ∧ s.m_MouseOver = false ∧ action = .MOUSE_OVER ∧
      (r.2.2 = .skinOver ↔ s.m_Mouse.overAction ≠ "")))

end Skin

namespace Skin

/-- What one `DoMoveAction` call guarantees, `s` being the skin before the call, `t` the
skin at its point of return and `e` the place of return: each meter is related by
`moveLocal`; a return from the skin's over (leave) action happens in a `MOUSE_OVER`
(`MOUSE_LEAVE`) call that found `m_MouseOver` clear (set) and set (cleared) it; a
return elsewhere leaves `m_MouseOver` of a skin with both actions unchanged. -/
def callGood (action : MOUSEACTION) (s t : Skin) (e : MoveExit) : Prop :=
  t.m_Mouse = s.m_Mouse ∧
  (∀ i m, s.m_Meters.get? i = some m →
    ∃ m', t.m_Meters.get? i = some m' ∧ moveLocal action e i m m') ∧
  (e = .skinOver → action = .MOUSE_OVER ∧ s.m_MouseOver = false ∧ t.m_MouseOver = true ∧
    s.m_Mouse.overAction ≠ "") ∧
  (e = .skinLeave → action = .MOUSE_LEAVE ∧ s.m_MouseOver = true ∧ t.m_MouseOver = false ∧
    s.m_Mouse.leaveAction ≠ "") ∧
  (e ≠ .skinOver → e ≠ .skinLeave → s.m_Mouse.overAction ≠ "" → s.m_Mouse.leaveAction ≠ "" →
    t.m_MouseOver = s.m_MouseOver)

end Skin

/-! ## Numbers: `float`, `double` and conversions -/

/-- The number of binary digits of `n`, counted with at most `fuel` halvings. -/
def bitLenAux : Nat → Nat → Nat
  | 0, _ => 0
  | fuel + 1, n => if n = 0 then 0 else bitLenAux fuel (n / 2) + 1

/-- The number of binary digits of `n`: `2 ^ (bitLen n - 1) ≤ n < 2 ^ bitLen n` for
`n > 0`. -/
def bitLen (n : Nat) : Nat := bitLenAux n n

/-- The quotient `a / b` rounded to the nearest integer, a tie going to the even one. -/
def roundQuot (a b : Nat) : Nat :=
  let q := a / b
  let r := a % b
  if 2 * r < b then q
  else if b < 2 * r then q + 1
  else if q % 2 = 0 then q else q + 1

/-- The integer `k` with `2 ^ k ≤ a / d < 2 ^ (k + 1)`, for `a, d > 0`. -/
def log2Quot (a d : Nat) : Int :=
  let k : Int := (bitLen a : Int) - (bitLen d : Int)
  if (if 0 ≤ k then d * 2 ^ k.toNat ≤ a else d ≤ a * 2 ^ (-k).toNat) then k else k - 1

/-- A finite binary floating-point number, of value `m * 2 ^ e`. It stands for a C++
`float` or `double`; infinities and NaN have no representation, an operation that
produces one has no result. -/
structure Flt where
  m : Int
  e : Int
  deriving DecidableEq, Repr

/-- A binary floating-point format: `p` significant digits, exponents of at least `emin`,
finite magnitudes below `2 ^ emax`. -/
structure Format where
  p : Nat
  emin : Int
  emax : Nat
  deriving DecidableEq, Repr

/-- The format of `float`, IEEE 754 binary32. -/
def Format.single : Format := ⟨24, -149, 128⟩

/-- The format of `double`, IEEE 754 binary64. -/
def Format.double : Format := ⟨53, -1074, 1024⟩

/-- Whether the magnitude is below `2 ^ emax`, the bound of the finite numbers of the
format: the number is 0, or its binary digits end below the position `emax`. -/
def Flt.finite (fmt : Format) (f : Flt) : Bool :=
  f.m == 0 || decide ((bitLen f.m.natAbs : Int) + f.e ≤ fmt.emax)

namespace Flt

/-- The rational `n / d` (`d > 0`) rounded to the nearest number that has `p` significant
binary digits and an exponent of at least `emin`, ties to even: the rounding of IEEE 754
arithmetic, `p = 24`, `emin = -149` for `float` and `p = 53`, `emin = -1074` for
`double`. The exponent is not bounded above. -/
def ofRat (p : Nat) (emin : Int) (n : Int) (d : Nat) : Flt :=
  let a := n.natAbs
  if a = 0 then ⟨0, 0⟩
  else
    let e : Int := Max.max (log2Quot a d - ((p : Int) - 1)) emin
    let mant : Nat :=
      if 0 ≤ e then roundQuot a (d * 2 ^ e.toNat) else roundQuot (a * 2 ^ (-e).toNat) d
    ⟨if n < 0 then -(mant : Int) else mant, e⟩

/-- The number `(n / d) * 2 ^ x` rounded as by `ofRat`. -/
def ofScaled (p : Nat) (emin : Int) (n : Int) (d : Nat) (x : Int) : Flt :=
  if 0 ≤ x then ofRat p emin (n * 2 ^ x.toNat) d else ofRat p emin n (d * 2 ^ (-x).toNat)

/-- The number `(n / d) * 2 ^ x` rounded in the format `fmt`; no result when the rounded
number is not finite in the format, that is, when the operation gives an infinity. -/
def round (fmt : Format) (n : Int) (d : Nat) (x : Int) : Option Flt :=
  let r := ofScaled fmt.p fmt.emin n d x
  if r.finite fmt then some r else none

/-- The product `a * b` in the format `fmt`. -/
def mulAs (fmt : Format) (a b : Flt) : Option Flt := round fmt (a.m * b.m) 1 (a.e + b.e)

/-- The quotient `a / b` in the format `fmt`; a division by zero, which gives an infinity
or NaN, has no result. -/
def divAs (fmt : Format) (a b : Flt) : Option Flt :=
  if b.m = 0 then none
  else round fmt (if b.m < 0 then -a.m else a.m) b.m.natAbs (a.e - b.e)

/-- The sum `a + b` in the format `fmt`. -/
def addAs (fmt : Format) (a b : Flt) : Option Flt :=
  let e := if a.e ≤ b.e then a.e else b.e
  round fmt (a.m * 2 ^ (a.e - e).toNat + b.m * 2 ^ (b.e - e).toNat) 1 e

/-- The cast `(float)d` of a `double`. -/
def toFloat (f : Flt) : Option Flt := round Format.single f.m 1 f.e

/-- The cast `(float)i` of an `int`. -/
def ofInt (i : Int) : Flt := ofRat 24 (-149) i 1

/-- The cast `(double)i` of an integer. -/
def ofIntD (i : Int) : Flt := ofRat 53 (-1074) i 1

/-- The `float` product `a * b`. -/
def mul (a b : Flt) : Option Flt := mulAs Format.single a b

/-- The `float` quotient `a / b`. -/
def div (a b : Flt) : Option Flt := divAs Format.single a b

/-- The cast `(int)f`: truncation toward zero; undefined, hence without result, when the
truncated value is not an `int`. -/
def toInt (f : Flt) : Option Int :=
  let t : Int := if 0 ≤ f.e then f.m * 2 ^ f.e.toNat else Int.tdiv f.m (2 ^ (-f.e).toNat)
  if -2 ^ 31 ≤ t ∧ t < 2 ^ 31 then some t else none

/-- The constant `100.0f`. -/
def hundred : Flt := ⟨100, 0⟩

end Flt

/-! ## Strings: the C and C++ library functions used on position options -/

/-- Whether `c` is one of the characters of `set`. -/
def inSet (set : String) (c : Char) : Bool := set.toList.contains c

/-- The string `s.substr(0, s.find_first_not_of(set))`: the longest prefix of `s` made of
characters of `set`. -/
def leadingOf (set : String) (s : List Char) : List Char := s.takeWhile (inSet set)

/-- The call `s.find_last_of(c)`: the index of the last `c` in `s`, `none` for `npos`. -/
def findLastOf (c : Char) : List Char → Option Nat
  | [] => none
  | x :: rest =>
    match findLastOf c rest with
    | some i => some (i + 1)
    | none => if x = c then some 0 else none

/-- The value of a string of decimal digits. -/
def digitsVal (s : List Char) : Nat := s.foldl (fun n c => 10 * n + (c.toNat - 48)) 0

/-- The call `_wtoi` on a string of decimal digits; a value above `INT_MAX` gives
`INT_MAX`. -/
def wtoi (s : List Char) : Int := min (digitsVal s : Int) (2 ^ 31 - 1)

/-- The call `_wtof` on a string made of the characters `-0123456789.`: an optional minus
sign, digits, and an optional point followed by digits are converted, to the nearest
`double`; the conversion stops at the first character that does not fit, and gives 0
when there is no digit. -/
def wtof (s : List Char) : Flt :=
  let neg : Bool := s.head? = some '-'
  let body := if neg then s.tail else s
  let ip := body.takeWhile (inSet "0123456789")
  let rest := body.drop ip.length
  let fp := if rest.head? = some '.' then rest.tail.takeWhile (inSet "0123456789") else []
  if ip.isEmpty && fp.isEmpty then ⟨0, 0⟩
  else
    let n : Int := digitsVal (ip ++ fp)
    Flt.ofRat 53 (-1074) (if neg then -n else n) (10 ^ fp.length)

/-- The decimal digits of `n`, the last one first, produced with at most `fuel` divisions. -/
def natDigitsAux : Nat → Nat → List Char
  | 0, _ => []
  | fuel + 1, n =>
    Char.ofNat (48 + n % 10) :: (if n / 10 = 0 then [] else natDigitsAux fuel (n / 10))

/-- The decimal digits of `n`. -/
def natDigits (n : Nat) : List Char := (natDigitsAux (n + 1) n).reverse

/-- The call `_itow_s(i, buffer, 10)` and the conversion `%i`: the decimal form of an
`int`. -/
def itow (i : Int) : List Char :=
  if i < 0 then '-' :: natDigits i.natAbs else natDigits i.natAbs

/-- The decimal digits of `n`, padded with zeros on the left to at least `k` digits. -/
def padDigits (k n : Nat) : List Char :=
  List.replicate (k - (natDigits n).length) '0' ++ natDigits n

/-- The conversion `%.5f` of a `float` (promoted to `double` without change of value): the
value rounded to 5 decimal places, ties to even. -/
def fmt5 (f : Flt) : List Char :=
  let scaled : Nat :=
    if 0 ≤ f.e then f.m.natAbs * 2 ^ f.e.toNat * 100000
    else roundQuot (f.m.natAbs * 100000) (2 ^ (-f.e).toNat)
  (if f.m < 0 then ['-'] else []) ++ natDigits (scaled / 100000) ++ ['.'] ++
    padDigits 5 (scaled % 100000)

/-! ## Window geometry: monitors and the position members of `Skin` -/

/-- A `RECT`. -/
structure Rect where
  left : Int
  top : Int
  right : Int
  bottom : Int
  deriving DecidableEq, Repr

/-- A `MonitorInfo`: whether the monitor is active, its handle, its screen rectangle and
its work area. -/
structure MonitorInfo where
  active : Bool
  handle : Nat
  screen : Rect
  work : Rect
  deriving DecidableEq, Repr

/-- A `MultiMonitorInfo`: the virtual screen, the index (from 1) of the primary monitor
and the list of monitors. -/
structure MultiMonitorInfo where
  vsT : Int
  vsL : Int
  vsH : Int
  vsW : Int
  primary : Int
  monitors : List MonitorInfo
  deriving DecidableEq, Repr

namespace MultiMonitorInfo

/-- `System::GetMonitorCount` (System.cpp, not among the sources): the number of entries
of the monitor list. -/
def GetMonitorCount (info : MultiMonitorInfo) : Int := info.monitors.length

/-- The element `monitors[screen - 1]`; no result when the index is outside the list. -/
def monitorAt (info : MultiMonitorInfo) (screen : Int) : Option MonitorInfo :=
  if 1 ≤ screen then info.monitors.get? (screen - 1).toNat else none

/-- The origin and length on the X axis of the screen `screen`: the virtual screen for 0,
the screen rectangle of the monitor otherwise (Skin.cpp lines 1994-2004, 2074-2084). -/
def spanX (info : MultiMonitorInfo) (screen : Int) : Option (Int × Int) :=
  if screen = 0 then some (info.vsL, info.vsW)
  else (info.monitorAt screen).map fun m => (m.screen.left, m.screen.right - m.screen.left)

/-- The origin and length on the Y axis of the screen `screen` (Skin.cpp lines 1957-1967,
2116-2126). -/
def spanY (info : MultiMonitorInfo) (screen : Int) : Option (Int × Int) :=
  if screen = 0 then some (info.vsT, info.vsH)
  else (info.monitorAt screen).map fun m => (m.screen.top, m.screen.bottom - m.screen.top)

end MultiMonitorInfo

/-- The members of `Skin` that `WindowToScreen` and `ScreenToWindow` read and write. -/
structure Placement where
  m_WindowX : String
  m_WindowY : String
  m_AnchorX : String
  m_AnchorY : String
  m_SkinW : Int
  m_SkinH : Int
  m_WindowW : Int
  m_WindowH : Int
  m_ScreenX : Int
  m_ScreenY : Int
  m_AnchorScreenX : Int
  m_AnchorScreenY : Int
  m_WindowXScreen : Int
  m_WindowYScreen : Int
  m_WindowXScreenDefined : Bool
  m_WindowYScreenDefined : Bool
  m_WindowXFromRight : Bool
  m_WindowYFromBottom : Bool
  m_WindowXPercentage : Bool
  m_WindowYPercentage : Bool
  m_AnchorXFromRight : Bool
  m_AnchorYFromBottom : Bool
  m_AnchorXPercentage : Bool
  m_AnchorYPercentage : Bool
  m_AutoSelectScreen : Bool
  deriving DecidableEq, Repr

/-- The test `index != npos && (index2 == npos || index2 < index)` of `WindowToScreen`,
`index` being the last `c` and `index2` the last `#` of `s`: the string has a `c` that
no `#` follows. -/
def flagAfterHash (c : Char) (s : List Char) : Bool :=
  match findLastOf c s, findLastOf '#' s with
  | some _, none => true
  | some index, some index2 => decide (index2 < index)
  | none, _ => false

/-- The monitor a position option selects with `@n`, Skin.cpp lines 1895-1914 and
1933-1956: the digits after the last `@` (no `#` following it), if there are any, give
the screen index, which is accepted when it is 0 or the index of an active monitor. -/
def screenSuffix (info : MultiMonitorInfo) (s : List Char) : Option Int :=
  match findLastOf '@' s with
  | none => none
  | some index =>
    if flagAfterHash '@' s then
      let screenStr := (s.drop (index + 1)).takeWhile (inSet "0123456789")
      if !screenStr.isEmpty then
        let screenIndex := wtoi screenStr
        let monitorIndex := screenIndex - 1
        if screenIndex ≥ 0 && (screenIndex == 0 || decide (screenIndex ≤ info.GetMonitorCount) &&
            (match info.monitors.get? monitorIndex.toNat with
              | some m => m.active
              | none => false)) then
          some screenIndex
        else none
      else none
    else none

/-- The offset in pixels of a number: `(int)(span * num / 100.0f)` for a percentage of
`span`, `(int)num` otherwise. -/
def toPixel (span : Int) (num : Flt) (percentage : Bool) : Option Int :=
  if percentage then
    (((Flt.ofInt span).mul num).bind fun a => a.div Flt.hundred).bind Flt.toInt
  else num.toInt

namespace Placement

/-- The anchor blocks of `WindowToScreen`, Skin.cpp lines 1826-1878, for one axis: the
anchor string, the letter that measures from the far side, and the window extent. The
result is the two flags and the anchor in pixels. -/
def anchor (s : List Char) (far : Char) (extent : Int) : Option (Bool × Bool × Int) :=
  (wtof (leadingOf "0123456789." s)).toFloat.bind fun num =>
    let percentage := (findLastOf '%' s).isSome
    let fromFar := (findLastOf far s).isSome
    (toPixel extent num percentage).map fun pixel =>
      (percentage, fromFar, if fromFar then extent - pixel else pixel)

/-- The end of the `ScreenY` and `ScreenX` blocks of `WindowToScreen`, lines 1968-1984 and
2005-2021: the position on the screen span `(origin, length)`, minus the anchor. -/
def resolve (span : Int × Int) (num : Flt) (percentage fromFar : Bool) (anchor : Int) :
    Option Int :=
  (toPixel span.2 num percentage).map fun pixel =>
    (if fromFar then span.1 + (span.2 - pixel) else span.1 + pixel) - anchor

/-- The screens of the two axes in `WindowToScreen`, lines 1819-1820, 1895-1914 and
1933-1956: `((m_WindowXScreen, m_WindowXScreenDefined), (m_WindowYScreen,
m_WindowYScreenDefined))` for the options `x` and `y`. -/
def selectScreens (info : MultiMonitorInfo) (x y : List Char) : (Int × Bool) × (Int × Bool) :=
  -- Default to primary screen
  let xs : Int × Bool := (info.primary, false)
  let ys : Int × Bool := (info.primary, false)
  -- WindowX: default to X and Y on same screen if not overridden on WindowY
  let (xs, ys) :=
    match screenSuffix info x with
    | some screenIndex => ((screenIndex, true), (screenIndex, true))
    | none => (xs, ys)
  -- WindowY: if the WindowX screen is not defined, default to X and Y on same screen
  match screenSuffix info y with
  | some screenIndex =>
    if !xs.2 then ((screenIndex, true), (screenIndex, true)) else (xs, (screenIndex, true))
  | none => (xs, ys)

/-- The head of `WindowToScreen`, lines 1805-1807: use user defined width and/or height if
necessary. -/
def sized (p : Placement) : Placement :=
  let p := if p.m_SkinW > 0 then { p with m_WindowW := p.m_SkinW } else p
  if p.m_SkinH > 0 then { p with m_WindowH := p.m_SkinH } else p

/-- `Skin::WindowToScreen`, Skin.cpp lines 1803-2026. There is no result when the code
reads outside the monitor list or converts to `int` a number that is not in its range.
The built-in variables set at the end belong to the parser and are left out. -/
def WindowToScreen (info : MultiMonitorInfo) (p : Placement) : Option Placement :=
  let p := p.sized
  let x := p.m_WindowX.toList
  let y := p.m_WindowY.toList
  -- Calculate AnchorScreenX, AnchorScreenY
  (anchor p.m_AnchorX.toList 'R' p.m_WindowW).bind fun ax =>
  (anchor p.m_AnchorY.toList 'B' p.m_WindowH).bind fun ay =>
  -- Calculate ScreenX (Part 1)
  (wtof (leadingOf "-0123456789." x)).toFloat.bind fun numX =>
  let xPercentage := flagAfterHash '%' x
  let xFromRight := flagAfterHash 'R' x
  -- Calculate ScreenY
  (wtof (leadingOf "-0123456789." y)).toFloat.bind fun numY =>
  let yPercentage := flagAfterHash '%' y
  let yFromBottom := flagAfterHash 'B' y
  let screens := selectScreens info x y
  (info.spanY screens.2.1).bind fun spanY =>
  (resolve spanY numY yPercentage yFromBottom ay.2.2).bind fun screenY =>
  -- Calculate ScreenX (Part 2)
  (info.spanX screens.1.1).bind fun spanX =>
  (resolve spanX numX xPercentage xFromRight ax.2.2).map fun screenX =>
  { p with
    m_WindowXScreen := screens.1.1, m_WindowYScreen := screens.2.1
    m_WindowXScreenDefined := screens.1.2, m_WindowYScreenDefined := screens.2.2
    m_WindowXFromRight := xFromRight, m_WindowYFromBottom := yFromBottom
    m_WindowXPercentage := xPercentage, m_WindowYPercentage := yPercentage
    m_AnchorXPercentage := ax.1, m_AnchorXFromRight := ax.2.1, m_AnchorScreenX := ax.2.2
    m_AnchorYPercentage := ay.1, m_AnchorYFromBottom := ay.2.1, m_AnchorScreenY := ay.2.2
    m_ScreenX := screenX, m_ScreenY := screenY }

/-- The search of `ScreenToWindow`, lines 2051-2068, for the first active monitor whose
handle is `h`; the result is its screen index, `start` being the index of the head. -/
def findMonitor (h : Nat) : List MonitorInfo → Int → Option Int
  | [], _ => none
  | m :: rest, screenIndex =>
    if m.active && m.handle == h then some screenIndex
    else findMonitor h rest (screenIndex + 1)

/-- The offset in pixels that `ScreenToWindow` computes on one axis, lines 2085-2094 and
2127-2136, for the position `screen` on the span `(origin, length)`. -/
def axisPixel (span : Int × Int) (screen anchor : Int) (fromFar : Bool) : Int :=
  if fromFar then (span.1 + span.2) - screen - anchor else screen - span.1 + anchor

/-- One axis of `ScreenToWindow`, lines 2085-2112 and 2127-2154: the option string for the
position `screen` on the span `(origin, length)`. There is no result for a percentage
of a span of length 0. -/
def axisString (span : Int × Int) (screen anchor : Int) (percentage fromFar : Bool)
    (far : Char) (defined : Bool) (index : Int) : Option (List Char) :=
  let pixel := axisPixel span screen anchor fromFar
  let number : Option (List Char) :=
    if percentage then
      ((Flt.hundred.mul (Flt.ofInt pixel)).bind fun a => a.div (Flt.ofInt span.2)).map
        fun num => fmt5 num ++ ['%']
    else some (itow pixel)
  number.map fun buffer =>
    let buffer := if fromFar then buffer ++ [far] else buffer
    if defined then buffer ++ ['@'] ++ itow index else buffer

/-- `Skin::ScreenToWindow`, Skin.cpp lines 2032-2155. `monitorFromRect` is the platform
call `MonitorFromRect(&rect, MONITOR_DEFAULTTONEAREST)`, giving a monitor handle. The
monitor variables reset on a change of screen belong to the parser and are left out. -/
def ScreenToWindow (info : MultiMonitorInfo) (monitorFromRect : Rect → Option Nat)
    (p : Placement) : Option Placement :=
  -- Correct to auto-selected screen
  let p :=
    if p.m_AutoSelectScreen then
      match monitorFromRect ⟨p.m_ScreenX, p.m_ScreenY, p.m_ScreenX + p.m_WindowW,
          p.m_ScreenY + p.m_WindowH⟩ with
      | some h =>
        match findMonitor h info.monitors 1 with
        | some screenIndex =>
          { p with m_WindowXScreen := screenIndex, m_WindowYScreen := screenIndex
                   m_WindowXScreenDefined := true, m_WindowYScreenDefined := true }
        | none => p
      | none => p
    else p
  -- Calculate WindowX
  (info.spanX p.m_WindowXScreen).bind fun spanX =>
  (axisString spanX p.m_ScreenX p.m_AnchorScreenX p.m_WindowXPercentage p.m_WindowXFromRight
    'R' p.m_WindowXScreenDefined p.m_WindowXScreen).bind fun wx =>
  -- Calculate WindowY
  (info.spanY p.m_WindowYScreen).bind fun spanY =>
  (axisString spanY p.m_ScreenY p.m_AnchorScreenY p.m_WindowYPercentage p.m_WindowYFromBottom
    'B' p.m_WindowYScreenDefined p.m_WindowYScreen).map fun wy =>
  { p with m_WindowX := String.mk wx, m_WindowY := String.mk wy }

end Placement

/-! ## Numbers: `float` arithmetic and comparison -/

namespace Flt

/-- The `float` sum `a + b`. -/
def add (a b : Flt) : Option Flt := addAs Format.single a b

/-- The `float` difference `a - b`. -/
def sub (a b : Flt) : Option Flt := add a ⟨-b.m, b.e⟩

/-- The comparison `a < b`. -/
def lt (a b : Flt) : Bool :=
  let e := if a.e ≤ b.e then a.e else b.e
  decide (a.m * 2 ^ (a.e - e).toNat < b.m * 2 ^ (b.e - e).toNat)

/-- The comparison `a == b`. -/
def eq (a b : Flt) : Bool :=
  let e := if a.e ≤ b.e then a.e else b.e
  decide (a.m * 2 ^ (a.e - e).toNat = b.m * 2 ^ (b.e - e).toNat)

/-- The Windows macro `max(a, b)`, which is `(a > b) ? a : b`. -/
def max (a b : Flt) : Flt := if b.lt a then a else b

/-- The Windows macro `min(a, b)`, which is `(a < b) ? a : b`. -/
def min (a b : Flt) : Flt := if a.lt b then a else b

end Flt

/-! ## Canvas: drawing a segmented bitmap (`Canvas::DrawBitmap`) -/

namespace Gfx

/-- A `D2D1_RECT_F`. -/
structure RectF where
  left : Flt
  top : Flt
  right : Flt
  bottom : Flt
  deriving DecidableEq, Repr

/-- The call `m_Target->DrawBitmap(segment.GetBitmap(), rDst, ..., &rSrc)` for the segment
of index `segment`. -/
structure BitmapDraw where
  segment : Nat
  rDst : RectF
  rSrc : RectF
  deriving DecidableEq, Repr

/-- The rectangle `rSrc` that `Canvas::DrawBitmap` computes for a segment of rectangle
`rSeg` (the value of `segment.GetRect()`), Canvas.cpp lines 565-572. -/
def segmentSource (rSeg srcRect : RectF) : Option RectF :=
  if rSeg.left.lt rSeg.right && rSeg.top.lt rSeg.bottom then
    (rSeg.right.add rSeg.left).bind fun right =>
    (rSeg.bottom.add rSeg.top).map fun bottom =>
      ⟨Flt.max rSeg.left srcRect.left, Flt.max rSeg.top srcRect.top,
        Flt.min right srcRect.right, Flt.min bottom srcRect.bottom⟩
  else some ⟨⟨0, 0⟩, ⟨0, 0⟩, ⟨0, 0⟩, ⟨0, 0⟩⟩

/-- The test of line 573: the segment is skipped. -/
def skipped (rSrc : RectF) : Bool := rSrc.left.eq rSrc.right || rSrc.top.eq rSrc.bottom

/-- One coordinate of `rDst`, lines 575-579:
`(v - srcLow) / (srcHigh - srcLow) * (dstHigh - dstLow) + dstLow`. -/
def mapCoord (v srcLow srcHigh dstLow dstHigh : Flt) : Option Flt :=
  (v.sub srcLow).bind fun a =>
  (srcHigh.sub srcLow).bind fun b =>
  (a.div b).bind fun c =>
  (dstHigh.sub dstLow).bind fun d =>
  (c.mul d).bind fun e => e.add dstLow

/-- The loops of lines 581-591 on one axis: while the low coordinate is at least the
maximum bitmap size, that size is subtracted from the high and the low coordinate; at
most `fuel` times, without result beyond. -/
def shiftToSegment (size : Flt) : Nat → Flt → Flt → Option (Flt × Flt)
  | 0, _, _ => none
  | fuel + 1, low, high =>
    if !low.lt size then
      (high.sub size).bind fun high => (low.sub size).bind fun low =>
        shiftToSegment size fuel low high
    else some (low, high)

/-- The body of the loop of `Canvas::DrawBitmap` for one segment: the draw call, if the
segment is not skipped. -/
def drawSegment (fuel : Nat) (maxBitmapSize : Nat) (dstRect srcRect : RectF) (index : Nat)
    (rSeg : RectF) : Option (Option BitmapDraw) :=
  (segmentSource rSeg srcRect).bind fun rSrc =>
    if skipped rSrc then some none
    else
      (mapCoord rSrc.left srcRect.left srcRect.right dstRect.left dstRect.right).bind fun dl =>
      (mapCoord rSrc.top srcRect.top srcRect.bottom dstRect.top dstRect.bottom).bind fun dt =>
      (mapCoord rSrc.right srcRect.left srcRect.right dstRect.left dstRect.right).bind fun dr =>
      (mapCoord rSrc.bottom srcRect.top srcRect.bottom dstRect.top dstRect.bottom).bind fun db =>
      (shiftToSegment (Flt.ofInt maxBitmapSize) fuel rSrc.top rSrc.bottom).bind fun v =>
      (shiftToSegment (Flt.ofInt maxBitmapSize) fuel rSrc.left rSrc.right).map fun h =>
        some ⟨index, ⟨dl, dt, dr, db⟩, ⟨h.1, v.1, h.2, v.2⟩⟩

/-- The loop of `Canvas::DrawBitmap` over the segments, `index` being the index of the
first one. -/
def drawSegments (fuel : Nat) (maxBitmapSize : Nat) (dstRect srcRect : RectF) :
    List RectF → Nat → Option (List BitmapDraw)
  | [], _ => some []
  | rSeg :: rest, index =>
    (drawSegment fuel maxBitmapSize dstRect srcRect index rSeg).bind fun d =>
      (drawSegments fuel maxBitmapSize dstRect srcRect rest (index + 1)).map fun l =>
        d.toList ++ l

/-- `Canvas::DrawBitmap(bitmap, dstRect, srcRect)`, Canvas.cpp lines 561-595, on a bitmap
whose segments have the rectangles `segments`: the draw calls on the render target, in
order. There is no result when a loop does not end within `fuel` rounds or a `float`
operation leaves the finite numbers. -/
def Canvas.DrawBitmap (fuel : Nat) (c : Canvas) (segments : List RectF)
    (dstRect srcRect : RectF) : Option (List BitmapDraw) :=
  drawSegments fuel c.m_MaxBitmapSize dstRect srcRect segments 0

/-- The source rectangles, in bitmap coordinates, of the segments that
`Canvas::DrawBitmap` draws: `rSrc` before the loops of lines 581-591. -/
def drawSources (segments : List RectF) (srcRect : RectF) : List RectF :=
  segments.filterMap fun rSeg =>
    match segmentSource rSeg srcRect with
    | some rSrc => if skipped rSrc then none else some rSrc
    | none => none

/-- A rectangle with whole-number coordinates. -/
def RectF.ofInts (left top right bottom : Int) : RectF :=
  ⟨Flt.ofInt left, Flt.ofInt top, Flt.ofInt right, Flt.ofInt bottom⟩

/-- Whether the pixel `(x, y)` lies in the rectangle: `left ≤ x < right` and
`top ≤ y < bottom`. -/
def RectF.hasPixel (r : RectF) (x y : Int) : Bool :=
  !(Flt.ofInt x).lt r.left && (Flt.ofInt x).lt r.right &&
    !(Flt.ofInt y).lt r.top && (Flt.ofInt y).lt r.bottom

end Gfx

/-! ## Window geometry: keeping a window on screen and snapping -/

/-- The test `pt.x >= r.left && pt.x < r.right && pt.y >= r.top && pt.y < r.bottom`. -/
def Rect.hasPoint (r : Rect) (pt : Int × Int) : Bool :=
  decide (pt.1 ≥ r.left) && decide (pt.1 < r.right) && decide (pt.2 ≥ r.top) &&
    decide (pt.2 < r.bottom)

/-- The four assignments `x = min(x, r.right - w); x = max(x, r.left); y = min(y,
r.bottom - h); y = max(y, r.top)` of `MapCoordsToScreen`. -/
def Rect.clamp (r : Rect) (x y w h : Int) : Int × Int :=
  (max (min x (r.right - w)) r.left, max (min y (r.bottom - h)) r.top)

/-- The points that `MapCoordsToScreen` tests, in the order of its loop: the centre (the
divisions are those of C++, toward zero), then the corners `(x, y)`, `(x + w, y + h)`,
`(x, y + h)` and `(x + w, y)`. -/
def testPoints (x y w h : Int) : List (Int × Int) :=
  [(x + Int.tdiv w 2, y + Int.tdiv h 2), (x, y), (x + w, y + h), (x, y + h), (x + w, y)]

/-- The inner loop of `MapCoordsToScreen`, Skin.cpp lines 579-592: the screen rectangle of
the first active monitor that contains `pt`. -/
def screenAt (monitors : List MonitorInfo) (pt : Int × Int) : Option Rect :=
  (monitors.find? fun m => m.active && m.screen.hasPoint pt).map fun m => m.screen

/-- The outer loop of `MapCoordsToScreen`, lines 549-593: the screen rectangle found for
the first test point that lies in an active monitor. -/
def firstScreen (monitors : List MonitorInfo) : List (Int × Int) → Option Rect
  | [] => none
  | pt :: rest =>
    match screenAt monitors pt with
    | some r => some r
    | none => firstScreen monitors rest

/-- `Skin::MapCoordsToScreen(int& x, int& y, int w, int h)`, Skin.cpp lines 542-601: the
new `(x, y)`. There is no result when the primary index is outside the monitor list. -/
def MapCoordsToScreen (info : MultiMonitorInfo) (x y w h : Int) : Option (Int × Int) :=
  match firstScreen info.monitors (testPoints x y w h) with
  | some r => some (r.clamp x y w h)
  | none =>
    -- No monitor found for the window -> Use the default work area
    (info.monitorAt info.primary).map fun m => m.work.clamp x y w h

/-- The constant `SNAPDISTANCE` of Skin.cpp line 33. -/
def SNAPDISTANCE : Int := 10

/-- The four tests of one axis in `Skin::SnapToWindow`, Skin.cpp lines 4459-4463 (X) and
4468-4472 (Y), made one after the other on the position `p` of the dragged window of
extent `size`, for the other skin at `o` of extent `e`. -/
def snapAxis (p o e size : Int) : Int :=
  let p := if p < SNAPDISTANCE + o ∧ p > o - SNAPDISTANCE then o else p
  let p := if p < SNAPDISTANCE + o + e ∧ p > o + e - SNAPDISTANCE then o + e else p
  let p := if p + size < SNAPDISTANCE + o ∧ p + size > o - SNAPDISTANCE then o - size else p
  if p + size < SNAPDISTANCE + o + e ∧ p + size > o + e - SNAPDISTANCE then o + e - size else p

/-- `Skin::SnapToWindow(Skin* skin, LPWINDOWPOS wp)`, Skin.cpp lines 4450-4474: the new
`(wp->x, wp->y)` for the other skin at `(x, y)` of size `(w, h)` and the dragged window of
size `(m_WindowW, m_WindowH)`. -/
def SnapToWindow (x y w h : Int) (m_WindowW m_WindowH : Int) (wp : Int × Int) : Int × Int :=
  let wx := if wp.2 < y + h ∧ wp.2 + m_WindowH > y then snapAxis wp.1 x w m_WindowW else wp.1
  let wy := if wx < x + w ∧ wx + m_WindowW > x then snapAxis wp.2 y h m_WindowH else wp.2
  (wx, wy)

/-! ## Numbers: the value of a floating-point number -/

/-- The value of a floating-point number. -/
def Flt.value (f : Flt) : ℚ := f.m * (2 : ℚ) ^ f.e

/-- The nearest integer, ties to even, of a non-negative rational. -/
def rnd (x : ℚ) : Nat := roundQuot x.num.natAbs x.den

/-! ## Window geometry: the grammar of a position option -/

/-- The grammar `<number>[R|B][@n]` of a position option in pixels, written out: the
whole number `number`, the letter `far` when the position is measured from the right or
the bottom, and the suffix `@n` when a screen is given. -/
def renderAxis (number : Int) (fromFar : Bool) (far : Char) (screen : Option Int) :
    List Char :=
  itow number ++ (if fromFar then [far] else []) ++
    (match screen with
      | some n => '@' :: itow n
      | none => [])

/-! ## Fade: the interpolation of the fade timer -/

/-- The conversion `(__int64)` of a `ULONGLONG`. -/
def toInt64 (n : Nat) : Int := if n % 2 ^ 64 < 2 ^ 63 then (n % 2 ^ 64 : Nat) else (n % 2 ^ 64 : Nat) - 2 ^ 64

/-- The interpolation branch of the fade timer, Skin.cpp lines 3468-3475, in `double`
arithmetic: the elapsed time divided by the duration, times the difference of end and
start value, plus the start value, bounded by 255.0 and 0.0 and converted to `int`. -/
def fadeInterpolate (elapsed : Nat) (duration startValue endValue : Int) : Option Int :=
  let value := Flt.ofIntD (toInt64 elapsed)
  (value.divAs Format.double (Flt.ofIntD duration)).bind fun value =>
  (value.mulAs Format.double (Flt.ofIntD (endValue - startValue))).bind fun value =>
  (value.addAs Format.double (Flt.ofIntD startValue)).bind fun value =>
  let value := Flt.min value ⟨255, 0⟩
  let value := Flt.max value ⟨0, 0⟩
  value.toInt

/-- The transparency value that a tick of the fade timer applies when `elapsed`
milliseconds have passed since the first tick of a fade of `duration` milliseconds, lines
3456-3477 for an end value other than 0: the end value after the duration, the
interpolated value before. -/
def fadeValue (elapsed : Nat) (duration startValue endValue : Int) : Option Int :=
  if elapsed > (duration % 2 ^ 64).toNat then some endValue
  else fadeInterpolate elapsed duration startValue endValue

/-! ## Skin runtime: the fade timer -/

namespace Skin

/-- `Skin::OnTimer`, case `TIMER_FADE`, Skin.cpp lines 3440-3481. `ticks` is
`GetTickCount64()`; the subtraction is that of `ULONGLONG`. There is no result when the
interpolation has none. -/
def OnTimerFade (ticks : Nat) (s : Skin) : Option Skin :=
  -- Ignore the messages that were queued up before the timer was killed
  if !s.m_ActiveFade then some s
  else
    let s := if s.m_FadeStartTime = 0 then { s with m_FadeStartTime := ticks } else s
    let elapsed := (ticks + 2 ^ 64 - s.m_FadeStartTime % 2 ^ 64) % 2 ^ 64
    if elapsed > (s.m_FadeDuration % 2 ^ 64).toNat then
      let s := { s with m_ActiveFade := false }
      let s := s.KillTimer .TIMER_FADE
      let s := { s with m_FadeStartTime := 0 }
      if s.m_FadeEndValue = 0 then some (s.ShowWindow false)
      else some (s.UpdateWindowTransparency s.m_FadeEndValue)
    else
      (fadeInterpolate elapsed s.m_FadeDuration s.m_FadeStartValue s.m_FadeEndValue).map
        fun value => s.UpdateWindowTransparency value

/-- The transparency values after each of a sequence of fade ticks at the times `ticks`. -/
def fadeRun : List Nat → Skin → Option (List Int)
  | [], _ => some []
  | t :: rest, s =>
    (s.OnTimerFade t).bind fun s => (fadeRun rest s).map fun l => s.m_TransparencyValue :: l

end Skin

/-! ## Skin runtime: the update and deactivation timers -/

namespace Skin

/-- `Skin::OnTimer`, case `TIMER_METER`, Skin.cpp lines 3370-3372. -/
def OnTimerMeter (ex : Interp) (redrawable : Bool) (s : Skin) : Skin :=
  s.Update ex redrawable false

/-- `Skin::OnTimer`, case `TIMER_DEACTIVATE`, Skin.cpp lines 3483-3490. -/
def OnTimerDeactivate (s : Skin) : Skin :=
  if s.m_FadeStartTime = 0 then
    let s := s.KillTimer .TIMER_DEACTIVATE
    let s := s.call .removeUnmanagedSkin
    { s.call .deleteThis with deleted := true }
  else s

end Skin

/-! ## Canvas: masked bitmaps, tiled bitmaps and the transform -/

namespace Gfx

/-- The members of a `D2DBitmap` that the canvas reads: the size and the rectangles of the
segments (`D2DBitmap.h` is not among the sources; a segment rectangle is the value of
`GetRect()`). -/
structure D2DBitmap where
  m_Width : Nat
  m_Height : Nat
  m_Segments : List RectF
  deriving DecidableEq, Repr

/-- The call `m_Target->FillOpacityMask(mseg.GetBitmap(), brush, ..., &rDst, &rSrc)` for
the mask segment of index `mask`, with the brush of the bitmap segment of index
`segment`. -/
structure MaskFill where
  segment : Nat
  mask : Nat
  rDst : RectF
  rSrc : RectF
  deriving DecidableEq, Repr

/-- The lambda `getRectSubRegion` of `Canvas::DrawMaskedBitmap`, Canvas.cpp lines 652-659. -/
def getRectSubRegion (width height : Flt) (r1 r2 : RectF) : Option RectF :=
  ((r1.left.div width).bind fun a => (a.mul r2.right).bind fun b => b.add r2.left).bind
    fun left =>
  ((r1.top.div height).bind fun a => (a.mul r2.bottom).bind fun b => b.add r2.top).bind
    fun top =>
  ((r1.right.sub r1.left).bind fun a => (a.div width).bind fun b => b.mul r2.right).bind
    fun right =>
  ((r1.bottom.sub r1.top).bind fun a => (a.div height).bind fun b => b.mul r2.bottom).map
    fun bottom => ⟨left, top, right, bottom⟩

/-- The test under the comment "If no overlap, don't draw", Canvas.cpp lines 669-672, with
the evaluation order of `&&`: whether the mask segment is skipped. -/
def maskSkipped (rmDst rDst : RectF) : Option Bool :=
  (rDst.left.add rDst.right).bind fun a =>
    if !rmDst.left.lt a then some false
    else (rmDst.right.add rmDst.left).bind fun b =>
      if !rDst.left.lt b then some false
      else (rmDst.top.add rmDst.bottom).bind fun c =>
        if !c.lt rmDst.top then some false
        else (rmDst.top.add rmDst.bottom).map fun d => d.lt rmDst.top

/-- The inner loop of `Canvas::DrawMaskedBitmap`, lines 663-681, over the mask segments,
`index` being the index of the first one: the fills made. -/
def maskFills (width height : Flt) (dstRect srcRect rDst rSrc : RectF) (segment : Nat) :
    List RectF → Nat → Option (List MaskFill)
  | [], _ => some []
  | rmSeg :: rest, index =>
    (getRectSubRegion width height rmSeg dstRect).bind fun rmDst =>
    (getRectSubRegion width height rmSeg srcRect).bind fun _ =>
    (maskSkipped rmDst rDst).bind fun skip =>
    (maskFills width height dstRect srcRect rDst rSrc segment rest (index + 1)).map fun l =>
      if skip then l else ⟨segment, index, rDst, rSrc⟩ :: l

/-- The outer loop of `Canvas::DrawMaskedBitmap`, lines 661-684, over the segments of the
bitmap. `createBrush` is the result of `CreateBitmapBrush` for each segment; on a failure
the function returns. -/
def maskedSegments (createBrush : Nat → HResult) (width height : Flt) (dstRect srcRect : RectF)
    (maskSegments : List RectF) : List RectF → Nat → Option (List MaskFill)
  | [], _ => some []
  | rSeg :: rest, index =>
    (getRectSubRegion width height rSeg dstRect).bind fun rDst =>
    (getRectSubRegion width height rSeg srcRect).bind fun rSrc =>
      if (createBrush index).failed then some []
      else
        (maskFills width height dstRect srcRect rDst rSrc index maskSegments 0).bind fun l =>
        (maskedSegments createBrush width height dstRect srcRect maskSegments rest
          (index + 1)).map fun l' => l ++ l'

/-- `Canvas::DrawMaskedBitmap(bitmap, maskBitmap, dstRect, srcRect, srcRect2)`, Canvas.cpp
lines 623-685: the calls of `FillOpacityMask`, in order. `srcRect2` enters the transform
of the brush only, which is not part of the model. There is no result when a `float`
operation leaves the finite numbers. -/
def Canvas.DrawMaskedBitmap (createBrush : Nat → HResult) (bitmap maskBitmap : Option D2DBitmap)
    (dstRect srcRect : RectF) : Option (List MaskFill) :=
  match bitmap, maskBitmap with
  | some bitmap, some maskBitmap =>
    maskedSegments createBrush (Flt.ofInt bitmap.m_Width) (Flt.ofInt bitmap.m_Height) dstRect
      srcRect maskBitmap.m_Segments bitmap.m_Segments 0
  | _, _ => some []

/-- A `D2D1_MATRIX_3X2_F`, with the member names that `Canvas::SetTransform` uses for the
linear part; `dx` and `dy` are the translation. -/
structure Matrix3x2F where
  m11 : Flt
  m12 : Flt
  m21 : Flt
  m22 : Flt
  dx : Flt
  dy : Flt
  deriving DecidableEq, Repr

/-- `D2D1::Matrix3x2F::Identity()`. -/
def Matrix3x2F.Identity : Matrix3x2F := ⟨⟨1, 0⟩, ⟨0, 0⟩, ⟨0, 0⟩, ⟨1, 0⟩, ⟨0, 0⟩, ⟨0, 0⟩⟩

/-- The transform of the render target `m_Target` and the member `m_CanUseAxisAlignClip`
of a `Canvas`. -/
structure TransformState where
  transform : Matrix3x2F
  m_CanUseAxisAlignClip : Bool
  deriving DecidableEq, Repr

namespace TransformState

/-- A new canvas: the constructor sets `m_CanUseAxisAlignClip(true)`, Canvas.cpp line 37,
and a new render target has the identity transform. -/
def initial : TransformState := ⟨Matrix3x2F.Identity, true⟩

/-- `Canvas::SetTransform`, Canvas.cpp lines 366-375. -/
def SetTransform (s : TransformState) (matrix : Matrix3x2F) : TransformState :=
  { transform := matrix
    m_CanUseAxisAlignClip :=
      (matrix.m11.eq ⟨1, 0⟩ && matrix.m12.eq ⟨0, 0⟩ && matrix.m21.eq ⟨0, 0⟩ &&
        matrix.m22.eq ⟨1, 0⟩) ||   -- Angle: 0
      (matrix.m11.eq ⟨0, 0⟩ && matrix.m12.eq ⟨1, 0⟩ && matrix.m21.eq ⟨-1, 0⟩ &&
        matrix.m22.eq ⟨0, 0⟩) ||   -- Angle: 90
      (matrix.m11.eq ⟨-1, 0⟩ && matrix.m12.eq ⟨0, 0⟩ && matrix.m21.eq ⟨0, 0⟩ &&
        matrix.m22.eq ⟨-1, 0⟩) ||  -- Angle: 180
      (matrix.m11.eq ⟨0, 0⟩ && matrix.m12.eq ⟨-1, 0⟩ && matrix.m21.eq ⟨1, 0⟩ &&
        matrix.m22.eq ⟨0, 0⟩) }    -- Angle: 270

/-- `Canvas::ResetTransform`, Canvas.cpp lines 377-380. -/
def ResetTransform (s : TransformState) : TransformState :=
  { s with transform := Matrix3x2F.Identity }

/-- `Canvas::DrawGeometry`, Canvas.cpp lines 754-780, as far as the transform goes: the
render target gets the transform `shapeTransform` (the product of the shape's matrix, the
translation and the world transform; `Shape` is not among the sources) for the drawing
and the world transform again at the end. -/
def DrawGeometry (s : TransformState) (shapeTransform : Matrix3x2F) : TransformState :=
  let worldTransform := s.transform
  let s := { s with transform := shapeTransform }
  { s with transform := worldTransform }

/-- The branch of `Canvas::DrawTextW`, Canvas.cpp lines 484-493, for a trimmed text:
`PushAxisAlignedClip` for `true`, `PushLayer` for `false`. -/
def usesAxisAlignedClip (s : TransformState) : Bool := s.m_CanUseAxisAlignClip

end TransformState

/-- The operations on the transform of a canvas. -/
inductive TransformOp where
  | setTransform (matrix : Matrix3x2F)
  | resetTransform
  | drawGeometry (shapeTransform : Matrix3x2F)
  deriving DecidableEq, Repr

/-- The state of a canvas after an operation. -/
def TransformState.step (s : TransformState) : TransformOp → TransformState
  | .setTransform matrix => s.SetTransform matrix
  | .resetTransform => s.ResetTransform
  | .drawGeometry shapeTransform => s.DrawGeometry shapeTransform

/-- The state of a new canvas after a sequence of operations. -/
def TransformState.after (ops : List TransformOp) : TransformState :=
  ops.foldl TransformState.step TransformState.initial

/-- Whether the linear part of a matrix is the rotation by 0, 90, 180 or 270 degrees. -/
def Matrix3x2F.isQuarterTurn (m : Matrix3x2F) : Bool :=
  let is (a b c d : Int) : Bool :=
    m.m11.eq ⟨a, 0⟩ && m.m12.eq ⟨b, 0⟩ && m.m21.eq ⟨c, 0⟩ && m.m22.eq ⟨d, 0⟩
  is 1 0 0 1 || is 0 1 (-1) 0 || is (-1) 0 0 (-1) || is 0 (-1) 1 0

end Gfx

/-! ## Skin runtime: the branch of the fade timer -/

/-- The three ways through the `TIMER_FADE` case of `Skin::OnTimer`: the message is
ignored, the fade is ended, or the transparency is interpolated. -/
inductive FadeBranch where
  | ignored
  | ended
  | interpolated
  deriving DecidableEq, Repr

/-- The branch that `Skin::OnTimer`, case `TIMER_FADE`, takes at the tick count `ticks`:
the tests of Skin.cpp lines 3444, 3450 and 3455. -/
def Skin.fadeBranch (ticks : Nat) (s : Skin) : FadeBranch :=
  if !s.m_ActiveFade then .ignored
  else
    let start := if s.m_FadeStartTime = 0 then ticks else s.m_FadeStartTime
    let elapsed := (ticks + 2 ^ 64 - start % 2 ^ 64) % 2 ^ 64
    if elapsed > (s.m_FadeDuration % 2 ^ 64).toNat then .ended else .interpolated

/-! ## Window geometry: the monitors that `WindowToScreen` reads -/

/-- The screen index that a position option names with `@n`, Skin.cpp lines 1895-1904 and
1933-1942: the number made of the digits after the last `@` (no `#` following it), if
there are digits. -/
def suffixIndex (s : List Char) : Option Int :=
  match findLastOf '@' s with
  | none => none
  | some index =>
    if flagAfterHash '@' s then
      let screenStr := (s.drop (index + 1)).takeWhile (inSet "0123456789")
      if !screenStr.isEmpty then some (wtoi screenStr) else none
    else none

/-- The index at which the test of lines 1906 and 1944 reads `monitors[monitorIndex]`, if
it reads it: `&&` and `||` evaluate their right side only when the left side does not
decide. -/
def suffixRead (info : MultiMonitorInfo) (s : List Char) : Option Int :=
  (suffixIndex s).bind fun screenIndex =>
    let monitorIndex := screenIndex - 1
    if screenIndex ≥ 0 && !(screenIndex == 0) && decide (screenIndex ≤ info.GetMonitorCount)
    then some monitorIndex else none

/-- The indices at which `WindowToScreen` reads the monitor list, in order: the tests of
the two suffixes, then lines 1964-1966 and 2001-2003 for the screens of the Y axis and the
X axis. -/
def Placement.monitorReads (info : MultiMonitorInfo) (x y : List Char) : List Int :=
  let screens := Placement.selectScreens info x y
  (suffixRead info x).toList ++ (suffixRead info y).toList ++
    (if screens.2.1 = 0 then [] else [screens.2.1 - 1]) ++
    (if screens.1.1 = 0 then [] else [screens.1.1 - 1])

/-! ## Canvas: tiling a bitmap (`Canvas::DrawTiledBitmap`) -/

namespace Gfx

/-- The call `DrawBitmap(bitmap, dst, src)` that `Canvas::DrawTiledBitmap` makes for one
tile. -/
structure TileDraw where
  dst : RectF
  src : RectF
  deriving DecidableEq, Repr

/-- The loop of `Canvas::DrawTiledBitmap`, Canvas.cpp lines 605-620, from the position
`(x, y)`: the calls of `DrawBitmap`, in order. There is no result when the loop does not
end within `fuel` rounds or a `float` operation leaves the finite numbers. -/
def tileLoop (width height : Flt) (dstRect : RectF) : Nat → Flt → Flt → Option (List TileDraw)
  | 0, _, _ => none
  | fuel + 1, x, y =>
    if y.lt dstRect.bottom then
      (dstRect.right.sub x).bind fun dw =>
      (dstRect.bottom.sub y).bind fun dh =>
      let w := if width.lt dw then width else dw
      let h := if height.lt dh then height else dh
      (x.add w).bind fun right =>
      (y.add h).bind fun bottom =>
      (x.add width).bind fun x' =>
      (if !x'.lt dstRect.right && y.lt dstRect.bottom then
          (y.add height).map fun y' => (dstRect.left, y')
        else some (x', y)).bind fun next =>
      (tileLoop width height dstRect fuel next.1 next.2).map fun l =>
        ⟨⟨x, y, right, bottom⟩, ⟨⟨0, 0⟩, ⟨0, 0⟩, w, h⟩⟩ :: l
    else some []

/-- `Canvas::DrawTiledBitmap(bitmap, dstRect, srcRect)`, Canvas.cpp lines 597-621: the
calls of `DrawBitmap`, in order. The function does not read `srcRect`. -/
def Canvas.DrawTiledBitmap (fuel : Nat) (bitmap : D2DBitmap) (dstRect _srcRect : RectF) :
    Option (List TileDraw) :=
  tileLoop (Flt.ofInt bitmap.m_Width) (Flt.ofInt bitmap.m_Height) dstRect fuel dstRect.left
    dstRect.top

/-- Whether the point `(p, q)` lies in the rectangle: `left ≤ p < right` and
`top ≤ q < bottom`. -/
def RectF.hasPoint (r : RectF) (p q : ℚ) : Bool :=
  decide (r.left.value ≤ p ∧ p < r.right.value ∧ r.top.value ≤ q ∧ q < r.bottom.value)

end Gfx

/-- The tile has the destination `r`, a rectangle with whole-number coordinates, and the
source rectangle `(0, 0, w, h)` of the same size. -/
def Gfx.TileDraw.isRect (t : Gfx.TileDraw) (r : Rect) : Prop :=
  t.dst.left.value = r.left ∧ t.dst.top.value = r.top ∧ t.dst.right.value = r.right ∧
  t.dst.bottom.value = r.bottom ∧ t.src.left.value = 0 ∧ t.src.top.value = 0 ∧
  t.src.right.value = ((r.right - r.left : Int) : ℚ) ∧
  t.src.bottom.value = ((r.bottom - r.top : Int) : ℚ)

/-! ## Skin runtime: the two parts of the update tick -/

namespace Skin

/-- The first part of `Skin::Update`, Skin.cpp lines 3255-3276: the tick counter, the
network pre-update and the measure loop. -/
def updateMeasurePhase (ex : Interp) (refresh : Bool) (s : Skin) : Skin :=
  let s := { s with m_UpdateCounter := s.m_UpdateCounter + 1 }
  if !s.m_Measures.isEmpty then
    let s := if s.m_HasNetMeasures then s.call .netUpdate else s
    updateMeasures ex refresh s.m_Measures.length 0 s
  else s

/-- The second part of `Skin::Update`, Skin.cpp lines 3278-3319: the About dialog, the
meter loop, the redraw, the post-update and the skin's own update action. -/
def updateMeterPhase (ex : Interp) (redrawable : Bool) (refresh : Bool) (s : Skin) : Skin :=
  let s := s.call .dialogAboutUpdateMeasures
  let (s, bActiveTransition, bUpdate) := updateMeters ex refresh s.m_Meters.length 0 false false s
  let s := s.call .updateRelativeMeters
  let s :=
    if bUpdate || s.m_ResizeWindow ≠ .RESIZEMODE_NONE || refresh then
      let s := if s.m_DynamicWindowSize then s.SetResizeWindowMode .RESIZEMODE_CHECK else s
      if redrawable then s.Redraw else s
    else s
  let s := s.PostUpdate bActiveTransition
  if s.m_OnUpdateAction ≠ "" then s.ExecuteCommand ex s.m_OnUpdateAction none else s

end Skin

/-! ## Window geometry: the grammar of a position option, with any number -/

/-- A `Mouse` without any action. -/
def Mouse.none : Mouse :=
  { overAction := "", leaveAction := "", hasActionCommand := fun _ => false,
    actionCommand := fun _ => "" }

/-- A visible meter without actions, named `name` and belonging to `groups`. -/
def Meter.plain (name : String) (groups : List String) : Meter :=
  { name := name, groups := groups, hidden := false, x := 0, y := 0, updateDivider := 1,
    updateCounter := 0, dynamicVariables := false, onUpdateAction := "",
    hasActiveTransition := false, isButton := false, focus := false, mouseOver := false,
    mouse := Mouse.none }

/-- An enabled measure named `name` whose update action is `onUpdateAction`. -/
def Measure.plain (name : String) (onUpdateAction : String) : Measure :=
  { name := name, groups := [], disabled := false, paused := false, updateDivider := 1,
    updateCounter := 0, dynamicVariables := false, onUpdateAction := onUpdateAction,
    isNetwork := false }

/-- A running, visible skin without meters and measures: periodic update and mouse-poll
timers armed, no fade in progress, fade duration 250 ms. -/
def Skin.running : Skin :=
  { m_State := .STATE_RUNNING, m_Meters := [], m_Measures := [],
    m_ResizeWindow := .RESIZEMODE_NONE, m_UpdateCounter := 0, m_HasNetMeasures := false,
    m_HasButtons := false, m_DynamicWindowSize := false, m_ActiveTransition := false,
    m_TransitionUpdate := 100, m_WindowUpdate := 1000, m_OnUpdateAction := "",
    m_OnRefreshAction := "", m_WindowStartHidden := false, m_FadeOutMode := false,
    m_BlurModeNone := true, m_KeepOnScreen := true, m_AlphaValue := 255,
    m_FadeDuration := 250, m_NewFadeDuration := -1, m_FadeStartTime := 0,
    m_FadeStartValue := 0, m_FadeEndValue := 0, m_ActiveFade := false,
    m_TransparencyValue := 255, m_Hidden := false, m_MouseOver := false,
    m_MouseInputRegistered := false, m_HasMouseScrollAction := false,
    m_MouseMoveCounter := 0, m_Mouse := Mouse.none,
    windowVisible := true, deleted := false,
    timers := { meter := true, mouse := true, fade := false, transition := false,
                deactivate := false },
    calls := [] }

/-- A running skin with the single meter `A`. -/
def Skin.oneMeter : Skin := { Skin.running with m_Meters := [Meter.plain "A" []] }

/-- A running skin with the single meter `A`, whose transition timer is still armed
although the transition of the meter has ended. -/
def Skin.transitionEnded : Skin :=
  { Skin.oneMeter with
    m_ActiveTransition := true
    timers := { meter := true, mouse := true, fade := false, transition := true,
                deactivate := false } }

/-- A skin file with one measure, whose update action is `!DeactivateConfig`, and one
meter. -/
def SkinFile.selfClosing : SkinFile :=
  { fileExists := true, appVersion := 0, update := 1000, transitionUpdate := 100,
    dynamicWindowSize := false, onRefreshAction := "", onUpdateAction := "",
    measures := [Measure.plain "M" "!DeactivateConfig"], meters := [Meter.plain "A" []] }

/-- An interpreter that runs `!DeactivateConfig` by deactivating the skin
(`Rainmeter::DeactivateSkin`) and ignores every other command. -/
def Interp.deactivating : Interp :=
  fun command _ s => if command = "!DeactivateConfig" then s.RainmeterDeactivateSkin else s

/-- Marks the calls that arm the periodic update timer or the mouse-poll timer. -/
def Call.armsTick : Call → Bool
  | .setTimer .TIMER_METER _ => true
  | .setTimer .TIMER_MOUSE _ => true
  | _ => false

/-- Marks the calls that hand a command to the interpreter. -/
def Call.isCommand : Call → Bool
  | .executeCommand _ _ => true
  | _ => false

/-- The three ways in which `ReadSkin` fails, read off the file. -/
def SkinFile.unreadable (file : SkinFile) (version : Nat) : Bool :=
  !file.fileExists || decide (file.appVersion > version) || file.meters.isEmpty

/-- Marks a call to `Measure::Update`. -/
def Call.isMeasureUpdate : Call → Bool
  | .measureUpdate _ => true
  | _ => false

/-- Marks a call to `Meter::Update` or `Meter::ReadOptions`. -/
def Call.isMeterWork : Call → Bool
  | .meterUpdate _ => true
  | .meterReadOptions _ => true
  | _ => false

/-- The measure whose `Update` a call is, if it is one. -/
def Call.measureName? : Call → Option String
  | .measureUpdate n => some n
  | _ => none

/-- `s'` was reached from `s` by making further calls, all of which satisfy `P`. -/
def Skin.ExtendsBy (P : Call → Prop) (s s' : Skin) : Prop :=
  ∃ l, s'.calls = s.calls ++ l ∧ ∀ c ∈ l, P c

/-- A running skin with over and leave actions of its own and the single meter `A`, which
has over and leave actions too; the pointer is over neither. -/
def Skin.hoverable : Skin :=
  { Skin.running with
    m_Mouse := { Mouse.none with overAction := "[skin over]", leaveAction := "[skin leave]" }
    m_Meters := [{ Meter.plain "A" [] with
      mouse := { Mouse.none with overAction := "[meter over]", leaveAction := "[meter leave]" } }] }

/-- A poll that finds the pointer over every meter of the skin. -/
def Skin.MoveInput.overAll : Skin.MoveInput :=
  { action := .MOUSE_OVER, hit := fun _ => true, skinHit := true }

/-- A poll that finds the pointer outside the skin. -/
def Skin.MoveInput.outside : Skin.MoveInput :=
  { action := .MOUSE_LEAVE, hit := fun _ => false, skinHit := false }

/-- An active 1920 by 1080 monitor whose screen rectangle starts at `(left, 0)`. -/
def MonitorInfo.fullHD (left : Int) : MonitorInfo :=
  { active := true, handle := 1, screen := ⟨left, 0, left + 1920, 1080⟩,
    work := ⟨left, 0, left + 1920, 1040⟩ }

/-- A single 1920 by 1080 primary monitor whose screen rectangle starts at `(0, 0)`. -/
def MultiMonitorInfo.single : MultiMonitorInfo :=
  { vsT := 0, vsL := 0, vsH := 1080, vsW := 1920, primary := 1,
    monitors := [MonitorInfo.fullHD 0] }

/-- Two 1920 by 1080 monitors side by side, the left one primary. -/
def MultiMonitorInfo.pair : MultiMonitorInfo :=
  { vsT := 0, vsL := 0, vsH := 1080, vsW := 3840, primary := 1,
    monitors := [MonitorInfo.fullHD 0, MonitorInfo.fullHD 1920] }

/-- A skin of width `w` and height `h` with the options `WindowX`, `WindowY`, `AnchorX`
and `AnchorY`, before `WindowToScreen` has run. -/
def Placement.ofOptions (x y ax ay : String) (w h : Int) : Placement :=
  { m_WindowX := x, m_WindowY := y, m_AnchorX := ax, m_AnchorY := ay, m_SkinW := 0, m_SkinH := 0,
    m_WindowW := w, m_WindowH := h, m_ScreenX := 0, m_ScreenY := 0, m_AnchorScreenX := 0,
    m_AnchorScreenY := 0, m_WindowXScreen := 1, m_WindowYScreen := 1,
    m_WindowXScreenDefined := false, m_WindowYScreenDefined := false,
    m_WindowXFromRight := false, m_WindowYFromBottom := false, m_WindowXPercentage := false,
    m_WindowYPercentage := false, m_AnchorXFromRight := false, m_AnchorYFromBottom := false,
    m_AnchorXPercentage := false, m_AnchorYPercentage := false, m_AutoSelectScreen := false }

/-- A canvas with a render target whose maximum bitmap size is 16384. -/
def Gfx.Canvas.ready : Gfx.Canvas :=
  { m_Target := true, m_TargetBitmap := true, m_BackBuffer := true, m_W := 200, m_H := 100,
    m_MaxBitmapSize := 16384, m_IsDrawing := true, calls := [] }

/-- The two segments of a 32768 by 100 bitmap (twice the maximum size wide), each
rectangle holding the origin, the width and the height of its segment. -/
def Gfx.segmentsByExtent : List Gfx.RectF :=
  [Gfx.RectF.ofInts 0 0 16384 100, Gfx.RectF.ofInts 16384 0 16384 100]

/-- The four segments of a 65536 by 100 bitmap (four times the maximum size wide), each
rectangle holding the left, top, right and bottom edge of its segment. -/
def Gfx.segmentsByEdges : List Gfx.RectF :=
  [Gfx.RectF.ofInts 0 0 16384 100, Gfx.RectF.ofInts 16384 0 32768 100,
    Gfx.RectF.ofInts 32768 0 49152 100, Gfx.RectF.ofInts 49152 0 65536 100]

/-- The calls of a deactivation: none arms the update or mouse-poll timer, none runs a
command. -/
def Skin.quiet (c : Call) : Prop := c.armsTick = false ∧ c.isCommand = false

/-- Marks the calls that arm the fade timer. -/
def Call.armsFade : Call → Bool
  | .setTimer .TIMER_FADE _ => true
  | _ => false

/-- A running, visible skin of transparency value 255 whose fade duration is 0. -/
def Skin.fadeOff : Skin := { Skin.running with m_FadeDuration := 0 }

/-- The skin with `WindowX=10`, `WindowY=20@2` and no anchor, of size 200 by 100, as
`WindowToScreen` leaves it on two monitors side by side: both axes on monitor 2, at
`(1930, 20)`. -/
def Placement.onSecond : Placement :=
  { Placement.ofOptions "10" "20@2" "0" "0" 200 100 with
    m_ScreenX := 1930, m_ScreenY := 20, m_WindowXScreen := 2, m_WindowYScreen := 2,
    m_WindowXScreenDefined := true, m_WindowYScreenDefined := true }

/-- The skin with `WindowX=10R@1`, `WindowY=20@2` and no anchor, of size 200 by 100, as
`WindowToScreen` leaves it on two monitors side by side: at `(1910, 20)`. -/
def Placement.onBoth : Placement :=
  { Placement.ofOptions "10R@1" "20@2" "0" "0" 200 100 with
    m_ScreenX := 1910, m_ScreenY := 20, m_WindowXScreen := 1, m_WindowYScreen := 2,
    m_WindowXScreenDefined := true, m_WindowYScreenDefined := true,
    m_WindowXFromRight := true }

/-- A running skin of fade duration 250 ms that is shown by a fade from 0 to 255: the
state that `FadeWindow(0, 255)` leaves. -/
def Skin.fadingIn : Skin := Skin.running.FadeWindow 0 255

/-- Marks the calls that cancel a timer. -/
def Call.cancelsTimer : Call → Bool
  | .killTimer _ => true
  | _ => false

/-- The skin `Skin.transitionEnded` with one measure `M` added. -/
def Skin.busy : Skin := { Skin.transitionEnded with m_Measures := [Measure.plain "M" ""] }

/-- Whether two rectangles have the same coordinates. -/
def Gfx.RectF.same (a b : Gfx.RectF) : Bool :=
  a.left.eq b.left && a.top.eq b.top && a.right.eq b.right && a.bottom.eq b.bottom

/-- A 65536 by 100 bitmap in four segments whose rectangles hold the edges. -/
def Gfx.D2DBitmap.wideByEdges : Gfx.D2DBitmap := ⟨65536, 100, Gfx.segmentsByEdges⟩

/-- A 32768 by 100 bitmap in two segments whose rectangles hold origin, width and height. -/
def Gfx.D2DBitmap.wideByExtent : Gfx.D2DBitmap := ⟨32768, 100, Gfx.segmentsByExtent⟩

/-- The scaling by 2. -/
def Gfx.Matrix3x2F.double : Gfx.Matrix3x2F := ⟨⟨2, 0⟩, ⟨0, 0⟩, ⟨0, 0⟩, ⟨2, 0⟩, ⟨0, 0⟩, ⟨0, 0⟩⟩

/-- A running skin on which `FadeWindow(0, 255)` has started a fade of 250 ms and, before
the first tick of the fade timer, the bang `!FadeDuration 0` and `FadeWindow(255, 0)`
have run. -/
def Skin.fadeCutShort : Skin :=
  ((Skin.running.FadeWindow 0 255).DoBang Interp.inert true (fun _ => 0) .FadeDuration
    ["0"]).FadeWindow 255 0

/-- A bitmap of width `w` and height `h` in one segment. -/
def Gfx.D2DBitmap.small (w h : Nat) : Gfx.D2DBitmap := ⟨w, h, [Gfx.RectF.ofInts 0 0 w h]⟩

/-- The rectangle 2 wide and 1 high at `(2 ^ 24, 0)`. -/
def Gfx.RectF.farRight : Gfx.RectF := Gfx.RectF.ofInts 16777216 0 16777218 1

/-- A platform on which `EndDraw` reports failure. -/
def Gfx.DrawEnv.lost : Gfx.DrawEnv :=
  { d2dDevice := true, createContextMT := .ok, createContext := .ok, maxBitmapSize := 16384,
    resizeBuffers := .ok, getBuffer := .ok, createBitmap := .ok, endDraw := .fail }

/-- A platform on which a device context can be created and `ResizeBuffers` fails. -/
def Gfx.DrawEnv.noBuffers : Gfx.DrawEnv :=
  { d2dDevice := true, createContextMT := .ok, createContext := .ok, maxBitmapSize := 16384,
    resizeBuffers := .fail, getBuffer := .ok, createBitmap := .ok, endDraw := .ok }

/-- A platform on which every call succeeds and a new device context reports a maximum
bitmap size of 128. -/
def Gfx.DrawEnv.smallTarget : Gfx.DrawEnv :=
  { d2dDevice := true, createContextMT := .ok, createContext := .ok, maxBitmapSize := 128,
    resizeBuffers := .ok, getBuffer := .ok, createBitmap := .ok, endDraw := .ok }

/-- Marks a call to `Measure::ReadOptions`, `Measure::Update` or `Measure::DoChangeAction`. -/
def Call.isMeasureWork : Call → Bool
  | .measureReadOptions _ => true
  | .measureUpdate _ => true
  | .measureChangeAction _ => true
  | _ => false

/-- The measure whose `DoChangeAction` a call is, if it is one; the skin makes this call
for a measure exactly when `UpdateMeasure` reported that the measure updated. -/
def Call.changedName? : Call → Option String
  | .measureChangeAction n => some n
  | _ => none

/-- An interpreter that runs `!Redraw` by redrawing the skin (`Skin::DoBang`,
`Bang::Redraw`) and ignores every other command. -/
def Interp.redrawing : Interp :=
  fun command _ s => if command = "!Redraw" then s.Redraw else s

/-- An interpreter that runs `!UpdateMeter A` by updating the meter `A` (`Skin::DoBang`,
`Bang::UpdateMeter`) and ignores every other command. -/
def Interp.updatingMeter : Interp :=
  fun command _ s =>
    if command = "!UpdateMeter A" then
      s.DoBang Interp.inert true (fun _ => 0) .UpdateMeter ["A"]
    else s

/-- A running skin with the measures `M1`, whose update action is `!UpdateMeter A`, and
`M2`, and the meter `A`. -/
def Skin.eager : Skin :=
  { Skin.running with
    m_Measures := [Measure.plain "M1" "!UpdateMeter A", Measure.plain "M2" ""]
    m_Meters := [Meter.plain "A" []] }

/-- A running skin with the measures `M`, which has `UpdateDivider = 2` and the update
action `!Redraw`, and `N`, which updates on every tick, and the meter `A`. -/
def Skin.halfRate : Skin :=
  { Skin.running with
    m_Measures := [{ Measure.plain "M" "!Redraw" with updateDivider := 2 }, Measure.plain "N" ""]
    m_Meters := [Meter.plain "A" []] }

/-- An interpreter that runs `!UpdateMeasure M` by updating the measure `M`
(`Skin::DoBang`, `Bang::UpdateMeasure`) and ignores every other command. -/
def Interp.updatingMeasure : Interp :=
  fun command _ s =>
    if command = "!UpdateMeasure M" then
      s.DoBang Interp.inert true (fun _ => 0) .UpdateMeasure ["M"]
    else s

/-- A running skin with the measure `M` and the meter `A`, whose update action is
`!UpdateMeasure M`. -/
def Skin.feedback : Skin :=
  { Skin.running with
    m_Measures := [Measure.plain "M" ""]
    m_Meters := [{ Meter.plain "A" [] with onUpdateAction := "!UpdateMeasure M" }] }

/-- The commands of `ex` update no measure and no meter and re-read no meter's options:
whatever else they do to the skin, the calls they add are no `Measure::Update`,
`Meter::Update` or `Meter::ReadOptions`. -/
def Interp.updatesNoSection (ex : Interp) : Prop :=
  ∀ command sec s,
    Skin.ExtendsBy (fun c => c.isMeasureUpdate = false ∧ c.isMeterWork = false) s
      (ex command sec s)

/-- The commands of `ex` leave the measures of the skin as they are. -/
def Interp.keepsMeasures (ex : Interp) : Prop :=
  ∀ command sec s, (ex command sec s).m_Measures = s.m_Measures

/-- The commands of `ex` call no measure: the calls they add are no
`Measure::ReadOptions`, `Measure::Update` or `Measure::DoChangeAction`. -/
def Interp.callsNoMeasure (ex : Interp) : Prop :=
  ∀ command sec s, Skin.ExtendsBy (fun c => c.isMeasureWork = false) s (ex command sec s)

/-- The commands of `ex` leave the hover state as it is: the mouse actions and the hover
flag of the skin and of every meter. -/
def Interp.keepsHover (ex : Interp) : Prop :=
  ∀ command sec s,
    (ex command sec s).m_Mouse = s.m_Mouse ∧
    (ex command sec s).m_MouseOver = s.m_MouseOver ∧
    ∀ i m, s.m_Meters.get? i = some m →
      ∃ m', (ex command sec s).m_Meters.get? i = some m' ∧ m'.mouse = m.mouse ∧
        m'.mouseOver = m.mouseOver

/-- A running skin without actions of its own and the single meter `A`, which has an over
action and no leave action. -/
def Skin.overOnly : Skin :=
  { Skin.running with
    m_Meters := [{ Meter.plain "A" [] with
      mouse := { Mouse.none with overAction := "[meter over]" } }] }

/-- An interpreter that runs `!ClearMouseAction A MouseLeaveAction` by emptying the leave
action of the meter `A` (`Skin::ClearMouseAction`, Skin.cpp lines 1462-1488, hands the
option to the `Mouse` of the meter) and ignores every other command. -/
def Interp.clearingLeave : Interp :=
  fun command _ s =>
    if command = "!ClearMouseAction A MouseLeaveAction" then
      { s with m_Meters := s.m_Meters.map (fun m =>
          if m.name = "A" then { m with mouse := { m.mouse with leaveAction := "" } } else m) }
    else s

/-- A running skin without actions of its own and the single meter `A`, whose over action
clears its leave action. -/
def Skin.selfClearing : Skin :=
  { Skin.running with
    m_Meters := [{ Meter.plain "A" [] with
      mouse := { Mouse.none with
        overAction := "!ClearMouseAction A MouseLeaveAction", leaveAction := "[meter leave]" } }] }

namespace Gfx

/-- C16 (evaluation at the failing input): on a host where no device can be created, the
first `Canvas::Initialize(true)` returns false, and the retry `Canvas::Initialize(false)`
returns true although no part of the device stack exists: the instance counter was
already raised by the failed call, so the retry skips the creation. -/
theorem C16_retry_reports_success_without_devices :
    (Canvas.Initialize true InitEnv.noDevice Shared.initial).1 = false ∧
    (RainmeterInitializeCanvas true InitEnv.noDevice Shared.initial).1 = true ∧
    (RainmeterInitializeCanvas true InitEnv.noDevice Shared.initial).2.deviceStack = false ∧
    (RainmeterInitializeCanvas true InitEnv.noDevice Shared.initial).2.c_Instances = 2 := by
  decide

/-- `EndDraw` field by field. -/
theorem Canvas.EndDraw_facts (env : DrawEnv) (c : Canvas) :
    (c.EndDraw env).m_IsDrawing = false ∧
    (c.EndDraw env).m_Target = (if env.endDraw.failed then false else c.m_Target) ∧
    (c.EndDraw env).m_TargetBitmap = c.m_TargetBitmap ∧
    (c.EndDraw env).m_W = c.m_W ∧ (c.EndDraw env).m_H = c.m_H ∧
    (c.EndDraw env).calls = c.calls ++ [.targetEndDraw] := by
  cases he : env.endDraw.failed <;> simp [Canvas.EndDraw, Canvas.call, he]

/-- `CreateRenderTarget` when it cannot succeed: no target afterwards. -/
theorem Canvas.CreateRenderTarget_fail (env : DrawEnv) (c : Canvas)
    (h : env.canCreateTarget = false) (ht : c.m_Target = false) :
    (c.CreateRenderTarget env).1.failed = true ∧
    (c.CreateRenderTarget env).2.m_Target = false ∧
    (∃ l, (c.CreateRenderTarget env).2.calls = c.calls ++ l ∧ DeviceCall.targetBeginDraw ∉ l) := by
  cases hd : env.d2dDevice <;> cases h1 : env.createContextMT.failed <;>
    cases h2 : env.createContext.failed <;>
    simp_all [Canvas.CreateRenderTarget, Canvas.call, DrawEnv.canCreateTarget, HResult.failed]

/-- `CreateRenderTarget` when it can succeed. -/
theorem Canvas.CreateRenderTarget_ok (env : DrawEnv) (c : Canvas)
    (h : env.canCreateTarget = true) :
    (c.CreateRenderTarget env).1.failed = false ∧
    (c.CreateRenderTarget env).2.m_Target = true ∧
    (c.CreateRenderTarget env).2.m_W = c.m_W ∧
    (c.CreateRenderTarget env).2.m_H = c.m_H ∧
    (c.CreateRenderTarget env).2.m_MaxBitmapSize = env.maxBitmapSize ∧
    (c.CreateRenderTarget env).2.calls =
      c.calls ++ env.contextCalls ++ [.getMaximumBitmapSize] := by
  cases hd : env.d2dDevice <;> cases h1 : env.createContextMT.failed <;>
    cases h2 : env.createContext.failed <;>
    simp_all [Canvas.CreateRenderTarget, Canvas.call, DrawEnv.canCreateTarget,
      DrawEnv.contextCalls]

/-- `Resize` spelled out: the size is capped, the swap chain is asked for that size and
the target bitmap is rebuilt as far as the platform allows. -/
theorem Canvas.Resize_facts (env : DrawEnv) (w h : Int) (c : Canvas) :
    (c.Resize env w h).m_Target = c.m_Target ∧
    (c.Resize env w h).m_W = min w c.m_MaxBitmapSize ∧
    (c.Resize env w h).m_H = min h c.m_MaxBitmapSize ∧
    (c.Resize env w h).calls =
      c.calls ++ [.setTarget false,
        .resizeBuffers (min w c.m_MaxBitmapSize) (min h c.m_MaxBitmapSize)] ++
        env.bitmapCalls := by
  have hmin : ∀ a : Int, (if a > (c.m_MaxBitmapSize : Int) then (c.m_MaxBitmapSize : Int)
      else a) = min a c.m_MaxBitmapSize := by
    intro a
    rcases le_or_lt a (c.m_MaxBitmapSize : Int) with hh | hh
    · rw [if_neg (not_lt.mpr hh), min_eq_left hh]
    · rw [if_pos hh, min_eq_right hh.le]
  cases h3 : env.resizeBuffers.failed <;> cases h4 : env.getBuffer.failed <;>
    cases h5 : env.createBitmap.failed <;>
    simp [Canvas.Resize, Canvas.CreateTargetBitmap, Canvas.call, DrawEnv.bitmapCalls, hmin,
      h3, h4, h5]

/-- `BeginDraw` on a canvas without target, when no render target can be created. -/
theorem Canvas.BeginDraw_recreate_fail (env : DrawEnv) (c : Canvas)
    (ht : c.m_Target = false) (h : env.canCreateTarget = false) :
    (c.BeginDraw env).1 = false ∧ (c.BeginDraw env).2.m_IsDrawing = false ∧
    (c.BeginDraw env).2.m_Target = false ∧
    (∃ l, (c.BeginDraw env).2.calls = c.calls ++ l ∧ DeviceCall.targetBeginDraw ∉ l) := by
  obtain ⟨hf, ht2, hl⟩ := Canvas.CreateRenderTarget_fail env c h ht
  simp only [Canvas.BeginDraw, ht, Bool.not_false, if_true, hf]
  exact ⟨trivial, trivial, ht2, hl⟩

/-- `BeginDraw` on a canvas without target, when a render target can be created. -/
theorem Canvas.BeginDraw_recreate_ok (env : DrawEnv) (c : Canvas)
    (ht : c.m_Target = false) (h : env.canCreateTarget = true) :
    (c.BeginDraw env).1 = true ∧ (c.BeginDraw env).2.m_IsDrawing = true ∧
    (c.BeginDraw env).2.m_Target = true ∧
    (c.BeginDraw env).2.m_W = min c.m_W env.maxBitmapSize ∧
    (c.BeginDraw env).2.m_H = min c.m_H env.maxBitmapSize ∧
    (c.BeginDraw env).2.calls =
      c.calls ++ env.contextCalls ++
        [.getMaximumBitmapSize, .setTarget false,
          .resizeBuffers (min c.m_W env.maxBitmapSize) (min c.m_H env.maxBitmapSize)] ++
        env.bitmapCalls ++ [.targetBeginDraw] := by
  obtain ⟨hf, h1, h2, h3, h4, h5⟩ := Canvas.CreateRenderTarget_ok env c h
  obtain ⟨r1, r2, r3, r4⟩ := Canvas.Resize_facts env c.m_W c.m_H (c.CreateRenderTarget env).2
  simp only [Canvas.BeginDraw, ht, Bool.not_false, if_true, hf, Bool.false_eq_true, if_false,
    Canvas.call, h2, h3]
  rw [h4] at r2 r3 r4
  rw [h5] at r4
  refine ⟨trivial, trivial, r1.trans h1, r2, r3, ?_⟩
  simp only [r4, List.append_assoc, List.cons_append, List.nil_append]

/-- `BeginDraw` on a canvas that holds a target: one call, nothing created. -/
theorem Canvas.BeginDraw_keep (env : DrawEnv) (c : Canvas) (ht : c.m_Target = true) :
    (c.BeginDraw env).1 = true ∧ (c.BeginDraw env).2.m_IsDrawing = true ∧
    (c.BeginDraw env).2.m_Target = true ∧
    (c.BeginDraw env).2.m_TargetBitmap = c.m_TargetBitmap ∧
    (c.BeginDraw env).2.calls = c.calls ++ [.targetBeginDraw] := by
  simp [Canvas.BeginDraw, Canvas.call, ht]

/-- `Resize` leaves a target bitmap exactly when `ResizeBuffers`, `GetBuffer` and
`CreateBitmapFromDxgiSurface` all succeed. -/
theorem Canvas.Resize_bitmap (env : DrawEnv) (w h : Int) (c : Canvas) :
    (c.Resize env w h).m_TargetBitmap =
      (!env.resizeBuffers.failed && !env.getBuffer.failed && !env.createBitmap.failed) ∧
    (c.Resize env w h).m_TargetBitmap =
      decide (env.bitmapCalls = [.getBuffer, .createBitmapFromDxgiSurface, .setTarget true]) := by
  cases h3 : env.resizeBuffers.failed <;> cases h4 : env.getBuffer.failed <;>
    cases h5 : env.createBitmap.failed <;>
    simp [Canvas.Resize, Canvas.CreateTargetBitmap, Canvas.call, DrawEnv.bitmapCalls,
      h3, h4, h5]

/-- `BeginDraw` on a canvas without target, when a render target can be created: whether a
target bitmap exists when the session starts. -/
theorem Canvas.BeginDraw_recreate_bitmap (env : DrawEnv) (c : Canvas)
    (ht : c.m_Target = false) (h : env.canCreateTarget = true) :
    (c.BeginDraw env).2.m_TargetBitmap =
      (!env.resizeBuffers.failed && !env.getBuffer.failed && !env.createBitmap.failed) ∧
    (c.BeginDraw env).2.m_TargetBitmap =
      decide (env.bitmapCalls = [.getBuffer, .createBitmapFromDxgiSurface, .setTarget true]) := by
  obtain ⟨hf, -⟩ := Canvas.CreateRenderTarget_ok env c h
  obtain ⟨r1, r2⟩ := Canvas.Resize_bitmap env (c.CreateRenderTarget env).2.m_W
    (c.CreateRenderTarget env).2.m_H (c.CreateRenderTarget env).2
  simp only [Canvas.BeginDraw, ht, Bool.not_false, if_true, hf, Bool.false_eq_true, if_false,
    Canvas.call]
  exact ⟨r1, r2⟩

/-- C17 (the claim fails): after a failed `EndDraw` on a 200 by 100 canvas, the next
`BeginDraw` on a platform where `ResizeBuffers` fails creates a render target, rebuilds no
target bitmap, and still starts the session and returns true; and on a platform whose new
target reports a maximum bitmap size of 128 the buffers and the bitmap are rebuilt 128
wide, not at the stored width of 200. -/
theorem C17_session_starts_without_bitmap :
    (Canvas.ready.EndDraw DrawEnv.lost).m_Target = false ∧
    ((Canvas.ready.EndDraw DrawEnv.lost).BeginDraw DrawEnv.noBuffers).1 = true ∧
    ((Canvas.ready.EndDraw DrawEnv.lost).BeginDraw DrawEnv.noBuffers).2.m_IsDrawing = true ∧
    ((Canvas.ready.EndDraw DrawEnv.lost).BeginDraw DrawEnv.noBuffers).2.m_Target = true ∧
    ((Canvas.ready.EndDraw DrawEnv.lost).BeginDraw DrawEnv.noBuffers).2.m_TargetBitmap = false ∧
    ((Canvas.ready.EndDraw DrawEnv.lost).BeginDraw DrawEnv.noBuffers).2.calls =
      [.targetEndDraw, .clearResources, .createDeviceContext true, .getMaximumBitmapSize,
        .setTarget false, .resizeBuffers 200 100, .targetBeginDraw] ∧
    ((Canvas.ready.EndDraw DrawEnv.lost).BeginDraw DrawEnv.smallTarget).2.m_TargetBitmap = true ∧
    ((Canvas.ready.EndDraw DrawEnv.lost).BeginDraw DrawEnv.smallTarget).2.m_W = 128 ∧
    ((Canvas.ready.EndDraw DrawEnv.lost).BeginDraw DrawEnv.smallTarget).2.calls =
      [.targetEndDraw, .clearResources, .createDeviceContext true, .getMaximumBitmapSize,
        .setTarget false, .resizeBuffers 128 100, .getBuffer, .createBitmapFromDxgiSurface,
        .setTarget true, .targetBeginDraw] := by
  decide

/-- C17 (amended): `EndDraw` always leaves the canvas not drawing, and keeps the target
exactly when the device reports success. After a failed `EndDraw` the next `BeginDraw`
either fails to create a render target (returns false, not drawing, no target, no session
started), or creates one, asks the swap chain for buffers of the stored size capped by the
new target's maximum bitmap size, and then starts the session and returns true; the target
bitmap exists at that point exactly when `ResizeBuffers`, `GetBuffer` and
`CreateBitmapFromDxgiSurface` all succeeded, which is exactly when the three calls that
rebuild it were all made, after the resize and before the session starts. After a
successful `EndDraw` on an existing target the next `BeginDraw` makes the single call that
starts the session and keeps the target bitmap. -/
theorem C17_enddraw_failure_recreates_target (env next : DrawEnv) (c : Canvas) :
    (c.EndDraw env).m_IsDrawing = false ∧
    (c.EndDraw env).m_Target = (if env.endDraw.failed then false else c.m_Target) ∧
    (if env.endDraw.failed then
      (if next.canCreateTarget then
        ((c.EndDraw env).BeginDraw next).1 = true ∧
        ((c.EndDraw env).BeginDraw next).2.m_IsDrawing = true ∧
        ((c.EndDraw env).BeginDraw next).2.m_Target = true ∧
        ((c.EndDraw env).BeginDraw next).2.m_TargetBitmap =
          (!next.resizeBuffers.failed && !next.getBuffer.failed && !next.createBitmap.failed) ∧
        ((c.EndDraw env).BeginDraw next).2.m_TargetBitmap =
          decide (next.bitmapCalls =
            [.getBuffer, .createBitmapFromDxgiSurface, .setTarget true]) ∧
        ((c.EndDraw env).BeginDraw next).2.m_W = min c.m_W next.maxBitmapSize ∧
        ((c.EndDraw env).BeginDraw next).2.m_H = min c.m_H next.maxBitmapSize ∧
        ((c.EndDraw env).BeginDraw next).2.calls =
          c.calls ++ [.targetEndDraw] ++ next.contextCalls ++
            [.getMaximumBitmapSize, .setTarget false,
              .resizeBuffers (min c.m_W next.maxBitmapSize) (min c.m_H next.maxBitmapSize)] ++
            next.bitmapCalls ++ [.targetBeginDraw]
      else
        ((c.EndDraw env).BeginDraw next).1 = false ∧
        ((c.EndDraw env).BeginDraw next).2.m_IsDrawing = false ∧
        ((c.EndDraw env).BeginDraw next).2.m_Target = false ∧
        DeviceCall.targetBeginDraw ∉
          ((c.EndDraw env).BeginDraw next).2.calls.drop (c.calls.length + 1))
    else
      (if c.m_Target then
        ((c.EndDraw env).BeginDraw next).1 = true ∧
        ((c.EndDraw env).BeginDraw next).2.m_IsDrawing = true ∧
        ((c.EndDraw env).BeginDraw next).2.m_Target = true ∧
        ((c.EndDraw env).BeginDraw next).2.m_TargetBitmap = c.m_TargetBitmap ∧
        ((c.EndDraw env).BeginDraw next).2.calls = c.calls ++ [.targetEndDraw, .targetBeginDraw]
      else True)) := by
  obtain ⟨e1, e2, e3, e4, e5, e6⟩ := Canvas.EndDraw_facts env c
  refine ⟨e1, e2, ?_⟩
  cases he : env.endDraw.failed
  · rw [he] at e2
    simp only [Bool.false_eq_true, if_false] at e2 ⊢
    cases ht : c.m_Target
    · simp
    · rw [ht] at e2
      obtain ⟨k1, k2, k3, k4, k5⟩ := Canvas.BeginDraw_keep next (c.EndDraw env) e2
      simp only [if_true]
      refine ⟨k1, k2, k3, k4.trans e3, ?_⟩
      rw [k5, e6]
      simp
  · rw [he] at e2
    simp only [if_true] at e2 ⊢
    cases hc : next.canCreateTarget
    · obtain ⟨k1, k2, k3, l, hl, hnot⟩ := Canvas.BeginDraw_recreate_fail next (c.EndDraw env) e2 hc
      simp only [Bool.false_eq_true, if_false]
      refine ⟨k1, k2, k3, ?_⟩
      rw [hl, e6, show c.calls.length + 1 = (c.calls ++ [DeviceCall.targetEndDraw]).length by simp,
        List.drop_left]
      exact hnot
    · obtain ⟨k1, k2, k3, k4, k5, k6⟩ := Canvas.BeginDraw_recreate_ok next (c.EndDraw env) e2 hc
      obtain ⟨b1, b2⟩ := Canvas.BeginDraw_recreate_bitmap next (c.EndDraw env) e2 hc
      simp only [if_true]
      rw [e4] at k4 k6
      rw [e5] at k5 k6
      rw [e6] at k6
      exact ⟨k1, k2, k3, b1, b2, k4, k5, k6⟩

end Gfx

/-! ### The update tick -/

namespace Skin

theorem ExtendsBy.refl (P : Call → Prop) (s : Skin) : ExtendsBy P s s :=
  ⟨[], by simp, by simp⟩

theorem ExtendsBy.trans {P : Call → Prop} {a b c : Skin} (h1 : ExtendsBy P a b)
    (h2 : ExtendsBy P b c) : ExtendsBy P a c := by
  obtain ⟨l1, e1, p1⟩ := h1
  obtain ⟨l2, e2, p2⟩ := h2
  refine ⟨l1 ++ l2, by rw [e2, e1, List.append_assoc], ?_⟩
  intro x hx
  rcases List.mem_append.mp hx with h | h
  · exact p1 x h
  · exact p2 x h

theorem ExtendsBy.call {P : Call → Prop} (s : Skin) (c : Call) (h : P c) :
    ExtendsBy P s (s.call c) :=
  ⟨[c], rfl, by simpa using h⟩

theorem ExtendsBy.calls {P : Call → Prop} (s s' : Skin) (l : List Call)
    (e : s'.calls = s.calls ++ l) (h : ∀ c ∈ l, P c) : ExtendsBy P s s' :=
  ⟨l, e, h⟩

/-- The calls made by `UpdateMeasure` on one measure. -/
theorem UpdateMeasure_calls (m : Measure) (force : Bool) :
    (∀ c ∈ (UpdateMeasure m force).2.2, c.isMeterWork = false) ∧
    (UpdateMeasure m force).2.2.filterMap Call.measureName? =
      (if decide (m.updateDivider ≥ 0) || force then [m.name] else []) ∧
    (UpdateMeasure m force).2.1.name = m.name ∧
    (UpdateMeasure m force).2.1.updateDivider = m.updateDivider := by
  cases force <;> by_cases h : m.updateDivider ≥ 0 <;>
    cases hd : m.dynamicVariables <;>
    simp [UpdateMeasure, Measure.Update, Measure.ResetUpdateCounter, h, hd, Call.isMeterWork,
      Call.measureName?] <;>
    (try (intro c hc; aesop))

/-- `UpdateMeasure` itself makes no `DoChangeAction` call. -/
theorem UpdateMeasure_changed (m : Measure) (force : Bool) :
    (UpdateMeasure m force).2.2.filterMap Call.changedName? = [] := by
  cases force <;> by_cases h : m.updateDivider ≥ 0 <;>
    cases hd : m.dynamicVariables <;>
    simp [UpdateMeasure, Measure.Update, Measure.ResetUpdateCounter, h, hd,
      Call.changedName?]

@[simp] theorem call_calls (s : Skin) (c : Call) : (s.call c).calls = s.calls ++ [c] := rfl
@[simp] theorem call_m_Meters (s : Skin) (c : Call) : (s.call c).m_Meters = s.m_Meters := rfl
@[simp] theorem call_m_Measures (s : Skin) (c : Call) :
    (s.call c).m_Measures = s.m_Measures := rfl
@[simp] theorem ExecuteCommand_inert (command : String) (sec : Option String) (s : Skin) :
    s.ExecuteCommand Interp.inert command sec = s.call (.executeCommand command sec) := rfl

theorem ExtendsBy.mono {P Q : Call → Prop} {a b : Skin} (h : ∀ c, P c → Q c)
    (e : ExtendsBy P a b) : ExtendsBy Q a b := by
  obtain ⟨l, e1, p1⟩ := e
  exact ⟨l, e1, fun c hc => h c (p1 c hc)⟩

/-- A command adds its own call and the calls the interpreter makes for it. -/
theorem ExecuteCommand_extends {P : Call → Prop} (ex : Interp)
    (hex : ∀ command sec s, ExtendsBy P s (ex command sec s))
    (command : String) (sec : Option String) (s : Skin)
    (hc : P (.executeCommand command sec)) :
    ExtendsBy P s (s.ExecuteCommand ex command sec) :=
  (ExtendsBy.call s _ hc).trans (hex _ _ _)

theorem filterMap_none {f : Call → Option String} {l : List Call}
    (h : ∀ c ∈ l, f c = none) : l.filterMap f = [] := by
  induction l with
  | nil => rfl
  | cons a l ih =>
    rw [List.filterMap_cons, h a (List.mem_cons_self _ _)]
    exact ih (fun c hc => h c (List.mem_cons_of_mem _ hc))

theorem filterMap_single (f : Call → Option String) (c : Call) :
    [c].filterMap f = (f c).toList := by
  cases h : f c <;> simp [List.filterMap_cons, h]

/-- One iteration of the measure loop: the calls it adds satisfy `P` when the calls of the
commands and the loop's own calls do. -/
theorem measureStep_extends {P : Call → Prop} (ex : Interp)
    (hex : ∀ command sec s, ExtendsBy P s (ex command sec s))
    (hown : ∀ c : Call, c.isMeterWork = false → P c)
    (refresh : Bool) (i : Nat) (m : Measure) (s : Skin) :
    ExtendsBy P s (measureStep ex refresh i m s) := by
  obtain ⟨hc1, -, -, -⟩ := UpdateMeasure_calls m refresh
  have h0 : ExtendsBy P s ({ s with
      m_Measures := s.m_Measures.set i (UpdateMeasure m refresh).2.1
      calls := s.calls ++ (UpdateMeasure m refresh).2.2 } : Skin) :=
    ⟨_, rfl, fun c hc => hown c (hc1 c hc)⟩
  cases hb : (UpdateMeasure m refresh).1
  · simpa [measureStep, hb] using h0
  · by_cases ha : (UpdateMeasure m refresh).2.1.onUpdateAction = ""
    · have := h0.trans (ExtendsBy.call _ (.measureChangeAction (UpdateMeasure m refresh).2.1.name)
        (hown _ rfl))
      simpa [measureStep, hb, ha] using this
    · have := (h0.trans (ExecuteCommand_extends ex hex
        (UpdateMeasure m refresh).2.1.onUpdateAction (some (UpdateMeasure m refresh).2.1.name) _
        (hown _ rfl))).trans
        (ExtendsBy.call _ (.measureChangeAction (UpdateMeasure m refresh).2.1.name) (hown _ rfl))
      simpa [measureStep, hb, ha] using this

/-- The measure loop: the calls it adds satisfy `P` when the calls of the commands and
the loop's own calls do. -/
theorem updateMeasures_extends {P : Call → Prop} (ex : Interp)
    (hex : ∀ command sec s, ExtendsBy P s (ex command sec s))
    (hown : ∀ c : Call, c.isMeterWork = false → P c)
    (refresh : Bool) (fuel i : Nat) (s : Skin) :
    ExtendsBy P s (updateMeasures ex refresh fuel i s) := by
  induction fuel generalizing i s with
  | zero => exact ExtendsBy.refl _ _
  | succ fuel ih =>
    rw [updateMeasures]
    cases hg : s.m_Measures.get? i with
    | none => exact ExtendsBy.refl _ _
    | some m => exact (measureStep_extends ex hex hown refresh i m s).trans (ih _ _)

/-- The first part of the tick: the calls it adds satisfy `P` when the calls of the
commands and the calls that are no meter work do. -/
theorem updateMeasurePhase_extends {P : Call → Prop} (ex : Interp)
    (hex : ∀ command sec s, ExtendsBy P s (ex command sec s))
    (hown : ∀ c : Call, c.isMeterWork = false → P c)
    (refresh : Bool) (s : Skin) :
    ExtendsBy P s (s.updateMeasurePhase ex refresh) := by
  have h0 : ExtendsBy P s ({ s with m_UpdateCounter := s.m_UpdateCounter + 1 } : Skin) :=
    ⟨[], by simp, by simp⟩
  unfold updateMeasurePhase
  simp only []
  split_ifs
  · exact (h0.trans (ExtendsBy.call _ Call.netUpdate (hown _ rfl))).trans
      (updateMeasures_extends ex hex hown refresh _ _ _)
  · exact h0.trans (updateMeasures_extends ex hex hown refresh _ _ _)
  · exact h0

/-- One iteration of the measure loop: what it adds to the calls selected by `f`, when
`f` selects no call of a command. -/
theorem measureStep_filterMap (ex : Interp) (f : Call → Option String)
    (hex : ∀ command sec s, ExtendsBy (fun c => f c = none) s (ex command sec s))
    (hcmd : ∀ command sec, f (.executeCommand command sec) = none)
    (refresh : Bool) (i : Nat) (m : Measure) (s : Skin) :
    ∃ l, (measureStep ex refresh i m s).calls = s.calls ++ l ∧
      l.filterMap f = (UpdateMeasure m refresh).2.2.filterMap f ++
        (if (UpdateMeasure m refresh).1 then
          (f (.measureChangeAction (UpdateMeasure m refresh).2.1.name)).toList else []) := by
  cases hb : (UpdateMeasure m refresh).1
  · exact ⟨(UpdateMeasure m refresh).2.2, by simp [measureStep, hb], by simp⟩
  · by_cases ha : (UpdateMeasure m refresh).2.1.onUpdateAction = ""
    · refine ⟨(UpdateMeasure m refresh).2.2 ++
          [.measureChangeAction (UpdateMeasure m refresh).2.1.name], ?_, ?_⟩
      · simp [measureStep, hb, ha]
      · rw [List.filterMap_append, filterMap_single]; rfl
    · obtain ⟨lx, e1, e2⟩ := hex (UpdateMeasure m refresh).2.1.onUpdateAction
        (some (UpdateMeasure m refresh).2.1.name)
        (({ s with
            m_Measures := s.m_Measures.set i (UpdateMeasure m refresh).2.1
            calls := s.calls ++ (UpdateMeasure m refresh).2.2 } : Skin).call
          (.executeCommand (UpdateMeasure m refresh).2.1.onUpdateAction
            (some (UpdateMeasure m refresh).2.1.name)))
      refine ⟨(UpdateMeasure m refresh).2.2 ++
          ([.executeCommand (UpdateMeasure m refresh).2.1.onUpdateAction
              (some (UpdateMeasure m refresh).2.1.name)] ++ lx ++
            [.measureChangeAction (UpdateMeasure m refresh).2.1.name]), ?_, ?_⟩
      · simp only [measureStep, hb, ha, ne_eq, not_false_eq_true, if_true, ExecuteCommand,
          call_calls, e1]
        simp [List.append_assoc]
      · rw [List.filterMap_append, List.filterMap_append, List.filterMap_append,
          filterMap_single, filterMap_single, hcmd, filterMap_none e2]
        simp

/-- One iteration of the measure loop replaces the measure it visits, when the commands
leave the measures as they are. -/
theorem measureStep_measures (ex : Interp)
    (hkeep : ∀ command sec s, (ex command sec s).m_Measures = s.m_Measures)
    (refresh : Bool) (i : Nat) (m : Measure) (s : Skin) :
    (measureStep ex refresh i m s).m_Measures =
      s.m_Measures.set i (UpdateMeasure m refresh).2.1 := by
  cases hb : (UpdateMeasure m refresh).1
  · simp [measureStep, hb]
  · by_cases ha : (UpdateMeasure m refresh).2.1.onUpdateAction = ""
    · simp [measureStep, hb, ha]
    · simp [measureStep, hb, ha, ExecuteCommand, hkeep]

/-- The measure loop from index `i` on, when the commands leave the measures as they are
and `f` selects none of their calls: every measure from `i` on is replaced by what
`UpdateMeasure` makes of it, and the calls selected by `f` are those of the measures
in list order. -/
theorem updateMeasures_filterMap (ex : Interp) (f : Call → Option String)
    (hex : ∀ command sec s, ExtendsBy (fun c => f c = none) s (ex command sec s))
    (hcmd : ∀ command sec, f (.executeCommand command sec) = none)
    (hkeep : ∀ command sec s, (ex command sec s).m_Measures = s.m_Measures)
    (refresh : Bool) (fuel i : Nat) (s : Skin) (hf : s.m_Measures.length ≤ i + fuel) :
    (updateMeasures ex refresh fuel i s).m_Measures =
      s.m_Measures.take i ++ (s.m_Measures.drop i).map (fun m => (UpdateMeasure m refresh).2.1) ∧
    ∃ l, (updateMeasures ex refresh fuel i s).calls = s.calls ++ l ∧
      l.filterMap f = (s.m_Measures.drop i).flatMap (fun m =>
        (UpdateMeasure m refresh).2.2.filterMap f ++
          (if (UpdateMeasure m refresh).1 then
            (f (.measureChangeAction (UpdateMeasure m refresh).2.1.name)).toList else [])) := by
  induction fuel generalizing i s with
  | zero =>
    have h0 : s.m_Measures.drop i = [] := List.drop_eq_nil_of_le (by omega)
    refine ⟨?_, [], by simp [updateMeasures], by simp [h0]⟩
    simp [updateMeasures, h0, List.take_of_length_le (show s.m_Measures.length ≤ i by omega)]
  | succ fuel ih =>
    rw [updateMeasures]
    cases hg : s.m_Measures.get? i with
    | none =>
      have hle : s.m_Measures.length ≤ i := List.get?_eq_none.mp hg
      have h0 : s.m_Measures.drop i = [] := List.drop_eq_nil_of_le hle
      refine ⟨?_, [], by simp, by simp [h0]⟩
      simp [h0, List.take_of_length_le hle]
    | some m =>
      have hlt : i < s.m_Measures.length := by
        by_contra hcon
        rw [List.get?_eq_none.mpr (not_lt.mp hcon)] at hg
        exact Option.noConfusion hg
      have hm : s.m_Measures[i] = m := by
        rw [List.get?_eq_getElem?, List.getElem?_eq_getElem hlt] at hg
        exact Option.some.inj hg
      have hdrop : s.m_Measures.drop i = m :: s.m_Measures.drop (i + 1) := by
        rw [← hm]
        exact List.drop_eq_getElem_cons hlt
      have k5 := measureStep_measures ex hkeep refresh i m s
      obtain ⟨l0, k1, k3⟩ := measureStep_filterMap ex f hex hcmd refresh i m s
      obtain ⟨e0, l, e1, e3⟩ := ih (i + 1) (measureStep ex refresh i m s)
        (by rw [k5, List.length_set]; omega)
      have hdrop2 : (measureStep ex refresh i m s).m_Measures.drop (i + 1) =
          s.m_Measures.drop (i + 1) := by
        rw [k5, List.drop_set_of_lt _ _ (Nat.lt_succ_self i)]
      have htake2 : (measureStep ex refresh i m s).m_Measures.take (i + 1) =
          s.m_Measures.take i ++ [(UpdateMeasure m refresh).2.1] := by
        rw [k5, List.set_eq_take_append_cons_drop, if_pos hlt, List.take_append_eq_append_take]
        simp [List.take_take, List.length_take, Nat.min_eq_left (Nat.le_of_lt hlt)]
      refine ⟨?_, l0 ++ l, ?_, ?_⟩
      · rw [e0, hdrop2, htake2, hdrop]
        simp
      · simp only [e1, k1, List.append_assoc]
      · rw [List.filterMap_append, k3, e3, hdrop2, hdrop, List.flatMap_cons]

/-- The calls made by `UpdateMeter` on one meter are no measure work. -/
theorem UpdateMeter_calls (m : Meter) (bActive force : Bool) :
    ∀ c ∈ (UpdateMeter m bActive force).2.2.2, c.isMeasureWork = false := by
  intro c hc
  unfold UpdateMeter at hc
  simp only [Meter.Update] at hc
  split_ifs at hc <;> simp at hc <;> aesop

/-- One iteration of the meter loop: the calls it adds satisfy `P` when the calls of the
commands and the calls that are no measure work do. -/
theorem meterStep_extends {P : Call → Prop} (ex : Interp)
    (hex : ∀ command sec s, ExtendsBy P s (ex command sec s))
    (hown : ∀ c : Call, c.isMeasureWork = false → P c)
    (refresh : Bool) (i : Nat) (m : Meter) (bA bU : Bool) (s : Skin) :
    ExtendsBy P s (meterStep ex refresh i m bA bU s).1 := by
  have hc := UpdateMeter_calls m bA refresh
  have h0 : ExtendsBy P s ({ s with
      m_Meters := s.m_Meters.set i (UpdateMeter m bA refresh).2.1
      calls := s.calls ++ (UpdateMeter m bA refresh).2.2.2 } : Skin) :=
    ⟨_, rfl, fun c h => hown c (hc c h)⟩
  cases hb : (UpdateMeter m bA refresh).1
  · simpa [meterStep, hb] using h0
  · by_cases ha : (UpdateMeter m bA refresh).2.1.onUpdateAction = ""
    · simpa [meterStep, hb, ha] using h0
    · have := h0.trans (ExecuteCommand_extends ex hex
        (UpdateMeter m bA refresh).2.1.onUpdateAction (some (UpdateMeter m bA refresh).2.1.name) _
        (hown _ rfl))
      simpa [meterStep, hb, ha] using this

/-- One iteration of the meter loop leaves the measures as they are when the commands do. -/
theorem meterStep_measures (ex : Interp)
    (hkeep : ∀ command sec s, (ex command sec s).m_Measures = s.m_Measures)
    (refresh : Bool) (i : Nat) (m : Meter) (bA bU : Bool) (s : Skin) :
    (meterStep ex refresh i m bA bU s).1.m_Measures = s.m_Measures := by
  cases hb : (UpdateMeter m bA refresh).1
  · simp [meterStep, hb]
  · by_cases ha : (UpdateMeter m bA refresh).2.1.onUpdateAction = ""
    · simp [meterStep, hb, ha]
    · simp [meterStep, hb, ha, ExecuteCommand, hkeep]

/-- The meter loop: the calls it adds satisfy `P` when the calls of the commands and the
calls that are no measure work do. -/
theorem updateMeters_extends {P : Call → Prop} (ex : Interp)
    (hex : ∀ command sec s, ExtendsBy P s (ex command sec s))
    (hown : ∀ c : Call, c.isMeasureWork = false → P c)
    (refresh : Bool) (fuel i : Nat) (bA bU : Bool) (s : Skin) :
    ExtendsBy P s (updateMeters ex refresh fuel i bA bU s).1 := by
  induction fuel generalizing i bA bU s with
  | zero => exact ExtendsBy.refl _ _
  | succ fuel ih =>
    rw [updateMeters]
    cases hg : s.m_Meters.get? i with
    | none => exact ExtendsBy.refl _ _
    | some m => exact (meterStep_extends ex hex hown refresh i m bA bU s).trans (ih _ _ _ _)

/-- The meter loop leaves the measures as they are when the commands do. -/
theorem updateMeters_measures (ex : Interp)
    (hkeep : ∀ command sec s, (ex command sec s).m_Measures = s.m_Measures)
    (refresh : Bool) (fuel i : Nat) (bA bU : Bool) (s : Skin) :
    (updateMeters ex refresh fuel i bA bU s).1.m_Measures = s.m_Measures := by
  induction fuel generalizing i bA bU s with
  | zero => rfl
  | succ fuel ih =>
    rw [updateMeters]
    cases hg : s.m_Meters.get? i with
    | none => rfl
    | some m => exact (ih _ _ _ _).trans (meterStep_measures ex hkeep refresh i m bA bU s)

/-- `Redraw` adds the resize and paint calls and leaves the measures as they are. -/
theorem Redraw_extends {P : Call → Prop} (h1 : ∀ b, P (.resizeWindow b)) (h2 : P .paint)
    (s : Skin) : ExtendsBy P s s.Redraw ∧ s.Redraw.m_Measures = s.m_Measures := by
  unfold Redraw
  split_ifs
  · refine ⟨⟨[.resizeWindow (s.m_ResizeWindow == .RESIZEMODE_RESET), .paint],
      by simp [SetResizeWindowMode], ?_⟩, by simp [SetResizeWindowMode]⟩
    intro c hc
    simp at hc
    rcases hc with rfl | rfl
    · exact h1 _
    · exact h2
  · exact ⟨ExtendsBy.call _ _ h2, rfl⟩

/-- `PostUpdate` makes no measure work and leaves the measures as they are. -/
theorem PostUpdate_extends {P : Call → Prop} (hown : ∀ c : Call, c.isMeasureWork = false → P c)
    (s : Skin) (b : Bool) :
    ExtendsBy P s (s.PostUpdate b) ∧ (s.PostUpdate b).m_Measures = s.m_Measures := by
  unfold PostUpdate
  split_ifs
  · refine ⟨⟨[.setTimer .TIMER_TRANSITION s.m_TransitionUpdate], by simp [SetTimer], ?_⟩,
      by simp [SetTimer]⟩
    intro c hc
    simp at hc
    subst hc
    exact hown _ rfl
  · refine ⟨⟨[.killTimer .TIMER_TRANSITION], by simp [KillTimer], ?_⟩, by simp [KillTimer]⟩
    intro c hc
    simp at hc
    subst hc
    exact hown _ rfl
  · exact ⟨ExtendsBy.refl _ _, rfl⟩

/-- The second part of the tick: the calls it adds satisfy `P` when the calls of the
commands and the calls that are no measure work do. -/
theorem updateMeterPhase_extends {P : Call → Prop} (ex : Interp)
    (hex : ∀ command sec s, ExtendsBy P s (ex command sec s))
    (hown : ∀ c : Call, c.isMeasureWork = false → P c)
    (redrawable refresh : Bool) (s : Skin) :
    ExtendsBy P s (s.updateMeterPhase ex redrawable refresh) := by
  unfold updateMeterPhase
  simp only []
  have h1 : ExtendsBy P s (s.call .dialogAboutUpdateMeasures) := ExtendsBy.call _ _ (hown _ rfl)
  have h2 := updateMeters_extends ex hex hown refresh
    (s.call .dialogAboutUpdateMeasures).m_Meters.length 0
    false false (s.call .dialogAboutUpdateMeasures)
  generalize updateMeters ex refresh (s.call .dialogAboutUpdateMeasures).m_Meters.length
    0 false false (s.call .dialogAboutUpdateMeasures) = r at h2 ⊢
  have h3 : ExtendsBy P r.1 (r.1.call .updateRelativeMeters) := ExtendsBy.call _ _ (hown _ rfl)
  have h123 := (h1.trans h2).trans h3
  generalize r.1.call .updateRelativeMeters = s3 at h123 ⊢
  have h4 : ExtendsBy P s3
      (if r.2.2 || s3.m_ResizeWindow ≠ .RESIZEMODE_NONE || refresh then
        (if redrawable then
          (if s3.m_DynamicWindowSize then s3.SetResizeWindowMode .RESIZEMODE_CHECK
            else s3).Redraw
        else (if s3.m_DynamicWindowSize then s3.SetResizeWindowMode .RESIZEMODE_CHECK else s3))
      else s3) := by
    split_ifs
    all_goals first
      | exact ExtendsBy.refl _ _
      | exact (⟨[], by simp [SetResizeWindowMode], by simp⟩ : ExtendsBy _ _ _).trans
          (Redraw_extends (fun _ => hown _ rfl) (hown _ rfl) _).1
      | exact (Redraw_extends (fun _ => hown _ rfl) (hown _ rfl) _).1
      | exact ⟨[], by simp [SetResizeWindowMode], by simp⟩
  have h1234 := h123.trans h4
  generalize (if r.2.2 || s3.m_ResizeWindow ≠ .RESIZEMODE_NONE || refresh then
        (if redrawable then
          (if s3.m_DynamicWindowSize then s3.SetResizeWindowMode .RESIZEMODE_CHECK
            else s3).Redraw
        else (if s3.m_DynamicWindowSize then s3.SetResizeWindowMode .RESIZEMODE_CHECK else s3))
      else s3) = s4 at h1234 ⊢
  have h5 := h1234.trans (PostUpdate_extends hown s4 r.2.1).1
  split_ifs
  · exact h5.trans (ExecuteCommand_extends ex hex _ _ _ (hown _ rfl))
  · exact h5

/-- The second part of the tick leaves the measures as they are when the commands do. -/
theorem updateMeterPhase_measures (ex : Interp)
    (hkeep : ∀ command sec s, (ex command sec s).m_Measures = s.m_Measures)
    (redrawable refresh : Bool) (s : Skin) :
    (s.updateMeterPhase ex redrawable refresh).m_Measures = s.m_Measures := by
  have hT : ∀ c : Call, c.isMeasureWork = false → True := fun _ _ => trivial
  unfold updateMeterPhase
  simp only []
  have h2 := updateMeters_measures ex hkeep refresh
    (s.call .dialogAboutUpdateMeasures).m_Meters.length 0
    false false (s.call .dialogAboutUpdateMeasures)
  generalize updateMeters ex refresh (s.call .dialogAboutUpdateMeasures).m_Meters.length
    0 false false (s.call .dialogAboutUpdateMeasures) = r at h2 ⊢
  rw [call_m_Measures] at h2
  have h3 : (r.1.call .updateRelativeMeters).m_Measures = s.m_Measures := h2
  generalize r.1.call .updateRelativeMeters = s3 at h3 ⊢
  have h4 : (if r.2.2 || s3.m_ResizeWindow ≠ .RESIZEMODE_NONE || refresh then
        (if redrawable then
          (if s3.m_DynamicWindowSize then s3.SetResizeWindowMode .RESIZEMODE_CHECK
            else s3).Redraw
        else (if s3.m_DynamicWindowSize then s3.SetResizeWindowMode .RESIZEMODE_CHECK else s3))
      else s3).m_Measures = s.m_Measures := by
    split_ifs
    all_goals first
      | exact h3
      | (rw [(Redraw_extends (P := fun _ => True) (fun _ => trivial) trivial _).2]; exact h3)
  generalize (if r.2.2 || s3.m_ResizeWindow ≠ .RESIZEMODE_NONE || refresh then
        (if redrawable then
          (if s3.m_DynamicWindowSize then s3.SetResizeWindowMode .RESIZEMODE_CHECK
            else s3).Redraw
        else (if s3.m_DynamicWindowSize then s3.SetResizeWindowMode .RESIZEMODE_CHECK else s3))
      else s3) = s4 at h4 ⊢
  have h5 : (s4.PostUpdate r.2.1).m_Measures = s.m_Measures :=
    (PostUpdate_extends hT s4 r.2.1).2.trans h4
  split_ifs
  · simp only [ExecuteCommand, hkeep, call_m_Measures]
    exact h5
  · exact h5

/-- `Update` is its first part followed by its second part. -/
theorem Update_eq_phases (ex : Interp) (redrawable refresh : Bool) (s : Skin) :
    s.Update ex redrawable refresh =
      (s.updateMeasurePhase ex refresh).updateMeterPhase ex redrawable refresh := rfl

/-- The first part of the tick, when the commands leave the measures as they are and `f`
selects none of their calls: every measure is replaced by what `UpdateMeasure` makes of
it, and the calls selected by `f` are those of the measures in list order. -/
theorem updateMeasurePhase_filterMap (ex : Interp) (f : Call → Option String)
    (hex : ∀ command sec s, ExtendsBy (fun c => f c = none) s (ex command sec s))
    (hcmd : ∀ command sec, f (.executeCommand command sec) = none)
    (hnet : f .netUpdate = none)
    (hkeep : ∀ command sec s, (ex command sec s).m_Measures = s.m_Measures)
    (refresh : Bool) (s : Skin) :
    (s.updateMeasurePhase ex refresh).m_Measures =
      s.m_Measures.map (fun m => (UpdateMeasure m refresh).2.1) ∧
    ∃ l, (s.updateMeasurePhase ex refresh).calls = s.calls ++ l ∧
      l.filterMap f = s.m_Measures.flatMap (fun m =>
        (UpdateMeasure m refresh).2.2.filterMap f ++
          (if (UpdateMeasure m refresh).1 then
            (f (.measureChangeAction (UpdateMeasure m refresh).2.1.name)).toList else [])) := by
  unfold updateMeasurePhase
  simp only []
  cases he : s.m_Measures.isEmpty
  · cases hn : s.m_HasNetMeasures
    · obtain ⟨e0, l, e1, e3⟩ := updateMeasures_filterMap ex f hex hcmd hkeep refresh
        s.m_Measures.length 0 { s with m_UpdateCounter := s.m_UpdateCounter + 1 } (by simp)
      refine ⟨by simpa [he, hn] using e0, l, by simpa [he, hn] using e1, by simpa using e3⟩
    · obtain ⟨e0, l, e1, e3⟩ := updateMeasures_filterMap ex f hex hcmd hkeep refresh
        s.m_Measures.length 0
        (({ s with m_UpdateCounter := s.m_UpdateCounter + 1 } : Skin).call .netUpdate) (by simp)
      refine ⟨by simpa [he, hn] using e0, Call.netUpdate :: l, by simpa [he, hn] using e1, ?_⟩
      rw [List.filterMap_cons, hnet]
      simpa using e3
  · have : s.m_Measures = [] := List.isEmpty_iff.mp he
    refine ⟨by simp [this], [], by simp, by simp [this]⟩

/-- The interpreter that runs `!Redraw` updates no section, leaves the measures as they
are and calls no measure. -/
theorem redrawing_facts :
    Interp.redrawing.updatesNoSection ∧ Interp.redrawing.keepsMeasures ∧
    Interp.redrawing.callsNoMeasure := by
  refine ⟨?_, ?_, ?_⟩
  · intro command sec s
    unfold Interp.redrawing
    split_ifs
    · exact (Redraw_extends (fun _ => ⟨rfl, rfl⟩) ⟨rfl, rfl⟩ s).1
    · exact ExtendsBy.refl _ _
  · intro command sec s
    unfold Interp.redrawing
    split_ifs
    · exact (Redraw_extends (P := fun _ => True) (fun _ => trivial) trivial s).2
    · rfl
  · intro command sec s
    unfold Interp.redrawing
    split_ifs
    · exact (Redraw_extends (P := fun c => c.isMeasureWork = false) (fun _ => rfl) rfl s).1
    · exact ExtendsBy.refl _ _

/-- C9 (the claim fails): the measure `M1` of the first skin has the update action
`!UpdateMeter A`, which the interpreter runs at once. In the calls of one tick the meter
`A` is updated (third call) before the measure `M2` (fifth call), so the calls of the
tick do not split into a part without meter work followed by a part without measure
updates. The meter `A` of the second skin has the update action `!UpdateMeasure M`: the
measure `M` is updated (sixth call) after the meter (fourth call), and the calls of that
tick do not split either. -/
theorem C9_meter_updated_before_later_measure :
    (Skin.eager.Update Interp.updatingMeter true false).calls =
      [.measureUpdate "M1", .executeCommand "!UpdateMeter A" (some "M1"), .meterUpdate "A",
        .measureChangeAction "M1", .measureUpdate "M2", .measureChangeAction "M2",
        .dialogAboutUpdateMeasures, .meterUpdate "A", .updateRelativeMeters,
        .resizeWindow false, .paint] ∧
    (¬ ∃ l1 l2, (Skin.eager.Update Interp.updatingMeter true false).calls =
        Skin.eager.calls ++ l1 ++ l2 ∧
      (∀ c ∈ l1, c.isMeterWork = false) ∧ (∀ c ∈ l2, c.isMeasureUpdate = false)) ∧
    (Skin.feedback.Update Interp.updatingMeasure true false).calls =
      [.measureUpdate "M", .measureChangeAction "M", .dialogAboutUpdateMeasures,
        .meterUpdate "A", .executeCommand "!UpdateMeasure M" (some "A"), .measureUpdate "M",
        .measureChangeAction "M", .dialogAboutUpdateMeasures, .updateRelativeMeters, .paint] ∧
    (¬ ∃ l1 l2, (Skin.feedback.Update Interp.updatingMeasure true false).calls =
        Skin.feedback.calls ++ l1 ++ l2 ∧
      (∀ c ∈ l1, c.isMeterWork = false) ∧ (∀ c ∈ l2, c.isMeasureUpdate = false)) := by
  have hL : (Skin.eager.Update Interp.updatingMeter true false).calls =
      [.measureUpdate "M1", .executeCommand "!UpdateMeter A" (some "M1"), .meterUpdate "A",
        .measureChangeAction "M1", .measureUpdate "M2", .measureChangeAction "M2",
        .dialogAboutUpdateMeasures, .meterUpdate "A", .updateRelativeMeters,
        .resizeWindow false, .paint] := by
    decide
  have hK : (Skin.feedback.Update Interp.updatingMeasure true false).calls =
      [.measureUpdate "M", .measureChangeAction "M", .dialogAboutUpdateMeasures,
        .meterUpdate "A", .executeCommand "!UpdateMeasure M" (some "A"), .measureUpdate "M",
        .measureChangeAction "M", .dialogAboutUpdateMeasures, .updateRelativeMeters,
        .paint] := by
    decide
  refine ⟨hL, ?_, hK, ?_⟩
  · rintro ⟨l1, l2, h, h1, h2⟩
    rw [hL] at h
    have hc : Skin.eager.calls = [] := rfl
    rw [hc, List.nil_append] at h
    rcases l1 with _ | ⟨a, _ | ⟨b, _ | ⟨c, l1⟩⟩⟩
    · rw [List.nil_append] at h
      exact absurd (h2 (.measureUpdate "M2") (by rw [← h]; simp)) (by decide)
    · simp only [List.cons_append, List.nil_append, List.cons.injEq] at h
      exact absurd (h2 (.measureUpdate "M2") (by rw [← h.2]; simp)) (by decide)
    · simp only [List.cons_append, List.nil_append, List.cons.injEq] at h
      exact absurd (h2 (.measureUpdate "M2") (by rw [← h.2.2]; simp)) (by decide)
    · simp only [List.cons_append, List.cons.injEq] at h
      exact absurd (h1 c (by simp)) (by rw [← h.2.2.1]; decide)
  · rintro ⟨l1, l2, h, h1, h2⟩
    rw [hK] at h
    have hc : Skin.feedback.calls = [] := rfl
    rw [hc, List.nil_append] at h
    rcases l1 with _ | ⟨a, _ | ⟨b, _ | ⟨c, _ | ⟨d, l1⟩⟩⟩⟩
    · rw [List.nil_append] at h
      exact absurd (h2 (.measureUpdate "M") (by rw [← h]; simp)) (by decide)
    · simp only [List.cons_append, List.nil_append, List.cons.injEq] at h
      exact absurd (h2 (.measureUpdate "M") (by rw [← h.2]; simp)) (by decide)
    · simp only [List.cons_append, List.nil_append, List.cons.injEq] at h
      exact absurd (h2 (.measureUpdate "M") (by rw [← h.2.2]; simp)) (by decide)
    · simp only [List.cons_append, List.nil_append, List.cons.injEq] at h
      exact absurd (h2 (.measureUpdate "M") (by rw [← h.2.2.2]; simp)) (by decide)
    · simp only [List.cons_append, List.cons.injEq] at h
      exact absurd (h1 d (by simp)) (by rw [← h.2.2.2.1]; decide)

/-- C9 (amended): for every interpreter whose commands update no measure and no meter and
re-read no meter's options, the calls of one `Update(refresh)` tick split into a first
part that contains no `Meter::Update` and no `Meter::ReadOptions`, and a second part that
contains no `Measure::Update`; so every measure update of the tick precedes every meter
update. When the commands also leave the measures as they are, the first part calls
`Measure::Update` on the measures in registration order (all of them on a forced tick,
those with a non-negative divider otherwise). -/
theorem C9_measures_updated_before_meters (ex : Interp) (redrawable refresh : Bool) (s : Skin)
    (hex : ex.updatesNoSection) :
    ∃ l1 l2, (s.Update ex redrawable refresh).calls = s.calls ++ l1 ++ l2 ∧
      (∀ c ∈ l1, c.isMeterWork = false) ∧
      (∀ c ∈ l2, c.isMeasureUpdate = false) ∧
      (ex.keepsMeasures →
        l1.filterMap Call.measureName? =
          (s.m_Measures.filter (fun m => decide (m.updateDivider ≥ 0) || refresh)).map
            (fun m => m.name)) := by
  have hex1 : ∀ command sec s, ExtendsBy (fun c => c.isMeterWork = false) s (ex command sec s) :=
    fun command sec s => (hex command sec s).mono (fun _ h => h.2)
  have hex2 : ∀ command sec s,
      ExtendsBy (fun c => c.isMeasureUpdate = false) s (ex command sec s) :=
    fun command sec s => (hex command sec s).mono (fun _ h => h.1)
  have hown2 : ∀ c : Call, c.isMeasureWork = false → c.isMeasureUpdate = false := by
    intro c hc
    cases c <;> simp_all [Call.isMeasureWork, Call.isMeasureUpdate]
  obtain ⟨l1, e1, p1⟩ := updateMeasurePhase_extends ex hex1 (fun _ h => h) refresh s
  obtain ⟨l2, e2, p2⟩ := updateMeterPhase_extends ex hex2 hown2 redrawable refresh
    (s.updateMeasurePhase ex refresh)
  refine ⟨l1, l2, ?_, p1, p2, ?_⟩
  · rw [Update_eq_phases, e2, e1]
  · intro hkeep
    have hex3 : ∀ command sec s,
        ExtendsBy (fun c => Call.measureName? c = none) s (ex command sec s) :=
      fun command sec s => (hex2 command sec s).mono (fun c h => by
        cases c <;> simp_all [Call.measureName?, Call.isMeasureUpdate])
    obtain ⟨-, l, e3, e4⟩ := updateMeasurePhase_filterMap ex Call.measureName? hex3
      (fun _ _ => rfl) rfl hkeep refresh s
    have hl : l = l1 := List.append_cancel_left (e3.symm.trans e1)
    rw [← hl, e4]
    clear e3 e4 hl
    induction s.m_Measures with
    | nil => rfl
    | cons m ms ih =>
      rw [List.flatMap_cons, ih, (UpdateMeasure_calls m refresh).2.1]
      by_cases hc : (decide (m.updateDivider ≥ 0) || refresh) = true
      · cases (UpdateMeasure m refresh).1 <;> simp [Call.measureName?, List.filter_cons, hc]
      · cases (UpdateMeasure m refresh).1 <;> simp [Call.measureName?, List.filter_cons, hc]

/-- C9, at a skin whose measure `M` runs `!Redraw` as its update action. -/
theorem C9_measures_updated_witness :
    Interp.redrawing.updatesNoSection ∧
    ∃ l1 l2, (Skin.halfRate.Update Interp.redrawing true true).calls =
        Skin.halfRate.calls ++ l1 ++ l2 ∧
      (∀ c ∈ l1, c.isMeterWork = false) ∧
      (∀ c ∈ l2, c.isMeasureUpdate = false) ∧
      (Interp.redrawing.keepsMeasures →
        l1.filterMap Call.measureName? =
          (Skin.halfRate.m_Measures.filter (fun m => decide (m.updateDivider ≥ 0) || true)).map
            (fun m => m.name)) :=
  ⟨redrawing_facts.1,
    C9_measures_updated_before_meters Interp.redrawing true true Skin.halfRate redrawing_facts.1⟩

end Skin

/-! ### Life cycle -/

namespace Skin

/-- C13 (evaluation at the failing input): a running skin is refreshed from a file whose
measure runs `!DeactivateConfig` as its update action. The action deactivates the skin
in the middle of `Refresh` (the calls `removeSkin`, `addUnmanagedSkin` are made, the
deactivation timer is armed), yet `Refresh` goes on, arms the periodic update and
mouse-poll timers again and ends by assigning `STATE_RUNNING`. -/
theorem C13_refresh_overwrites_closing :
    (Skin.running.Refresh Interp.deactivating true SkinFile.selfClosing 0 false).m_State
      = STATE.STATE_RUNNING ∧
    Call.removeSkin ∈
      (Skin.running.Refresh Interp.deactivating true SkinFile.selfClosing 0 false).calls ∧
    (Skin.running.Refresh Interp.deactivating true SkinFile.selfClosing 0 false).timers
      = { meter := true, mouse := true, fade := true, transition := false,
          deactivate := true } := by
  decide

theorem ExtendsBy_iff (P : Call → Prop) (s s' : Skin) :
    ExtendsBy P s s' ↔
      (s.calls <+: s'.calls ∧ ∀ c ∈ s'.calls.drop s.calls.length, P c) := by
  constructor
  · rintro ⟨l, e, h⟩
    refine ⟨⟨l, e.symm⟩, ?_⟩
    rw [e, List.drop_left]
    exact h
  · rintro ⟨⟨l, e⟩, h⟩
    refine ⟨l, e.symm, ?_⟩
    rw [← e, List.drop_left] at h
    exact h

theorem FadeWindow_quiet (s : Skin) (a b : Int) :
    ExtendsBy quiet s (s.FadeWindow a b) ∧ (s.FadeWindow a b).m_State = s.m_State ∧
    (s.FadeWindow a b).timers.meter = s.timers.meter ∧
    (s.FadeWindow a b).timers.mouse = s.timers.mouse := by
  rw [ExtendsBy_iff]
  unfold FadeWindow UpdateFadeDuration
  simp only []
  split_ifs <;>
    simp [ShowWindow, UpdateWindowTransparency, SetTimer, call, Timers.put, quiet,
      Call.armsTick, Call.isCommand, List.drop_append, List.drop_left]

theorem UpdateFadeDuration_quiet (s : Skin) :
    ExtendsBy quiet s s.UpdateFadeDuration ∧ s.UpdateFadeDuration.m_State = s.m_State ∧
    s.UpdateFadeDuration.timers = s.timers := by
  rw [ExtendsBy_iff]
  unfold UpdateFadeDuration
  split_ifs <;> simp [call, quiet, Call.armsTick, Call.isCommand]

theorem HideFade_quiet (s : Skin) :
    ExtendsBy quiet s s.HideFade ∧ s.HideFade.m_State = s.m_State ∧
    s.HideFade.timers.meter = s.timers.meter ∧
    s.HideFade.timers.mouse = s.timers.mouse ∧
    s.HideFade.timers.deactivate = s.timers.deactivate := by
  unfold HideFade
  simp only []
  split_ifs
  · obtain ⟨f1, f2, f3, f4⟩ := FadeWindow_quiet { s with m_Hidden := true } s.m_AlphaValue 0
    refine ⟨f1, f2, f3, f4, ?_⟩
    unfold FadeWindow UpdateFadeDuration
    simp only []
    split_ifs <;> simp [ShowWindow, UpdateWindowTransparency, SetTimer, call, Timers.put]
  · exact ⟨ExtendsBy.refl _ _, rfl, rfl, rfl, rfl⟩

/-- `Deactivate` on a skin that is not closing: the state becomes `STATE_CLOSING`, the
deactivation timer is armed, the update and mouse-poll timers are left as they are. -/
theorem Deactivate_facts (s : Skin) (h : s.m_State ≠ .STATE_CLOSING) :
    s.Deactivate.m_State = .STATE_CLOSING ∧
    s.Deactivate.timers.meter = s.timers.meter ∧
    s.Deactivate.timers.mouse = s.timers.mouse ∧
    s.Deactivate.timers.deactivate = true ∧
    ExtendsBy quiet s s.Deactivate := by
  obtain ⟨u1, u2, u3⟩ := UpdateFadeDuration_quiet s
  have hne : ¬ s.UpdateFadeDuration.m_State = .STATE_CLOSING := by rw [u2]; exact h
  have key : ∀ v : Skin, v.m_State = .STATE_CLOSING → v.timers = s.timers →
      ExtendsBy quiet s v →
      (v.HideFade.SetTimer .TIMER_DEACTIVATE (v.HideFade.m_FadeDuration + 50)).m_State
        = .STATE_CLOSING ∧
      (v.HideFade.SetTimer .TIMER_DEACTIVATE (v.HideFade.m_FadeDuration + 50)).timers.meter
        = s.timers.meter ∧
      (v.HideFade.SetTimer .TIMER_DEACTIVATE (v.HideFade.m_FadeDuration + 50)).timers.mouse
        = s.timers.mouse ∧
      (v.HideFade.SetTimer .TIMER_DEACTIVATE (v.HideFade.m_FadeDuration + 50)).timers.deactivate
        = true ∧
      ExtendsBy quiet s
        (v.HideFade.SetTimer .TIMER_DEACTIVATE (v.HideFade.m_FadeDuration + 50)) := by
    intro v hv1 hv2 hv3
    obtain ⟨w1, w2, w3, w4, w5⟩ := HideFade_quiet v
    generalize v.HideFade = w at w1 w2 w3 w4 w5 ⊢
    refine ⟨?_, ?_, ?_, ?_, ?_⟩
    · rw [← hv1, ← w2]; rfl
    · rw [← hv2, ← w3]; rfl
    · rw [← hv2, ← w4]; rfl
    · rfl
    · refine (hv3.trans w1).trans ?_
      exact ⟨[.setTimer .TIMER_DEACTIVATE (w.m_FadeDuration + 50)], rfl,
        by simp [quiet, Call.armsTick, Call.isCommand]⟩
  unfold Deactivate
  simp only [hne, if_false]
  refine key _ rfl u3 (u1.trans ?_)
  exact ⟨[.removeSkin, .addUnmanagedSkin], by simp,
    by simp [quiet, Call.armsTick, Call.isCommand]⟩

/-- `Dispose(true)`: the four timers it kills are off afterwards and the meters are gone. -/
theorem DisposeRefresh_facts (s : Skin) :
    s.DisposeRefresh.m_State = s.m_State ∧
    s.DisposeRefresh.timers.meter = false ∧
    s.DisposeRefresh.timers.mouse = false ∧
    s.DisposeRefresh.m_Meters = [] ∧
    ExtendsBy quiet s s.DisposeRefresh := by
  rw [ExtendsBy_iff]
  unfold DisposeRefresh
  simp only []
  split_ifs <;>
    simp [KillTimer, call, Timers.put, quiet, Call.armsTick, Call.isCommand,
      List.drop_append, List.drop_left]

/-- `ReadSkin` on an unreadable file, starting without meters: it fails, and it neither
changes the state or the timers nor runs a command. -/
theorem ReadSkin_unreadable (file : SkinFile) (version : Nat) (s : Skin)
    (hm : s.m_Meters = []) (hf : file.unreadable version = true) :
    (s.ReadSkin file version).1 = false ∧
    (s.ReadSkin file version).2.m_State = s.m_State ∧
    (s.ReadSkin file version).2.timers = s.timers ∧
    ExtendsBy quiet s (s.ReadSkin file version).2 := by
  rw [ExtendsBy_iff]
  unfold ReadSkin
  simp only [SkinFile.unreadable, Bool.or_eq_true, Bool.not_eq_true', decide_eq_true_eq] at hf
  simp only []
  split_ifs with h1 h2 h3 <;>
    simp_all [call, quiet, Call.armsTick, Call.isCommand, List.drop_append, List.drop_left]

/-- C14: when `ReadSkin` fails during `Refresh` (file missing, `AppVersion` newer than the
running version, or no meter), `Refresh` deactivates the skin: it ends in
`STATE_CLOSING` with the deactivation timer armed, it makes no call that arms the
periodic update or the mouse-poll timer (after a non-initial refresh both are off), and
it hands no command to the interpreter, the on-refresh action included. -/
theorem C14_read_failure_deactivates (ex : Interp) (redrawable : Bool) (file : SkinFile)
    (version : Nat) (init : Bool) (s : Skin)
    (hs : s.m_State ≠ .STATE_CLOSING)
    (hm : init = true → s.m_Meters = [])
    (hf : file.unreadable version = true) :
    (s.Refresh ex redrawable file version init).m_State = .STATE_CLOSING ∧
    (s.Refresh ex redrawable file version init).timers.deactivate = true ∧
    (s.Refresh ex redrawable file version init).timers.meter
      = (if init then s.timers.meter else false) ∧
    (s.Refresh ex redrawable file version init).timers.mouse
      = (if init then s.timers.mouse else false) ∧
    ExtendsBy quiet s (s.Refresh ex redrawable file version init) := by
  have enter : (s.refreshEnter init).m_State = .STATE_REFRESHING ∧
      (s.refreshEnter init).timers.meter = (if init then s.timers.meter else false) ∧
      (s.refreshEnter init).timers.mouse = (if init then s.timers.mouse else false) ∧
      (s.refreshEnter init).m_Meters = [] ∧ ExtendsBy quiet s (s.refreshEnter init) := by
    have h0 : ExtendsBy quiet s
        ((({ s with m_State := .STATE_REFRESHING } : Skin).call
          (.setCurrentParser true)).SetResizeWindowMode .RESIZEMODE_RESET) :=
      ⟨[.setCurrentParser true], by simp [SetResizeWindowMode],
        by simp [quiet, Call.armsTick, Call.isCommand]⟩
    cases init
    · obtain ⟨d1, d2, d3, d4, d5⟩ := DisposeRefresh_facts
        ((({ s with m_State := .STATE_REFRESHING } : Skin).call
          (.setCurrentParser true)).SetResizeWindowMode .RESIZEMODE_RESET)
      exact ⟨d1, d2, d3, d4, h0.trans d5⟩
    · exact ⟨rfl, rfl, rfl, hm rfl, h0⟩
  obtain ⟨tstate, tmeter, tmouse, tmeters, text⟩ := enter
  obtain ⟨r1, r2, r3, r4⟩ := ReadSkin_unreadable file version (s.refreshEnter init) tmeters hf
  have hne : ((s.refreshEnter init).ReadSkin file version).2.m_State ≠ .STATE_CLOSING := by
    rw [r2, tstate]; decide
  obtain ⟨k1, k2, k3, k4, k5⟩ := Deactivate_facts _ hne
  unfold Refresh
  rw [if_neg hs]
  simp only [r1, Bool.not_false, if_true, RainmeterDeactivateSkin]
  refine ⟨k1, k4, ?_, ?_, (text.trans r4).trans k5⟩
  · rw [k2, r3, tmeter]
  · rw [k3, r3, tmouse]

/-- C14, at a concrete input: a running skin refreshed from a missing file. -/
theorem C14_read_failure_deactivates_witness :
    (Skin.running.Refresh Interp.inert true
        { SkinFile.selfClosing with fileExists := false } 0 false).m_State
      = .STATE_CLOSING ∧
    (Skin.running.Refresh Interp.inert true
        { SkinFile.selfClosing with fileExists := false } 0 false).timers.deactivate = true :=
  ⟨(C14_read_failure_deactivates Interp.inert true
      { SkinFile.selfClosing with fileExists := false } 0 false Skin.running
      (by decide) (by simp) (by decide)).1,
   (C14_read_failure_deactivates Interp.inert true
      { SkinFile.selfClosing with fileExists := false } 0 false Skin.running
      (by decide) (by simp) (by decide)).2.1⟩

end Skin

/-! ### Bangs -/

namespace Skin

/-- The group loop visits every meter: each member of the group is changed by `op`. -/
theorem meterLoop_group (op : Meter → Meter) (name : String) (ms : List Meter) (s : Skin) :
    (meterLoop op name true ms s).1 =
      ms.map (fun m => if m.groups.contains name then op m else m) ∧
    (meterLoop op name true ms s).2.2 = ms.any (fun m => m.groups.contains name) ∧
    (meterLoop op name true ms s).2.1 =
      (if ms.any (fun m => m.groups.contains name) then
        s.SetResizeWindowMode .RESIZEMODE_CHECK else s) := by
  induction ms generalizing s with
  | nil => simp [meterLoop]
  | cons m ms ih =>
    by_cases h : m.groups.contains name = true
    · obtain ⟨i1, i2, i3⟩ := ih (s.SetResizeWindowMode .RESIZEMODE_CHECK)
      simp only [meterLoop, Meter.CompareName, if_true, h, Bool.not_true, Bool.false_eq_true,
        if_false, List.map_cons, List.any_cons, Bool.true_or]
      refine ⟨by rw [i1], trivial, ?_⟩
      rw [i3]
      split_ifs <;> rfl
    · obtain ⟨i1, i2, i3⟩ := ih s
      simp only [meterLoop, Meter.CompareName, if_true, h, Bool.false_eq_true, if_false,
        List.map_cons, List.any_cons, Bool.false_or]
      exact ⟨by rw [i1], i2, i3⟩

/-- C10: `DoBang(HideMeterGroup, [name])` hides every meter of the group and changes no
other meter and nothing else of a hidden meter; when the group has a member the pending
resize mode is `RESIZEMODE_CHECK`, whatever the number of members; the bang itself
makes no call; and the next `Redraw` resolves the pending mode by exactly one
`ResizeWindow` call, after which no recheck is pending. -/
theorem C10_hide_meter_group (ex : Interp) (redrawable : Bool) (parseInt : String → Int)
    (name : String) (s : Skin) :
    (s.DoBang ex redrawable parseInt .HideMeterGroup [name]).m_Meters =
      s.m_Meters.map (fun m => if m.groups.contains name then { m with hidden := true } else m) ∧
    (s.DoBang ex redrawable parseInt .HideMeterGroup [name]).m_ResizeWindow =
      (if s.m_Meters.any (fun m => m.groups.contains name) then .RESIZEMODE_CHECK
       else s.m_ResizeWindow) ∧
    (s.DoBang ex redrawable parseInt .HideMeterGroup [name]).calls = s.calls ∧
    (if s.m_Meters.any (fun m => m.groups.contains name) then
      (s.DoBang ex redrawable parseInt .HideMeterGroup [name]).Redraw.calls =
        s.calls ++ [.resizeWindow false, .paint] ∧
      (s.DoBang ex redrawable parseInt .HideMeterGroup [name]).Redraw.m_ResizeWindow =
        .RESIZEMODE_NONE
     else True) := by
  obtain ⟨h1, h2, h3⟩ := meterLoop_group Meter.Hide name s.m_Meters s
  have e : s.DoBang ex redrawable parseInt .HideMeterGroup [name] =
      { (meterLoop Meter.Hide name true s.m_Meters s).2.1 with
        m_Meters := (meterLoop Meter.Hide name true s.m_Meters s).1 } := by
    simp [DoBang, HideMeter, meterBang]
  rw [e, h1, h3]
  cases ha : s.m_Meters.any (fun m => m.groups.contains name)
  · simp [Meter.Hide]
  · simp [Meter.Hide, SetResizeWindowMode, Redraw, call]

end Skin

/-! ### Bangs that name a section that does not exist -/

namespace Skin

theorem meterLoop_none (op : Meter → Meter) (name : String) (ms : List Meter) (s : Skin)
    (h : ∀ m ∈ ms, m.name ≠ name) : meterLoop op name false ms s = (ms, s, false) := by
  induction ms with
  | nil => rfl
  | cons m ms ih =>
    have hm : (m.name == name) = false := by simpa using h m (List.mem_cons_self _ _)
    have := ih (fun x hx => h x (List.mem_cons_of_mem _ hx))
    simp [meterLoop, Meter.CompareName, hm, this]

theorem measureLoop_none (op : Measure → Measure) (name : String) (ms : List Measure)
    (h : ∀ m ∈ ms, m.name ≠ name) : measureLoop op name false ms = (ms, false) := by
  induction ms with
  | nil => rfl
  | cons m ms ih =>
    have hm : (m.name == name) = false := by simpa using h m (List.mem_cons_self _ _)
    have := ih (fun x hx => h x (List.mem_cons_of_mem _ hx))
    simp [measureLoop, Measure.CompareName, hm, this]

theorem meterBang_none (op : Meter → Meter) (bang name : String) (s : Skin)
    (h : ∀ m ∈ s.m_Meters, m.name ≠ name) :
    meterBang op bang name false s =
      s.call (.logError ("!" ++ bang ++ ": [" ++ name ++ "] not found")) := by
  simp [meterBang, meterLoop_none op name s.m_Meters s h]

theorem measureBang_none (op : Measure → Measure) (bang name : String) (s : Skin)
    (h : ∀ m ∈ s.m_Measures, m.name ≠ name) :
    measureBang op bang name false s =
      s.call (.logError ("!" ++ bang ++ ": [" ++ name ++ "] not found")) := by
  simp [measureBang, measureLoop_none op name s.m_Measures h]

theorem updateMeterLoop_none (ex : Interp) (name : String) (s : Skin)
    (h : ∀ m ∈ s.m_Meters, m.name ≠ name) (fuel i : Nat) (bActive : Bool) :
    updateMeterLoop ex false false name fuel i bActive true s =
      (s, bActive || ((s.m_Meters.drop i).take fuel).any (fun m => m.hasActiveTransition),
        true) := by
  induction fuel generalizing i bActive with
  | zero => simp [updateMeterLoop]
  | succ fuel ih =>
    rw [updateMeterLoop]
    cases hg : s.m_Meters.get? i with
    | none =>
      have : s.m_Meters.length ≤ i := List.get?_eq_none.mp hg
      simp [List.drop_eq_nil_of_le this]
    | some m =>
      have hlt : i < s.m_Meters.length := by
        by_contra hcon
        rw [List.get?_eq_none.mpr (not_lt.mp hcon)] at hg
        exact Option.noConfusion hg
      have hmi : s.m_Meters[i] = m := by
        rw [List.get?_eq_getElem?, List.getElem?_eq_getElem hlt] at hg
        exact Option.some.inj hg
      have hdrop : s.m_Meters.drop i = m :: s.m_Meters.drop (i + 1) := by
        rw [← hmi]; exact List.drop_eq_getElem_cons hlt
      have hmem : m ∈ s.m_Meters := by rw [← hmi]; exact List.getElem_mem _
      have hm : (m.name == name) = false := by simpa using h m hmem
      simp only [Bool.false_or, Meter.CompareName, Bool.false_eq_true, if_false, hm, Bool.and_false,
        Bool.not_false, Bool.not_true, Bool.and_true, Bool.true_and]
      rw [hdrop, List.take_succ_cons, List.any_cons]
      cases hb : bActive <;> cases ht : m.hasActiveTransition <;> simp [ih]

theorem updateMeasureLoop_none (ex : Interp) (name : String) (s : Skin)
    (h : ∀ m ∈ s.m_Measures, m.name ≠ name) (fuel i : Nat) (bNet : Bool) :
    updateMeasureLoop ex false false name fuel i bNet s = (s, bNet, false) := by
  induction fuel generalizing i with
  | zero => simp [updateMeasureLoop]
  | succ fuel ih =>
    rw [updateMeasureLoop]
    cases hg : s.m_Measures.get? i with
    | none => rfl
    | some m =>
      have hmem : m ∈ s.m_Measures := List.get?_mem hg
      have hm : (m.name == name) = false := by simpa using h m hmem
      simp [Measure.CompareName, hm, ih]

/-- C15 (amended claim): a non-group bang whose name matches no meter and no measure, and
is not the wildcard `*`. Show, hide, toggle or move a meter, and enable, disable,
toggle, pause, unpause or toggle-pause a measure: the only effect is the logged error.
Update a measure: the logged error and the refresh of the About dialog. Update a meter:
no meter is modified and the resize mode is unchanged, but `PostUpdate` brings the
transition timer in line with whether some meter reports an active transition, and the
error is logged. -/
theorem C15_unknown_name_changes_nothing (ex : Interp) (redrawable : Bool)
    (parseInt : String → Int) (name : String) (s : Skin)
    (hmeter : ∀ m ∈ s.m_Meters, m.name ≠ name)
    (hmeasure : ∀ m ∈ s.m_Measures, m.name ≠ name)
    (hstar : name ≠ "*") :
    (∀ bang : Bang, bang.namesOneSection = true →
      ∃ msg, s.DoBang ex redrawable parseInt bang [name] = s.call (.logError msg)) ∧
    (∀ x y : String,
      ∃ msg, s.DoBang ex redrawable parseInt .MoveMeter [x, y, name] = s.call (.logError msg)) ∧
    (∃ msg, s.DoBang ex redrawable parseInt .UpdateMeasure [name] =
      (s.call (.logError msg)).call .dialogAboutUpdateMeasures) ∧
    (∃ msg, s.DoBang ex redrawable parseInt .UpdateMeter [name] =
      (s.PostUpdate (s.m_Meters.any (fun m => m.hasActiveTransition))).call (.logError msg)) := by
  have hs : (name == "*") = false := by simpa using hstar
  refine ⟨?_, ?_, ?_, ?_⟩
  · intro bang hb
    cases bang <;> simp [Bang.namesOneSection] at hb
    · exact ⟨_, meterBang_none _ _ name s hmeter⟩
    · exact ⟨_, meterBang_none _ _ name s hmeter⟩
    · exact ⟨_, meterBang_none _ _ name s hmeter⟩
    · exact ⟨_, measureBang_none _ _ name s hmeasure⟩
    · exact ⟨_, measureBang_none _ _ name s hmeasure⟩
    · exact ⟨_, measureBang_none _ _ name s hmeasure⟩
    · exact ⟨_, measureBang_none _ _ name s hmeasure⟩
    · exact ⟨_, measureBang_none _ _ name s hmeasure⟩
    · exact ⟨_, measureBang_none _ _ name s hmeasure⟩
  · intro x y
    exact ⟨_, meterBang_none _ _ name s hmeter⟩
  · refine ⟨"!UpdateMeasure: [" ++ name ++ "] not found", ?_⟩
    simp [DoBang, UpdateMeasureByName, hs, updateMeasureLoop_none ex name s hmeasure]
  · refine ⟨"!UpdateMeter: [" ++ name ++ "] not found", ?_⟩
    simp [DoBang, UpdateMeterByName, hs, updateMeterLoop_none ex name s hmeter]

/-- C15, at a concrete input: `!HideMeter Nope` on a skin whose only meter is `A`. -/
theorem C15_unknown_name_witness :
    ∃ msg, Skin.oneMeter.DoBang Interp.inert true (fun _ => 0) .HideMeter ["Nope"] =
      Skin.oneMeter.call (.logError msg) :=
  (C15_unknown_name_changes_nothing Interp.inert true (fun _ => 0) "Nope" Skin.oneMeter
    (by simp [Skin.oneMeter, Meter.plain]) (by simp [Skin.oneMeter, Skin.running])
    (by decide)).1 .HideMeter rfl

/-- C15 (counterexamples): no meter is named `Nope` or `*`, yet `!UpdateMeter Nope` on a
skin whose transition timer runs while no meter reports an active transition stops
that timer, and `!UpdateMeter *` updates the meter `A`. -/
theorem C15_update_meter_unknown_name_changes_state :
    (∀ m ∈ Skin.transitionEnded.m_Meters, m.name ≠ "Nope" ∧ m.name ≠ "*") ∧
    Skin.transitionEnded.timers.transition = true ∧
    (Skin.transitionEnded.DoBang Interp.inert true (fun _ => 0) .UpdateMeter
      ["Nope"]).timers.transition = false ∧
    Call.meterUpdate "A" ∈
      (Skin.transitionEnded.DoBang Interp.inert true (fun _ => 0) .UpdateMeter ["*"]).calls := by
  refine ⟨by simp [Skin.transitionEnded, Skin.oneMeter, Meter.plain], by decide, by decide,
    by decide⟩

end Skin

/-! ### Update dividers -/

namespace Skin

/-- One tick, when the commands leave the measures as they are and call no measure:
every measure is replaced by what `UpdateMeasure` makes of it, and the `DoChangeAction`
calls of the tick are those of the measures that `UpdateMeasure` reported as updated, in
list order. -/
theorem Update_changed (ex : Interp) (hkeep : ex.keepsMeasures) (hquiet : ex.callsNoMeasure)
    (redrawable refresh : Bool) (s : Skin) :
    (s.Update ex redrawable refresh).m_Measures =
      s.m_Measures.map (fun m => (UpdateMeasure m refresh).2.1) ∧
    ∃ l, (s.Update ex redrawable refresh).calls = s.calls ++ l ∧
      l.filterMap Call.changedName? =
        s.m_Measures.flatMap (fun m => if (UpdateMeasure m refresh).1 then [m.name] else []) := by
  have hown : ∀ c : Call, c.isMeasureWork = false → Call.changedName? c = none := by
    intro c hc
    cases c <;> simp_all [Call.isMeasureWork, Call.changedName?]
  have hex : ∀ command sec s,
      ExtendsBy (fun c => Call.changedName? c = none) s (ex command sec s) :=
    fun command sec s => (hquiet command sec s).mono hown
  obtain ⟨e0, l1, e1, e2⟩ := updateMeasurePhase_filterMap ex Call.changedName? hex
    (fun _ _ => rfl) rfl hkeep refresh s
  obtain ⟨l2, e3, e4⟩ := updateMeterPhase_extends ex hex hown redrawable refresh
    (s.updateMeasurePhase ex refresh)
  have e5 := updateMeterPhase_measures ex hkeep redrawable refresh (s.updateMeasurePhase ex refresh)
  refine ⟨by rw [Update_eq_phases, e5, e0], l1 ++ l2, ?_, ?_⟩
  · rw [Update_eq_phases, e3, e1, List.append_assoc]
  · rw [List.filterMap_append, filterMap_none e4, List.append_nil, e2]
    clear e0 e1 e2 e5
    induction s.m_Measures with
    | nil => rfl
    | cons m ms ih =>
      rw [List.flatMap_cons, List.flatMap_cons, ih, UpdateMeasure_changed,
        (UpdateMeasure_calls m refresh).2.2.1]
      cases (UpdateMeasure m refresh).1 <;> simp [Call.changedName?]

/-- A `DoChangeAction` call for the measure `n` is among the calls exactly when `n` is
among the names they select. -/
theorem mem_changed_iff (l : List Call) (n : String) :
    Call.measureChangeAction n ∈ l ↔ n ∈ l.filterMap Call.changedName? := by
  rw [List.mem_filterMap]
  constructor
  · intro h
    exact ⟨_, h, rfl⟩
  · rintro ⟨c, hc, hn⟩
    cases c <;> simp [Call.changedName?] at hn
    subst hn
    exact hc

/-- A measure with `UpdateDivider = 2` through three calls of `UpdateMeasure`, the first
one forced: updated with counter 0, not updated with counter 1, updated with counter 0. -/
theorem UpdateMeasure_divider_two (m : Measure) (h : m.updateDivider = 2) :
    (UpdateMeasure m true).1 = true ∧
    (UpdateMeasure m true).2.1.updateCounter = 0 ∧
    (UpdateMeasure (UpdateMeasure m true).2.1 false).1 = false ∧
    (UpdateMeasure (UpdateMeasure m true).2.1 false).2.1.updateCounter = 1 ∧
    (UpdateMeasure (UpdateMeasure (UpdateMeasure m true).2.1 false).2.1 false).1 = true ∧
    (UpdateMeasure (UpdateMeasure (UpdateMeasure m true).2.1 false).2.1 false).2.1.updateCounter
      = 0 := by
  simp [UpdateMeasure, Measure.Update, Measure.ResetUpdateCounter, UpdateCheck, h]

/-- C11: a skin is ticked three times by `Update`, the first tick forced, with commands
that leave the measures as they are and call no measure. A measure of the skin with
`UpdateDivider = 2`, whose name no other measure bears, has its `DoChangeAction` (which
`Update` calls exactly for the measures that updated) among the calls of tick 1, not among
the calls of tick 2, and again among the calls of tick 3; its counter is 0 after tick 1,
1 after tick 2 and 0 after tick 3, whatever it was before. -/
theorem C11_divider_two_updates_on_ticks_1_and_3 (ex : Interp) (r1 r2 r3 : Bool) (s : Skin)
    (i : Nat) (m : Measure)
    (hkeep : ex.keepsMeasures) (hquiet : ex.callsNoMeasure)
    (hm : s.m_Measures.get? i = some m) (hd : m.updateDivider = 2)
    (hname : ∀ m' ∈ s.m_Measures, m'.name = m.name → m' = m) :
    (∃ l, (s.Update ex r1 true).calls = s.calls ++ l ∧ Call.measureChangeAction m.name ∈ l) ∧
    ((s.Update ex r1 true).m_Measures.get? i).map Measure.updateCounter = some 0 ∧
    (∃ l, ((s.Update ex r1 true).Update ex r2 false).calls =
        (s.Update ex r1 true).calls ++ l ∧ Call.measureChangeAction m.name ∉ l) ∧
    (((s.Update ex r1 true).Update ex r2 false).m_Measures.get? i).map Measure.updateCounter
      = some 1 ∧
    (∃ l, (((s.Update ex r1 true).Update ex r2 false).Update ex r3 false).calls =
        ((s.Update ex r1 true).Update ex r2 false).calls ++ l ∧
      Call.measureChangeAction m.name ∈ l) ∧
    ((((s.Update ex r1 true).Update ex r2 false).Update ex r3 false).m_Measures.get? i).map
      Measure.updateCounter = some 0 := by
  obtain ⟨d1, d2, d3, d4, d5, d6⟩ := UpdateMeasure_divider_two m hd
  obtain ⟨a0, la, a1, a2⟩ := Update_changed ex hkeep hquiet r1 true s
  obtain ⟨b0, lb, b1, b2⟩ := Update_changed ex hkeep hquiet r2 false (s.Update ex r1 true)
  obtain ⟨c0, lc, c1, c2⟩ := Update_changed ex hkeep hquiet r3 false
    ((s.Update ex r1 true).Update ex r2 false)
  have hmem : m ∈ s.m_Measures := List.get?_mem hm
  have g1 : (s.Update ex r1 true).m_Measures.get? i = some (UpdateMeasure m true).2.1 := by
    rw [a0, List.get?_map, hm]; rfl
  have g2 : ((s.Update ex r1 true).Update ex r2 false).m_Measures.get? i =
      some (UpdateMeasure (UpdateMeasure m true).2.1 false).2.1 := by
    rw [b0, List.get?_map, g1]; rfl
  have g3 : (((s.Update ex r1 true).Update ex r2 false).Update ex r3 false).m_Measures.get? i =
      some (UpdateMeasure (UpdateMeasure (UpdateMeasure m true).2.1 false).2.1 false).2.1 := by
    rw [c0, List.get?_map, g2]; rfl
  have n1 : (UpdateMeasure m true).2.1.name = m.name := (UpdateMeasure_calls m true).2.2.1
  have n2 : (UpdateMeasure (UpdateMeasure m true).2.1 false).2.1.name = m.name :=
    ((UpdateMeasure_calls _ false).2.2.1).trans n1
  refine ⟨⟨la, a1, ?_⟩, ?_, ⟨lb, b1, ?_⟩, ?_, ⟨lc, c1, ?_⟩, ?_⟩
  · rw [mem_changed_iff, a2, List.mem_flatMap]
    exact ⟨m, hmem, by rw [d1]; simp⟩
  · rw [g1, Option.map_some', d2]
  · rw [mem_changed_iff, b2, List.mem_flatMap]
    rintro ⟨m1, hm1, hin⟩
    rw [a0, List.mem_map] at hm1
    obtain ⟨m0, hm0, rfl⟩ := hm1
    by_cases hu : (UpdateMeasure (UpdateMeasure m0 true).2.1 false).1 = true
    · rw [if_pos hu, List.mem_singleton] at hin
      have hn0 : m0.name = m.name := by
        rw [← (UpdateMeasure_calls m0 true).2.2.1]; exact hin.symm
      rw [hname m0 hm0 hn0, d3] at hu
      exact Bool.noConfusion hu
    · rw [if_neg hu] at hin
      exact List.not_mem_nil _ hin
  · rw [g2, Option.map_some', d4]
  · rw [mem_changed_iff, c2, List.mem_flatMap]
    exact ⟨_, List.get?_mem g2, by rw [d5, n2]; simp⟩
  · rw [g3, Option.map_some', d6]

/-- C11, at a skin whose measure `M` has `UpdateDivider = 2` and runs `!Redraw` as its
update action. -/
theorem C11_divider_two_witness :
    (Interp.redrawing.keepsMeasures ∧ Interp.redrawing.callsNoMeasure ∧
      Skin.halfRate.m_Measures.get? 0 =
        some { Measure.plain "M" "!Redraw" with updateDivider := 2 }) ∧
    (∃ l, (Skin.halfRate.Update Interp.redrawing true true).calls = Skin.halfRate.calls ++ l ∧
      Call.measureChangeAction "M" ∈ l) ∧
    (∃ l, ((Skin.halfRate.Update Interp.redrawing true true).Update Interp.redrawing true
        false).calls = (Skin.halfRate.Update Interp.redrawing true true).calls ++ l ∧
      Call.measureChangeAction "M" ∉ l) :=
  ⟨⟨redrawing_facts.2.1, redrawing_facts.2.2, rfl⟩,
    (C11_divider_two_updates_on_ticks_1_and_3 Interp.redrawing true true true Skin.halfRate 0
      { Measure.plain "M" "!Redraw" with updateDivider := 2 } redrawing_facts.2.1
      redrawing_facts.2.2 rfl rfl (by
        intro m' hm' hn
        simp only [Skin.halfRate, List.mem_cons, List.mem_singleton, List.not_mem_nil,
          or_false] at hm'
        rcases hm' with rfl | rfl
        · rfl
        · exact absurd hn (by decide))).1,
    (C11_divider_two_updates_on_ticks_1_and_3 Interp.redrawing true true true Skin.halfRate 0
      { Measure.plain "M" "!Redraw" with updateDivider := 2 } redrawing_facts.2.1
      redrawing_facts.2.2 rfl rfl (by
        intro m' hm' hn
        simp only [Skin.halfRate, List.mem_cons, List.mem_singleton, List.not_mem_nil,
          or_false] at hm'
        rcases hm' with rfl | rfl
        · rfl
        · exact absurd hn (by decide))).2.2.1⟩

end Skin

/-! ### Mouse dispatch: `DoAction` -/

namespace Skin

theorem doActionScan_eq_find (hit : Meter → Bool) (action : MOUSEACTION) (l : List Meter) :
    doActionScan hit action l = l.find? (Meter.claims hit action) := by
  induction l with
  | nil => rfl
  | cons m l ih =>
    cases hh : m.hidden <;> cases hc : (m.mouse.hasActionCommand action && hit m) <;>
      simp [doActionScan, List.find?_cons, Meter.claims, hh, hc, ih]

theorem find_reverse_eq_getLast_filter (p : Meter → Bool) (l : List Meter) :
    l.reverse.find? p = (l.filter p).getLast? := by
  induction l with
  | nil => rfl
  | cons m l ih =>
    rw [List.reverse_cons, List.find?_append, ih]
    cases hp : p m
    · simp [List.filter_cons, hp, List.find?_cons]
    · rw [List.filter_cons, if_pos hp]
      cases hf : l.filter p with
      | nil => simp [List.find?_cons, hp]
      | cons a t =>
        simp only [List.getLast?_cons_cons]
        rw [List.getLast?_eq_getLast _ (List.cons_ne_nil a t)]
        simp

/-- C18: `DoAction` picks the command of the last meter, in registration order, that is
not hidden, has a command for the action and passes its hit test; nothing else about
the meters enters the result. When that command is empty or there is no such meter, it
uses the skin's command for the action if the skin has one and its hit test passes. It
returns true exactly when the picked command is not empty, and it runs the command
(for the picking meter, if any) exactly when moreover `test` is false; otherwise the
skin is unchanged. -/
theorem C18_doaction_topmost_meter_claims (ex : Interp) (hit : Meter → Bool) (skinHit : Bool)
    (action : MOUSEACTION) (test : Bool) (s : Skin) :
    (s.DoAction ex hit skinHit action test).1 =
      decide ((if (((s.m_Meters.filter (Meter.claims hit action)).getLast?).map
                    (fun m => m.mouse.actionCommand action)).getD "" ≠ "" then
                (((s.m_Meters.filter (Meter.claims hit action)).getLast?).map
                    (fun m => m.mouse.actionCommand action)).getD ""
              else if s.m_Mouse.hasActionCommand action && skinHit then
                s.m_Mouse.actionCommand action
              else "") ≠ "") ∧
    (s.DoAction ex hit skinHit action test).2 =
      (if (s.DoAction ex hit skinHit action test).1 = true ∧ test = false then
        s.ExecuteCommand ex
          (if (((s.m_Meters.filter (Meter.claims hit action)).getLast?).map
                    (fun m => m.mouse.actionCommand action)).getD "" ≠ "" then
                (((s.m_Meters.filter (Meter.claims hit action)).getLast?).map
                    (fun m => m.mouse.actionCommand action)).getD ""
              else if s.m_Mouse.hasActionCommand action && skinHit then
                s.m_Mouse.actionCommand action
              else "")
          (((s.m_Meters.filter (Meter.claims hit action)).getLast?).map (fun m => m.name))
      else s) := by
  unfold DoAction
  rw [doActionScan_eq_find, find_reverse_eq_getLast_filter]
  generalize (s.m_Meters.filter (Meter.claims hit action)).getLast? = found
  cases found with
  | none =>
    by_cases h1 : (s.m_Mouse.hasActionCommand action && skinHit) = true
    · by_cases h2 : s.m_Mouse.actionCommand action = "" <;> cases test <;> simp [h1, h2]
    · cases test <;> simp [h1]
  | some m =>
    by_cases h0 : m.mouse.actionCommand action = ""
    · by_cases h1 : (s.m_Mouse.hasActionCommand action && skinHit) = true
      · by_cases h2 : s.m_Mouse.actionCommand action = "" <;> cases test <;>
          simp [h0, h1, h2]
      · cases test <;> simp [h0, h1]
    · cases test <;> simp [h0]

end Skin

/-! ### Mouse dispatch: `DoMoveAction` -/

namespace Skin

theorem moveRel_refl (action : MOUSEACTION) (e : MoveExit) (l : List Meter)
    (h : ∀ k, k < l.length → e ≠ .meterOver k ∧ e ≠ .meterLeave k) : moveRel action e l l := by
  induction l with
  | nil => trivial
  | cons m rest ih =>
    refine ⟨⟨rfl, rfl, rfl, rfl, ?_, ?_, ?_⟩, ih (fun k hk => h k (Nat.lt_succ_of_lt hk))⟩
    · intro he; exact absurd he (h rest.length (Nat.lt_succ_self _)).1
    · intro he; exact absurd he (h rest.length (Nat.lt_succ_self _)).2
    · intros; rfl

theorem mouseEnter_facts (s : Skin) :
    s.mouseEnter.m_MouseOver = true ∧ s.mouseEnter.m_Mouse = s.m_Mouse ∧
    s.mouseEnter.m_HasButtons = s.m_HasButtons ∧ s.mouseEnter.m_Meters = s.m_Meters := by
  unfold mouseEnter RegisterMouseInput
  simp only []
  split_ifs <;> simp [call]

/-- A step of the meter loop that goes on with the rest of the meters. -/
theorem scanGood_cons (action : MOUSEACTION) (m m' : Meter) (rest : List Meter) (s s1 : Skin)
    (r : List Meter × Skin × MoveExit)
    (hr : scanGood action rest s1 r)
    (hs : s1 = s ∨ (s1 = s.mouseEnter ∧ s.m_MouseOver = false ∧ action = .MOUSE_OVER ∧
      s.m_Mouse.overAction = ""))
    (hm : m'.mouse = m.mouse ∧ m'.name = m.name ∧ m'.hidden = m.hidden ∧
      m'.isButton = m.isButton)
    (hf : m'.mouseOver ≠ m.mouseOver → m.mouse.overAction = "" ∨ m.mouse.leaveAction = "") :
    scanGood action (m :: rest) s (m' :: r.1, r.2.1, r.2.2) := by
  obtain ⟨h1, h2, h3⟩ := hr
  have hne : r.2.2 ≠ .meterOver rest.length ∧ r.2.2 ≠ .meterLeave rest.length := by
    rcases h2 with h | h | ⟨i, hi, h | h⟩ <;> rw [h] <;> simp <;> omega
  refine ⟨⟨⟨hm.1, hm.2.1, hm.2.2.1, hm.2.2.2, ?_, ?_, ?_⟩, h1⟩, ?_, ?_⟩
  · intro he; exact absurd he hne.1
  · intro he; exact absurd he hne.2
  · intro _ _ ho hl
    by_contra hcon
    rcases hf hcon with h | h
    · exact ho h
    · exact hl h
  · rcases h2 with h | h | ⟨i, hi, h⟩
    · exact Or.inl h
    · exact Or.inr (Or.inl h)
    · exact Or.inr (Or.inr ⟨i, by simp; omega, h⟩)
  · simp only []
    rcases hs with hs | ⟨hs, ho, ha, hempty⟩
    · rw [hs] at h3; exact h3
    · rcases h3 with ⟨e1, e2⟩ | ⟨-, e2, -⟩
      · right
        refine ⟨by rw [e1, hs], ho, ha, ?_⟩
        constructor
        · intro h; exact absurd h e2
        · intro h; exact absurd hempty h
      · rw [hs, (mouseEnter_facts s).1] at e2
        exact absurd e2 (by decide)

/-- The loop body of `DoMoveAction` on one meter. -/
theorem moveMeter_facts (hit : Meter → Bool) (action : MOUSEACTION) (i : Nat) (m : Meter)
    (bf : Bool) (s : Skin) :
    ((moveMeter hit action i m bf s).1.mouse = m.mouse ∧
      (moveMeter hit action i m bf s).1.name = m.name ∧
      (moveMeter hit action i m bf s).1.hidden = m.hidden ∧
      (moveMeter hit action i m bf s).1.isButton = m.isButton) ∧
    ((moveMeter hit action i m bf s).2.2.2 = .none ∨
      (moveMeter hit action i m bf s).2.2.2 = .skinOver ∨
      (moveMeter hit action i m bf s).2.2.2 = .meterOver i ∨
      (moveMeter hit action i m bf s).2.2.2 = .meterLeave i) ∧
    ((moveMeter hit action i m bf s).2.2.2 = .meterOver i →
      action = .MOUSE_OVER ∧ m.mouseOver = false ∧
      (moveMeter hit action i m bf s).1.mouseOver = true ∧ m.mouse.overAction ≠ "") ∧
    ((moveMeter hit action i m bf s).2.2.2 = .meterLeave i →
      action = .MOUSE_LEAVE ∧ m.mouseOver = true ∧
      (moveMeter hit action i m bf s).1.mouseOver = false ∧ m.mouse.leaveAction ≠ "") ∧
    ((moveMeter hit action i m bf s).2.2.2 ≠ .meterOver i →
      (moveMeter hit action i m bf s).2.2.2 ≠ .meterLeave i →
      (moveMeter hit action i m bf s).1.mouseOver ≠ m.mouseOver →
      m.mouse.overAction = "" ∨ m.mouse.leaveAction = "") ∧
    (((moveMeter hit action i m bf s).2.1 = s ∧
        (moveMeter hit action i m bf s).2.2.2 ≠ .skinOver) ∨
      ((moveMeter hit action i m bf s).2.1 = s.mouseEnter ∧ s.m_MouseOver = false ∧
        action = .MOUSE_OVER ∧
        ((moveMeter hit action i m bf s).2.2.2 = .skinOver ↔ s.m_Mouse.overAction ≠ ""))) := by
  unfold moveMeter moveButton
  simp only []
  split_ifs <;> simp_all

theorem moveScan_good (hit : Meter → Bool) (action : MOUSEACTION) (l : List Meter) :
    ∀ bf s, scanGood action l s (moveScan hit action l bf s) := by
  induction l with
  | nil =>
    intro bf s
    exact ⟨trivial, Or.inl rfl, Or.inl ⟨rfl, by simp [moveScan]⟩⟩
  | cons m rest ih =>
    intro bf s
    obtain ⟨f1, f2, f3, f4, f5, f6⟩ := moveMeter_facts hit action rest.length m bf s
    rw [moveScan]
    simp only []
    generalize moveMeter hit action rest.length m bf s = r at f1 f2 f3 f4 f5 f6 ⊢
    by_cases hx : r.2.2.2 = .none
    · rw [if_neg (not_not.mpr hx)]
      refine scanGood_cons action m r.1 rest s r.2.1 _ (ih _ _) ?_ f1 ?_
      · rcases f6 with ⟨e1, -⟩ | ⟨e1, e2, e3, e4⟩
        · exact Or.inl e1
        · refine Or.inr ⟨e1, e2, e3, ?_⟩
          by_contra hne
          have := e4.mpr hne
          rw [hx] at this
          exact MoveExit.noConfusion this
      · exact f5 (by rw [hx]; simp) (by rw [hx]; simp)
    · rw [if_pos hx]
      refine ⟨⟨⟨f1.1, f1.2.1, f1.2.2.1, f1.2.2.2, f3, f4, ?_⟩, ?_⟩, ?_, f6⟩
      · intro h1 h2 ho hl
        by_contra hcon
        rcases f5 h1 h2 hcon with h | h
        · exact ho h
        · exact hl h
      · apply moveRel_refl
        intro k hk
        rcases f2 with h | h | h | h
        · exact absurd h hx
        · rw [h]; simp
        · rw [h]; simp; omega
        · rw [h]; simp; omega
      · rcases f2 with h | h | h | h
        · exact absurd h hx
        · exact Or.inr (Or.inl h)
        · exact Or.inr (Or.inr ⟨rest.length, by simp, Or.inl h⟩)
        · exact Or.inr (Or.inr ⟨rest.length, by simp, Or.inr h⟩)

theorem moveRel_length (action : MOUSEACTION) (e : MoveExit) :
    ∀ l l', moveRel action e l l' → l'.length = l.length := by
  intro l
  induction l with
  | nil => intro l' h; cases l' with
    | nil => rfl
    | cons a t => exact absurd h (by simp [moveRel])
  | cons m rest ih =>
    intro l' h
    cases l' with
    | nil => exact absurd h (by simp [moveRel])
    | cons m' rest' => simp [ih rest' h.2]

/-- `moveRel` read at the index of a meter in registration order. -/
theorem moveRel_get (action : MOUSEACTION) (e : MoveExit) :
    ∀ l l', moveRel action e l l' → ∀ i m, l.reverse.get? i = some m →
      ∃ m', l'.reverse.get? i = some m' ∧ moveLocal action e i m m' := by
  intro l
  induction l with
  | nil => intro l' _ i m hm; simp at hm
  | cons m0 rest ih =>
    intro l' h i m hm
    cases l' with
    | nil => exact absurd h (by simp [moveRel])
    | cons m0' rest' =>
      have hlen : rest'.length = rest.length := moveRel_length action e rest rest' h.2
      rw [List.reverse_cons, List.get?_eq_getElem?] at hm
      rw [List.reverse_cons, List.get?_eq_getElem?]
      rcases Nat.lt_or_ge i rest.length with hi | hi
      · rw [List.getElem?_append_left (by simpa using hi)] at hm
        rw [List.getElem?_append_left (by simpa [hlen] using hi)]
        have := ih rest' h.2 i m (by rw [List.get?_eq_getElem?]; exact hm)
        simpa [List.get?_eq_getElem?] using this
      · rw [List.getElem?_append_right (by simpa using hi)] at hm
        rw [List.getElem?_append_right (by simpa [hlen] using hi)]
        simp only [List.length_reverse] at hm ⊢
        rw [hlen]
        rcases Nat.eq_or_lt_of_le hi with hi' | hi'
        · subst hi'
          simp only [Nat.sub_self, List.getElem?_cons_zero, Option.some.injEq] at hm ⊢
          subst hm
          exact ⟨m0', rfl, h.1⟩
        · have : i - rest.length = (i - rest.length - 1) + 1 := by omega
          rw [this] at hm
          simp at hm

theorem moveLocal_of_none (action : MOUSEACTION) (e : MoveExit) (i : Nat) (m m' : Meter)
    (h : moveLocal action .none i m m') (he : e ≠ .meterOver i ∧ e ≠ .meterLeave i) :
    moveLocal action e i m m' := by
  obtain ⟨a, b, c, d, -, -, g⟩ := h
  refine ⟨a, b, c, d, ?_, ?_, ?_⟩
  · intro h1; exact absurd h1 he.1
  · intro h1; exact absurd h1 he.2
  · intro _ _ ho hl; exact g (by simp) (by simp) ho hl

theorem UnregisterMouseInput_facts (s : Skin) :
    s.UnregisterMouseInput.m_MouseOver = s.m_MouseOver ∧
    s.UnregisterMouseInput.m_Mouse = s.m_Mouse ∧
    s.UnregisterMouseInput.m_Meters = s.m_Meters := by
  unfold UnregisterMouseInput
  split_ifs <;> simp [call]

/-- The skin part of `DoMoveAction` after the meter loop (lines 5095-5135), on the state
`s2` the loop leaves when it ran through. -/
theorem moveTail_good (skinHit : Bool) (action : MOUSEACTION) (s2 : Skin) :
    callGood action s2 (moveTail skinHit action s2).1 (moveTail skinHit action s2).2 := by
  unfold moveTail
  simp only []
  have keep : ∀ (t : Skin) (e : MoveExit), t.m_Meters = s2.m_Meters →
      (∀ k, e ≠ .meterOver k ∧ e ≠ .meterLeave k) →
      ∀ i m, s2.m_Meters.get? i = some m →
        ∃ m', t.m_Meters.get? i = some m' ∧ moveLocal action e i m m' := by
    intro t e ht he i m hm
    refine ⟨m, by rw [ht]; exact hm, rfl, rfl, rfl, rfl, ?_, ?_, ?_⟩
    · intro h; exact absurd h (he i).1
    · intro h; exact absurd h (he i).2
    · intros; rfl
  obtain ⟨me1, me2, -, me4⟩ := mouseEnter_facts s2
  obtain ⟨u1, u2, u3⟩ := UnregisterMouseInput_facts
    (({ s2 with m_MouseOver := false } : Skin).call (.setMouseLeaveEvent true))
  split_ifs with c1 c2 c3 c4 c5 c6 c7
  · exact ⟨me2, keep _ _ me4 (by simp), fun _ => ⟨c2, by simpa using c3, me1, c4⟩,
      fun h => by simp at h, fun h => absurd rfl h⟩
  · refine ⟨me2, keep _ _ me4 (by simp), fun h => by simp at h, fun h => by simp at h, ?_⟩
    intro _ _ ho _
    exact absurd (not_not.mp c4) ho
  · exact ⟨rfl, keep _ _ rfl (by simp), fun h => by simp at h, fun h => by simp at h,
      fun _ _ _ _ => rfl⟩
  · exact ⟨rfl, keep _ _ rfl (by simp), fun h => by simp at h, fun h => by simp at h,
      fun _ _ _ _ => rfl⟩
  · exact ⟨u2, keep _ _ u3 (by simp), fun h => by simp at h,
      fun _ => ⟨c5, c6, by rw [u1]; rfl, c7⟩, fun _ h => absurd rfl h⟩
  · refine ⟨u2, keep _ _ u3 (by simp), fun h => by simp at h, fun h => by simp at h, ?_⟩
    intro _ _ _ hl
    exact absurd (not_not.mp c7) hl
  · exact ⟨rfl, keep _ _ rfl (by simp), fun h => by simp at h, fun h => by simp at h,
      fun _ _ _ _ => rfl⟩
  · exact ⟨rfl, keep _ _ rfl (by simp), fun h => by simp at h, fun h => by simp at h,
      fun _ _ _ _ => rfl⟩

theorem moveTail_exit (skinHit : Bool) (action : MOUSEACTION) (s2 : Skin) (k : Nat) :
    (moveTail skinHit action s2).2 ≠ .meterOver k ∧
    (moveTail skinHit action s2).2 ≠ .meterLeave k := by
  unfold moveTail
  simp only []
  split_ifs <;> simp

/-- One `DoMoveAction` call, up to its point of return. -/
theorem moveOutcome_good (hit : Meter → Bool) (skinHit : Bool) (action : MOUSEACTION)
    (s : Skin) :
    callGood action s (moveOutcome hit skinHit action s).1
      (moveOutcome hit skinHit action s).2 := by
  obtain ⟨g1, g2, g3⟩ := moveScan_good hit action s.m_Meters.reverse false s
  unfold moveOutcome
  simp only []
  generalize moveScan hit action s.m_Meters.reverse false s = r at g1 g2 g3 ⊢
  have hmeters : ∀ i m, s.m_Meters.get? i = some m →
      ∃ m', r.1.reverse.get? i = some m' ∧ moveLocal action r.2.2 i m m' := by
    intro i m hm
    exact moveRel_get action r.2.2 _ _ g1 i m (by rw [List.reverse_reverse]; exact hm)
  have hmouse : r.2.1.m_Mouse = s.m_Mouse := by
    rcases g3 with ⟨e, -⟩ | ⟨e, -⟩
    · rw [e]
    · rw [e]; exact (mouseEnter_facts s).2.1
  by_cases hx : r.2.2 = .none
  · rw [if_neg (not_not.mpr hx)]
    obtain ⟨t1, t2, t3, t4, t5⟩ := moveTail_good skinHit action
      { r.2.1 with m_Meters := r.1.reverse }
    have tx := moveTail_exit skinHit action { r.2.1 with m_Meters := r.1.reverse }
    generalize moveTail skinHit action { r.2.1 with m_Meters := r.1.reverse } = q
      at t1 t2 t3 t4 t5 tx ⊢
    -- the skin before the tail is `s`, or `s` entered without over action
    have hskin : r.2.1.m_MouseOver = s.m_MouseOver ∨
        (s.m_MouseOver = false ∧ r.2.1.m_MouseOver = true ∧ action = .MOUSE_OVER ∧
          s.m_Mouse.overAction = "") := by
      rcases g3 with ⟨e, -⟩ | ⟨e, e2, e3, e4⟩
      · left; rw [e]
      · right
        refine ⟨e2, by rw [e]; exact (mouseEnter_facts s).1, e3, ?_⟩
        by_contra hne
        have := e4.mpr hne
        rw [hx] at this
        exact MoveExit.noConfusion this
    refine ⟨t1.trans hmouse, ?_, ?_, ?_, ?_⟩
    · intro i m hm
      obtain ⟨m2, hm2, l2⟩ := hmeters i m hm
      obtain ⟨m', hm', l'⟩ := t2 i m2 hm2
      refine ⟨m', hm', ?_⟩
      rw [hx] at l2
      have l2' := moveLocal_of_none action q.2 i m m2 l2 (tx i)
      obtain ⟨a1, a2, a3, a4, a5, a6, a7⟩ := l2'
      obtain ⟨b1, b2, b3, b4, b5, b6, b7⟩ := l'
      refine ⟨b1.trans a1, b2.trans a2, b3.trans a3, b4.trans a4, ?_, ?_, ?_⟩
      · intro h; exact absurd h (tx i).1
      · intro h; exact absurd h (tx i).2
      · intro h1 h2 ho hl
        rw [b7 h1 h2 (by rw [a1]; exact ho) (by rw [a1]; exact hl)]
        exact a7 h1 h2 ho hl
    · intro h
      obtain ⟨c1, c2, c3, c4⟩ := t3 h
      refine ⟨c1, ?_, c3, by rw [← hmouse]; exact c4⟩
      rcases hskin with e | ⟨-, e, -, -⟩
      · rw [← e]; exact c2
      · rw [e] at c2; exact absurd c2 (by decide)
    · intro h
      obtain ⟨c1, c2, c3, c4⟩ := t4 h
      refine ⟨c1, ?_, c3, by rw [← hmouse]; exact c4⟩
      rcases hskin with e | ⟨-, -, e, -⟩
      · rw [← e]; exact c2
      · rw [e] at c1; exact absurd c1 (by decide)
    · intro h1 h2 ho hl
      rw [t5 h1 h2 (by rw [hmouse]; exact ho) (by rw [hmouse]; exact hl)]
      rcases hskin with e | ⟨-, -, -, e⟩
      · exact e
      · exact absurd e ho
  · rw [if_pos hx]
    refine ⟨hmouse, hmeters, ?_, ?_, ?_⟩
    · intro h
      rcases g3 with ⟨-, e⟩ | ⟨e, e2, e3, e4⟩
      · exact absurd h e
      · exact ⟨e3, e2, by simp only []; rw [e]; exact (mouseEnter_facts s).1, e4.mp h⟩
    · intro h
      rcases g2 with g | g | ⟨i, -, g | g⟩ <;> rw [g] at h <;> exact MoveExit.noConfusion h
    · intro h1 _ ho _
      rcases g3 with ⟨e, -⟩ | ⟨-, -, -, e4⟩
      · simp only []; rw [e]
      · exact absurd (e4.mpr ho) h1

end Skin

/-! ### Hover actions over a sequence of calls -/

namespace Skin

/-- A call that runs through to the end executes no command and returns false. -/
theorem DoMoveAction_of_none (ex : Interp) (hit : Meter → Bool) (skinHit : Bool)
    (action : MOUSEACTION) (s : Skin) (h : (s.moveOutcome hit skinHit action).2 = .none) :
    s.DoMoveAction ex hit skinHit action = (false, (s.moveOutcome hit skinHit action).1) := by
  unfold DoMoveAction
  simp only [h, exitCommand]

/-- Under an interpreter that leaves the hover state as it is, `DoMoveAction` leaves the
hover state of `moveOutcome`. -/
theorem DoMoveAction_keeps (ex : Interp) (hex : ex.keepsHover) (hit : Meter → Bool)
    (skinHit : Bool) (action : MOUSEACTION) (s : Skin) :
    (s.DoMoveAction ex hit skinHit action).2.m_Mouse =
        (s.moveOutcome hit skinHit action).1.m_Mouse ∧
    (s.DoMoveAction ex hit skinHit action).2.m_MouseOver =
        (s.moveOutcome hit skinHit action).1.m_MouseOver ∧
    ∀ i m, (s.moveOutcome hit skinHit action).1.m_Meters.get? i = some m →
      ∃ m', (s.DoMoveAction ex hit skinHit action).2.m_Meters.get? i = some m' ∧
        m'.mouse = m.mouse ∧ m'.mouseOver = m.mouseOver := by
  unfold DoMoveAction
  simp only []
  generalize s.moveOutcome hit skinHit action = r
  cases h : exitCommand r.1 r.2 with
  | none => exact ⟨rfl, rfl, fun i m hm => ⟨m, hm, rfl, rfl⟩⟩
  | some c =>
    obtain ⟨command, sec⟩ := c
    have key := hex command sec (r.1.call (.executeCommand command sec))
    cases r.2 <;> exact key

/-- The skin part of `DoMoveAction`, when it executes nothing, does nothing on being
repeated. -/
theorem moveTail_idem (skinHit : Bool) (action : MOUSEACTION) (s : Skin)
    (h : (moveTail skinHit action s).2 = .none) :
    moveTail skinHit action (moveTail skinHit action s).1 =
      ((moveTail skinHit action s).1, .none) := by
  obtain ⟨me1, -, -, -⟩ := mouseEnter_facts s
  obtain ⟨u1, -, -⟩ := UnregisterMouseInput_facts
    (({ s with m_MouseOver := false } : Skin).call (.setMouseLeaveEvent true))
  have u1' : (({ s with m_MouseOver := false } : Skin).call
      (.setMouseLeaveEvent true)).UnregisterMouseInput.m_MouseOver = false := u1
  unfold moveTail at h ⊢
  simp only [] at h ⊢
  split_ifs at h ⊢ <;> simp_all

/-- The skin part of `DoMoveAction` keeps the meters and `m_HasButtons`, and a
`MOUSE_OVER` call does not clear `m_MouseOver`. -/
theorem moveTail_facts (skinHit : Bool) (action : MOUSEACTION) (s : Skin) :
    (moveTail skinHit action s).1.m_Meters = s.m_Meters ∧
    (moveTail skinHit action s).1.m_HasButtons = s.m_HasButtons ∧
    (action = .MOUSE_OVER → s.m_MouseOver = true →
      (moveTail skinHit action s).1.m_MouseOver = true) := by
  obtain ⟨me1, -, me3, me4⟩ := mouseEnter_facts s
  have u : ∀ t : Skin, t.UnregisterMouseInput.m_Meters = t.m_Meters ∧
      t.UnregisterMouseInput.m_HasButtons = t.m_HasButtons := by
    intro t
    unfold UnregisterMouseInput
    split_ifs <;> simp [call]
  unfold moveTail
  simp only []
  split_ifs <;> simp_all [call]

/-- The button handling keeps everything but the focus. -/
theorem moveButton_facts (hb bf : Bool) (m : Meter) :
    (moveButton hb bf m).1 = { m with focus := (moveButton hb bf m).1.focus } ∧
    (moveButton hb bf m).1.mouseOver = m.mouseOver ∧
    (moveButton hb bf m).1.mouse = m.mouse ∧
    (moveButton hb bf m).1.hidden = m.hidden ∧
    (moveButton hb bf m).1.isButton = m.isButton := by
  unfold moveButton
  split_ifs <;> simp

/-- The button handling gives the same result when it is repeated on its result, whatever
the hover flag has become. -/
theorem moveButton_idem (hb bf : Bool) (m : Meter) (mo : Bool) :
    moveButton hb bf { (moveButton hb bf m).1 with mouseOver := mo } =
      ({ (moveButton hb bf m).1 with mouseOver := mo }, (moveButton hb bf m).2) := by
  unfold moveButton
  split_ifs <;> simp_all

/-- The loop body on a meter that is hidden or not hit, in a call that finds nothing to
leave. -/
theorem moveMeter_miss (hit : Meter → Bool) (action : MOUSEACTION) (i : Nat) (m : Meter)
    (bf : Bool) (s : Skin) (hc : (!m.hidden && hit m) = false)
    (ha : action ≠ .MOUSE_LEAVE ∨ m.mouseOver = false) :
    moveMeter hit action i m bf s = (m, s, bf, .none) := by
  unfold moveMeter
  rcases ha with ha | ha <;> simp [hc, ha]

/-- The loop body on a meter that is hidden or not hit and has its hover flag set, in a
`MOUSE_LEAVE` call. -/
theorem moveMeter_leave (hit : Meter → Bool) (i : Nat) (m : Meter)
    (bf : Bool) (s : Skin) (hc : (!m.hidden && hit m) = false) (ho : m.mouseOver = true) :
    moveMeter hit .MOUSE_LEAVE i m bf s =
      ({ (if s.m_HasButtons && m.isButton then { m with focus := false } else m) with
          mouseOver := false }, s, bf,
        if m.mouse.leaveAction ≠ "" then .meterLeave i else .none) := by
  unfold moveMeter
  simp only [hc, ho, Bool.false_eq_true, if_false, if_true]
  split_ifs <;> simp_all

/-- The loop body on a visible meter that is hit, in a call that is no `MOUSE_OVER`. -/
theorem moveMeter_pass (hit : Meter → Bool) (action : MOUSEACTION) (i : Nat) (m : Meter)
    (bf : Bool) (s : Skin) (hc : (!m.hidden && hit m) = true) (ha : action ≠ .MOUSE_OVER) :
    moveMeter hit action i m bf s = (m, s, bf, .none) := by
  unfold moveMeter
  simp [hc, ha]

/-- The loop body on a visible meter that is hit, in a `MOUSE_OVER` call on a skin that
is entered already. -/
theorem moveMeter_over (hit : Meter → Bool) (i : Nat) (m : Meter)
    (bf : Bool) (s : Skin) (hc : (!m.hidden && hit m) = true) (hs : s.m_MouseOver = true) :
    moveMeter hit .MOUSE_OVER i m bf s =
      if (!m.mouseOver && (decide (m.mouse.overAction ≠ "") ||
          decide (m.mouse.leaveAction ≠ "") || (s.m_HasButtons && m.isButton))) = true then
        ({ (moveButton s.m_HasButtons bf m).1 with mouseOver := true }, s,
          (moveButton s.m_HasButtons bf m).2,
          if m.mouse.overAction ≠ "" then .meterOver i else .none)
      else ((moveButton s.m_HasButtons bf m).1, s, (moveButton s.m_HasButtons bf m).2, .none) := by
  obtain ⟨-, b2, b3, -, -⟩ := moveButton_facts s.m_HasButtons bf m
  unfold moveMeter
  simp only [hc, hs, if_true, Bool.not_true, Bool.false_and, Bool.false_eq_true, if_false, b2, b3]
  split_ifs <;> rfl

/-- The loop body on a visible meter that is hit, in a `MOUSE_OVER` call on a skin that
is not entered yet. -/
theorem moveMeter_enter (hit : Meter → Bool) (i : Nat) (m : Meter)
    (bf : Bool) (s : Skin) (hc : (!m.hidden && hit m) = true) (hs : s.m_MouseOver = false) :
    moveMeter hit .MOUSE_OVER i m bf s =
      if s.m_Mouse.overAction ≠ "" then (m, s.mouseEnter, bf, .skinOver)
      else moveMeter hit .MOUSE_OVER i m bf s.mouseEnter := by
  obtain ⟨me1, me2, me3, -⟩ := mouseEnter_facts s
  rw [moveMeter_over hit i m bf s.mouseEnter hc me1]
  obtain ⟨-, b2, b3, -, -⟩ := moveButton_facts s.mouseEnter.m_HasButtons bf m
  unfold moveMeter
  simp only [hc, hs, if_true, Bool.not_false, Bool.true_and, b2, b3]
  by_cases ho : s.m_Mouse.overAction = ""
  · simp only [ho, ne_eq, not_true_eq_false, decide_False, Bool.false_eq_true, if_false]
    split_ifs <;> rfl
  · simp [ho]

/-- The button handling gives the same result when it is repeated on its result. -/
theorem moveButton_idem_self (hb bf : Bool) (m : Meter) :
    moveButton hb bf (moveButton hb bf m).1 =
      ((moveButton hb bf m).1, (moveButton hb bf m).2) := by
  unfold moveButton
  split_ifs <;> simp_all

/-- A hit test that does not look at focus and hover flag gives the same answer after the
button handling and a change of the hover flag. -/
theorem hit_button (hit : Meter → Bool)
    (hh : ∀ m b f, hit { m with mouseOver := b, focus := f } = hit m)
    (hb bf : Bool) (m : Meter) (mo : Bool) :
    hit { (moveButton hb bf m).1 with mouseOver := mo } = hit m ∧
    hit (moveButton hb bf m).1 = hit m := by
  unfold moveButton
  split_ifs
  · exact ⟨hh m mo true, hh m m.mouseOver true⟩
  · exact ⟨hh m mo false, hh m m.mouseOver false⟩
  · exact ⟨hh m mo m.focus, rfl⟩

/-- The loop body of `DoMoveAction` on one meter, when it executes nothing, leaves the
meter as it is on being repeated for the same pointer position. -/
theorem moveMeter_idem (hit : Meter → Bool)
    (hh : ∀ m b f, hit { m with mouseOver := b, focus := f } = hit m)
    (action : MOUSEACTION) (i j : Nat) (m : Meter) (bf : Bool) (s u : Skin)
    (hx : (moveMeter hit action i m bf s).2.2.2 = .none)
    (hb : u.m_HasButtons = s.m_HasButtons)
    (hu : action = .MOUSE_OVER → (moveMeter hit action i m bf s).2.1.m_MouseOver = true →
      u.m_MouseOver = true) :
    moveMeter hit action j (moveMeter hit action i m bf s).1 bf u =
      ((moveMeter hit action i m bf s).1, u, (moveMeter hit action i m bf s).2.2.1, .none) := by
  by_cases hc : (!m.hidden && hit m) = true
  · by_cases ha : action = .MOUSE_OVER
    · subst ha
      -- the call on a skin that is entered already
      have key : ∀ s0 : Skin, s0.m_MouseOver = true → u.m_HasButtons = s0.m_HasButtons →
          (moveMeter hit .MOUSE_OVER i m bf s0).2.2.2 = .none →
          ((moveMeter hit .MOUSE_OVER i m bf s0).2.1.m_MouseOver = true → u.m_MouseOver = true) →
          moveMeter hit .MOUSE_OVER j (moveMeter hit .MOUSE_OVER i m bf s0).1 bf u =
            ((moveMeter hit .MOUSE_OVER i m bf s0).1, u,
              (moveMeter hit .MOUSE_OVER i m bf s0).2.2.1, .none) := by
        intro s0 hs0 hb0 hx0 hu0
        obtain ⟨-, b2, b3, b4, b5⟩ := moveButton_facts s0.m_HasButtons bf m
        rw [moveMeter_over hit i m bf s0 hc hs0] at hx0 hu0 ⊢
        by_cases hcond : (!m.mouseOver && (decide (m.mouse.overAction ≠ "") ||
            decide (m.mouse.leaveAction ≠ "") || (s0.m_HasButtons && m.isButton))) = true
        · rw [if_pos hcond] at hx0 hu0 ⊢
          have hum : u.m_MouseOver = true := hu0 hs0
          have hc2 : (!({ (moveButton s0.m_HasButtons bf m).1 with mouseOver := true } :
              Meter).hidden &&
              hit { (moveButton s0.m_HasButtons bf m).1 with mouseOver := true }) = true := by
            rw [(hit_button hit hh s0.m_HasButtons bf m true).1]
            show (!(moveButton s0.m_HasButtons bf m).1.hidden && hit m) = true
            rw [b4]; exact hc
          rw [moveMeter_over hit j _ bf u hc2 hum]
          rw [if_neg (by simp), hb0, moveButton_idem]
        · rw [if_neg hcond] at hx0 hu0 ⊢
          have hum : u.m_MouseOver = true := hu0 hs0
          have hc2 : (!(moveButton s0.m_HasButtons bf m).1.hidden &&
              hit (moveButton s0.m_HasButtons bf m).1) = true := by
            rw [(hit_button hit hh s0.m_HasButtons bf m true).2, b4]; exact hc
          rw [moveMeter_over hit j _ bf u hc2 hum, b2, b3, b5, hb0, if_neg hcond,
            moveButton_idem_self]
      cases hs : s.m_MouseOver
      · rw [moveMeter_enter hit i m bf s hc hs] at hx hu ⊢
        by_cases ho : s.m_Mouse.overAction ≠ ""
        · rw [if_pos ho] at hx
          exact absurd hx (by simp)
        · rw [if_neg ho] at hx hu ⊢
          exact key s.mouseEnter (mouseEnter_facts s).1
            (hb.trans (mouseEnter_facts s).2.2.1.symm) hx (hu rfl)
      · exact key s hs hb hx (hu rfl)
    · rw [moveMeter_pass hit action i m bf s hc ha]
      exact moveMeter_pass hit action j m bf u hc ha
  · have hc' : (!m.hidden && hit m) = false := by simpa using hc
    by_cases ha : action = .MOUSE_LEAVE
    · subst ha
      cases ho : m.mouseOver
      · rw [moveMeter_miss hit _ i m bf s hc' (Or.inr ho)]
        exact moveMeter_miss hit _ j m bf u hc' (Or.inr ho)
      · rw [moveMeter_leave hit i m bf s hc' ho] at hx ⊢
        refine moveMeter_miss hit _ j _ bf u ?_ (Or.inr rfl)
        show (!(if (s.m_HasButtons && m.isButton) = true then
            ({ m with focus := false } : Meter) else m).hidden &&
          hit { (if (s.m_HasButtons && m.isButton) = true then
            ({ m with focus := false } : Meter) else m) with mouseOver := false }) = false
        split_ifs
        · rw [show hit { ({ m with focus := false } : Meter) with mouseOver := false } = hit m
            from hh m false false]
          exact hc'
        · rw [show hit { m with mouseOver := false } = hit m from hh m false m.focus]
          exact hc'
    · rw [moveMeter_miss hit action i m bf s hc' (Or.inl ha)]
      exact moveMeter_miss hit action j m bf u hc' (Or.inl ha)

/-- The meter loop of `DoMoveAction`, when it executes nothing, leaves the meters as they
are on being repeated for the same pointer position. -/
theorem moveScan_idem (hit : Meter → Bool)
    (hh : ∀ m b f, hit { m with mouseOver := b, focus := f } = hit m)
    (action : MOUSEACTION) :
    ∀ (l : List Meter) (bf : Bool) (s u : Skin),
      (moveScan hit action l bf s).2.2 = .none →
      u.m_HasButtons = s.m_HasButtons →
      (action = .MOUSE_OVER → (moveScan hit action l bf s).2.1.m_MouseOver = true →
        u.m_MouseOver = true) →
      moveScan hit action (moveScan hit action l bf s).1 bf u =
        ((moveScan hit action l bf s).1, u, .none) := by
  intro l
  induction l with
  | nil =>
    intro bf s u _ _ _
    simp [moveScan]
  | cons m rest ih =>
    intro bf s u hx hb hu
    have f6 := (moveMeter_facts hit action rest.length m bf s).2.2.2.2.2
    obtain ⟨-, -, g3⟩ := moveScan_good hit action rest
      (moveMeter hit action rest.length m bf s).2.2.1 (moveMeter hit action rest.length m bf s).2.1
    rw [moveScan] at hx hu ⊢
    simp only [] at hx hu ⊢
    by_cases hr : (moveMeter hit action rest.length m bf s).2.2.2 = .none
    · rw [if_neg (not_not.mpr hr)] at hx hu ⊢
      simp only [] at hx hu ⊢
      have hbr : (moveMeter hit action rest.length m bf s).2.1.m_HasButtons = s.m_HasButtons := by
        rcases f6 with ⟨e, -⟩ | ⟨e, -⟩
        · rw [e]
        · rw [e]; exact (mouseEnter_facts s).2.2.1
      have hmono : (moveMeter hit action rest.length m bf s).2.1.m_MouseOver = true →
          (moveScan hit action rest (moveMeter hit action rest.length m bf s).2.2.1
            (moveMeter hit action rest.length m bf s).2.1).2.1.m_MouseOver = true := by
        intro h
        rcases g3 with ⟨e, -⟩ | ⟨e, -⟩
        · rw [e]; exact h
        · rw [e]; exact (mouseEnter_facts _).1
      rw [moveScan]
      simp only []
      rw [moveMeter_idem hit hh action rest.length _ m bf s u hr hb (fun ha h => hu ha (hmono h))]
      rw [if_neg (by simp)]
      simp only []
      rw [ih _ _ u hx (hb.trans hbr.symm) hu]
    · rw [if_pos hr] at hx
      exact absurd hx hr

theorem set_meters_self (t : Skin) : ({ t with m_Meters := t.m_Meters } : Skin) = t := by
  cases t
  rfl

/-- A call that executes nothing leaves the skin as it is on being repeated for the same
pointer position, up to its point of return. -/
theorem moveOutcome_idem (hit : Meter → Bool)
    (hh : ∀ m b f, hit { m with mouseOver := b, focus := f } = hit m)
    (skinHit : Bool) (action : MOUSEACTION) (s : Skin)
    (hx : (s.moveOutcome hit skinHit action).2 = .none) :
    (s.moveOutcome hit skinHit action).1.moveOutcome hit skinHit action =
      ((s.moveOutcome hit skinHit action).1, .none) := by
  obtain ⟨-, -, g3⟩ := moveScan_good hit action s.m_Meters.reverse false s
  have hidem := moveScan_idem hit hh action s.m_Meters.reverse false s
  have e1 : s.moveOutcome hit skinHit action =
      if (moveScan hit action s.m_Meters.reverse false s).2.2 ≠ .none then
        ({ (moveScan hit action s.m_Meters.reverse false s).2.1 with
            m_Meters := (moveScan hit action s.m_Meters.reverse false s).1.reverse },
          (moveScan hit action s.m_Meters.reverse false s).2.2)
      else moveTail skinHit action
        { (moveScan hit action s.m_Meters.reverse false s).2.1 with
          m_Meters := (moveScan hit action s.m_Meters.reverse false s).1.reverse } := rfl
  generalize moveScan hit action s.m_Meters.reverse false s = r at g3 hidem e1
  by_cases hr : r.2.2 = .none
  · rw [e1, if_neg (not_not.mpr hr)] at hx ⊢
    obtain ⟨t1, t2, t3⟩ := moveTail_facts skinHit action { r.2.1 with m_Meters := r.1.reverse }
    have tidem := moveTail_idem skinHit action { r.2.1 with m_Meters := r.1.reverse } hx
    have hb : (moveTail skinHit action { r.2.1 with m_Meters := r.1.reverse }).1.m_HasButtons =
        s.m_HasButtons := by
      rw [t2]
      rcases g3 with ⟨e, -⟩ | ⟨e, -⟩
      · show r.2.1.m_HasButtons = _; rw [e]
      · show r.2.1.m_HasButtons = _; rw [e]; exact (mouseEnter_facts s).2.2.1
    have hsc := hidem (moveTail skinHit action { r.2.1 with m_Meters := r.1.reverse }).1 hr hb
      (fun ha h => t3 ha h)
    generalize (moveTail skinHit action { r.2.1 with m_Meters := r.1.reverse }).1 = t
      at t1 tidem hsc
    have hm : t.m_Meters.reverse = r.1 := by
      rw [t1]; exact List.reverse_reverse _
    unfold moveOutcome
    simp only []
    rw [hm, hsc]
    simp only []
    rw [if_neg (by simp), ← hm, List.reverse_reverse, set_meters_self]
    exact tidem
  · rw [e1, if_pos hr] at hx
    exact absurd hx hr

/-- A call that does not run through has a command to execute. -/
theorem moveOutcome_command (hit : Meter → Bool) (skinHit : Bool) (action : MOUSEACTION)
    (s : Skin) (h : (s.moveOutcome hit skinHit action).2 ≠ .none) :
    ∃ c, exitCommand (s.moveOutcome hit skinHit action).1
      (s.moveOutcome hit skinHit action).2 = some c := by
  obtain ⟨g1, g2, -⟩ := moveScan_good hit action s.m_Meters.reverse false s
  unfold moveOutcome at h ⊢
  simp only [] at h ⊢
  generalize moveScan hit action s.m_Meters.reverse false s = r at g1 g2 h ⊢
  have hlen := moveRel_length action r.2.2 _ _ g1
  by_cases hr : r.2.2 = .none
  · rw [if_neg (not_not.mpr hr)] at h ⊢
    revert h
    unfold moveTail
    simp only []
    split_ifs <;> simp [exitCommand]
  · rw [if_pos hr]
    rcases g2 with g | g | ⟨i, hi, g | g⟩
    · exact absurd g hr
    · rw [g]; exact ⟨_, rfl⟩
    · rw [g]
      have hi' : i < r.1.reverse.length := by rw [List.length_reverse, hlen]; exact hi
      exact ⟨_, by simp only [exitCommand]; rw [List.get?_eq_get hi']; rfl⟩
    · rw [g]
      have hi' : i < r.1.reverse.length := by rw [List.length_reverse, hlen]; exact hi
      exact ⟨_, by simp only [exitCommand]; rw [List.get?_eq_get hi']; rfl⟩

/-- When the commands leave `m_MouseMoveCounter` as it is, a call returns false exactly
when it runs through without executing a command. -/
theorem DoMoveAction_false_iff (ex : Interp)
    (hcnt : ∀ command sec t, (ex command sec t).m_MouseMoveCounter = t.m_MouseMoveCounter)
    (hit : Meter → Bool) (skinHit : Bool) (action : MOUSEACTION) (s : Skin) :
    (s.DoMoveAction ex hit skinHit action).1 = false ↔
      (s.moveOutcome hit skinHit action).2 = .none := by
  constructor
  · intro h
    by_contra hne
    obtain ⟨c, hc⟩ := moveOutcome_command hit skinHit action s hne
    obtain ⟨command, sec⟩ := c
    unfold DoMoveAction at h
    simp only [hc] at h
    have hk : ((s.moveOutcome hit skinHit action).1.ExecuteCommand ex command sec).m_MouseMoveCounter
        = (s.moveOutcome hit skinHit action).1.m_MouseMoveCounter := by
      unfold ExecuteCommand
      rw [hcnt]
      rfl
    generalize (s.moveOutcome hit skinHit action).2 = e at h hne
    cases e <;> simp [hk] at h
  · intro h
    rw [DoMoveAction_of_none ex hit skinHit action s h]

/-- The interpreter that runs `!Redraw` leaves the hover state and `m_MouseMoveCounter` as
they are. -/
theorem redrawing_keepsHover :
    Interp.redrawing.keepsHover ∧
    ∀ command sec t, (Interp.redrawing command sec t).m_MouseMoveCounter =
      t.m_MouseMoveCounter := by
  have h : ∀ t : Skin, t.Redraw.m_Mouse = t.m_Mouse ∧ t.Redraw.m_MouseOver = t.m_MouseOver ∧
      t.Redraw.m_Meters = t.m_Meters ∧ t.Redraw.m_MouseMoveCounter = t.m_MouseMoveCounter := by
    intro t
    unfold Redraw
    split_ifs <;> simp [SetResizeWindowMode, call]
  constructor
  · intro command sec s
    unfold Interp.redrawing
    split_ifs
    · obtain ⟨h1, h2, h3, -⟩ := h s
      exact ⟨h1, h2, fun i m hm => ⟨m, by rw [h3]; exact hm, rfl, rfl⟩⟩
    · exact ⟨rfl, rfl, fun i m hm => ⟨m, hm, rfl, rfl⟩⟩
  · intro command sec t
    unfold Interp.redrawing
    split_ifs
    · exact (h t).2.2.2
    · rfl

/-- For a meter with both actions, the returns from its over and leave action alternate
along any sequence of calls, starting with the one its hover flag allows. -/
theorem moveRun_meter_alternates (ex : Interp) (hex : ex.keepsHover) (inputs : List MoveInput) :
    ∀ (s : Skin) (i : Nat) (m : Meter), s.m_Meters.get? i = some m →
      m.mouse.overAction ≠ "" → m.mouse.leaveAction ≠ "" →
      alternate (.meterOver i) (.meterLeave i) (!m.mouseOver) (moveRun ex inputs s) = true := by
  induction inputs with
  | nil => intro s i m _ _ _; rfl
  | cons a rest ih =>
    intro s i m hm ho hl
    obtain ⟨-, g2, -, -, -⟩ := moveOutcome_good a.hit a.skinHit a.action s
    obtain ⟨m', hm', l1, -, -, -, l5, l6, l7⟩ := g2 i m hm
    obtain ⟨-, -, d3⟩ := DoMoveAction_keeps ex hex a.hit a.skinHit a.action s
    obtain ⟨m2, hm2, k1, k2⟩ := d3 i m' hm'
    have ih' := ih (s.DoMoveAction ex a.hit a.skinHit a.action).2 i m2 hm2
      (by rw [k1, l1]; exact ho) (by rw [k1, l1]; exact hl)
    rw [k2] at ih'
    simp only [moveRun, alternate]
    by_cases h1 : (s.moveOutcome a.hit a.skinHit a.action).2 = .meterOver i
    · obtain ⟨-, e1, e2, -⟩ := l5 h1
      rw [if_pos h1]
      rw [e2] at ih'
      simpa [e1] using ih'
    · rw [if_neg h1]
      by_cases h2 : (s.moveOutcome a.hit a.skinHit a.action).2 = .meterLeave i
      · obtain ⟨-, e1, e2, -⟩ := l6 h2
        rw [if_pos h2]
        rw [e2] at ih'
        simpa [e1] using ih'
      · rw [if_neg h2]
        rw [l7 h1 h2 ho hl] at ih'
        exact ih'

/-- For a skin with both actions, the returns from its own over and leave action alternate
along any sequence of calls, starting with the one `m_MouseOver` allows. -/
theorem moveRun_skin_alternates (ex : Interp) (hex : ex.keepsHover) (inputs : List MoveInput) :
    ∀ (s : Skin), s.m_Mouse.overAction ≠ "" → s.m_Mouse.leaveAction ≠ "" →
      alternate .skinOver .skinLeave (!s.m_MouseOver) (moveRun ex inputs s) = true := by
  induction inputs with
  | nil => intro s _ _; rfl
  | cons a rest ih =>
    intro s ho hl
    obtain ⟨g1, -, g3, g4, g5⟩ := moveOutcome_good a.hit a.skinHit a.action s
    obtain ⟨d2, d3, -⟩ := DoMoveAction_keeps ex hex a.hit a.skinHit a.action s
    have ih' := ih (s.DoMoveAction ex a.hit a.skinHit a.action).2
      (by rw [d2, g1]; exact ho) (by rw [d2, g1]; exact hl)
    rw [d3] at ih'
    simp only [moveRun, alternate]
    by_cases h1 : (s.moveOutcome a.hit a.skinHit a.action).2 = .skinOver
    · obtain ⟨-, e1, e2, -⟩ := g3 h1
      rw [if_pos h1]
      rw [e2] at ih'
      simpa [e1] using ih'
    · rw [if_neg h1]
      by_cases h2 : (s.moveOutcome a.hit a.skinHit a.action).2 = .skinLeave
      · obtain ⟨-, e1, e2, -⟩ := g4 h2
        rw [if_pos h2]
        rw [e2] at ih'
        simpa [e1] using ih'
      · rw [if_neg h2]
        rw [g5 h1 h2 ho hl] at ih'
        exact ih'

/-- C19 (amended): in every `DoMoveAction` call the place of return `e` and the change of
the hover flags obey `callGood`: a meter's over action is run only by a `MOUSE_OVER`
call that finds the meter's flag clear and sets it, its leave action only by a
`MOUSE_LEAVE` call that finds the flag set and clears it, and likewise for the skin with
`m_MouseOver`; the command that the call executes is the one of its place of return.
Along every sequence of calls whose commands leave the hover state (mouse actions and
hover flags) as it is, for each meter that has both an over and a leave action, and for
a skin that has both, over and leave actions alternate, the first being an over action
when the flag is clear at the start. A call that runs through without executing an
action returns false, and repeating it with the same hit tests returns false again and
leaves the skin, the executed commands included, exactly as it is. When the commands
leave `m_MouseMoveCounter` as it is, a call returns false exactly when it executed no
action. -/
theorem C19_hover_actions_edge_triggered (ex : Interp) (inputs : List MoveInput) (s : Skin)
    (hex : ex.keepsHover) :
    (∀ (hit : Meter → Bool) (skinHit : Bool) (action : MOUSEACTION),
      callGood action s (s.moveOutcome hit skinHit action).1
        (s.moveOutcome hit skinHit action).2 ∧
      (s.DoMoveAction ex hit skinHit action).2 =
        (match exitCommand (s.moveOutcome hit skinHit action).1
            (s.moveOutcome hit skinHit action).2 with
          | Option.none => (s.moveOutcome hit skinHit action).1
          | some c => (s.moveOutcome hit skinHit action).1.ExecuteCommand ex c.1 c.2)) ∧
    (∀ (i : Nat) (m : Meter), s.m_Meters.get? i = some m →
      m.mouse.overAction ≠ "" → m.mouse.leaveAction ≠ "" →
      alternate (.meterOver i) (.meterLeave i) (!m.mouseOver) (moveRun ex inputs s) = true) ∧
    (s.m_Mouse.overAction ≠ "" → s.m_Mouse.leaveAction ≠ "" →
      alternate .skinOver .skinLeave (!s.m_MouseOver) (moveRun ex inputs s) = true) ∧
    (∀ (hit : Meter → Bool) (skinHit : Bool) (action : MOUSEACTION),
      (∀ m b f, hit { m with mouseOver := b, focus := f } = hit m) →
      (s.moveOutcome hit skinHit action).2 = .none →
      s.DoMoveAction ex hit skinHit action = (false, (s.moveOutcome hit skinHit action).1) ∧
      (s.DoMoveAction ex hit skinHit action).2.DoMoveAction ex hit skinHit action =
        (false, (s.DoMoveAction ex hit skinHit action).2)) ∧
    ((∀ command sec t, (ex command sec t).m_MouseMoveCounter = t.m_MouseMoveCounter) →
      ∀ (hit : Meter → Bool) (skinHit : Bool) (action : MOUSEACTION),
        ((s.DoMoveAction ex hit skinHit action).1 = false ↔
          (s.moveOutcome hit skinHit action).2 = .none)) := by
  refine ⟨?_, moveRun_meter_alternates ex hex inputs s, moveRun_skin_alternates ex hex inputs s,
    ?_, ?_⟩
  · intro hit skinHit action
    refine ⟨moveOutcome_good hit skinHit action s, ?_⟩
    unfold DoMoveAction
    simp only []
    cases exitCommand (s.moveOutcome hit skinHit action).1 (s.moveOutcome hit skinHit action).2 with
    | none => rfl
    | some c =>
      obtain ⟨command, sec⟩ := c
      cases (s.moveOutcome hit skinHit action).2 <;> rfl
  · intro hit skinHit action hh hx
    have e1 := DoMoveAction_of_none ex hit skinHit action s hx
    have e2 := moveOutcome_idem hit hh skinHit action s hx
    refine ⟨e1, ?_⟩
    rw [e1]
    simp only []
    rw [DoMoveAction_of_none ex hit skinHit action _ (by rw [e2]), e2]
  · intro hcnt hit skinHit action
    exact DoMoveAction_false_iff ex hcnt hit skinHit action s

/-- C19, at a concrete input: the pointer enters the skin over meter `A`, is polled twice
more and leaves. -/
theorem C19_hover_actions_witness :
    Interp.redrawing.keepsHover ∧
    moveRun Interp.redrawing [MoveInput.overAll, MoveInput.overAll, MoveInput.overAll,
        MoveInput.outside, MoveInput.outside, MoveInput.outside] Skin.hoverable =
      [.skinOver, .meterOver 0, .none, .meterLeave 0, .skinLeave, .none] ∧
    alternate (.meterOver 0) (.meterLeave 0) true
      (moveRun Interp.redrawing [MoveInput.overAll, MoveInput.overAll, MoveInput.overAll,
        MoveInput.outside, MoveInput.outside, MoveInput.outside] Skin.hoverable) = true ∧
    alternate .skinOver .skinLeave true
      (moveRun Interp.redrawing [MoveInput.overAll, MoveInput.overAll, MoveInput.overAll,
        MoveInput.outside, MoveInput.outside, MoveInput.outside] Skin.hoverable) = true :=
  ⟨redrawing_keepsHover.1, by decide,
    (C19_hover_actions_edge_triggered Interp.redrawing _ Skin.hoverable
      redrawing_keepsHover.1).2.1 0 _ rfl (by decide) (by decide),
    (C19_hover_actions_edge_triggered Interp.redrawing _ Skin.hoverable
      redrawing_keepsHover.1).2.2.1 (by decide) (by decide)⟩

set_option maxRecDepth 8000 in
/-- C19 (the claim fails): the same `MOUSE_OVER` call made twice at an unchanged pointer
position over meter `A`: the first call runs the over action of the skin and returns,
the second call runs the over action of the meter. A meter that has an over action and
no leave action runs its over action twice in succession when the pointer enters,
leaves and enters again. A meter whose over action clears its leave action does the
same although it had both actions at the start. -/
theorem C19_repeated_call_executes_action :
    ((Skin.hoverable.DoMoveAction Interp.inert (fun _ => true) true .MOUSE_OVER).2.calls.filter
        Call.isCommand = [.executeCommand "[skin over]" none]) ∧
    (((Skin.hoverable.DoMoveAction Interp.inert (fun _ => true) true .MOUSE_OVER).2.DoMoveAction
        Interp.inert (fun _ => true) true .MOUSE_OVER).2.calls.filter Call.isCommand =
      [.executeCommand "[skin over]" none, .executeCommand "[meter over]" (some "A")]) ∧
    moveRun Interp.inert [MoveInput.overAll, MoveInput.outside, MoveInput.overAll]
      Skin.overOnly = [.meterOver 0, .none, .meterOver 0] ∧
    alternate (.meterOver 0) (.meterLeave 0) true
      (moveRun Interp.inert [MoveInput.overAll, MoveInput.outside, MoveInput.overAll]
        Skin.overOnly) = false ∧
    moveRun Interp.clearingLeave [MoveInput.overAll, MoveInput.outside, MoveInput.overAll]
      Skin.selfClearing = [.meterOver 0, .none, .meterOver 0] ∧
    alternate (.meterOver 0) (.meterLeave 0) true
      (moveRun Interp.clearingLeave [MoveInput.overAll, MoveInput.outside, MoveInput.overAll]
        Skin.selfClearing) = false := by
  decide

end Skin

/-! ### Decimal strings -/

/-- The character of a decimal digit: its value, and what it is not. -/
theorem digitChar_facts (d : Nat) (h : d < 10) :
    (Char.ofNat (48 + d)).toNat - 48 = d ∧ inSet "0123456789" (Char.ofNat (48 + d)) = true ∧
    Char.ofNat (48 + d) ≠ '@' ∧ Char.ofNat (48 + d) ≠ '#' ∧ Char.ofNat (48 + d) ≠ '%' ∧
    Char.ofNat (48 + d) ≠ 'R' ∧ Char.ofNat (48 + d) ≠ 'B' ∧ Char.ofNat (48 + d) ≠ '-' ∧
    Char.ofNat (48 + d) ≠ '.' := by
  interval_cases d <;> decide

/-- The value of a list of digit characters, the last digit first. -/
theorem digitsVal_reverse_cons (c : Char) (l : List Char) :
    digitsVal (l ++ [c]) = 10 * digitsVal l + (c.toNat - 48) := by
  simp [digitsVal, List.foldl_append]

theorem natDigitsAux_val (fuel : Nat) : ∀ n, n < fuel →
    digitsVal (natDigitsAux fuel n).reverse = n := by
  induction fuel with
  | zero => intro n h; omega
  | succ f ih =>
    intro n h
    unfold natDigitsAux
    rw [List.reverse_cons, digitsVal_reverse_cons, (digitChar_facts (n % 10) (Nat.mod_lt _ (by norm_num))).1]
    by_cases h0 : n / 10 = 0
    · rw [if_pos h0]
      simp [digitsVal]
      omega
    · rw [if_neg h0, ih (n / 10) (by omega)]
      omega

/-- Reading back the decimal digits of `n` gives `n`. -/
theorem digitsVal_natDigits (n : Nat) : digitsVal (natDigits n) = n :=
  natDigitsAux_val (n + 1) n (Nat.lt_succ_self n)

theorem natDigitsAux_mem (fuel : Nat) : ∀ n, ∀ c ∈ natDigitsAux fuel n,
    ∃ d, d < 10 ∧ c = Char.ofNat (48 + d) := by
  induction fuel with
  | zero => intro n c h; simp [natDigitsAux] at h
  | succ f ih =>
    intro n c h
    unfold natDigitsAux at h
    rw [List.mem_cons] at h
    rcases h with h | h
    · exact ⟨n % 10, Nat.mod_lt _ (by norm_num), h⟩
    · by_cases h0 : n / 10 = 0
      · rw [if_pos h0] at h; simp at h
      · rw [if_neg h0] at h; exact ih _ c h

/-- Every character of the decimal form of `n` is a digit. -/
theorem natDigits_mem (n : Nat) (c : Char) (h : c ∈ natDigits n) :
    ∃ d, d < 10 ∧ c = Char.ofNat (48 + d) :=
  natDigitsAux_mem (n + 1) n c (by simpa [natDigits] using h)

/-- The decimal form of `n` is not empty. -/
theorem natDigits_ne_nil (n : Nat) : natDigits n ≠ [] := by
  simp [natDigits, natDigitsAux]

/-- A prefix of characters that pass `p`, followed by nothing or by a character that does
not pass, is what `takeWhile p` gives. -/
theorem takeWhile_of_all (p : Char → Bool) (l r : List Char) (hl : ∀ c ∈ l, p c = true)
    (hr : ∀ c, r.head? = some c → p c = false) : (l ++ r).takeWhile p = l := by
  induction l with
  | nil =>
    cases r with
    | nil => rfl
    | cons c r => simp [List.takeWhile, hr c rfl]
  | cons a l ih =>
    rw [List.cons_append, List.takeWhile_cons, hl a (List.mem_cons_self a l),
      ih (fun c hc => hl c (List.mem_cons_of_mem a hc))]
    rfl

/-- `find_last_of` finds nothing exactly when the character does not occur. -/
theorem findLastOf_eq_none (c : Char) (s : List Char) : findLastOf c s = none ↔ c ∉ s := by
  induction s with
  | nil => simp [findLastOf]
  | cons x rest ih =>
    unfold findLastOf
    cases h : findLastOf c rest with
    | some i =>
      have : c ∈ rest := by
        by_contra hc
        rw [ih.mpr hc] at h
        exact Option.noConfusion h
      simp [this]
    | none =>
      have hc := ih.mp h
      by_cases hx : x = c
      · simp [hx]
      · simp [hx, hc, Ne.symm hx]

/-- The last `c` of `a ++ c :: b`, when `b` has none, is at index `a.length`. -/
theorem findLastOf_append (c : Char) (a b : List Char) (hb : c ∉ b) :
    findLastOf c (a ++ c :: b) = some a.length := by
  induction a with
  | nil =>
    simp [findLastOf, (findLastOf_eq_none c b).mpr hb]
  | cons x a ih =>
    show (match findLastOf c (a ++ c :: b) with
      | some i => some (i + 1)
      | none => if x = c then some 0 else none) = some (a.length + 1)
    rw [ih]

/-- A character that occurs in `s` is found by `find_last_of`. -/
theorem findLastOf_isSome (c : Char) (s : List Char) : (findLastOf c s).isSome = decide (c ∈ s) := by
  cases h : findLastOf c s with
  | none => simp [(findLastOf_eq_none c s).mp h]
  | some i =>
    have : c ∈ s := by
      by_contra hc
      rw [(findLastOf_eq_none c s).mpr hc] at h
      exact Option.noConfusion h
    simp [this]

/-- No `#` in the string: the test of a flag is whether the character occurs. -/
theorem flagAfterHash_of_no_hash (c : Char) (s : List Char) (h : '#' ∉ s) :
    flagAfterHash c s = decide (c ∈ s) := by
  unfold flagAfterHash
  rw [(findLastOf_eq_none '#' s).mpr h]
  cases hc : findLastOf c s with
  | none => simp [(findLastOf_eq_none c s).mp hc]
  | some i =>
    have : c ∈ s := by
      by_contra hn
      rw [(findLastOf_eq_none c s).mpr hn] at hc
      exact Option.noConfusion hc
    simp [this]

/-- The `@n` suffix of a string of the grammar: after a body without `#`, the
suffix `@n` is accepted exactly when `n` is 0 or the index of an active monitor. -/
theorem screenSuffix_grammar (info : MultiMonitorInfo) (body : List Char) (n : Nat)
    (hhash : '#' ∉ body) (hn : n < 2 ^ 31) :
    screenSuffix info (body ++ '@' :: natDigits n) =
      if n = 0 ∨ (n ≤ info.monitors.length ∧
          ∃ m, info.monitors.get? (n - 1) = some m ∧ m.active = true)
      then some (n : Int) else none := by
  have hd : ∀ c ∈ natDigits n, inSet "0123456789" c = true ∧ c ≠ '@' ∧ c ≠ '#' := by
    intro c hc
    obtain ⟨d, hd, rfl⟩ := natDigits_mem n c hc
    have := digitChar_facts d hd
    exact ⟨this.2.1, this.2.2.1, this.2.2.2.1⟩
  have h1 : findLastOf '@' (body ++ '@' :: natDigits n) = some body.length :=
    findLastOf_append '@' body _ (fun hc => (hd _ hc).2.1 rfl)
  have h2 : '#' ∉ body ++ '@' :: natDigits n := by
    simp only [List.mem_append, List.mem_cons, not_or]
    exact ⟨hhash, by decide, fun hc => (hd _ hc).2.2 rfl⟩
  have h3 : flagAfterHash '@' (body ++ '@' :: natDigits n) = true := by
    rw [flagAfterHash_of_no_hash _ _ h2]; simp
  have h4 : ((body ++ '@' :: natDigits n).drop (body.length + 1)).takeWhile
      (inSet "0123456789") = natDigits n := by
    have : (body ++ '@' :: natDigits n).drop (body.length + 1) = natDigits n := by
      rw [show body ++ '@' :: natDigits n = (body ++ ['@']) ++ natDigits n by simp]
      rw [List.drop_append_of_le_length (by simp)]
      simp
    rw [this]
    have := takeWhile_of_all (inSet "0123456789") (natDigits n) [] (fun c hc => (hd c hc).1)
      (by simp)
    simpa using this
  have h5 : wtoi (natDigits n) = (n : Int) := by
    unfold wtoi
    rw [digitsVal_natDigits]
    have : (n : Int) < 2 ^ 31 := by exact_mod_cast hn
    omega
  unfold screenSuffix
  rw [h1]
  simp only [h3, h4, h5, if_true]
  have hne : (natDigits n).isEmpty = false := by
    cases h : natDigits n with
    | nil => exact absurd h (natDigits_ne_nil n)
    | cons a l => rfl
  simp only [hne, Bool.not_false, if_true, MultiMonitorInfo.GetMonitorCount]
  by_cases h0 : n = 0
  · subst h0; simp
  · have e : ((n : Int) - 1).toNat = n - 1 := by omega
    rw [e]
    cases hm : info.monitors.get? (n - 1) with
    | none => simp [h0]
    | some m => simp [h0]

/-! ### Window geometry: the monitor of each axis -/

namespace Placement

/-- What `WindowToScreen` stores, when it has a result: the screens chosen by
`selectScreens`, and positions resolved on the spans of these screens. -/
theorem WindowToScreen_screens (info : MultiMonitorInfo) (p q : Placement)
    (h : p.WindowToScreen info = some q) :
    ((q.m_WindowXScreen, q.m_WindowXScreenDefined), (q.m_WindowYScreen,
        q.m_WindowYScreenDefined)) =
      selectScreens info p.m_WindowX.toList p.m_WindowY.toList ∧
    (∃ span num, info.spanX q.m_WindowXScreen = some span ∧
      resolve span num q.m_WindowXPercentage q.m_WindowXFromRight q.m_AnchorScreenX =
        some q.m_ScreenX) ∧
    (∃ span num, info.spanY q.m_WindowYScreen = some span ∧
      resolve span num q.m_WindowYPercentage q.m_WindowYFromBottom q.m_AnchorScreenY =
        some q.m_ScreenY) := by
  have e1 : p.sized.m_WindowX = p.m_WindowX := by
    unfold sized
    simp only []
    split_ifs <;> rfl
  have e2 : p.sized.m_WindowY = p.m_WindowY := by
    unfold sized
    simp only []
    split_ifs <;> rfl
  unfold WindowToScreen at h
  simp only [Option.bind_eq_some, Option.map_eq_some', e1, e2] at h
  obtain ⟨ax, -, ay, -, numX, -, numY, -, spanY, hsy, screenY, hy, spanX, hsx, screenX, hx, rfl⟩ := h
  exact ⟨rfl, ⟨spanX, numX, hsx, hx⟩, ⟨spanY, numY, hsy, hy⟩⟩

/-- The four cases of `selectScreens`. -/
theorem selectScreens_eq (info : MultiMonitorInfo) (x y : List Char) :
    selectScreens info x y =
      match screenSuffix info x, screenSuffix info y with
      | some a, some b => ((a, true), (b, true))
      | some a, none => ((a, true), (a, true))
      | none, some b => ((b, true), (b, true))
      | none, none => ((info.primary, false), (info.primary, false)) := by
  unfold selectScreens
  cases screenSuffix info x <;> cases screenSuffix info y <;> rfl

/-- C20: in `WindowToScreen`, when exactly one of `WindowX` and `WindowY` carries a valid
`@n` suffix (`screenSuffix` accepts it), both screen indices are `n` and both
screen-defined flags are set; when both carry valid suffixes `@a` and `@b`, X has screen
`a` and Y screen `b`; when neither does, both have the primary screen with the flags
clear. The indices and flags stored by `WindowToScreen` are these, and `m_ScreenX`,
`m_ScreenY` are resolved on the spans of these screens. A suffix `@n` that ends an option
without `#` is valid exactly when `n` is 0 or the index of an active monitor. -/
theorem C20_monitor_suffix_selects_screens (info : MultiMonitorInfo) (p : Placement) :
    (∀ (body : List Char) (n : Nat), '#' ∉ body → n < 2 ^ 31 →
      screenSuffix info (body ++ '@' :: natDigits n) =
        if n = 0 ∨ (n ≤ info.monitors.length ∧
            ∃ m, info.monitors.get? (n - 1) = some m ∧ m.active = true)
        then some (n : Int) else none) ∧
    (∀ n, (screenSuffix info p.m_WindowX.toList = some n ∧
          screenSuffix info p.m_WindowY.toList = none) ∨
        (screenSuffix info p.m_WindowX.toList = none ∧
          screenSuffix info p.m_WindowY.toList = some n) →
      selectScreens info p.m_WindowX.toList p.m_WindowY.toList = ((n, true), (n, true))) ∧
    (∀ a b, screenSuffix info p.m_WindowX.toList = some a →
        screenSuffix info p.m_WindowY.toList = some b →
      selectScreens info p.m_WindowX.toList p.m_WindowY.toList = ((a, true), (b, true))) ∧
    (screenSuffix info p.m_WindowX.toList = none →
        screenSuffix info p.m_WindowY.toList = none →
      selectScreens info p.m_WindowX.toList p.m_WindowY.toList =
        ((info.primary, false), (info.primary, false))) ∧
    (∀ q, p.WindowToScreen info = some q →
      ((q.m_WindowXScreen, q.m_WindowXScreenDefined), (q.m_WindowYScreen,
          q.m_WindowYScreenDefined)) =
        selectScreens info p.m_WindowX.toList p.m_WindowY.toList ∧
      (∃ span num, info.spanX q.m_WindowXScreen = some span ∧
        resolve span num q.m_WindowXPercentage q.m_WindowXFromRight q.m_AnchorScreenX =
          some q.m_ScreenX) ∧
      (∃ span num, info.spanY q.m_WindowYScreen = some span ∧
        resolve span num q.m_WindowYPercentage q.m_WindowYFromBottom q.m_AnchorScreenY =
          some q.m_ScreenY)) := by
  refine ⟨fun body n hh hn => screenSuffix_grammar info body n hh hn, ?_, ?_, ?_,
    fun q h => WindowToScreen_screens info p q h⟩
  · rintro n (⟨hx, hy⟩ | ⟨hx, hy⟩) <;> rw [selectScreens_eq, hx, hy]
  · intro a b hx hy
    rw [selectScreens_eq, hx, hy]
  · intro hx hy
    rw [selectScreens_eq, hx, hy]

/-- C20, at a concrete input: `WindowX=50`, `WindowY=500@2` on two monitors side by side
puts both axes on monitor 2, and the code resolves the position to `(1970, 500)`. -/
theorem C20_monitor_suffix_witness :
    selectScreens MultiMonitorInfo.pair "50".toList "500@2".toList = ((2, true), (2, true)) ∧
    ((Placement.ofOptions "50" "500@2" "0" "0" 200 100).WindowToScreen
      MultiMonitorInfo.pair).map (fun q => (q.m_ScreenX, q.m_ScreenY)) = some (1970, 500) :=
  ⟨(C20_monitor_suffix_selects_screens MultiMonitorInfo.pair
      (Placement.ofOptions "50" "500@2" "0" "0" 200 100)).2.1 2 (Or.inr ⟨by decide, by decide⟩),
    by decide⟩

end Placement

/-! ### Drawing a segmented bitmap -/

namespace Gfx

/-- C12 (evaluation at the failing inputs): `DrawBitmap` of a whole bitmap whose segments
partition it. If a segment rectangle holds origin and extent, the second segment of a
bitmap twice the maximum size wide fails the test `rSeg.left < rSeg.right` and is not
drawn: one draw call, and pixel `(20000, 50)` of `srcRect` is in no source rectangle. If
a segment rectangle holds edges, the bound `rSeg.right + rSeg.left` lets the source
rectangles of a bitmap four times the maximum size wide overlap: pixel `(40000, 50)` is
in the source rectangles of the second and the third of the four draw calls. -/
theorem C12_segment_sources_do_not_partition :
    ((Canvas.ready.DrawBitmap 8 segmentsByExtent (RectF.ofInts 0 0 200 100)
        (RectF.ofInts 0 0 32768 100)).map fun l => l.map fun d => d.segment) = some [0] ∧
    (RectF.ofInts 0 0 32768 100).hasPixel 20000 50 = true ∧
    (drawSources segmentsByExtent (RectF.ofInts 0 0 32768 100)).map
      (fun r => r.hasPixel 20000 50) = [false] ∧
    ((Canvas.ready.DrawBitmap 8 segmentsByEdges (RectF.ofInts 0 0 200 100)
        (RectF.ofInts 0 0 65536 100)).map fun l => l.map fun d => d.segment) =
      some [0, 1, 2, 3] ∧
    (drawSources segmentsByEdges (RectF.ofInts 0 0 65536 100)).map
      (fun r => r.hasPixel 40000 50) = [false, true, true, false] := by
  decide

end Gfx

/-! ### Fade with duration 0 -/

namespace Skin

/-- C8 (amended): when the effective fade duration (after `UpdateFadeDuration`) is 0,
`FadeWindow(from, to)` arms no timer and leaves `m_ActiveFade` as it was; for `to ≠ 0` it
applies `to` as the transparency value, and shows the window when `from` is 0 and the
skin is not hidden; for `to = 0` it hides the window and leaves the transparency value
as it was. -/
theorem C8_zero_duration_fade_is_synchronous (s : Skin) (from_ to_ : Int)
    (hd : s.UpdateFadeDuration.m_FadeDuration = 0) :
    (to_ ≠ 0 → (s.FadeWindow from_ to_).m_TransparencyValue = to_ ∧
      Call.updateLayeredWindow to_ ∈ (s.FadeWindow from_ to_).calls.drop s.calls.length) ∧
    (to_ = 0 → (s.FadeWindow from_ to_).m_TransparencyValue = s.m_TransparencyValue ∧
      (s.FadeWindow from_ to_).windowVisible = false) ∧
    (s.FadeWindow from_ to_).m_ActiveFade = s.m_ActiveFade ∧
    (s.FadeWindow from_ to_).timers = s.timers ∧
    ExtendsBy (fun c => c.armsFade = false) s (s.FadeWindow from_ to_) := by
  rw [ExtendsBy_iff]
  unfold FadeWindow
  simp only [hd, if_true]
  unfold UpdateFadeDuration
  split_ifs <;>
    simp_all [ShowWindow, UpdateWindowTransparency, call, Call.armsFade, List.drop_append,
      List.drop_left]

/-- C8, at a concrete input: `FadeWindow(0, 128)` on a visible running skin whose fade
duration is 0. -/
theorem C8_zero_duration_fade_witness :
    (Skin.fadeOff.FadeWindow 0 128).m_TransparencyValue = 128 :=
  ((C8_zero_duration_fade_is_synchronous Skin.fadeOff 0 128 (by decide)).1 (by decide)).1

/-- C8 (counterexample): `FadeWindow(255, 0)` with fade duration 0 on a window whose
transparency value is 255 hides the window; the transparency value is still 255, not
the end value 0. -/
theorem C8_fade_to_zero_keeps_transparency :
    Skin.fadeOff.UpdateFadeDuration.m_FadeDuration = 0 ∧
    (Skin.fadeOff.FadeWindow 255 0).m_TransparencyValue = 255 ∧
    (Skin.fadeOff.FadeWindow 255 0).windowVisible = false := by
  decide

end Skin

/-! ### Keeping a window on screen -/

/-- No test point in an active monitor: the outer loop finds nothing. -/
theorem firstScreen_none (monitors : List MonitorInfo) (pts : List (Int × Int))
    (h : ∀ pt ∈ pts, ∀ m ∈ monitors, m.active = true → m.screen.hasPoint pt = false) :
    firstScreen monitors pts = none := by
  induction pts with
  | nil => rfl
  | cons pt rest ih =>
    have h1 : screenAt monitors pt = none := by
      unfold screenAt
      rw [Option.map_eq_none', List.find?_eq_none]
      intro m hm
      cases ha : m.active with
      | false => simp
      | true => simp [h pt (List.mem_cons_self pt rest) m hm ha]
    simp only [firstScreen, h1]
    exact ih fun p hp => h p (List.mem_cons_of_mem pt hp)

/-- C4 (amended): for a window rectangle `(x, y, w, h)` whose centre and four corners lie
in no active monitor's screen bounds, and which is not larger than the work area of the
primary monitor, `MapCoordsToScreen` returns a position at which the rectangle lies
inside that work area. -/
theorem C4_offscreen_window_clamped_to_primary_work_area (info : MultiMonitorInfo)
    (x y w h : Int) (m : MonitorInfo) (hm : info.monitorAt info.primary = some m)
    (hout : ∀ pt ∈ testPoints x y w h, ∀ mon ∈ info.monitors, mon.active = true →
      mon.screen.hasPoint pt = false)
    (hw : w ≤ m.work.right - m.work.left) (hh : h ≤ m.work.bottom - m.work.top) :
    ∃ x' y', MapCoordsToScreen info x y w h = some (x', y') ∧
      m.work.left ≤ x' ∧ x' + w ≤ m.work.right ∧ m.work.top ≤ y' ∧ y' + h ≤ m.work.bottom := by
  refine ⟨(m.work.clamp x y w h).1, (m.work.clamp x y w h).2, ?_, ?_⟩
  · unfold MapCoordsToScreen
    rw [firstScreen_none info.monitors _ hout, hm]
    rfl
  · simp only [Rect.clamp]
    omega

/-- C4, at a concrete input: a 200 by 100 window at `(5000, 2000)` on a single 1920 by
1080 monitor, whose work area is 1920 by 1040, is moved to `(1720, 940)`. -/
theorem C4_offscreen_window_witness :
    ∃ x' y', MapCoordsToScreen MultiMonitorInfo.single 5000 2000 200 100 = some (x', y') ∧
      (MonitorInfo.fullHD 0).work.left ≤ x' ∧ x' + 200 ≤ (MonitorInfo.fullHD 0).work.right ∧
      (MonitorInfo.fullHD 0).work.top ≤ y' ∧ y' + 100 ≤ (MonitorInfo.fullHD 0).work.bottom :=
  C4_offscreen_window_clamped_to_primary_work_area MultiMonitorInfo.single 5000 2000 200 100
    (MonitorInfo.fullHD 0) (by decide) (by decide) (by decide) (by decide)

/-- C4 (counterexample): a 3000 by 100 window at `(5000, 2000)`, with centre and corners
outside the single 1920 by 1080 monitor, is moved to `(0, 940)`: its right edge, at 3000,
is outside the work area, which ends at 1920. -/
theorem C4_wide_window_exceeds_work_area :
    (∀ pt ∈ testPoints 5000 2000 3000 100, ∀ mon ∈ MultiMonitorInfo.single.monitors,
      mon.active = true → mon.screen.hasPoint pt = false) ∧
    MapCoordsToScreen MultiMonitorInfo.single 5000 2000 3000 100 = some (0, 940) ∧
    (MonitorInfo.fullHD 0).work.right = 1920 := by
  decide

/-! ### Snapping to another skin -/

/-- After the tests of one axis, the position is the one given or one of the four at
which an edge of the dragged window is on an edge of the other skin. -/
theorem snapAxis_cases (p o e size : Int) :
    snapAxis p o e size = p ∨ snapAxis p o e size = o ∨ snapAxis p o e size = o + e ∨
    snapAxis p o e size = o - size ∨ snapAxis p o e size = o + e - size := by
  unfold snapAxis SNAPDISTANCE
  simp only []
  split_ifs <;> simp

/-- Some pairing of edges less than `SNAPDISTANCE` apart: the position is moved onto one
of the four snapping positions. -/
theorem snapAxis_snaps (p o e size : Int)
    (h : |p - o| < 10 ∨ |p - (o + e)| < 10 ∨ |p + size - o| < 10 ∨ |p + size - (o + e)| < 10) :
    snapAxis p o e size = o ∨ snapAxis p o e size = o + e ∨
    snapAxis p o e size = o - size ∨ snapAxis p o e size = o + e - size := by
  unfold snapAxis SNAPDISTANCE
  simp only [abs_lt] at h
  simp only []
  split_ifs <;> first | omega | simp

/-- Sizes that keep the four snapping positions at least 20 apart: each pairing of edges
that is less than `SNAPDISTANCE` apart is made to coincide. -/
theorem snapAxis_exact (p o e size : Int) (he : 20 ≤ e) (hs : 20 ≤ size)
    (hd : e = size ∨ 20 ≤ |e - size|) :
    (|p - o| < 10 → snapAxis p o e size = o) ∧
    (|p - (o + e)| < 10 → snapAxis p o e size = o + e) ∧
    (|p + size - o| < 10 → snapAxis p o e size + size = o) ∧
    (|p + size - (o + e)| < 10 → snapAxis p o e size + size = o + e) := by
  unfold snapAxis SNAPDISTANCE
  simp only [abs_lt, le_abs] at *
  refine ⟨?_, ?_, ?_, ?_⟩ <;> intro h <;> split_ifs <;> omega

/-- All pairings of edges at least `SNAPDISTANCE` apart: the position is kept. -/
theorem snapAxis_far (p o e size : Int)
    (h1 : 10 ≤ |p - o|) (h2 : 10 ≤ |p - (o + e)|) (h3 : 10 ≤ |p + size - o|)
    (h4 : 10 ≤ |p + size - (o + e)|) : snapAxis p o e size = p := by
  unfold snapAxis SNAPDISTANCE
  simp only [le_abs] at *
  split_ifs <;> omega

/-- C5 (amended): in `SnapToWindow`, for the other skin at `(x, y)` of size `(w, h)` and
the dragged window of size `(W, H)` at `wp`. When the vertical spans overlap and some
pairing of vertical edges is less than `SNAPDISTANCE` (10) pixels apart, the returned x
puts a vertical edge of the dragged window exactly on a vertical edge of the other skin;
it is the pairing that was close whenever `w ≥ 20`, `W ≥ 20` and `w = W` or
`|w - W| ≥ 20`. The same holds on the y axis, the horizontal overlap being tested at the
x position already returned. -/
theorem C5_snap_puts_edge_on_edge (x y w h W H : Int) (wp : Int × Int) :
    (wp.2 < y + h ∧ wp.2 + H > y →
      ((|wp.1 - x| < 10 ∨ |wp.1 - (x + w)| < 10 ∨ |wp.1 + W - x| < 10 ∨
          |wp.1 + W - (x + w)| < 10) →
        (SnapToWindow x y w h W H wp).1 = x ∨ (SnapToWindow x y w h W H wp).1 = x + w ∨
        (SnapToWindow x y w h W H wp).1 + W = x ∨
        (SnapToWindow x y w h W H wp).1 + W = x + w) ∧
      (20 ≤ w → 20 ≤ W → (w = W ∨ 20 ≤ |w - W|) →
        (|wp.1 - x| < 10 → (SnapToWindow x y w h W H wp).1 = x) ∧
        (|wp.1 - (x + w)| < 10 → (SnapToWindow x y w h W H wp).1 = x + w) ∧
        (|wp.1 + W - x| < 10 → (SnapToWindow x y w h W H wp).1 + W = x) ∧
        (|wp.1 + W - (x + w)| < 10 → (SnapToWindow x y w h W H wp).1 + W = x + w))) ∧
    ((SnapToWindow x y w h W H wp).1 < x + w ∧ (SnapToWindow x y w h W H wp).1 + W > x →
      ((|wp.2 - y| < 10 ∨ |wp.2 - (y + h)| < 10 ∨ |wp.2 + H - y| < 10 ∨
          |wp.2 + H - (y + h)| < 10) →
        (SnapToWindow x y w h W H wp).2 = y ∨ (SnapToWindow x y w h W H wp).2 = y + h ∨
        (SnapToWindow x y w h W H wp).2 + H = y ∨
        (SnapToWindow x y w h W H wp).2 + H = y + h) ∧
      (20 ≤ h → 20 ≤ H → (h = H ∨ 20 ≤ |h - H|) →
        (|wp.2 - y| < 10 → (SnapToWindow x y w h W H wp).2 = y) ∧
        (|wp.2 - (y + h)| < 10 → (SnapToWindow x y w h W H wp).2 = y + h) ∧
        (|wp.2 + H - y| < 10 → (SnapToWindow x y w h W H wp).2 + H = y) ∧
        (|wp.2 + H - (y + h)| < 10 → (SnapToWindow x y w h W H wp).2 + H = y + h))) := by
  constructor
  · intro hv
    have e : (SnapToWindow x y w h W H wp).1 = snapAxis wp.1 x w W := by
      simp only [SnapToWindow, if_pos hv]
    rw [e]
    refine ⟨fun hn => ?_, fun h1 h2 h3 => snapAxis_exact wp.1 x w W h1 h2 h3⟩
    rcases snapAxis_snaps wp.1 x w W hn with h | h | h | h
    · exact Or.inl h
    · exact Or.inr (Or.inl h)
    · exact Or.inr (Or.inr (Or.inl (by omega)))
    · exact Or.inr (Or.inr (Or.inr (by omega)))
  · intro hv
    have e : (SnapToWindow x y w h W H wp).2 = snapAxis wp.2 y h H := by
      have hv' := hv
      simp only [SnapToWindow] at hv' ⊢
      rw [if_pos hv']
    rw [e]
    refine ⟨fun hn => ?_, fun h1 h2 h3 => snapAxis_exact wp.2 y h H h1 h2 h3⟩
    rcases snapAxis_snaps wp.2 y h H hn with h | h | h | h
    · exact Or.inl h
    · exact Or.inr (Or.inl h)
    · exact Or.inr (Or.inr (Or.inl (by omega)))
    · exact Or.inr (Or.inr (Or.inr (by omega)))

/-- C5, at concrete inputs, for a 300 by 200 window and a 400 by 200 skin at `(100, 100)`:
dragged to `(507, 95)`, the left edge of the window, 7 pixels from the right edge of the
skin, is put on it; dragged to `(150, 95)`, its top edge, 5 pixels from the top edge of
the skin, is put on that. -/
theorem C5_snap_witness :
    (SnapToWindow 100 100 400 200 300 200 (507, 95)).1 = 100 + 400 ∧
    (SnapToWindow 100 100 400 200 300 200 (150, 95)).2 = 100 :=
  ⟨(((C5_snap_puts_edge_on_edge 100 100 400 200 300 200 (507, 95)).1 (by decide)).2
      (by decide) (by decide) (by decide)).2.1 (by decide),
    (((C5_snap_puts_edge_on_edge 100 100 400 200 300 200 (150, 95)).2 (by decide)).2
      (by decide) (by decide) (by decide)).1 (by decide)⟩

/-- C5 (counterexamples), next to a 100 by 100 skin at `(0, 0)`. A 95 by 100 window
dragged to `(3, 0)` has its left edge 3 pixels from the left edge of the skin; it is
moved to x = 5, where the right edges coincide and the left edges do not. A 300 by 100
window dragged to `(10, 0)` has its left edge 10 pixels from the left edge of the skin
and is not moved. -/
theorem C5_near_edge_not_snapped :
    (SnapToWindow 0 0 100 100 95 100 (3, 0)).1 = 5 ∧
    (SnapToWindow 0 0 100 100 300 100 (10, 0)).1 = 10 := by
  decide

/-- C6: in `SnapToWindow`, if every pairing of a vertical edge of the dragged window with
a vertical edge of the other skin is more than `SNAPDISTANCE` (10) pixels apart, the x
position is unchanged, and if every pairing of horizontal edges is more than 10 pixels
apart, the y position is unchanged. -/
theorem C6_no_snap_beyond_distance (x y w h W H : Int) (wp : Int × Int) :
    (10 < |wp.1 - x| → 10 < |wp.1 - (x + w)| → 10 < |wp.1 + W - x| →
        10 < |wp.1 + W - (x + w)| → (SnapToWindow x y w h W H wp).1 = wp.1) ∧
    (10 < |wp.2 - y| → 10 < |wp.2 - (y + h)| → 10 < |wp.2 + H - y| →
        10 < |wp.2 + H - (y + h)| → (SnapToWindow x y w h W H wp).2 = wp.2) := by
  constructor
  · intro h1 h2 h3 h4
    simp only [SnapToWindow]
    split_ifs
    · exact snapAxis_far wp.1 x w W (le_of_lt h1) (le_of_lt h2) (le_of_lt h3) (le_of_lt h4)
    · rfl
  · intro h1 h2 h3 h4
    simp only [SnapToWindow]
    split_ifs <;>
      first
      | exact snapAxis_far wp.2 y h H (le_of_lt h1) (le_of_lt h2) (le_of_lt h3) (le_of_lt h4)
      | rfl

/-- C6, at a concrete input: a 300 by 200 window dragged to `(520, 80)` next to a 400 by
200 skin at `(100, 100)`, every edge more than 10 pixels from the edges of the skin. -/
theorem C6_no_snap_witness :
    (SnapToWindow 100 100 400 200 300 200 (520, 80)).1 = 520 ∧
    (SnapToWindow 100 100 400 200 300 200 (520, 80)).2 = 80 :=
  ⟨(C6_no_snap_beyond_distance 100 100 400 200 300 200 (520, 80)).1
      (by decide) (by decide) (by decide) (by decide),
    (C6_no_snap_beyond_distance 100 100 400 200 300 200 (520, 80)).2
      (by decide) (by decide) (by decide) (by decide)⟩

/-! ### Rounding: the number of binary digits -/

theorem bitLenAux_zero (fuel : Nat) : bitLenAux fuel 0 = 0 := by
  cases fuel <;> simp [bitLenAux]

theorem bitLenAux_spec (fuel : Nat) : ∀ n, 0 < n → n ≤ fuel →
    2 ^ (bitLenAux fuel n - 1) ≤ n ∧ n < 2 ^ bitLenAux fuel n ∧ 0 < bitLenAux fuel n := by
  induction fuel with
  | zero => intro n h1 h2; omega
  | succ f ih =>
    intro n h1 h2
    have hn : n ≠ 0 := by omega
    simp only [bitLenAux, hn, if_false]
    by_cases h0 : n / 2 = 0
    · have : n = 1 := by omega
      subst this
      simp [bitLenAux_zero]
    · obtain ⟨a, b, c⟩ := ih (n / 2) (by omega) (by omega)
      refine ⟨?_, ?_, by omega⟩
      · have e : bitLenAux f (n / 2) + 1 - 1 = (bitLenAux f (n / 2) - 1) + 1 := by omega
        rw [e, pow_succ]
        omega
      · rw [pow_succ]
        omega

/-- The number of binary digits of a positive `n`. -/
theorem bitLen_spec (n : Nat) (h : 0 < n) :
    2 ^ (bitLen n - 1) ≤ n ∧ n < 2 ^ bitLen n ∧ 0 < bitLen n :=
  bitLenAux_spec n n h (le_refl n)

/-- The binary logarithm of a quotient of positive numbers. -/
theorem log2Quot_spec (a d : Nat) (ha : 0 < a) (hd : 0 < d) :
    (2 : ℚ) ^ (log2Quot a d) ≤ (a : ℚ) / d ∧ (a : ℚ) / d < (2 : ℚ) ^ (log2Quot a d + 1) := by
  obtain ⟨a1, a2, a3⟩ := bitLen_spec a ha
  obtain ⟨d1, d2, d3⟩ := bitLen_spec d hd
  have hdq : (0 : ℚ) < d := by exact_mod_cast hd
  have A1 : (2 : ℚ) ^ ((bitLen a : Int) - 1) ≤ a := by
    have : ((bitLen a : Int) - 1) = ((bitLen a - 1 : Nat) : Int) := by omega
    rw [this, zpow_natCast]
    exact_mod_cast a1
  have A2 : (a : ℚ) < (2 : ℚ) ^ (bitLen a : Int) := by
    rw [zpow_natCast]
    exact_mod_cast a2
  have D1 : (2 : ℚ) ^ ((bitLen d : Int) - 1) ≤ d := by
    have : ((bitLen d : Int) - 1) = ((bitLen d - 1 : Nat) : Int) := by omega
    rw [this, zpow_natCast]
    exact_mod_cast d1
  have D2 : (d : ℚ) < (2 : ℚ) ^ (bitLen d : Int) := by
    rw [zpow_natCast]
    exact_mod_cast d2
  have two : (0 : ℚ) < 2 := by norm_num
  -- the coarse bounds
  have lo : (2 : ℚ) ^ ((bitLen a : Int) - (bitLen d : Int) - 1) ≤ (a : ℚ) / d := by
    rw [le_div_iff₀ hdq]
    calc (2 : ℚ) ^ ((bitLen a : Int) - (bitLen d : Int) - 1) * d
        ≤ (2 : ℚ) ^ ((bitLen a : Int) - (bitLen d : Int) - 1) * (2 : ℚ) ^ (bitLen d : Int) :=
          mul_le_mul_of_nonneg_left (le_of_lt D2) (le_of_lt (zpow_pos two _))
      _ = (2 : ℚ) ^ ((bitLen a : Int) - 1) := by
          rw [← zpow_add₀ (by norm_num : (2 : ℚ) ≠ 0)]
          congr 1
          ring
      _ ≤ a := A1
  have hi : (a : ℚ) / d < (2 : ℚ) ^ ((bitLen a : Int) - (bitLen d : Int) + 1) := by
    rw [div_lt_iff₀ hdq]
    calc (a : ℚ) < (2 : ℚ) ^ (bitLen a : Int) := A2
      _ = (2 : ℚ) ^ ((bitLen a : Int) - (bitLen d : Int) + 1) *
            (2 : ℚ) ^ ((bitLen d : Int) - 1) := by
          rw [← zpow_add₀ (by norm_num : (2 : ℚ) ≠ 0)]
          congr 1
          ring
      _ ≤ (2 : ℚ) ^ ((bitLen a : Int) - (bitLen d : Int) + 1) * d :=
          mul_le_mul_of_nonneg_left D1 (le_of_lt (zpow_pos two _))
  -- the test of `log2Quot` compares `2 ^ k` with `a / d`
  have test : ∀ k : Int,
      (if 0 ≤ k then d * 2 ^ k.toNat ≤ a else d ≤ a * 2 ^ (-k).toNat) ↔
        (2 : ℚ) ^ k ≤ (a : ℚ) / d := by
    intro k
    rw [le_div_iff₀ hdq]
    by_cases hk : 0 ≤ k
    · rw [if_pos hk]
      obtain ⟨j, rfl⟩ := Int.eq_ofNat_of_zero_le hk
      rw [Int.toNat_ofNat, zpow_natCast, mul_comm]
      exact_mod_cast Iff.rfl
    · rw [if_neg hk]
      obtain ⟨j, hj⟩ := Int.exists_eq_neg_ofNat (le_of_lt (not_le.mp hk))
      subst hj
      rw [neg_neg, Int.toNat_ofNat, zpow_neg, zpow_natCast]
      have hp : (0 : ℚ) < (2 : ℚ) ^ j := pow_pos two j
      rw [inv_mul_le_iff₀ hp]
      rw [mul_comm ((2 : ℚ) ^ j)]
      exact_mod_cast Iff.rfl
  unfold log2Quot
  simp only []
  by_cases h : (2 : ℚ) ^ ((bitLen a : Int) - (bitLen d : Int)) ≤ (a : ℚ) / d
  · rw [if_pos ((test _).mpr h)]
    exact ⟨h, hi⟩
  · rw [if_neg (fun c => h ((test _).mp c))]
    refine ⟨lo, ?_⟩
    rw [sub_add_cancel]
    exact not_le.mp h
/-! ### Rounding: the nearest integer to a quotient -/

/-- An exact quotient is not changed. -/
theorem roundQuot_exact (k b : Nat) (hb : 0 < b) : roundQuot (k * b) b = k := by
  unfold roundQuot
  simp [Nat.mul_div_cancel _ hb, hb]

/-- The rounded quotient is the quotient or the next integer. -/
theorem roundQuot_range (a b : Nat) : a / b ≤ roundQuot a b ∧ roundQuot a b ≤ a / b + 1 := by
  unfold roundQuot
  simp only []
  split_ifs <;> omega

/-- A quotient that is at most the integer `k` is rounded to at most `k`. -/
theorem roundQuot_le (a b k : Nat) (hb : 0 < b) (h : a ≤ k * b) : roundQuot a b ≤ k := by
  rcases Nat.lt_or_ge (a / b) k with hq | hq
  · have := (roundQuot_range a b).2
    omega
  · -- `a / b = k` and the remainder is 0
    have hk : a / b = k := le_antisymm (by
      calc a / b ≤ k * b / b := Nat.div_le_div_right h
        _ = k := Nat.mul_div_cancel _ hb) hq
    have hr : a % b = 0 := by
      have := Nat.div_add_mod a b
      rw [hk, Nat.mul_comm] at this
      omega
    unfold roundQuot
    simp [hr, hk, hb]

/-- A quotient that is at least the integer `k` is rounded to at least `k`. -/
theorem le_roundQuot (a b k : Nat) (hb : 0 < b) (h : k * b ≤ a) : k ≤ roundQuot a b := by
  have : k ≤ a / b := (Nat.le_div_iff_mul_le hb).mpr h
  exact le_trans this (roundQuot_range a b).1

/-- Rounding is monotone in the numerator. -/
theorem roundQuot_mono_left (a a' b : Nat) (h : a ≤ a') :
    roundQuot a b ≤ roundQuot a' b := by
  have hq : a / b ≤ a' / b := Nat.div_le_div_right h
  rcases Nat.lt_or_ge (a / b) (a' / b) with hlt | hge
  · have h1 := (roundQuot_range a b).2
    have h2 := (roundQuot_range a' b).1
    omega
  · have e : a / b = a' / b := le_antisymm hq hge
    have m1 := Nat.div_add_mod a b
    have m2 := Nat.div_add_mod a' b
    have hr : a % b ≤ a' % b := by
      rw [e] at m1
      omega
    unfold roundQuot
    simp only [e]
    split_ifs <;> omega

/-- Numerator and denominator may be multiplied by the same positive number. -/
theorem roundQuot_scale (a b c : Nat) (hc : 0 < c) :
    roundQuot (a * c) (b * c) = roundQuot a b := by
  unfold roundQuot
  have e1 : a * c / (b * c) = a / b := Nat.mul_div_mul_right a b hc
  have e2 : a * c % (b * c) = a % b * c := Nat.mul_mod_mul_right c a b
  simp only [e1, e2]
  have t1 : 2 * (a % b * c) < b * c ↔ 2 * (a % b) < b := by
    rw [← Nat.mul_assoc]
    exact Nat.mul_lt_mul_right hc
  have t2 : b * c < 2 * (a % b * c) ↔ b < 2 * (a % b) := by
    rw [← Nat.mul_assoc]
    exact Nat.mul_lt_mul_right hc
  simp only [t1, t2]

/-- Rounding is monotone in the value of the quotient. -/
theorem roundQuot_mono (a1 b1 a2 b2 : Nat) (h1 : 0 < b1) (h2 : 0 < b2)
    (h : a1 * b2 ≤ a2 * b1) : roundQuot a1 b1 ≤ roundQuot a2 b2 := by
  rw [← roundQuot_scale a1 b1 b2 h2, ← roundQuot_scale a2 b2 b1 h1, Nat.mul_comm b2 b1]
  exact roundQuot_mono_left _ _ _ h
/-- Rounding is monotone in the value of the quotient, given as rationals. -/
theorem roundQuot_mono_rat (a1 b1 a2 b2 : Nat) (h1 : 0 < b1) (h2 : 0 < b2)
    (h : (a1 : ℚ) / b1 ≤ (a2 : ℚ) / b2) : roundQuot a1 b1 ≤ roundQuot a2 b2 := by
  apply roundQuot_mono a1 b1 a2 b2 h1 h2
  have q1 : (0 : ℚ) < b1 := by exact_mod_cast h1
  have q2 : (0 : ℚ) < b2 := by exact_mod_cast h2
  rw [div_le_div_iff₀ q1 q2] at h
  exact_mod_cast h

/-- The rounded quotient depends on the value of the quotient only. -/
theorem roundQuot_eq_rnd (a b : Nat) (hb : 0 < b) : roundQuot a b = rnd ((a : ℚ) / b) := by
  have hx : (0 : ℚ) ≤ (a : ℚ) / b := by positivity
  have hn : (0 : Int) ≤ ((a : ℚ) / b).num := Rat.num_nonneg.mpr hx
  have e : ((((a : ℚ) / b).num.natAbs : Nat) : ℚ) / (((a : ℚ) / b).den : ℚ) = (a : ℚ) / b := by
    have : ((((a : ℚ) / b).num.natAbs : Nat) : ℚ) = ((((a : ℚ) / b).num : Int) : ℚ) := by
      rw [← Int.cast_natCast, Int.natAbs_of_nonneg hn]
    rw [this]
    exact Rat.num_div_den _
  unfold rnd
  apply le_antisymm
  · exact roundQuot_mono_rat _ _ _ _ hb (Rat.den_pos _) (le_of_eq e.symm)
  · exact roundQuot_mono_rat _ _ _ _ (Rat.den_pos _) hb (le_of_eq e)

theorem rnd_mono (x y : ℚ) (hx : 0 ≤ x) (h : x ≤ y) : rnd x ≤ rnd y := by
  have hy : 0 ≤ y := le_trans hx h
  have ex : ((x.num.natAbs : Nat) : ℚ) / (x.den : ℚ) = x := by
    have : ((x.num.natAbs : Nat) : ℚ) = ((x.num : Int) : ℚ) := by
      rw [← Int.cast_natCast, Int.natAbs_of_nonneg (Rat.num_nonneg.mpr hx)]
    rw [this]
    exact Rat.num_div_den x
  have ey : ((y.num.natAbs : Nat) : ℚ) / (y.den : ℚ) = y := by
    have : ((y.num.natAbs : Nat) : ℚ) = ((y.num : Int) : ℚ) := by
      rw [← Int.cast_natCast, Int.natAbs_of_nonneg (Rat.num_nonneg.mpr hy)]
    rw [this]
    exact Rat.num_div_den y
  unfold rnd
  apply roundQuot_mono_rat _ _ _ _ (Rat.den_pos _) (Rat.den_pos _)
  rw [ex, ey]
  exact h

theorem rnd_natCast (k : Nat) : rnd (k : ℚ) = k := by
  have := roundQuot_eq_rnd k 1 (by norm_num)
  simp only [Nat.cast_one, div_one] at this
  rw [← this]
  simpa using roundQuot_exact k 1 (by norm_num)

/-- The mantissa that `Flt.ofRat` computes at exponent `e` is the rounded value of
`a / d / 2 ^ e`. -/
theorem mant_eq_rnd (a d : Nat) (hd : 0 < d) (e : Int) :
    (if 0 ≤ e then roundQuot a (d * 2 ^ e.toNat) else roundQuot (a * 2 ^ (-e).toNat) d) =
      rnd ((a : ℚ) / d * (2 : ℚ) ^ (-e)) := by
  have hdq : (d : ℚ) ≠ 0 := by exact_mod_cast (Nat.pos_iff_ne_zero.mp hd)
  by_cases he : 0 ≤ e
  · rw [if_pos he]
    obtain ⟨j, rfl⟩ := Int.eq_ofNat_of_zero_le he
    rw [Int.toNat_ofNat, roundQuot_eq_rnd _ _ (by positivity)]
    congr 1
    rw [zpow_neg, zpow_natCast]
    push_cast
    field_simp
  · rw [if_neg he]
    obtain ⟨j, hj⟩ := Int.exists_eq_neg_ofNat (le_of_lt (not_le.mp he))
    subst hj
    rw [neg_neg, Int.toNat_ofNat, roundQuot_eq_rnd _ _ hd]
    congr 1
    rw [zpow_natCast]
    push_cast
    field_simp

/-- The exponent that `ofRat` chooses for the positive quotient `a / d`. -/
theorem ofRat_pos (p : Nat) (emin : Int) (a d : Nat) (ha : 0 < a) (hd : 0 < d) :
    (Flt.ofRat p emin a d).e = max (log2Quot a d - ((p : Int) - 1)) emin ∧
    (Flt.ofRat p emin a d).m =
      (rnd ((a : ℚ) / d * (2 : ℚ) ^ (-(max (log2Quot a d - ((p : Int) - 1)) emin))) : Int) := by
  have h0 : a ≠ 0 := Nat.pos_iff_ne_zero.mp ha
  have hneg : ¬ ((a : Int) < 0) := by omega
  unfold Flt.ofRat
  simp only [h0, if_false, hneg, Int.natAbs_ofNat]
  refine ⟨trivial, ?_⟩
  rw [mant_eq_rnd a d hd]

/-- The value of the rounding of a positive quotient. -/
theorem ofRat_value_pos (p : Nat) (emin : Int) (a d : Nat) (ha : 0 < a) (hd : 0 < d) :
    (Flt.ofRat p emin a d).value =
      (rnd ((a : ℚ) / d * (2 : ℚ) ^ (-(max (log2Quot a d - ((p : Int) - 1)) emin))) : ℚ) *
        (2 : ℚ) ^ (max (log2Quot a d - ((p : Int) - 1)) emin) := by
  obtain ⟨h1, h2⟩ := ofRat_pos p emin a d ha hd
  unfold Flt.value
  rw [h1, h2]
  norm_cast

/-- Rounding is odd: the rounding of `-n / d` is the negative of the rounding of
`n / d`. -/
theorem ofRat_neg (p : Nat) (emin : Int) (n : Int) (d : Nat) :
    (Flt.ofRat p emin (-n) d).value = -(Flt.ofRat p emin n d).value := by
  unfold Flt.ofRat Flt.value
  by_cases h0 : n = 0
  · subst h0; simp
  · have h1 : n.natAbs ≠ 0 := by simpa using h0
    simp only [Int.natAbs_neg, h1, if_false]
    by_cases hn : n < 0
    · have : ¬ (-n < 0) := by omega
      simp [hn, this]
    · have : -n < 0 := by omega
      simp [hn, this]

/-- The rounding of a non-negative quotient is not negative. -/
theorem ofRat_nonneg (p : Nat) (emin : Int) (a d : Nat) (hd : 0 < d) :
    0 ≤ (Flt.ofRat p emin a d).value := by
  rcases Nat.eq_zero_or_pos a with h | h
  · subst h
    simp [Flt.ofRat, Flt.value]
  · rw [ofRat_value_pos p emin a d h hd]
    positivity
/-! ### Rounding: exact results and monotonicity -/

theorem two_zpow_toNat (k : Int) (hk : 0 ≤ k) : (((2 ^ k.toNat : Nat) : ℚ)) = (2 : ℚ) ^ k := by
  obtain ⟨j, rfl⟩ := Int.eq_ofNat_of_zero_le hk
  rw [Int.toNat_ofNat, zpow_natCast]
  push_cast
  rfl

/-- A positive quotient that is a number with `p` significant digits and an exponent of
at least `emin` is not changed by the rounding. -/
theorem ofRat_exact_pos (p : Nat) (emin : Int) (a d : Nat) (ha : 0 < a) (hd : 0 < d)
    (M : Nat) (E : Int) (hM : M < 2 ^ p) (hE : emin ≤ E)
    (h : (a : ℚ) / d = M * (2 : ℚ) ^ E) :
    (Flt.ofRat p emin a d).value = (a : ℚ) / d := by
  obtain ⟨l1, -⟩ := log2Quot_spec a d ha hd
  have two : (1 : ℚ) < 2 := by norm_num
  have hL : log2Quot a d < p + E := by
    have : (2 : ℚ) ^ (log2Quot a d) < (2 : ℚ) ^ ((p : Int) + E) := by
      calc (2 : ℚ) ^ (log2Quot a d) ≤ (a : ℚ) / d := l1
        _ = M * (2 : ℚ) ^ E := h
        _ < (2 : ℚ) ^ p * (2 : ℚ) ^ E := by
            apply mul_lt_mul_of_pos_right _ (zpow_pos (by norm_num) E)
            exact_mod_cast hM
        _ = (2 : ℚ) ^ ((p : Int) + E) := by
            rw [zpow_add₀ (by norm_num : (2 : ℚ) ≠ 0), zpow_natCast]
    exact (zpow_lt_zpow_iff_right₀ two).mp this
  have he : Max.max (log2Quot a d - ((p : Int) - 1)) emin ≤ E := max_le (by omega) hE
  rw [ofRat_value_pos p emin a d ha hd]
  generalize Max.max (log2Quot a d - ((p : Int) - 1)) emin = e at he ⊢
  have hx : (a : ℚ) / d * (2 : ℚ) ^ (-e) = ((M * 2 ^ (E - e).toNat : Nat) : ℚ) := by
    rw [h]
    push_cast
    have := two_zpow_toNat (E - e) (by omega)
    push_cast at this
    rw [this, mul_assoc, ← zpow_add₀ (by norm_num : (2 : ℚ) ≠ 0)]
    congr 2
  rw [hx, rnd_natCast, h]
  push_cast
  have := two_zpow_toNat (E - e) (by omega)
  push_cast at this
  rw [this, mul_assoc, ← zpow_add₀ (by norm_num : (2 : ℚ) ≠ 0), sub_add_cancel]

/-- A quotient that is a number with `p` significant digits and an exponent of at least
`emin` is not changed by the rounding. -/
theorem ofRat_exact (p : Nat) (emin : Int) (n : Int) (d : Nat) (hd : 0 < d)
    (M : Int) (E : Int) (hM : M.natAbs < 2 ^ p) (hE : emin ≤ E)
    (h : (n : ℚ) / d = M * (2 : ℚ) ^ E) :
    (Flt.ofRat p emin n d).value = (n : ℚ) / d := by
  have hdq : (0 : ℚ) < d := by exact_mod_cast hd
  have hz : (0 : ℚ) < (2 : ℚ) ^ E := zpow_pos (by norm_num) E
  rcases lt_trichotomy n 0 with hn | hn | hn
  · -- negative
    obtain ⟨a, rfl⟩ := Int.exists_eq_neg_ofNat (le_of_lt hn)
    have ha : 0 < a := by omega
    have hMneg : M < 0 := by
      by_contra hc
      have h1 : (0 : ℚ) ≤ M * (2 : ℚ) ^ E :=
        mul_nonneg (by exact_mod_cast not_lt.mp hc) (le_of_lt hz)
      have h2 : ((-(a : Int) : Int) : ℚ) / d < 0 := by
        apply div_neg_of_neg_of_pos _ hdq
        exact_mod_cast hn
      rw [h] at h2
      exact absurd h1 (not_le.mpr h2)
    have hM' : ((M.natAbs : Nat) : ℚ) = -(M : ℚ) := by
      rw [← Int.cast_natCast, Int.ofNat_natAbs_of_nonpos (le_of_lt hMneg)]
      push_cast
      rfl
    rw [ofRat_neg, ofRat_exact_pos p emin a d ha hd M.natAbs E hM hE]
    · push_cast
      ring
    · rw [hM']
      push_cast at h
      rw [neg_mul, ← h]
      ring
  · subst hn
    simp [Flt.ofRat, Flt.value]
  · obtain ⟨a, rfl⟩ := Int.eq_ofNat_of_zero_le (le_of_lt hn)
    have ha : 0 < a := by omega
    have hMpos : 0 ≤ M := by
      by_contra hc
      have h1 : (M : ℚ) * (2 : ℚ) ^ E < 0 :=
        mul_neg_of_neg_of_pos (by exact_mod_cast not_le.mp hc) hz
      have h2 : (0 : ℚ) ≤ ((a : Int) : ℚ) / d := by positivity
      rw [h] at h2
      exact absurd h2 (not_le.mpr h1)
    have hM' : ((M.natAbs : Nat) : ℚ) = (M : ℚ) := by
      rw [← Int.cast_natCast, Int.natAbs_of_nonneg hMpos]
    rw [Int.cast_natCast] at h ⊢
    exact ofRat_exact_pos p emin a d ha hd M.natAbs E hM hE (by rw [hM']; exact h)

/-- Rounding is monotone on the non-negative quotients. -/
theorem ofRat_mono (p : Nat) (emin : Int) (hp : 0 < p) (a1 d1 a2 d2 : Nat) (h1 : 0 < d1)
    (h2 : 0 < d2) (h : (a1 : ℚ) / d1 ≤ (a2 : ℚ) / d2) :
    (Flt.ofRat p emin a1 d1).value ≤ (Flt.ofRat p emin a2 d2).value := by
  have two : (1 : ℚ) < 2 := by norm_num
  have two0 : (2 : ℚ) ≠ 0 := by norm_num
  rcases Nat.eq_zero_or_pos a1 with z1 | p1
  · subst z1
    have : (Flt.ofRat p emin ((0 : Nat) : Int) d1).value = 0 := by simp [Flt.ofRat, Flt.value]
    rw [this]
    exact ofRat_nonneg p emin a2 d2 h2
  · have hd1 : (0 : ℚ) < d1 := by exact_mod_cast h1
    have hd2 : (0 : ℚ) < d2 := by exact_mod_cast h2
    have p2 : 0 < a2 := by
      rcases Nat.eq_zero_or_pos a2 with z | z
      · subst z
        have : (0 : ℚ) < (a1 : ℚ) / d1 := by
          apply div_pos _ hd1
          exact_mod_cast p1
        simp at h
        exact absurd h (not_le.mpr this)
      · exact z
    obtain ⟨l1, u1⟩ := log2Quot_spec a1 d1 p1 h1
    obtain ⟨l2, u2⟩ := log2Quot_spec a2 d2 p2 h2
    have hL : log2Quot a1 d1 ≤ log2Quot a2 d2 := by
      have : (2 : ℚ) ^ (log2Quot a1 d1) < (2 : ℚ) ^ (log2Quot a2 d2 + 1) :=
        lt_of_le_of_lt (le_trans l1 h) u2
      have := (zpow_lt_zpow_iff_right₀ two).mp this
      omega
    rw [ofRat_value_pos p emin a1 d1 p1 h1, ofRat_value_pos p emin a2 d2 p2 h2]
    have x1nn : ∀ e : Int, (0 : ℚ) ≤ (a1 : ℚ) / d1 * (2 : ℚ) ^ (-e) := fun e => by positivity
    rcases eq_or_lt_of_le (max_le_max (sub_le_sub_right hL ((p : Int) - 1)) (le_refl emin))
      with he | he
    · -- the same exponent
      rw [← he]
      apply mul_le_mul_of_nonneg_right _ (le_of_lt (zpow_pos (by norm_num) _))
      have := rnd_mono _ _ (x1nn (Max.max (log2Quot a1 d1 - ((p : Int) - 1)) emin))
        (mul_le_mul_of_nonneg_right h
          (le_of_lt (zpow_pos (by norm_num : (0 : ℚ) < 2)
            (-(Max.max (log2Quot a1 d1 - ((p : Int) - 1)) emin)))))
      exact_mod_cast this
    · -- a smaller exponent: both values are compared with `2 ^ L2`
      have e2 : Max.max (log2Quot a2 d2 - ((p : Int) - 1)) emin =
          log2Quot a2 d2 - ((p : Int) - 1) := by
        rcases max_cases (log2Quot a2 d2 - ((p : Int) - 1)) emin with ⟨h, -⟩ | ⟨h, -⟩
        · exact h
        · rw [h] at he
          exact absurd (le_max_right _ _) (not_le.mpr he)
      rw [e2] at he ⊢
      have e1L : log2Quot a1 d1 - ((p : Int) - 1) ≤
          Max.max (log2Quot a1 d1 - ((p : Int) - 1)) emin := le_max_left _ _
      generalize Max.max (log2Quot a1 d1 - ((p : Int) - 1)) emin = e1 at he e1L x1nn ⊢
      have hL' : log2Quot a1 d1 + 1 ≤ log2Quot a2 d2 := by omega
      calc ((rnd ((a1 : ℚ) / d1 * (2 : ℚ) ^ (-e1)) : Nat) : ℚ) * (2 : ℚ) ^ e1
          ≤ ((2 ^ (log2Quot a2 d2 - e1).toNat : Nat) : ℚ) * (2 : ℚ) ^ e1 := by
            apply mul_le_mul_of_nonneg_right _ (le_of_lt (zpow_pos (by norm_num) _))
            have hx : (a1 : ℚ) / d1 * (2 : ℚ) ^ (-e1) ≤
                ((2 ^ (log2Quot a2 d2 - e1).toNat : Nat) : ℚ) := by
              rw [two_zpow_toNat _ (by omega)]
              calc (a1 : ℚ) / d1 * (2 : ℚ) ^ (-e1)
                  ≤ (2 : ℚ) ^ (log2Quot a1 d1 + 1) * (2 : ℚ) ^ (-e1) :=
                    mul_le_mul_of_nonneg_right (le_of_lt u1)
                      (le_of_lt (zpow_pos (by norm_num) _))
                _ = (2 : ℚ) ^ (log2Quot a1 d1 + 1 - e1) := by
                    rw [← zpow_add₀ two0]
                    congr 1
                _ ≤ (2 : ℚ) ^ (log2Quot a2 d2 - e1) :=
                    zpow_le_zpow_right₀ (le_of_lt two) (by omega)
            have := rnd_mono _ _ (x1nn e1) hx
            rw [rnd_natCast] at this
            exact_mod_cast this
        _ = (2 : ℚ) ^ (log2Quot a2 d2) := by
            rw [two_zpow_toNat _ (by omega), ← zpow_add₀ two0]
            congr 1
            ring
        _ = ((2 ^ (p - 1) : Nat) : ℚ) * (2 : ℚ) ^ (log2Quot a2 d2 - ((p : Int) - 1)) := by
            push_cast
            rw [← zpow_natCast, ← zpow_add₀ two0]
            congr 1
            have : ((p - 1 : Nat) : Int) = (p : Int) - 1 := by omega
            rw [this]
            ring
        _ ≤ ((rnd ((a2 : ℚ) / d2 * (2 : ℚ) ^ (-(log2Quot a2 d2 - ((p : Int) - 1)))) : Nat) : ℚ)
              * (2 : ℚ) ^ (log2Quot a2 d2 - ((p : Int) - 1)) := by
            apply mul_le_mul_of_nonneg_right _ (le_of_lt (zpow_pos (by norm_num) _))
            have hx : ((2 ^ (p - 1) : Nat) : ℚ) ≤
                (a2 : ℚ) / d2 * (2 : ℚ) ^ (-(log2Quot a2 d2 - ((p : Int) - 1))) := by
              calc ((2 ^ (p - 1) : Nat) : ℚ)
                  = (2 : ℚ) ^ (log2Quot a2 d2) *
                      (2 : ℚ) ^ (-(log2Quot a2 d2 - ((p : Int) - 1))) := by
                    push_cast
                    rw [← zpow_natCast, ← zpow_add₀ two0]
                    congr 1
                    have : ((p - 1 : Nat) : Int) = (p : Int) - 1 := by omega
                    rw [this]
                    ring
                _ ≤ (a2 : ℚ) / d2 * (2 : ℚ) ^ (-(log2Quot a2 d2 - ((p : Int) - 1))) :=
                    mul_le_mul_of_nonneg_right l2 (le_of_lt (zpow_pos (by norm_num) _))
            have := rnd_mono _ _ (by positivity) hx
            rw [rnd_natCast] at this
            exact_mod_cast this
/-! ### Rounding: the operations -/

/-- The scaled quotient as a quotient. -/
theorem ofScaled_eq (p : Nat) (emin : Int) (n : Int) (d : Nat) (x : Int) (hd : 0 < d) :
    ∃ (n' : Int) (d' : Nat), 0 < d' ∧ (n' : ℚ) / d' = (n : ℚ) / d * (2 : ℚ) ^ x ∧
      Flt.ofScaled p emin n d x = Flt.ofRat p emin n' d' ∧ (0 ≤ n → 0 ≤ n') := by
  have hdq : (d : ℚ) ≠ 0 := by exact_mod_cast (Nat.pos_iff_ne_zero.mp hd)
  unfold Flt.ofScaled
  by_cases hx : 0 ≤ x
  · rw [if_pos hx]
    refine ⟨n * 2 ^ x.toNat, d, hd, ?_, rfl, fun h => by positivity⟩
    obtain ⟨j, rfl⟩ := Int.eq_ofNat_of_zero_le hx
    rw [Int.toNat_ofNat, zpow_natCast]
    push_cast
    ring
  · rw [if_neg hx]
    refine ⟨n, d * 2 ^ (-x).toNat, by positivity, ?_, rfl, fun h => h⟩
    obtain ⟨j, hj⟩ := Int.exists_eq_neg_ofNat (le_of_lt (not_le.mp hx))
    subst hj
    rw [neg_neg, Int.toNat_ofNat, zpow_neg, zpow_natCast]
    push_cast
    field_simp

/-- Finite in a format: the magnitude is below `2 ^ emax`. -/
theorem finite_iff (fmt : Format) (f : Flt) :
    f.finite fmt = true ↔ |f.value| < (2 : ℚ) ^ (fmt.emax : Int) := by
  have two : (1 : ℚ) < 2 := by norm_num
  have two0 : (2 : ℚ) ≠ 0 := by norm_num
  have hpos : (0 : ℚ) < (2 : ℚ) ^ f.e := zpow_pos (by norm_num) _
  have habs : |f.value| = (f.m.natAbs : ℚ) * (2 : ℚ) ^ f.e := by
    unfold Flt.value
    rw [abs_mul, abs_of_pos hpos, Nat.cast_natAbs, Int.cast_abs]
  rw [habs]
  unfold Flt.finite
  by_cases hm : f.m = 0
  · simp [hm]
  · have hb : (f.m == 0) = false := by simpa using hm
    rw [hb, Bool.false_or, decide_eq_true_iff]
    obtain ⟨b1, b2, b3⟩ := bitLen_spec f.m.natAbs (Int.natAbs_pos.mpr hm)
    have B1 : (2 : ℚ) ^ ((bitLen f.m.natAbs : Int) - 1) ≤ (f.m.natAbs : ℚ) := by
      have : ((bitLen f.m.natAbs : Int) - 1) = ((bitLen f.m.natAbs - 1 : Nat) : Int) := by omega
      rw [this, zpow_natCast]
      exact_mod_cast b1
    have B2 : (f.m.natAbs : ℚ) < (2 : ℚ) ^ (bitLen f.m.natAbs : Int) := by
      rw [zpow_natCast]
      exact_mod_cast b2
    constructor
    · intro h
      calc (f.m.natAbs : ℚ) * (2 : ℚ) ^ f.e
          < (2 : ℚ) ^ (bitLen f.m.natAbs : Int) * (2 : ℚ) ^ f.e :=
            mul_lt_mul_of_pos_right B2 hpos
        _ = (2 : ℚ) ^ ((bitLen f.m.natAbs : Int) + f.e) := (zpow_add₀ two0 _ _).symm
        _ ≤ (2 : ℚ) ^ (fmt.emax : Int) := zpow_le_zpow_right₀ (le_of_lt two) h
    · intro h
      by_contra hc
      have h1 : (2 : ℚ) ^ (fmt.emax : Int) ≤
          (2 : ℚ) ^ (((bitLen f.m.natAbs : Int) - 1) + f.e) :=
        zpow_le_zpow_right₀ (le_of_lt two) (by omega)
      have h2 : (2 : ℚ) ^ (((bitLen f.m.natAbs : Int) - 1) + f.e) ≤
          (f.m.natAbs : ℚ) * (2 : ℚ) ^ f.e := by
        rw [zpow_add₀ two0]
        exact mul_le_mul_of_nonneg_right B1 (le_of_lt hpos)
      exact absurd (lt_of_le_of_lt (le_trans h1 h2) h) (lt_irrefl _)

/-- An operation whose exact result is a number of the format gives that number. -/
theorem round_exact (fmt : Format) (n : Int) (d : Nat) (x : Int) (hd : 0 < d)
    (M : Int) (E : Int) (hM : M.natAbs < 2 ^ fmt.p) (hE : fmt.emin ≤ E)
    (h : (n : ℚ) / d * (2 : ℚ) ^ x = M * (2 : ℚ) ^ E)
    (hfin : |(M : ℚ) * (2 : ℚ) ^ E| < (2 : ℚ) ^ (fmt.emax : Int)) :
    ∃ r, Flt.round fmt n d x = some r ∧ r.value = (M : ℚ) * (2 : ℚ) ^ E := by
  obtain ⟨n', d', hd', hq, he, -⟩ := ofScaled_eq fmt.p fmt.emin n d x hd
  have hv : (Flt.ofScaled fmt.p fmt.emin n d x).value = (M : ℚ) * (2 : ℚ) ^ E := by
    rw [he, ofRat_exact fmt.p fmt.emin n' d' hd' M E hM hE (by rw [hq, h]), hq, h]
  refine ⟨Flt.ofScaled fmt.p fmt.emin n d x, ?_, hv⟩
  unfold Flt.round
  simp only []
  rw [if_pos]
  rw [finite_iff, hv]
  exact hfin

/-- The operations are monotone on the non-negative numbers. -/
theorem round_mono (fmt : Format) (hp : 0 < fmt.p) (n1 : Int) (d1 : Nat) (x1 : Int)
    (n2 : Int) (d2 : Nat) (x2 : Int) (hd1 : 0 < d1) (hd2 : 0 < d2) (hn1 : 0 ≤ n1)
    (hn2 : 0 ≤ n2) (h : (n1 : ℚ) / d1 * (2 : ℚ) ^ x1 ≤ (n2 : ℚ) / d2 * (2 : ℚ) ^ x2)
    (r1 r2 : Flt) (h1 : Flt.round fmt n1 d1 x1 = some r1)
    (h2 : Flt.round fmt n2 d2 x2 = some r2) : r1.value ≤ r2.value := by
  obtain ⟨a1, b1, hb1, q1, e1, nn1⟩ := ofScaled_eq fmt.p fmt.emin n1 d1 x1 hd1
  obtain ⟨a2, b2, hb2, q2, e2, nn2⟩ := ofScaled_eq fmt.p fmt.emin n2 d2 x2 hd2
  have v1 : r1 = Flt.ofScaled fmt.p fmt.emin n1 d1 x1 := by
    unfold Flt.round at h1
    simp only [] at h1
    split_ifs at h1
    exact (Option.some.inj h1).symm
  have v2 : r2 = Flt.ofScaled fmt.p fmt.emin n2 d2 x2 := by
    unfold Flt.round at h2
    simp only [] at h2
    split_ifs at h2
    exact (Option.some.inj h2).symm
  rw [v1, v2, e1, e2]
  obtain ⟨c1, rfl⟩ := Int.eq_ofNat_of_zero_le (nn1 hn1)
  obtain ⟨c2, rfl⟩ := Int.eq_ofNat_of_zero_le (nn2 hn2)
  apply ofRat_mono fmt.p fmt.emin hp c1 b1 c2 b2 hb1 hb2
  rw [Int.cast_natCast] at q1 q2
  rw [q1, q2]
  exact h

/-- The rounded result of an operation on a non-negative number is not negative. -/
theorem round_nonneg (fmt : Format) (n : Int) (d : Nat) (x : Int) (hd : 0 < d) (hn : 0 ≤ n)
    (r : Flt) (h : Flt.round fmt n d x = some r) : 0 ≤ r.value := by
  obtain ⟨a, b, hb, -, e, nn⟩ := ofScaled_eq fmt.p fmt.emin n d x hd
  have v : r = Flt.ofScaled fmt.p fmt.emin n d x := by
    unfold Flt.round at h
    simp only [] at h
    split_ifs at h
    exact (Option.some.inj h).symm
  rw [v, e]
  obtain ⟨c, rfl⟩ := Int.eq_ofNat_of_zero_le (nn hn)
  exact ofRat_nonneg fmt.p fmt.emin c b hb

/-- Two numbers whose cross products agree have the same quotient truncated toward
zero. -/
theorem tdiv_eq_of_cross (a b c d : Int) (hb : 0 < b) (hd : 0 < d) (h : a * d = c * b) :
    a.tdiv b = c.tdiv d := by
  have key : ∀ (a c : Int), 0 ≤ a → a * d = c * b → a.tdiv b = c.tdiv d := by
    intro a c ha h
    have hc : 0 ≤ c := by
      by_contra hc
      have : c * b < 0 := mul_neg_of_neg_of_pos (not_le.mp hc) hb
      have : 0 ≤ a * d := mul_nonneg ha (le_of_lt hd)
      omega
    rw [Int.tdiv_eq_ediv ha (le_of_lt hb), Int.tdiv_eq_ediv hc (le_of_lt hd)]
    have e1 : a / b = (a * d) / (b * d) := (Int.mul_ediv_mul_of_pos_left a b hd).symm
    have e2 : c / d = (c * b) / (d * b) := (Int.mul_ediv_mul_of_pos_left c d hb).symm
    rw [e1, e2, h, mul_comm b d]
  rcases le_total 0 a with ha | ha
  · exact key a c ha h
  · have := key (-a) (-c) (by omega) (by rw [neg_mul, neg_mul, h])
    rw [Int.neg_tdiv, Int.neg_tdiv] at this
    omega

/-- The cast to `int` of a number whose value is `N / D`. -/
theorem toInt_of_value (f : Flt) (N : Int) (D : Nat) (hD : 0 < D) (h : f.value = (N : ℚ) / D)
    (hr : -2 ^ 31 ≤ N.tdiv D ∧ N.tdiv D < 2 ^ 31) : f.toInt = some (N.tdiv D) := by
  have hDq : (D : ℚ) ≠ 0 := by exact_mod_cast (Nat.pos_iff_ne_zero.mp hD)
  have ht : (if 0 ≤ f.e then f.m * 2 ^ f.e.toNat else Int.tdiv f.m (2 ^ (-f.e).toNat)) =
      N.tdiv D := by
    unfold Flt.value at h
    by_cases he : 0 ≤ f.e
    · rw [if_pos he]
      have : ((f.m * 2 ^ f.e.toNat : Int) : ℚ) * D = N := by
        push_cast
        have := two_zpow_toNat f.e he
        push_cast at this
        rw [this, h]
        field_simp
      have hN : N = (f.m * 2 ^ f.e.toNat) * (D : Int) := by exact_mod_cast this.symm
      rw [hN, Int.mul_tdiv_cancel _ (by exact_mod_cast (Nat.pos_iff_ne_zero.mp hD))]
    · rw [if_neg he]
      apply tdiv_eq_of_cross _ _ _ _ (by positivity) (by exact_mod_cast hD)
      have hk : (0 : Int) ≤ -f.e := by omega
      have hz := two_zpow_toNat (-f.e) hk
      have : (f.m : ℚ) * D = N * ((2 ^ (-f.e).toNat : Nat) : ℚ) := by
        rw [hz, zpow_neg]
        have hp : (2 : ℚ) ^ f.e ≠ 0 := by positivity
        field_simp
        rw [eq_div_iff hDq] at h
        linarith
      exact_mod_cast this
  unfold Flt.toInt
  simp only [ht]
  rw [if_pos hr]
/-- The cast `(float)i` is exact for `|i| < 2 ^ 24`. -/
theorem ofInt_exact (i : Int) (h : i.natAbs < 2 ^ 24) : (Flt.ofInt i).value = i := by
  have := ofRat_exact 24 (-149) i 1 (by norm_num) i 0 h (by norm_num) (by simp)
  simpa [Flt.ofInt] using this

/-- The cast `(double)i` is exact for `|i| < 2 ^ 53`. -/
theorem ofIntD_exact (i : Int) (h : i.natAbs < 2 ^ 53) : (Flt.ofIntD i).value = i := by
  have := ofRat_exact 53 (-1074) i 1 (by norm_num) i 0 h (by norm_num) (by simp)
  simpa [Flt.ofIntD] using this

/-- A product that is a number of the format is computed exactly. -/
theorem mulAs_exact (fmt : Format) (a b : Flt) (M : Int) (E : Int) (hM : M.natAbs < 2 ^ fmt.p)
    (hE : fmt.emin ≤ E) (h : a.value * b.value = M * (2 : ℚ) ^ E)
    (hfin : |(M : ℚ) * (2 : ℚ) ^ E| < (2 : ℚ) ^ (fmt.emax : Int)) :
    ∃ r, Flt.mulAs fmt a b = some r ∧ r.value = a.value * b.value := by
  rw [h]
  apply round_exact fmt _ 1 _ (by norm_num) M E hM hE _ hfin
  rw [← h]
  unfold Flt.value
  rw [zpow_add₀ (by norm_num : (2 : ℚ) ≠ 0)]
  push_cast
  ring

/-- A quotient that is a number of the format is computed exactly. -/
theorem divAs_exact (fmt : Format) (a b : Flt) (hb : b.m ≠ 0) (M : Int) (E : Int)
    (hM : M.natAbs < 2 ^ fmt.p) (hE : fmt.emin ≤ E)
    (h : a.value / b.value = M * (2 : ℚ) ^ E)
    (hfin : |(M : ℚ) * (2 : ℚ) ^ E| < (2 : ℚ) ^ (fmt.emax : Int)) :
    ∃ r, Flt.divAs fmt a b = some r ∧ r.value = a.value / b.value := by
  rw [h]
  unfold Flt.divAs
  rw [if_neg hb]
  apply round_exact fmt _ _ _ (Int.natAbs_pos.mpr hb) M E hM hE _ hfin
  rw [← h]
  unfold Flt.value
  have hbq : (b.m : ℚ) ≠ 0 := by exact_mod_cast hb
  have hz1 : (2 : ℚ) ^ b.e ≠ 0 := by positivity
  rw [zpow_sub₀ (by norm_num : (2 : ℚ) ≠ 0)]
  rcases lt_or_gt_of_ne hb with hneg | hpos
  · rw [if_pos hneg]
    have : ((b.m.natAbs : Nat) : ℚ) = -(b.m : ℚ) := by
      rw [← Int.cast_natCast, Int.ofNat_natAbs_of_nonpos (le_of_lt hneg)]
      push_cast
      rfl
    rw [this]
    push_cast
    field_simp
  · have hn : ¬ b.m < 0 := by omega
    rw [if_neg hn]
    have : ((b.m.natAbs : Nat) : ℚ) = (b.m : ℚ) := by
      rw [← Int.cast_natCast, Int.natAbs_of_nonneg (le_of_lt hpos)]
    rw [this]
    field_simp

/-! ### Window geometry: the centred window -/

/-- Half the width, as `toPixel` computes it for an anchor of 50 percent: exact as long as
`50 * W` is a `float`. -/
theorem toPixel_half (W : Int) (hW0 : 0 ≤ W) (hW : 25 * W < 2 ^ 24) :
    toPixel W ⟨13107200, -18⟩ true = some (W / 2) := by
  have hWabs : W.natAbs < 2 ^ 24 := by omega
  have v50 : (⟨13107200, -18⟩ : Flt).value = 50 := by
    unfold Flt.value
    norm_num
  have v100 : Flt.hundred.value = 100 := by
    unfold Flt.value Flt.hundred
    norm_num
  have hWq : (W : ℚ) < 2 ^ 24 := by
    have : W < 2 ^ 24 := by omega
    exact_mod_cast this
  have hW0q : (0 : ℚ) ≤ W := by exact_mod_cast hW0
  obtain ⟨r1, m1, w1⟩ := mulAs_exact Format.single (Flt.ofInt W) ⟨13107200, -18⟩ (25 * W) 1
    (by simp only [Format.single]; omega) (by simp [Format.single])
    (by rw [ofInt_exact W hWabs, v50]; push_cast; ring)
    (by
      simp only [Format.single]
      rw [abs_of_nonneg (by positivity)]
      push_cast
      norm_num
      linarith)
  rw [ofInt_exact W hWabs, v50] at w1
  obtain ⟨r2, m2, w2⟩ := divAs_exact Format.single r1 Flt.hundred (by decide) W (-1)
    (by simp only [Format.single]; exact hWabs) (by simp [Format.single])
    (by rw [w1, v100]; norm_num; ring)
    (by
      simp only [Format.single]
      rw [abs_of_nonneg (by positivity)]
      norm_num
      linarith)
  rw [w1, v100] at w2
  have t := toInt_of_value r2 W 2 (by norm_num) (by rw [w2]; push_cast; ring)
    (by rw [Int.tdiv_eq_ediv hW0 (by norm_num)]; omega)
  rw [Int.tdiv_eq_ediv hW0 (by norm_num)] at t
  unfold toPixel
  rw [if_pos rfl]
  have m1' : (Flt.ofInt W).mul ⟨13107200, -18⟩ = some r1 := m1
  have m2' : r1.div Flt.hundred = some r2 := m2
  rw [m1', Option.some_bind, m2', Option.some_bind]
  exact t

/-- C3 (amended): on a single 1920 by 1080 primary monitor whose screen rectangle starts
at `(0, 0)`, a skin with `WindowX = "50%"`, `WindowY = "10"`, `AnchorX = "50%"`,
`AnchorY = "0"` and window width `W` resolves through `WindowToScreen` to
`ScreenX = 960 - floor(W / 2)` and `ScreenY = 10`, for every `W` from 0 to 671088, the
widths for which the `float` product `W * 50` is exact. -/
theorem C3_centred_window_resolves (info : MultiMonitorInfo) (m : MonitorInfo) (W H : Int)
    (hmon : info.monitors = [m]) (hprim : info.primary = 1)
    (hscreen : m.screen = ⟨0, 0, 1920, 1080⟩) (hW0 : 0 ≤ W) (hW : 25 * W < 2 ^ 24) :
    ∃ q, (Placement.ofOptions "50%" "10" "50%" "0" W H).WindowToScreen info = some q ∧
      q.m_ScreenX = 960 - W / 2 ∧ q.m_ScreenY = 10 := by
  have hax : Placement.anchor "50%".toList 'R' W = some (true, false, W / 2) := by
    unfold Placement.anchor
    rw [show (wtof (leadingOf "0123456789." "50%".toList)).toFloat = some ⟨13107200, -18⟩ by
      decide]
    rw [Option.some_bind,
      show (findLastOf '%' "50%".toList).isSome = true by decide,
      show (findLastOf 'R' "50%".toList).isSome = false by decide]
    simp only [toPixel_half W hW0 hW, Option.map_some']
    rfl
  have hay : Placement.anchor "0".toList 'B' H = some (false, false, 0) := by
    unfold Placement.anchor
    rw [show (wtof (leadingOf "0123456789." "0".toList)).toFloat = some ⟨0, 0⟩ by decide]
    rw [Option.some_bind,
      show (findLastOf '%' "0".toList).isSome = false by decide,
      show (findLastOf 'B' "0".toList).isSome = false by decide]
    rfl
  have hsx : screenSuffix info "50%".toList = none := by
    unfold screenSuffix
    rw [show findLastOf '@' "50%".toList = none by decide]
  have hsy : screenSuffix info "10".toList = none := by
    unfold screenSuffix
    rw [show findLastOf '@' "10".toList = none by decide]
  have hsel : Placement.selectScreens info "50%".toList "10".toList =
      ((1, false), (1, false)) := by
    rw [Placement.selectScreens_eq, hsx, hsy, hprim]
  have hspx : info.spanX 1 = some (0, 1920) := by
    simp [MultiMonitorInfo.spanX, MultiMonitorInfo.monitorAt, hmon, hscreen]
  have hspy : info.spanY 1 = some (0, 1080) := by
    simp [MultiMonitorInfo.spanY, MultiMonitorInfo.monitorAt, hmon, hscreen]
  have hnx : (wtof (leadingOf "-0123456789." "50%".toList)).toFloat =
      some ⟨13107200, -18⟩ := by decide
  have hny : (wtof (leadingOf "-0123456789." "10".toList)).toFloat =
      some ⟨10485760, -20⟩ := by decide
  have hrx : Placement.resolve (0, 1920) ⟨13107200, -18⟩ (flagAfterHash '%' "50%".toList)
      (flagAfterHash 'R' "50%".toList) (W / 2) = some (960 - W / 2) := by
    rw [show flagAfterHash '%' "50%".toList = true by decide,
      show flagAfterHash 'R' "50%".toList = false by decide]
    unfold Placement.resolve
    rw [show toPixel (0, 1920).2 ⟨13107200, -18⟩ true = some 960 by decide]
    simp
  have hry : Placement.resolve (0, 1080) ⟨10485760, -20⟩ (flagAfterHash '%' "10".toList)
      (flagAfterHash 'B' "10".toList) 0 = some 10 := by
    decide
  unfold Placement.WindowToScreen Placement.sized
  simp only [Placement.ofOptions, gt_iff_lt, lt_self_iff_false, if_false, hax, hay, hnx, hny,
    hsel, hspx, hspy, hrx, hry, Option.some_bind, Option.map_some']
  exact ⟨_, rfl, rfl, rfl⟩

/-- C3, at a concrete input: a window of width 200. -/
theorem C3_centred_window_witness :
    ∃ q, (Placement.ofOptions "50%" "10" "50%" "0" 200 100).WindowToScreen
        MultiMonitorInfo.single = some q ∧ q.m_ScreenX = 960 - 200 / 2 ∧ q.m_ScreenY = 10 :=
  C3_centred_window_resolves MultiMonitorInfo.single (MonitorInfo.fullHD 0) 200 100 rfl rfl rfl
    (by decide) (by decide)

/-- C3 (counterexample): for the window width 1342178 the `float` product `W * 50.0f` is
rounded, the anchor becomes 671088 instead of 671089, and `ScreenX` is `960 - 671088`. -/
theorem C3_wide_window_off_by_one :
    ((Placement.ofOptions "50%" "10" "50%" "0" 1342178 100).WindowToScreen
      MultiMonitorInfo.single).map (fun q => (q.m_ScreenX, q.m_ScreenY)) =
        some (960 - 671088, 10) ∧
    (1342178 : Int) / 2 = 671089 := by
  decide

/-! ### Window geometry: reading back a position written in pixels -/

/-- The characters of the decimal form of an integer: digits and the minus sign, none of
the characters that carry a flag. -/
theorem itow_mem (i : Int) (c : Char) (h : c ∈ itow i) :
    inSet "-0123456789." c = true ∧ c ≠ '@' ∧ c ≠ '#' ∧ c ≠ '%' ∧ c ≠ 'R' ∧ c ≠ 'B' := by
  have hd : ∀ c ∈ natDigits i.natAbs,
      inSet "-0123456789." c = true ∧ c ≠ '@' ∧ c ≠ '#' ∧ c ≠ '%' ∧ c ≠ 'R' ∧ c ≠ 'B' := by
    intro c hc
    obtain ⟨d, hd, rfl⟩ := natDigits_mem _ c hc
    have f := digitChar_facts d hd
    refine ⟨?_, f.2.2.1, f.2.2.2.1, f.2.2.2.2.1, f.2.2.2.2.2.1, f.2.2.2.2.2.2.1⟩
    interval_cases d <;> decide
  unfold itow at h
  split_ifs at h
  · rcases List.mem_cons.mp h with rfl | h
    · decide
    · exact hd c h
  · exact hd c h

/-- `_wtof` reads the decimal form of an integer as that integer. -/
theorem wtof_itow (i : Int) : wtof (itow i) = Flt.ofRat 53 (-1074) i 1 := by
  have hall : ∀ c ∈ natDigits i.natAbs, inSet "0123456789" c = true := by
    intro c hc
    obtain ⟨d, hd, rfl⟩ := natDigits_mem _ c hc
    exact (digitChar_facts d hd).2.1
  have htw : (natDigits i.natAbs).takeWhile (inSet "0123456789") = natDigits i.natAbs := by
    have := takeWhile_of_all (inSet "0123456789") (natDigits i.natAbs) [] hall (by simp)
    simpa using this
  have hne : (natDigits i.natAbs).isEmpty = false := by
    cases h : natDigits i.natAbs with
    | nil => exact absurd h (natDigits_ne_nil _)
    | cons a l => rfl
  have hhead : (natDigits i.natAbs).head? ≠ some '-' := by
    cases h : natDigits i.natAbs with
    | nil => simp
    | cons a l =>
      have ha : a ∈ natDigits i.natAbs := by rw [h]; exact List.mem_cons_self a l
      obtain ⟨d, hd, rfl⟩ := natDigits_mem _ a ha
      simp only [List.head?_cons, ne_eq, Option.some.injEq]
      exact (digitChar_facts d hd).2.2.2.2.2.2.2.1
  unfold itow
  by_cases hi : i < 0
  · rw [if_pos hi]
    unfold wtof
    simp only [List.head?_cons, decide_True, if_true, List.tail_cons, htw, List.drop_length,
      List.head?_nil, List.append_nil, hne, Bool.false_and, digitsVal_natDigits, pow_zero,
      reduceCtorEq, if_false, List.length_nil, Bool.false_eq_true]
    congr 1
    omega
  · rw [if_neg hi]
    unfold wtof
    have hd : decide ((natDigits i.natAbs).head? = some '-') = false := by
      simpa using hhead
    simp only [hd, if_false, htw, List.drop_length, List.head?_nil, List.append_nil, hne,
      Bool.false_and, digitsVal_natDigits, pow_zero, reduceCtorEq, List.length_nil,
      Bool.false_eq_true]
    congr 1
    omega

/-- A whole number below `2 ^ 24` in magnitude, written in decimal, is read back by
`(float)_wtof` as a `float` of that value, and `(int)` gives the number. -/
theorem float_of_itow (n : Int) (h : n.natAbs < 2 ^ 24) :
    ∃ f, (wtof (itow n)).toFloat = some f ∧ f.value = n ∧ f.toInt = some n := by
  have h53 : n.natAbs < 2 ^ 53 := lt_trans h (by norm_num)
  have v : (wtof (itow n)).value = n := by
    rw [wtof_itow]
    have := ofRat_exact 53 (-1074) n 1 (by norm_num) n 0 h53 (by norm_num) (by simp)
    simpa using this
  have hq : |(n : ℚ)| < 2 ^ 24 := by
    rw [← Int.cast_abs, Int.abs_eq_natAbs]
    exact_mod_cast h
  obtain ⟨f, hf, vf⟩ := round_exact Format.single (wtof (itow n)).m 1 (wtof (itow n)).e
    (by norm_num) n 0 (by simpa [Format.single] using h) (by simp [Format.single])
    (by
      have : ((wtof (itow n)).m : ℚ) / ((1 : Nat) : ℚ) * (2 : ℚ) ^ (wtof (itow n)).e =
          (wtof (itow n)).value := by
        unfold Flt.value
        simp
      rw [this, v]
      simp)
    (by
      simp only [Format.single, zpow_zero, mul_one]
      calc |(n : ℚ)| < 2 ^ 24 := hq
        _ < (2 : ℚ) ^ ((128 : Nat) : Int) := by norm_num)
  simp only [zpow_zero, mul_one] at vf
  refine ⟨f, hf, vf, ?_⟩
  have hr : -2 ^ 31 ≤ n ∧ n < 2 ^ 31 := by omega
  have := toInt_of_value f n 1 (by norm_num) (by rw [vf]; simp)
    (by simpa using hr)
  simpa using this

/-- The tail of a position option after its number: the letter and the screen suffix. -/
theorem renderAxis_eq (n : Int) (ff : Bool) (far : Char) (scr : Option Int) :
    renderAxis n ff far scr = itow n ++ ((if ff then [far] else []) ++
      (match scr with
        | some k => '@' :: itow k
        | none => [])) := by
  unfold renderAxis
  rw [List.append_assoc]

/-- The number of a written position option is its leading part. -/
theorem leadingOf_renderAxis (n : Int) (ff : Bool) (far : Char) (scr : Option Int)
    (hfar : far = 'R' ∨ far = 'B') :
    leadingOf "-0123456789." (renderAxis n ff far scr) = itow n := by
  rw [renderAxis_eq]
  apply takeWhile_of_all _ _ _ (fun c hc => (itow_mem n c hc).1)
  intro c hc
  cases ff <;> cases scr <;> rcases hfar with rfl | rfl <;>
    simp at hc <;> subst hc <;> decide

/-- The characters of a written position option. -/
theorem mem_renderAxis (n : Int) (ff : Bool) (far : Char) (scr : Option Int) (c : Char) :
    c ∈ renderAxis n ff far scr ↔
      c ∈ itow n ∨ (ff = true ∧ c = far) ∨ ∃ k, scr = some k ∧ (c = '@' ∨ c ∈ itow k) := by
  rw [renderAxis_eq]
  cases ff <;> cases scr <;> simp

/-- The flags read from a written position option are those written. -/
theorem flags_renderAxis (n : Int) (ff : Bool) (far : Char) (scr : Option Int)
    (hfar : far = 'R' ∨ far = 'B') :
    flagAfterHash '%' (renderAxis n ff far scr) = false ∧
    flagAfterHash far (renderAxis n ff far scr) = ff := by
  have hhash : '#' ∉ renderAxis n ff far scr := by
    rw [mem_renderAxis]
    rintro (h | ⟨-, h⟩ | ⟨k, -, h | h⟩)
    · exact (itow_mem n _ h).2.2.1 rfl
    · rcases hfar with rfl | rfl <;> exact absurd h (by decide)
    · exact absurd h (by decide)
    · exact (itow_mem k _ h).2.2.1 rfl
  rw [flagAfterHash_of_no_hash _ _ hhash, flagAfterHash_of_no_hash _ _ hhash]
  constructor
  · rw [decide_eq_false_iff_not, mem_renderAxis]
    rintro (h | ⟨-, h⟩ | ⟨k, -, h | h⟩)
    · exact (itow_mem n _ h).2.2.2.1 rfl
    · rcases hfar with rfl | rfl <;> exact absurd h (by decide)
    · exact absurd h (by decide)
    · exact (itow_mem k _ h).2.2.2.1 rfl
  · cases ff
    · rw [decide_eq_false_iff_not, mem_renderAxis]
      rintro (h | ⟨h, -⟩ | ⟨k, -, h | h⟩)
      · rcases hfar with rfl | rfl
        · exact (itow_mem n _ h).2.2.2.2.1 rfl
        · exact (itow_mem n _ h).2.2.2.2.2 rfl
      · exact absurd h (by decide)
      · rcases hfar with rfl | rfl <;> exact absurd h (by decide)
      · rcases hfar with rfl | rfl
        · exact (itow_mem k _ h).2.2.2.2.1 rfl
        · exact (itow_mem k _ h).2.2.2.2.2 rfl
    · rw [decide_eq_true_iff, mem_renderAxis]
      exact Or.inr (Or.inl ⟨rfl, rfl⟩)

/-- The screen read from a written position option: none without suffix; with the suffix
`@k`, `k` when it is 0 or the index of an active monitor. -/
theorem screenSuffix_renderAxis (info : MultiMonitorInfo) (n : Int) (ff : Bool) (far : Char)
    (hfar : far = 'R' ∨ far = 'B') :
    screenSuffix info (renderAxis n ff far none) = none ∧
    ∀ k : Int, 0 ≤ k → k < 2 ^ 31 →
      (k = 0 ∨ (k ≤ info.monitors.length ∧
        ∃ m, info.monitors.get? (k - 1).toNat = some m ∧ m.active = true)) →
      screenSuffix info (renderAxis n ff far (some k)) = some k := by
  constructor
  · have : '@' ∉ renderAxis n ff far none := by
      rw [mem_renderAxis]
      rintro (h | ⟨-, h⟩ | ⟨k, h, -⟩)
      · exact (itow_mem n _ h).2.1 rfl
      · rcases hfar with rfl | rfl <;> exact absurd h (by decide)
      · exact Option.noConfusion h
    unfold screenSuffix
    rw [(findLastOf_eq_none '@' _).mpr this]
  · intro k hk0 hk hvalid
    obtain ⟨j, rfl⟩ := Int.eq_ofNat_of_zero_le hk0
    have hbody : '#' ∉ itow n ++ (if ff = true then [far] else []) := by
      simp only [List.mem_append, not_or]
      refine ⟨fun h => (itow_mem n _ h).2.2.1 rfl, ?_⟩
      cases ff
      · simp
      · rcases hfar with rfl | rfl <;> simp
    have e : renderAxis n ff far (some (j : Int)) =
        (itow n ++ (if ff = true then [far] else [])) ++ '@' :: natDigits j := by
      unfold renderAxis itow
      simp
    rw [e, screenSuffix_grammar info _ j hbody (by exact_mod_cast hk)]
    rw [if_pos]
    rcases hvalid with h | ⟨h1, m, h2, h3⟩
    · left; exact_mod_cast h
    · right
      refine ⟨by exact_mod_cast h1, m, ?_, h3⟩
      have : ((j : Int) - 1).toNat = j - 1 := by omega
      rw [← this]
      exact h2

/-- A screen that `screenSuffix` accepts is 0 or the index of an active monitor. -/
theorem screenSuffix_valid (info : MultiMonitorInfo) (s : List Char) (k : Int)
    (h : screenSuffix info s = some k) :
    0 ≤ k ∧ k < 2 ^ 31 ∧ (k = 0 ∨ (k ≤ info.monitors.length ∧
      ∃ m, info.monitors.get? (k - 1).toNat = some m ∧ m.active = true)) := by
  unfold screenSuffix at h
  cases hf : findLastOf '@' s with
  | none => rw [hf] at h; exact Option.noConfusion h
  | some index =>
    rw [hf] at h
    simp only [] at h
    split_ifs at h with h1 h2 h3
    have hk := Option.some.inj h
    simp only [Bool.and_eq_true, Bool.or_eq_true, decide_eq_true_eq, beq_iff_eq,
      MultiMonitorInfo.GetMonitorCount, ge_iff_le] at h3
    obtain ⟨h0, hv⟩ := h3
    rw [hk] at h0 hv
    refine ⟨h0, ?_, ?_⟩
    · rw [← hk]
      unfold wtoi
      omega
    · rcases hv with hv | ⟨hv1, hv2⟩
      · exact Or.inl hv
      · right
        refine ⟨hv1, ?_⟩
        cases hm : info.monitors.get? (k - 1).toNat with
        | none => rw [hm] at hv2; exact absurd hv2 (by simp)
        | some m => rw [hm] at hv2; exact ⟨m, rfl, hv2⟩

/-! ### Window geometry: the two conversions in parts -/

namespace Placement

/-- What `sized` keeps. -/
theorem sized_facts (p : Placement) :
    p.sized.m_WindowX = p.m_WindowX ∧ p.sized.m_WindowY = p.m_WindowY ∧
    p.sized.m_AnchorX = p.m_AnchorX ∧ p.sized.m_AnchorY = p.m_AnchorY ∧
    p.sized.m_SkinW = p.m_SkinW ∧ p.sized.m_SkinH = p.m_SkinH ∧
    p.sized.m_AutoSelectScreen = p.m_AutoSelectScreen ∧
    p.sized.m_WindowW = (if p.m_SkinW > 0 then p.m_SkinW else p.m_WindowW) ∧
    p.sized.m_WindowH = (if p.m_SkinH > 0 then p.m_SkinH else p.m_WindowH) := by
  unfold sized
  simp only []
  split_ifs <;> simp

/-- The parts of a `WindowToScreen` that has a result. -/
theorem WindowToScreen_parts (info : MultiMonitorInfo) (p q : Placement)
    (h : p.WindowToScreen info = some q) :
    ∃ ax ay numX numY spanX spanY,
      anchor p.m_AnchorX.toList 'R' p.sized.m_WindowW = some ax ∧
      anchor p.m_AnchorY.toList 'B' p.sized.m_WindowH = some ay ∧
      (wtof (leadingOf "-0123456789." p.m_WindowX.toList)).toFloat = some numX ∧
      (wtof (leadingOf "-0123456789." p.m_WindowY.toList)).toFloat = some numY ∧
      info.spanX q.m_WindowXScreen = some spanX ∧
      info.spanY q.m_WindowYScreen = some spanY ∧
      resolve spanX numX q.m_WindowXPercentage q.m_WindowXFromRight ax.2.2 =
        some q.m_ScreenX ∧
      resolve spanY numY q.m_WindowYPercentage q.m_WindowYFromBottom ay.2.2 =
        some q.m_ScreenY ∧
      q.m_AnchorScreenX = ax.2.2 ∧ q.m_AnchorScreenY = ay.2.2 ∧
      q.m_WindowXPercentage = flagAfterHash '%' p.m_WindowX.toList ∧
      q.m_WindowYPercentage = flagAfterHash '%' p.m_WindowY.toList ∧
      q.m_WindowXFromRight = flagAfterHash 'R' p.m_WindowX.toList ∧
      q.m_WindowYFromBottom = flagAfterHash 'B' p.m_WindowY.toList ∧
      ((q.m_WindowXScreen, q.m_WindowXScreenDefined), (q.m_WindowYScreen,
          q.m_WindowYScreenDefined)) =
        selectScreens info p.m_WindowX.toList p.m_WindowY.toList ∧
      q.m_WindowX = p.m_WindowX ∧ q.m_WindowY = p.m_WindowY ∧
      q.m_AnchorX = p.m_AnchorX ∧ q.m_AnchorY = p.m_AnchorY ∧
      q.m_SkinW = p.m_SkinW ∧ q.m_SkinH = p.m_SkinH ∧
      q.m_WindowW = p.sized.m_WindowW ∧ q.m_WindowH = p.sized.m_WindowH ∧
      q.m_AutoSelectScreen = p.m_AutoSelectScreen := by
  obtain ⟨e1, e2, e3, e4, e5, e6, e7, -, -⟩ := sized_facts p
  unfold WindowToScreen at h
  simp only [Option.bind_eq_some, Option.map_eq_some', e1, e2, e3, e4] at h
  obtain ⟨ax, hax, ay, hay, numX, hnx, numY, hny, spanY, hsy, screenY, hy, spanX, hsx,
    screenX, hx, rfl⟩ := h
  exact ⟨ax, ay, numX, numY, spanX, spanY, hax, hay, hnx, hny, hsx, hsy, hx, hy, rfl, rfl,
    rfl, rfl, rfl, rfl, rfl, rfl, rfl, rfl, rfl, e5, e6, rfl, rfl, e7⟩

/-- A `WindowToScreen` whose parts have results has a result, made of these parts. -/
theorem WindowToScreen_of_parts (info : MultiMonitorInfo) (p : Placement)
    (ax ay : Bool × Bool × Int) (numX numY : Flt) (spanX spanY : Int × Int)
    (screenX screenY : Int)
    (hax : anchor p.m_AnchorX.toList 'R' p.sized.m_WindowW = some ax)
    (hay : anchor p.m_AnchorY.toList 'B' p.sized.m_WindowH = some ay)
    (hnx : (wtof (leadingOf "-0123456789." p.m_WindowX.toList)).toFloat = some numX)
    (hny : (wtof (leadingOf "-0123456789." p.m_WindowY.toList)).toFloat = some numY)
    (hsx : info.spanX (selectScreens info p.m_WindowX.toList p.m_WindowY.toList).1.1 =
      some spanX)
    (hsy : info.spanY (selectScreens info p.m_WindowX.toList p.m_WindowY.toList).2.1 =
      some spanY)
    (hx : resolve spanX numX (flagAfterHash '%' p.m_WindowX.toList)
      (flagAfterHash 'R' p.m_WindowX.toList) ax.2.2 = some screenX)
    (hy : resolve spanY numY (flagAfterHash '%' p.m_WindowY.toList)
      (flagAfterHash 'B' p.m_WindowY.toList) ay.2.2 = some screenY) :
    ∃ q, p.WindowToScreen info = some q ∧ q.m_ScreenX = screenX ∧ q.m_ScreenY = screenY ∧
      q.m_AnchorScreenX = ax.2.2 ∧ q.m_AnchorScreenY = ay.2.2 ∧
      q.m_WindowXPercentage = flagAfterHash '%' p.m_WindowX.toList ∧
      q.m_WindowYPercentage = flagAfterHash '%' p.m_WindowY.toList ∧
      q.m_WindowXFromRight = flagAfterHash 'R' p.m_WindowX.toList ∧
      q.m_WindowYFromBottom = flagAfterHash 'B' p.m_WindowY.toList ∧
      ((q.m_WindowXScreen, q.m_WindowXScreenDefined), (q.m_WindowYScreen,
          q.m_WindowYScreenDefined)) =
        selectScreens info p.m_WindowX.toList p.m_WindowY.toList ∧
      q.m_AutoSelectScreen = p.m_AutoSelectScreen := by
  obtain ⟨e1, e2, e3, e4, e5, e6, e7, -, -⟩ := sized_facts p
  unfold WindowToScreen
  simp only [e1, e2, e3, e4, hax, hay, hnx, hny, hsx, hsy, hx, hy, Option.some_bind,
    Option.map_some']
  exact ⟨_, rfl, rfl, rfl, rfl, rfl, rfl, rfl, rfl, rfl, rfl, e7⟩

/-- In pixels, one axis of `ScreenToWindow` writes the grammar. -/
theorem axisString_pixel (span : Int × Int) (screen anchor : Int) (fromFar : Bool)
    (far : Char) (defined : Bool) (index : Int) :
    axisString span screen anchor false fromFar far defined index =
      some (renderAxis (axisPixel span screen anchor fromFar) fromFar far
        (if defined then some index else none)) := by
  unfold axisString renderAxis
  cases fromFar <;> cases defined <;> simp

/-- `ScreenToWindow` in pixels, without automatic choice of the screen. -/
theorem ScreenToWindow_pixel (info : MultiMonitorInfo) (monitorFromRect : Rect → Option Nat)
    (q : Placement) (hauto : q.m_AutoSelectScreen = false)
    (hpx : q.m_WindowXPercentage = false) (hpy : q.m_WindowYPercentage = false)
    (spanX spanY : Int × Int) (hsx : info.spanX q.m_WindowXScreen = some spanX)
    (hsy : info.spanY q.m_WindowYScreen = some spanY) :
    q.ScreenToWindow info monitorFromRect = some { q with
      m_WindowX := String.mk (renderAxis
        (axisPixel spanX q.m_ScreenX q.m_AnchorScreenX q.m_WindowXFromRight)
        q.m_WindowXFromRight 'R'
        (if q.m_WindowXScreenDefined then some q.m_WindowXScreen else none))
      m_WindowY := String.mk (renderAxis
        (axisPixel spanY q.m_ScreenY q.m_AnchorScreenY q.m_WindowYFromBottom)
        q.m_WindowYFromBottom 'B'
        (if q.m_WindowYScreenDefined then some q.m_WindowYScreen else none)) } := by
  unfold ScreenToWindow
  simp only [hauto, Bool.false_eq_true, if_false, hsx, hsy, hpx, hpy, axisString_pixel,
    Option.some_bind, Option.map_some']

/-- `ScreenToWindow` in pixels, without automatic choice of the screen: the strings are the
grammar written out and the other members are kept. -/
theorem ScreenToWindow_pixel_facts (info : MultiMonitorInfo)
    (monitorFromRect : Rect → Option Nat)
    (q : Placement) (hauto : q.m_AutoSelectScreen = false)
    (hpx : q.m_WindowXPercentage = false) (hpy : q.m_WindowYPercentage = false)
    (spanX spanY : Int × Int) (hsx : info.spanX q.m_WindowXScreen = some spanX)
    (hsy : info.spanY q.m_WindowYScreen = some spanY) :
    ∃ r, q.ScreenToWindow info monitorFromRect = some r ∧
      r.m_WindowX = String.mk (renderAxis
        (axisPixel spanX q.m_ScreenX q.m_AnchorScreenX q.m_WindowXFromRight)
        q.m_WindowXFromRight 'R'
        (if q.m_WindowXScreenDefined then some q.m_WindowXScreen else none)) ∧
      r.m_WindowY = String.mk (renderAxis
        (axisPixel spanY q.m_ScreenY q.m_AnchorScreenY q.m_WindowYFromBottom)
        q.m_WindowYFromBottom 'B'
        (if q.m_WindowYScreenDefined then some q.m_WindowYScreen else none)) ∧
      r.m_AnchorX = q.m_AnchorX ∧ r.m_AnchorY = q.m_AnchorY ∧
      r.m_SkinW = q.m_SkinW ∧ r.m_SkinH = q.m_SkinH ∧
      r.m_WindowW = q.m_WindowW ∧ r.m_WindowH = q.m_WindowH :=
  ⟨_, ScreenToWindow_pixel info monitorFromRect q hauto hpx hpy spanX spanY hsx hsy,
    rfl, rfl, rfl, rfl, rfl, rfl, rfl, rfl⟩

end Placement

/-! ### Window geometry: a position in pixels survives saving and reloading -/

namespace Placement

/-- The screens written by `ScreenToWindow` are read back by `WindowToScreen`. -/
theorem selectScreens_written (info : MultiMonitorInfo) (x y : List Char) (n1 n2 : Int)
    (f1 f2 : Bool) :
    selectScreens info
      (renderAxis n1 f1 'R' (if (selectScreens info x y).1.2 then
        some (selectScreens info x y).1.1 else none))
      (renderAxis n2 f2 'B' (if (selectScreens info x y).2.2 then
        some (selectScreens info x y).2.1 else none)) = selectScreens info x y := by
  have hx := screenSuffix_renderAxis info n1 f1 'R' (Or.inl rfl)
  have hy := screenSuffix_renderAxis info n2 f2 'B' (Or.inr rfl)
  rw [selectScreens_eq info x y]
  cases ex : screenSuffix info x with
  | none =>
    cases ey : screenSuffix info y with
    | none =>
      simp only [Bool.false_eq_true, if_false]
      rw [selectScreens_eq, hx.1, hy.1]
    | some b =>
      obtain ⟨b0, b1, b2⟩ := screenSuffix_valid info y b ey
      simp only [if_true]
      rw [selectScreens_eq, hx.2 b b0 b1 b2, hy.2 b b0 b1 b2]
  | some a =>
    obtain ⟨a0, a1, a2⟩ := screenSuffix_valid info x a ex
    cases ey : screenSuffix info y with
    | none =>
      simp only [if_true]
      rw [selectScreens_eq, hx.2 a a0 a1 a2, hy.2 a a0 a1 a2]
    | some b =>
      obtain ⟨b0, b1, b2⟩ := screenSuffix_valid info y b ey
      simp only [if_true]
      rw [selectScreens_eq, hx.2 a a0 a1 a2, hy.2 b b0 b1 b2]

/-- Reading back one axis written in pixels gives the position it was written from. -/
theorem resolve_written (span : Int × Int) (screen anchor : Int) (fromFar : Bool)
    (far : Char) (hfar : far = 'R' ∨ far = 'B') (scr : Option Int)
    (hb : (axisPixel span screen anchor fromFar).natAbs < 2 ^ 24) :
    ∃ num,
      (wtof (leadingOf "-0123456789."
        (renderAxis (axisPixel span screen anchor fromFar) fromFar far scr))).toFloat =
          some num ∧
      resolve span num
        (flagAfterHash '%' (renderAxis (axisPixel span screen anchor fromFar) fromFar far scr))
        (flagAfterHash far (renderAxis (axisPixel span screen anchor fromFar) fromFar far scr))
        anchor = some screen := by
  obtain ⟨f, hf, -, ht⟩ := float_of_itow _ hb
  obtain ⟨g1, g2⟩ := flags_renderAxis (axisPixel span screen anchor fromFar) fromFar far scr hfar
  refine ⟨f, ?_, ?_⟩
  · rw [leadingOf_renderAxis _ _ _ _ hfar]
    exact hf
  · rw [g1, g2]
    unfold resolve toPixel
    simp only [Bool.false_eq_true, if_false, ht, Option.map_some']
    congr 1
    unfold axisPixel
    cases fromFar <;> simp <;> omega

/-- A skin whose position options were written in pixels from the position `(sx, sy)`,
with the anchors and sizes of the state `q` left by `WindowToScreen`, resolves to
`(sx, sy)`. -/
theorem reload_written (info : MultiMonitorInfo) (p q r : Placement) (sx sy : Int)
    (spanX spanY : Int × Int) (hq : p.WindowToScreen info = some q)
    (hsx : info.spanX q.m_WindowXScreen = some spanX)
    (hsy : info.spanY q.m_WindowYScreen = some spanY)
    (hbx : (axisPixel spanX sx q.m_AnchorScreenX q.m_WindowXFromRight).natAbs < 2 ^ 24)
    (hby : (axisPixel spanY sy q.m_AnchorScreenY q.m_WindowYFromBottom).natAbs < 2 ^ 24)
    (hX : r.m_WindowX = String.mk (renderAxis
        (axisPixel spanX sx q.m_AnchorScreenX q.m_WindowXFromRight)
        q.m_WindowXFromRight 'R'
        (if q.m_WindowXScreenDefined then some q.m_WindowXScreen else none)))
    (hY : r.m_WindowY = String.mk (renderAxis
        (axisPixel spanY sy q.m_AnchorScreenY q.m_WindowYFromBottom)
        q.m_WindowYFromBottom 'B'
        (if q.m_WindowYScreenDefined then some q.m_WindowYScreen else none)))
    (rAX : r.m_AnchorX = q.m_AnchorX) (rAY : r.m_AnchorY = q.m_AnchorY)
    (rSW : r.m_SkinW = q.m_SkinW) (rSH : r.m_SkinH = q.m_SkinH)
    (rWW : r.m_WindowW = q.m_WindowW) (rWH : r.m_WindowH = q.m_WindowH) :
    ∃ r2, r.WindowToScreen info = some r2 ∧ r2.m_ScreenX = sx ∧ r2.m_ScreenY = sy := by
  obtain ⟨ax, ay, numX, numY, spX, spY, hax, hay, -, -, -, -, -, -, hasx, hasy, -, -, -, -,
    hsel, -, -, hAX, hAY, hSW, hSH, hWW, hWH, -⟩ := WindowToScreen_parts info p q hq
  obtain ⟨nx, hnx, hrx⟩ := resolve_written spanX sx q.m_AnchorScreenX q.m_WindowXFromRight 'R'
    (Or.inl rfl) (if q.m_WindowXScreenDefined then some q.m_WindowXScreen else none) hbx
  obtain ⟨ny, hny, hry⟩ := resolve_written spanY sy q.m_AnchorScreenY q.m_WindowYFromBottom 'B'
    (Or.inr rfl) (if q.m_WindowYScreenDefined then some q.m_WindowYScreen else none) hby
  have hw : r.sized.m_WindowW = p.sized.m_WindowW := by
    rw [(sized_facts r).2.2.2.2.2.2.2.1, rSW, rWW, hSW, hWW, (sized_facts p).2.2.2.2.2.2.2.1]
    split_ifs <;> rfl
  have hh : r.sized.m_WindowH = p.sized.m_WindowH := by
    rw [(sized_facts r).2.2.2.2.2.2.2.2, rSH, rWH, hSH, hWH, (sized_facts p).2.2.2.2.2.2.2.2]
    split_ifs <;> rfl
  have hscr := selectScreens_written info p.m_WindowX.toList p.m_WindowY.toList
    (axisPixel spanX sx q.m_AnchorScreenX q.m_WindowXFromRight)
    (axisPixel spanY sy q.m_AnchorScreenY q.m_WindowYFromBottom)
    q.m_WindowXFromRight q.m_WindowYFromBottom
  rw [← hsel] at hscr
  simp only [] at hscr
  have tX : r.m_WindowX.toList = renderAxis
      (axisPixel spanX sx q.m_AnchorScreenX q.m_WindowXFromRight) q.m_WindowXFromRight 'R'
      (if q.m_WindowXScreenDefined then some q.m_WindowXScreen else none) := by
    rw [hX]; rfl
  have tY : r.m_WindowY.toList = renderAxis
      (axisPixel spanY sy q.m_AnchorScreenY q.m_WindowYFromBottom) q.m_WindowYFromBottom 'B'
      (if q.m_WindowYScreenDefined then some q.m_WindowYScreen else none) := by
    rw [hY]; rfl
  obtain ⟨r2, h2, h3, h4, -⟩ := WindowToScreen_of_parts info r ax ay nx ny spanX spanY sx sy
    (by rw [hw, rAX, hAX]; exact hax)
    (by rw [hh, rAY, hAY]; exact hay)
    (by rw [tX]; exact hnx) (by rw [tY]; exact hny)
    (by rw [tX, tY, hscr]; exact hsx)
    (by rw [tX, tY, hscr]; exact hsy)
    (by rw [tX, ← hasx]; exact hrx) (by rw [tY, ← hasy]; exact hry)
  exact ⟨r2, h2, h3, h4⟩

/-- C2 (amended): for a skin state `q` left by `WindowToScreen`, in pixel mode on both axes
and without automatic choice of the screen, and a position `(sx, sy)` the window is then
moved to, such that the offsets in pixels that `ScreenToWindow` writes are below `2 ^ 24`
in magnitude: `ScreenToWindow` followed by `WindowToScreen` restores exactly
`ScreenX = sx` and `ScreenY = sy`. -/
theorem C2_pixel_position_reloads (info : MultiMonitorInfo)
    (monitorFromRect : Rect → Option Nat) (p q : Placement) (sx sy : Int)
    (spanX spanY : Int × Int)
    (hq : p.WindowToScreen info = some q) (hauto : q.m_AutoSelectScreen = false)
    (hpx : q.m_WindowXPercentage = false) (hpy : q.m_WindowYPercentage = false)
    (hsx : info.spanX q.m_WindowXScreen = some spanX)
    (hsy : info.spanY q.m_WindowYScreen = some spanY)
    (hbx : (axisPixel spanX sx q.m_AnchorScreenX q.m_WindowXFromRight).natAbs < 2 ^ 24)
    (hby : (axisPixel spanY sy q.m_AnchorScreenY q.m_WindowYFromBottom).natAbs < 2 ^ 24) :
    ∃ r r2, ({ q with m_ScreenX := sx, m_ScreenY := sy } : Placement).ScreenToWindow info
        monitorFromRect = some r ∧
      r.WindowToScreen info = some r2 ∧ r2.m_ScreenX = sx ∧ r2.m_ScreenY = sy := by
  obtain ⟨r, hS, f1, f2, f3, f4, f5, f6, f7, f8⟩ := ScreenToWindow_pixel_facts info
    monitorFromRect ({ q with m_ScreenX := sx, m_ScreenY := sy } : Placement) hauto hpx hpy
    spanX spanY hsx hsy
  obtain ⟨r2, h2, h3, h4⟩ := reload_written info p q r sx sy spanX spanY hq hsx hsy hbx hby
    f1 f2 f3 f4 f5 f6 f7 f8
  exact ⟨r, r2, hS, h2, h3, h4⟩

end Placement

namespace Placement

/-- C2, at a concrete input: the skin `WindowX=10`, `WindowY=20@2` on two monitors, moved
to `(300, 45)`. -/
theorem C2_pixel_position_witness :
    ∃ r r2, ({ Placement.onSecond with m_ScreenX := 300, m_ScreenY := 45 } :
        Placement).ScreenToWindow MultiMonitorInfo.pair (fun _ => none) = some r ∧
      r.WindowToScreen MultiMonitorInfo.pair = some r2 ∧ r2.m_ScreenX = 300 ∧
      r2.m_ScreenY = 45 :=
  C2_pixel_position_reloads MultiMonitorInfo.pair (fun _ => none)
    (Placement.ofOptions "10" "20@2" "0" "0" 200 100) Placement.onSecond 300 45 (1920, 1920)
    (0, 1080) (by decide) (by decide) (by decide) (by decide) (by decide) (by decide)
    (by decide) (by decide)

/-- C2 (counterexample): the skin `WindowX=50%`, `WindowY=10` on a single 1920 by 1080
monitor, moved to `(1, 10)`: `ScreenToWindow` writes `WindowX=0.05208%`, which
`WindowToScreen` resolves to `ScreenX = 0`. -/
theorem C2_percentage_position_moves :
    ((((Placement.ofOptions "50%" "10" "0" "0" 200 100).WindowToScreen
        MultiMonitorInfo.single).bind fun q =>
      ({ q with m_ScreenX := 1, m_ScreenY := 10 } : Placement).ScreenToWindow
        MultiMonitorInfo.single (fun _ => none)).bind fun r =>
      (r.WindowToScreen MultiMonitorInfo.single).map fun r2 =>
        (r.m_WindowX, r2.m_ScreenX, r2.m_ScreenY)) = some ("0.05208%", 0, 10) := by
  decide

end Placement

/-! ### Rounding: bounds, comparison and truncation -/

theorem value_nonneg_iff (f : Flt) : 0 ≤ f.value ↔ 0 ≤ f.m := by
  unfold Flt.value
  have hpos : (0 : ℚ) < (2 : ℚ) ^ f.e := zpow_pos (by norm_num) _
  constructor
  · intro h
    by_contra hc
    have : (f.m : ℚ) < 0 := by exact_mod_cast not_le.mp hc
    exact absurd h (not_le.mpr (mul_neg_of_neg_of_pos this hpos))
  · intro h
    exact mul_nonneg (by exact_mod_cast h) (le_of_lt hpos)

/-- An operation on a non-negative number that is at most a number whose operation has a
result has a result, which is not negative and at most that result. -/
theorem round_bounded (fmt : Format) (hp : 0 < fmt.p) (n : Int) (d : Nat) (x : Int)
    (hd : 0 < d) (hn : 0 ≤ n) (n' : Int) (d' : Nat) (x' : Int) (hd' : 0 < d') (r' : Flt)
    (h' : Flt.round fmt n' d' x' = some r')
    (hle : (n : ℚ) / d * (2 : ℚ) ^ x ≤ (n' : ℚ) / d' * (2 : ℚ) ^ x') :
    ∃ r, Flt.round fmt n d x = some r ∧ 0 ≤ r.value ∧ r.value ≤ r'.value := by
  have hdq : (0 : ℚ) < d := by exact_mod_cast hd
  have hdq' : (0 : ℚ) < d' := by exact_mod_cast hd'
  have hn' : 0 ≤ n' := by
    by_contra hc
    have h1 : (n' : ℚ) / d' * (2 : ℚ) ^ x' < 0 :=
      mul_neg_of_neg_of_pos (div_neg_of_neg_of_pos (by exact_mod_cast not_le.mp hc) hdq')
        (zpow_pos (by norm_num) _)
    have h2 : (0 : ℚ) ≤ (n : ℚ) / d * (2 : ℚ) ^ x :=
      mul_nonneg (div_nonneg (by exact_mod_cast hn) (le_of_lt hdq))
        (le_of_lt (zpow_pos (by norm_num) _))
    linarith
  obtain ⟨a1, b1, hb1, q1, e1, nn1⟩ := ofScaled_eq fmt.p fmt.emin n d x hd
  obtain ⟨a2, b2, hb2, q2, e2, nn2⟩ := ofScaled_eq fmt.p fmt.emin n' d' x' hd'
  have v2 : r' = Flt.ofScaled fmt.p fmt.emin n' d' x' ∧
      (Flt.ofScaled fmt.p fmt.emin n' d' x').finite fmt = true := by
    unfold Flt.round at h'
    simp only [] at h'
    split_ifs at h' with hf
    exact ⟨(Option.some.inj h').symm, hf⟩
  obtain ⟨c1, rfl⟩ := Int.eq_ofNat_of_zero_le (nn1 hn)
  obtain ⟨c2, rfl⟩ := Int.eq_ofNat_of_zero_le (nn2 hn')
  have hmono : (Flt.ofScaled fmt.p fmt.emin n d x).value ≤
      (Flt.ofScaled fmt.p fmt.emin n' d' x').value := by
    rw [e1, e2]
    apply ofRat_mono fmt.p fmt.emin hp c1 b1 c2 b2 hb1 hb2
    rw [Int.cast_natCast] at q1 q2
    rw [q1, q2]
    exact hle
  have hnn : 0 ≤ (Flt.ofScaled fmt.p fmt.emin n d x).value := by
    rw [e1]
    exact ofRat_nonneg fmt.p fmt.emin c1 b1 hb1
  refine ⟨Flt.ofScaled fmt.p fmt.emin n d x, ?_, hnn, by rw [v2.1]; exact hmono⟩
  unfold Flt.round
  simp only []
  rw [if_pos]
  rw [finite_iff, abs_of_nonneg hnn]
  have := (finite_iff fmt _).mp v2.2
  rw [abs_of_nonneg (le_trans hnn hmono)] at this
  exact lt_of_le_of_lt hmono this

/-- The comparison `a < b` compares the values. -/
theorem lt_iff (a b : Flt) : a.lt b = true ↔ a.value < b.value := by
  unfold Flt.lt Flt.value
  simp only [decide_eq_true_eq]
  have two0 : (2 : ℚ) ≠ 0 := by norm_num
  have key : ∀ e : Int, e ≤ a.e → e ≤ b.e →
      ((a.m * 2 ^ (a.e - e).toNat < b.m * 2 ^ (b.e - e).toNat) ↔
        (a.m : ℚ) * (2 : ℚ) ^ a.e < (b.m : ℚ) * (2 : ℚ) ^ b.e) := by
    intro e h1 h2
    have hpos : (0 : ℚ) < (2 : ℚ) ^ e := zpow_pos (by norm_num) _
    have ea : (a.m : ℚ) * (2 : ℚ) ^ a.e =
        ((a.m * 2 ^ (a.e - e).toNat : Int) : ℚ) * (2 : ℚ) ^ e := by
      push_cast
      have := two_zpow_toNat (a.e - e) (by omega)
      push_cast at this
      rw [this, mul_assoc, ← zpow_add₀ two0, sub_add_cancel]
    have eb : (b.m : ℚ) * (2 : ℚ) ^ b.e =
        ((b.m * 2 ^ (b.e - e).toNat : Int) : ℚ) * (2 : ℚ) ^ e := by
      push_cast
      have := two_zpow_toNat (b.e - e) (by omega)
      push_cast at this
      rw [this, mul_assoc, ← zpow_add₀ two0, sub_add_cancel]
    rw [ea, eb, mul_lt_mul_right hpos]
    exact_mod_cast Iff.rfl
  split_ifs with h
  · exact key a.e (le_refl _) h
  · exact key b.e (by omega) (le_refl _)

/-- The cast to `int` of a non-negative number is the integer part of its value. -/
theorem toInt_floor (f : Flt) (h0 : 0 ≤ f.value) (hr : f.value < 2 ^ 31) :
    f.toInt = some ⌊f.value⌋ := by
  have hm : 0 ≤ f.m := (value_nonneg_iff f).mp h0
  have two0 : (2 : ℚ) ≠ 0 := by norm_num
  have hfl0 : 0 ≤ ⌊f.value⌋ := Int.floor_nonneg.mpr h0
  have hfl1 : ⌊f.value⌋ < 2 ^ 31 := by
    have : (⌊f.value⌋ : ℚ) < 2 ^ 31 := lt_of_le_of_lt (Int.floor_le _) hr
    exact_mod_cast this
  by_cases he : 0 ≤ f.e
  · have hv : f.value = ((f.m * 2 ^ f.e.toNat : Int) : ℚ) / ((1 : Nat) : ℚ) := by
      unfold Flt.value
      push_cast
      have := two_zpow_toNat f.e he
      push_cast at this
      rw [this, div_one]
    have hfl : ⌊f.value⌋ = (f.m * 2 ^ f.e.toNat).tdiv ((1 : Nat) : Int) := by
      rw [hv, Rat.floor_intCast_div_natCast]
      simp
    rw [hfl] at hfl0 hfl1 ⊢
    exact toInt_of_value f _ 1 (by norm_num) hv ⟨by omega, hfl1⟩
  · have hv : f.value = ((f.m : Int) : ℚ) / ((2 ^ (-f.e).toNat : Nat) : ℚ) := by
      unfold Flt.value
      rw [two_zpow_toNat (-f.e) (by omega), zpow_neg]
      field_simp
    have hfl : ⌊f.value⌋ = f.m.tdiv ((2 ^ (-f.e).toNat : Nat) : Int) := by
      rw [hv, Rat.floor_intCast_div_natCast, Int.tdiv_eq_ediv hm (by positivity)]
    rw [hfl] at hfl0 hfl1 ⊢
    exact toInt_of_value f _ _ (by positivity) hv ⟨by omega, hfl1⟩

/-- The quotient by a positive number, as an operation on a scaled quotient. -/
theorem divAs_input (fmt : Format) (a b : Flt) (hb : 0 < b.m) :
    Flt.divAs fmt a b = Flt.round fmt a.m b.m.natAbs (a.e - b.e) ∧
    (a.m : ℚ) / (b.m.natAbs : ℚ) * (2 : ℚ) ^ (a.e - b.e) = a.value / b.value ∧
    0 < b.m.natAbs := by
  have hne : b.m ≠ 0 := by omega
  have hn : ¬ b.m < 0 := by omega
  refine ⟨?_, ?_, Int.natAbs_pos.mpr hne⟩
  · unfold Flt.divAs
    rw [if_neg hne, if_neg hn]
  · unfold Flt.value
    have : ((b.m.natAbs : Nat) : ℚ) = (b.m : ℚ) := by
      rw [← Int.cast_natCast, Int.natAbs_of_nonneg (le_of_lt hb)]
    rw [this, zpow_sub₀ (by norm_num : (2 : ℚ) ≠ 0)]
    have hbq : (b.m : ℚ) ≠ 0 := by exact_mod_cast hne
    have hz : (2 : ℚ) ^ b.e ≠ 0 := by positivity
    field_simp

/-- The product, as an operation on a scaled quotient. -/
theorem mulAs_input (a b : Flt) :
    ((a.m * b.m : Int) : ℚ) / ((1 : Nat) : ℚ) * (2 : ℚ) ^ (a.e + b.e) = a.value * b.value := by
  unfold Flt.value
  rw [zpow_add₀ (by norm_num : (2 : ℚ) ≠ 0)]
  push_cast
  ring

/-- The sum, as an operation on a scaled quotient. -/
theorem addAs_input (fmt : Format) (a b : Flt) :
    ∃ (N : Int) (e : Int), Flt.addAs fmt a b = Flt.round fmt N 1 e ∧
      (N : ℚ) / ((1 : Nat) : ℚ) * (2 : ℚ) ^ e = a.value + b.value ∧
      (0 ≤ a.m → 0 ≤ b.m → 0 ≤ N) := by
  have two0 : (2 : ℚ) ≠ 0 := by norm_num
  have key : ∀ e : Int, e ≤ a.e → e ≤ b.e →
      ((a.m * 2 ^ (a.e - e).toNat + b.m * 2 ^ (b.e - e).toNat : Int) : ℚ) / ((1 : Nat) : ℚ) *
        (2 : ℚ) ^ e = a.value + b.value := by
    intro e h1 h2
    unfold Flt.value
    push_cast
    have ha := two_zpow_toNat (a.e - e) (by omega)
    have hb := two_zpow_toNat (b.e - e) (by omega)
    push_cast at ha hb
    rw [ha, hb, div_one, add_mul, mul_assoc, mul_assoc, ← zpow_add₀ two0, ← zpow_add₀ two0,
      sub_add_cancel, sub_add_cancel]
  unfold Flt.addAs
  by_cases h : a.e ≤ b.e
  · refine ⟨a.m * 2 ^ (a.e - a.e).toNat + b.m * 2 ^ (b.e - a.e).toNat, a.e,
      by simp only [if_pos h], key a.e (le_refl _) h, fun h1 h2 => ?_⟩
    exact add_nonneg (mul_nonneg h1 (by positivity)) (mul_nonneg h2 (by positivity))
  · refine ⟨a.m * 2 ^ (a.e - b.e).toNat + b.m * 2 ^ (b.e - b.e).toNat, b.e,
      by simp only [if_neg h], key b.e (by omega) (le_refl _), fun h1 h2 => ?_⟩
    exact add_nonneg (mul_nonneg h1 (by positivity)) (mul_nonneg h2 (by positivity))

/-- The quotient by a positive number is monotone on the non-negative numbers, and has a
result below a quotient that has one. -/
theorem divAs_bounded (fmt : Format) (hp : 0 < fmt.p) (a a' b : Flt) (hb : 0 < b.m)
    (ha : 0 ≤ a.value) (hle : a.value ≤ a'.value) (r' : Flt)
    (h' : Flt.divAs fmt a' b = some r') :
    ∃ r, Flt.divAs fmt a b = some r ∧ 0 ≤ r.value ∧ r.value ≤ r'.value := by
  obtain ⟨d1, d2, d3⟩ := divAs_input fmt a b hb
  obtain ⟨d1', d2', -⟩ := divAs_input fmt a' b hb
  rw [d1'] at h'
  rw [d1]
  have hbv : 0 < b.value := by
    unfold Flt.value
    exact mul_pos (by exact_mod_cast hb) (zpow_pos (by norm_num) _)
  apply round_bounded fmt hp _ _ _ d3 ((value_nonneg_iff a).mp ha) _ _ _ d3 r' h'
  rw [d2, d2']
  exact div_le_div_of_nonneg_right hle (le_of_lt hbv)

/-- The product by a non-negative number is monotone on the non-negative numbers. -/
theorem mulAs_bounded (fmt : Format) (hp : 0 < fmt.p) (a a' b : Flt) (hb : 0 ≤ b.value)
    (ha : 0 ≤ a.value) (hle : a.value ≤ a'.value) (r' : Flt)
    (h' : Flt.mulAs fmt a' b = some r') :
    ∃ r, Flt.mulAs fmt a b = some r ∧ 0 ≤ r.value ∧ r.value ≤ r'.value := by
  unfold Flt.mulAs at h' ⊢
  apply round_bounded fmt hp _ _ _ (by norm_num)
    (mul_nonneg ((value_nonneg_iff a).mp ha) ((value_nonneg_iff b).mp hb)) _ _ _
    (by norm_num) r' h'
  rw [mulAs_input, mulAs_input]
  exact mul_le_mul_of_nonneg_right hle hb

/-- The sum with a non-negative number is monotone on the non-negative numbers. -/
theorem addAs_bounded (fmt : Format) (hp : 0 < fmt.p) (a a' b : Flt) (hb : 0 ≤ b.value)
    (ha : 0 ≤ a.value) (hle : a.value ≤ a'.value) (r' : Flt)
    (h' : Flt.addAs fmt a' b = some r') :
    ∃ r, Flt.addAs fmt a b = some r ∧ 0 ≤ r.value ∧ r.value ≤ r'.value := by
  obtain ⟨N, e, a1, a2, a3⟩ := addAs_input fmt a b
  obtain ⟨N', e', a1', a2', -⟩ := addAs_input fmt a' b
  rw [a1'] at h'
  rw [a1]
  apply round_bounded fmt hp _ _ _ (by norm_num)
    (a3 ((value_nonneg_iff a).mp ha) ((value_nonneg_iff b).mp hb)) _ _ _ (by norm_num) r' h'
  rw [a2, a2']
  linarith

/-! ### The interpolation of the fade timer -/

theorem value_pos_iff (f : Flt) : 0 < f.value ↔ 0 < f.m := by
  unfold Flt.value
  have hpos : (0 : ℚ) < (2 : ℚ) ^ f.e := zpow_pos (by norm_num) _
  constructor
  · intro h
    by_contra hc
    have : (f.m : ℚ) ≤ 0 := by exact_mod_cast not_lt.mp hc
    exact absurd h (not_lt.mpr (mul_nonpos_of_nonpos_of_nonneg this (le_of_lt hpos)))
  · intro h
    exact mul_pos (by exact_mod_cast h) hpos

/-- A sum that is a number of the format is computed exactly. -/
theorem addAs_exact (fmt : Format) (a b : Flt) (M : Int) (E : Int) (hM : M.natAbs < 2 ^ fmt.p)
    (hE : fmt.emin ≤ E) (h : a.value + b.value = M * (2 : ℚ) ^ E)
    (hfin : |(M : ℚ) * (2 : ℚ) ^ E| < (2 : ℚ) ^ (fmt.emax : Int)) :
    ∃ r, Flt.addAs fmt a b = some r ∧ r.value = a.value + b.value := by
  obtain ⟨N, e, a1, a2, -⟩ := addAs_input fmt a b
  rw [a1, h]
  exact round_exact fmt N 1 e (by norm_num) M E hM hE (by rw [a2, h]) hfin

/-- The three operations of the interpolation, for a fade from 0 to 255: they have results
for an elapsed time that is at most one for which they have results, and smaller or
equal ones. -/
theorem fadeChain_le (x1 x1' dD : Flt) (hd : 0 < dD.m) (h0 : 0 ≤ x1.value)
    (hle : x1.value ≤ x1'.value) (x2' x3' x4' : Flt)
    (h2 : x1'.divAs Format.double dD = some x2')
    (h3 : x2'.mulAs Format.double (Flt.ofIntD (255 - 0)) = some x3')
    (h4 : x3'.addAs Format.double (Flt.ofIntD 0) = some x4') :
    ∃ x2 x3 x4, x1.divAs Format.double dD = some x2 ∧
      x2.mulAs Format.double (Flt.ofIntD (255 - 0)) = some x3 ∧
      x3.addAs Format.double (Flt.ofIntD 0) = some x4 ∧
      0 ≤ x4.value ∧ x4.value ≤ x4'.value ∧ 0 ≤ x2.value ∧ x2.value ≤ x2'.value := by
  have hp : 0 < Format.double.p := by decide
  have c255 : 0 ≤ (Flt.ofIntD (255 - 0)).value :=
    (value_nonneg_iff _).mpr (by decide)
  have c0 : 0 ≤ (Flt.ofIntD 0).value := (value_nonneg_iff _).mpr (by decide)
  obtain ⟨x2, e2, n2, l2⟩ := divAs_bounded Format.double hp x1 x1' dD hd h0 hle x2' h2
  obtain ⟨x3, e3, n3, l3⟩ := mulAs_bounded Format.double hp x2 x2' _ c255 n2 l2 x3' h3
  obtain ⟨x4, e4, n4, l4⟩ := addAs_bounded Format.double hp x3 x3' _ c0 n3 l3 x4' h4
  exact ⟨x2, x3, x4, e2, e3, e4, n4, l4, n2, l2⟩

/-- The end of the interpolation: a value from 0 to 255 is kept by `min` and `max`, and the
cast to `int` gives its integer part. -/
theorem clamp_toInt (x : Flt) (h0 : 0 ≤ x.value) (h1 : x.value ≤ 255) :
    (Flt.max (Flt.min x ⟨255, 0⟩) ⟨0, 0⟩).toInt = some ⌊x.value⌋ := by
  have v255 : (⟨255, 0⟩ : Flt).value = 255 := by
    unfold Flt.value
    norm_num
  have v0 : (⟨0, 0⟩ : Flt).value = 0 := by
    unfold Flt.value
    norm_num
  have hmin : (Flt.min x ⟨255, 0⟩).value = x.value := by
    unfold Flt.min
    cases h : x.lt ⟨255, 0⟩ with
    | true => simp
    | false =>
      have : ¬ x.value < (⟨255, 0⟩ : Flt).value := fun c => by
        rw [(lt_iff _ _).mpr c] at h
        exact Bool.noConfusion h
      rw [v255] at this
      simp only [Bool.false_eq_true, if_false, v255]
      linarith
  have hmax : (Flt.max (Flt.min x ⟨255, 0⟩) ⟨0, 0⟩).value = x.value := by
    unfold Flt.max
    cases h : (⟨0, 0⟩ : Flt).lt (Flt.min x ⟨255, 0⟩) with
    | true => simp [hmin]
    | false =>
      have : ¬ (⟨0, 0⟩ : Flt).value < (Flt.min x ⟨255, 0⟩).value := fun c => by
        rw [(lt_iff _ _).mpr c] at h
        exact Bool.noConfusion h
      rw [v0, hmin] at this
      simp only [Bool.false_eq_true, if_false, v0]
      linarith
  have := toInt_floor (Flt.max (Flt.min x ⟨255, 0⟩) ⟨0, 0⟩) (by rw [hmax]; exact h0)
    (by rw [hmax]; exact lt_of_le_of_lt h1 (by norm_num))
  rw [hmax] at this
  exact this

/-- The conversion to `__int64` keeps a number below `2 ^ 63`. -/
theorem toInt64_small (n : Nat) (h : n < 2 ^ 63) : toInt64 n = n := by
  unfold toInt64
  have : n % 2 ^ 64 = n := Nat.mod_eq_of_lt (lt_trans h (by norm_num))
  rw [this, if_pos h]

/-- The interpolation for a fade from 0 to 255 over `D` milliseconds, at the elapsed time
`e ≤ D`: it has a result, the integer part of a `double` from 0 to 255 that is monotone
in `e`, is 255 for `e = D` and less than 255 before. -/
theorem fadeInterpolate_spec (D : Int) (hD : 0 < D) (hD53 : D < 2 ^ 53) (e : Nat)
    (he : (e : Int) ≤ D) :
    ∃ x2 x4 : Flt, (Flt.ofIntD e).divAs Format.double (Flt.ofIntD D) = some x2 ∧
      (x2.mulAs Format.double (Flt.ofIntD (255 - 0))).bind
        (fun x3 => x3.addAs Format.double (Flt.ofIntD 0)) = some x4 ∧
      fadeInterpolate e D 0 255 = some ⌊x4.value⌋ ∧ 0 ≤ x4.value ∧ x4.value ≤ 255 ∧
      ((e : Int) = D → x4.value = 255) := by
  have hDabs : D.natAbs < 2 ^ 53 := by omega
  have heabs : ((e : Int)).natAbs < 2 ^ 53 := by omega
  have vD : (Flt.ofIntD D).value = D := ofIntD_exact D hDabs
  have ve : (Flt.ofIntD e).value = e := by
    have := ofIntD_exact e heabs
    exact_mod_cast this
  have hDq : (0 : ℚ) < D := by exact_mod_cast hD
  have hdm : 0 < (Flt.ofIntD D).m := (value_pos_iff _).mp (by rw [vD]; exact hDq)
  have v255 : (Flt.ofIntD (255 - 0)).value = 255 := by
    have := ofIntD_exact (255 - 0) (by decide)
    simpa using this
  have v0 : (Flt.ofIntD 0).value = 0 := by
    have := ofIntD_exact 0 (by decide)
    simpa using this
  -- at the end of the duration
  obtain ⟨y2, f2, w2⟩ := divAs_exact Format.double (Flt.ofIntD D) (Flt.ofIntD D) (by omega) 1 0
    (by decide) (by decide) (by rw [vD]; field_simp) (by simp only [Format.double]; norm_num)
  rw [vD, div_self (ne_of_gt hDq)] at w2
  obtain ⟨y3, f3, w3⟩ := mulAs_exact Format.double y2 (Flt.ofIntD (255 - 0)) 255 0
    (by decide) (by decide) (by rw [w2, v255]; norm_num)
    (by simp only [Format.double]; norm_num)
  rw [w2, v255, one_mul] at w3
  obtain ⟨y4, f4, w4⟩ := addAs_exact Format.double y3 (Flt.ofIntD 0) 255 0
    (by decide) (by decide) (by rw [w3, v0]; norm_num)
    (by simp only [Format.double]; norm_num)
  rw [w3, v0, add_zero] at w4
  -- at the elapsed time `e`
  obtain ⟨x2, x3, x4, e2, e3, e4, n4, l4, -, -⟩ := fadeChain_le (Flt.ofIntD e) (Flt.ofIntD D)
    (Flt.ofIntD D) hdm (by rw [ve]; positivity) (by rw [ve, vD]; exact_mod_cast he)
    y2 y3 y4 f2 f3 f4
  rw [w4] at l4
  refine ⟨x2, x4, e2, by rw [e3]; exact e4, ?_, n4, l4, ?_⟩
  · unfold fadeInterpolate
    have h63 : e < 2 ^ 63 := by omega
    simp only [toInt64_small e h63, e2, e3, e4, Option.some_bind]
    exact clamp_toInt x4 n4 l4
  · intro heq
    have : Flt.ofIntD (e : Int) = Flt.ofIntD D := by rw [heq]
    rw [this, f2] at e2
    obtain rfl := Option.some.inj e2
    rw [f3] at e3
    obtain rfl := Option.some.inj e3
    rw [f4] at e4
    obtain rfl := Option.some.inj e4
    exact w4

/-- The interpolation is monotone in the elapsed time. -/
theorem fadeInterpolate_mono (D : Int) (hD : 0 < D) (hD53 : D < 2 ^ 53) (e1 e2 : Nat)
    (h12 : e1 ≤ e2) (he : (e2 : Int) ≤ D) :
    ∃ v1 v2, fadeInterpolate e1 D 0 255 = some v1 ∧ fadeInterpolate e2 D 0 255 = some v2 ∧
      0 ≤ v1 ∧ v1 ≤ v2 ∧ v2 ≤ 255 := by
  have hDabs : D.natAbs < 2 ^ 53 := by omega
  have vD : (Flt.ofIntD D).value = D := ofIntD_exact D hDabs
  have hDq : (0 : ℚ) < D := by exact_mod_cast hD
  have hdm : 0 < (Flt.ofIntD D).m := (value_pos_iff _).mp (by rw [vD]; exact hDq)
  have ve1 : (Flt.ofIntD e1).value = e1 := by
    have := ofIntD_exact e1 (by omega)
    exact_mod_cast this
  have ve2 : (Flt.ofIntD e2).value = e2 := by
    have := ofIntD_exact e2 (by omega)
    exact_mod_cast this
  obtain ⟨y2, y4, g2, g34, gf, gn, gl, -⟩ := fadeInterpolate_spec D hD hD53 e2 he
  obtain ⟨y3, g3, g4⟩ := Option.bind_eq_some.mp g34
  obtain ⟨x2, x3, x4, e2', e3, e4, n4, l4, -, -⟩ := fadeChain_le (Flt.ofIntD e1)
    (Flt.ofIntD e2) (Flt.ofIntD D) hdm (by rw [ve1]; positivity)
    (by rw [ve1, ve2]; exact_mod_cast h12) y2 y3 y4 g2 g3 g4
  have hf1 : fadeInterpolate e1 D 0 255 = some ⌊x4.value⌋ := by
    unfold fadeInterpolate
    have h63 : e1 < 2 ^ 63 := by omega
    simp only [toInt64_small e1 h63, e2', e3, e4, Option.some_bind]
    exact clamp_toInt x4 n4 (le_trans l4 gl)
  refine ⟨_, _, hf1, gf, Int.floor_nonneg.mpr n4, Int.floor_mono l4, ?_⟩
  have : ⌊y4.value⌋ ≤ ⌊(255 : ℚ)⌋ := Int.floor_mono gl
  simpa using this

/-- The product of the largest `double` below 1 and 255.0, and the sum of it and 0.0. -/
theorem fade_below_full :
    Flt.mulAs Format.double ⟨2 ^ 53 - 1, -53⟩ (Flt.ofIntD (255 - 0)) =
      some ⟨8972014882652159, -45⟩ ∧
    Flt.addAs Format.double ⟨8972014882652159, -45⟩ (Flt.ofIntD 0) =
      some ⟨8972014882652159, -45⟩ := by
  constructor
  · set_option maxRecDepth 8000 in decide
  · set_option maxRecDepth 8000 in decide

/-- Before the end of the duration the interpolation for a fade from 0 to 255 gives less
than 255. -/
theorem fadeInterpolate_early (D : Int) (hD : 0 < D) (hD53 : D < 2 ^ 53) (e : Nat)
    (he : (e : Int) < D) : ∃ v, fadeInterpolate e D 0 255 = some v ∧ 0 ≤ v ∧ v ≤ 254 := by
  have hp : 0 < Format.double.p := by decide
  obtain ⟨x2, x4, g2, g34, gf, gn, gl, -⟩ := fadeInterpolate_spec D hD hD53 e (le_of_lt he)
  obtain ⟨x3, g3, g4⟩ := Option.bind_eq_some.mp g34
  have hDabs : D.natAbs < 2 ^ 53 := by omega
  have vD : (Flt.ofIntD D).value = D := ofIntD_exact D hDabs
  have ve : (Flt.ofIntD e).value = e := by
    have := ofIntD_exact e (by omega)
    exact_mod_cast this
  have hDq : (0 : ℚ) < D := by exact_mod_cast hD
  have hdm : 0 < (Flt.ofIntD D).m := (value_pos_iff _).mp (by rw [vD]; exact hDq)
  have c255 : 0 ≤ (Flt.ofIntD (255 - 0)).value := (value_nonneg_iff _).mpr (by decide)
  have c0 : 0 ≤ (Flt.ofIntD 0).value := (value_nonneg_iff _).mpr (by decide)
  have vb : (⟨2 ^ 53 - 1, -53⟩ : Flt).value = 1 - (2 : ℚ) ^ (-53 : Int) := by
    unfold Flt.value
    norm_num
  -- the quotient is below 1
  obtain ⟨d1, d2, d3⟩ := divAs_input Format.double (Flt.ofIntD e) (Flt.ofIntD D) hdm
  obtain ⟨r', hr', vr'⟩ := round_exact Format.double (2 ^ 53 - 1) 1 (-53) (by norm_num)
    (2 ^ 53 - 1) (-53) (by decide) (by decide) (by norm_num)
    (by simp only [Format.double]; norm_num [abs_lt])
  have hquot : ((e : ℚ)) / D ≤ 1 - (2 : ℚ) ^ (-53 : Int) := by
    have h1 : (e : ℚ) ≤ D - 1 := by
      have : (e : Int) ≤ D - 1 := by omega
      exact_mod_cast this
    have h2 : (D : ℚ) ≤ 2 ^ 53 := by
      have : D ≤ 2 ^ 53 := le_of_lt hD53
      exact_mod_cast this
    rw [div_le_iff₀ hDq]
    have h3 : (2 : ℚ) ^ (-53 : Int) * D ≤ 1 := by
      have : (2 : ℚ) ^ (-53 : Int) * D ≤ (2 : ℚ) ^ (-53 : Int) * 2 ^ 53 :=
        mul_le_mul_of_nonneg_left h2 (by positivity)
      have e1 : (2 : ℚ) ^ (-53 : Int) * 2 ^ 53 = 1 := by norm_num
      linarith
    nlinarith
  obtain ⟨r, hr, -, lr⟩ := round_bounded Format.double hp (Flt.ofIntD e).m
    (Flt.ofIntD D).m.natAbs ((Flt.ofIntD e).e - (Flt.ofIntD D).e) d3
    ((value_nonneg_iff _).mp (by rw [ve]; positivity)) (2 ^ 53 - 1) 1 (-53) (by norm_num) r' hr'
    (by
      rw [d2, ve, vD]
      have : ((2 ^ 53 - 1 : Int) : ℚ) / ((1 : Nat) : ℚ) * (2 : ℚ) ^ (-53 : Int) =
          1 - (2 : ℚ) ^ (-53 : Int) := by norm_num
      rw [this]
      exact hquot)
  rw [← d1, g2] at hr
  obtain rfl := Option.some.inj hr
  have l2 : x2.value ≤ (⟨2 ^ 53 - 1, -53⟩ : Flt).value := by
    rw [vb]
    rw [vr'] at lr
    have : ((2 ^ 53 - 1 : Int) : ℚ) * (2 : ℚ) ^ (-53 : Int) = 1 - (2 : ℚ) ^ (-53 : Int) := by
      norm_num
    linarith
  have n2 : 0 ≤ x2.value := by
    obtain ⟨q, hq, nq, -⟩ := divAs_bounded Format.double hp (Flt.ofIntD e) (Flt.ofIntD e)
      (Flt.ofIntD D) hdm (by rw [ve]; positivity) (le_refl _) x2 g2
    rw [g2] at hq
    obtain rfl := Option.some.inj hq
    exact nq
  obtain ⟨q3, h3, n3, l3⟩ := mulAs_bounded Format.double hp x2 ⟨2 ^ 53 - 1, -53⟩ _ c255 n2 l2
    _ fade_below_full.1
  rw [g3] at h3
  obtain rfl := Option.some.inj h3
  obtain ⟨q4, h4, n4, l4⟩ := addAs_bounded Format.double hp x3 ⟨8972014882652159, -45⟩ _ c0 n3
    l3 _ fade_below_full.2
  rw [g4] at h4
  obtain rfl := Option.some.inj h4
  have vtop : (⟨8972014882652159, -45⟩ : Flt).value < 255 := by
    unfold Flt.value
    norm_num
  refine ⟨_, gf, Int.floor_nonneg.mpr gn, ?_⟩
  have : ⌊x4.value⌋ < 255 := Int.floor_lt.mpr (by push_cast; linarith)
  omega

/-- The value that a tick of a fade from 0 to 255 over `D` milliseconds applies, `e`
milliseconds after the first tick: it exists, lies between 0 and 255, and is 255 exactly
from `D` milliseconds on. -/
theorem fadeValue_spec (D : Nat) (hD : 0 < D) (hD31 : D < 2 ^ 31) (e : Nat) :
    ∃ v, fadeValue e D 0 255 = some v ∧ 0 ≤ v ∧ v ≤ 255 ∧ (v = 255 ↔ D ≤ e) := by
  have hmod : (((D : Int) % 2 ^ 64).toNat) = D := by omega
  unfold fadeValue
  rw [hmod]
  by_cases h : e > D
  · rw [if_pos h]
    exact ⟨255, rfl, by norm_num, le_refl _, by simp; omega⟩
  · rw [if_neg h]
    rcases Nat.lt_or_ge e D with hlt | hge
    · obtain ⟨v, hv, v0, v1⟩ := fadeInterpolate_early D (by omega) (by omega) e (by omega)
      exact ⟨v, hv, v0, by omega, by constructor <;> intro <;> omega⟩
    · have heq : e = D := by omega
      obtain ⟨x2, x4, -, -, gf, -, -, gfull⟩ := fadeInterpolate_spec D (by omega) (by omega) e
        (by omega)
      have : x4.value = 255 := gfull (by omega)
      rw [this] at gf
      have fl : ⌊(255 : ℚ)⌋ = 255 := by simp
      rw [fl] at gf
      exact ⟨255, gf, by norm_num, le_refl _, by simp; omega⟩

/-- The value that a tick applies is monotone in the time since the first tick. -/
theorem fadeValue_mono (D : Nat) (hD : 0 < D) (hD31 : D < 2 ^ 31) (e1 e2 : Nat)
    (h12 : e1 ≤ e2) (v1 v2 : Int) (h1 : fadeValue e1 D 0 255 = some v1)
    (h2 : fadeValue e2 D 0 255 = some v2) : v1 ≤ v2 := by
  obtain ⟨w2, g2, -, hi2, iff2⟩ := fadeValue_spec D hD hD31 e2
  obtain ⟨w1, g1, -, hi1, -⟩ := fadeValue_spec D hD hD31 e1
  rw [h1] at g1
  rw [h2] at g2
  obtain rfl := Option.some.inj g1
  obtain rfl := Option.some.inj g2
  by_cases h : D ≤ e2
  · rw [iff2.mpr h]
    exact hi1
  · have hmod : (((D : Int) % 2 ^ 64).toNat) = D := by omega
    unfold fadeValue at h1 h2
    rw [hmod] at h1 h2
    rw [if_neg (by omega)] at h1 h2
    obtain ⟨u1, u2, k1, k2, -, k12, -⟩ := fadeInterpolate_mono D (by omega) (by omega) e1 e2 h12
      (by omega)
    rw [h1] at k1
    rw [h2] at k2
    obtain rfl := Option.some.inj k1
    obtain rfl := Option.some.inj k2
    exact k12

/-! ### The fade timer -/

namespace Skin

/-- The state that `FadeWindow(0, 255)` leaves when the fade duration is not 0: the fade is
active from 0 to 255, the transparency value is 0, the start time is untouched. -/
theorem FadeWindow_arms (s : Skin) (h : s.UpdateFadeDuration.m_FadeDuration ≠ 0) :
    (s.FadeWindow 0 255).m_ActiveFade = true ∧
    (s.FadeWindow 0 255).m_FadeStartTime = s.m_FadeStartTime ∧
    (s.FadeWindow 0 255).m_FadeDuration = s.UpdateFadeDuration.m_FadeDuration ∧
    (s.FadeWindow 0 255).m_FadeStartValue = 0 ∧ (s.FadeWindow 0 255).m_FadeEndValue = 255 ∧
    (s.FadeWindow 0 255).m_TransparencyValue = 0 := by
  have hst : s.UpdateFadeDuration.m_FadeStartTime = s.m_FadeStartTime := by
    unfold UpdateFadeDuration
    split_ifs <;> rfl
  unfold FadeWindow
  generalize s.UpdateFadeDuration = u at h hst
  simp only [h, ↓reduceIte]
  cases hh : u.m_Hidden <;>
    simp [SetTimer, call, UpdateWindowTransparency, ShowWindow, hh, hst]

/-- The first tick of an active fade takes the time of the tick as the start time. -/
theorem OnTimerFade_first (s : Skin) (t : Nat) (h : s.m_FadeStartTime = 0) (ht : t ≠ 0)
    (hact : s.m_ActiveFade = true) :
    s.OnTimerFade t = ({ s with m_FadeStartTime := t } : Skin).OnTimerFade t := by
  unfold OnTimerFade
  simp only [hact, Bool.not_true, Bool.false_eq_true, if_false, h, if_true, if_neg ht]

/-- One tick of a fade from 0 to 255 over `D` milliseconds whose first tick was at `t1`:
the tick at `t` leaves the transparency value `fadeValue (t - t1) D 0 255`, and the fade
either stays active or has been ended by a tick later than `t1 + D`. -/
theorem OnTimerFade_fading (D t1 last t : Nat) (s : Skin) (hD : 0 < D) (hD31 : D < 2 ^ 31)
    (ht1 : 0 < t1) (h1 : t1 ≤ last) (h2 : last ≤ t) (h3 : t < 2 ^ 64)
    (hdur : s.m_FadeDuration = D) (hsv : s.m_FadeStartValue = 0)
    (hev : s.m_FadeEndValue = 255)
    (hphase : (s.m_ActiveFade = true ∧ s.m_FadeStartTime = t1) ∨
      (s.m_ActiveFade = false ∧ s.m_TransparencyValue = 255 ∧ t1 + D < last)) :
    ∃ r, s.OnTimerFade t = some r ∧
      fadeValue (t - t1) D 0 255 = some r.m_TransparencyValue ∧
      r.m_FadeDuration = D ∧ r.m_FadeStartValue = 0 ∧ r.m_FadeEndValue = 255 ∧
      ((r.m_ActiveFade = true ∧ r.m_FadeStartTime = t1) ∨
        (r.m_ActiveFade = false ∧ r.m_TransparencyValue = 255 ∧ t1 + D < t)) := by
  have hmod : (((D : Int) % 2 ^ 64).toNat) = D := by omega
  rcases hphase with ⟨hact, hst⟩ | ⟨hact, hval, hlate⟩
  · have hne : ¬ s.m_FadeStartTime = 0 := by omega
    have hel : (t + 2 ^ 64 - s.m_FadeStartTime % 2 ^ 64) % 2 ^ 64 = t - t1 := by
      rw [hst]
      omega
    have h255 : ¬ ((255 : Int) = 0) := by norm_num
    unfold OnTimerFade
    simp only [hact, Bool.not_true, Bool.false_eq_true, if_false, if_neg hne, hel, hdur, hmod,
      hsv, hev, KillTimer, call, UpdateWindowTransparency, h255]
    by_cases hgt : t - t1 > D
    · rw [if_pos hgt]
      refine ⟨_, rfl, ?_, rfl, rfl, rfl, Or.inr ⟨rfl, rfl, by omega⟩⟩
      unfold fadeValue
      rw [hmod, if_pos hgt]
    · rw [if_neg hgt]
      obtain ⟨v, hv, -, -, -⟩ := fadeValue_spec D hD hD31 (t - t1)
      have hv' := hv
      unfold fadeValue at hv'
      rw [hmod, if_neg hgt] at hv'
      rw [hv', hv]
      exact ⟨_, rfl, rfl, rfl, rfl, rfl, Or.inl ⟨rfl, hst⟩⟩
  · refine ⟨s, by simp [OnTimerFade, hact], ?_, hdur, hsv, hev, Or.inr ⟨hact, hval, by omega⟩⟩
    unfold fadeValue
    rw [hmod, if_pos (by omega), hval]

/-- The ticks of a fade from 0 to 255 over `D` milliseconds whose first tick was at `t1`:
each tick leaves the transparency value `fadeValue (t - t1) D 0 255`. -/
theorem fadeRun_fading (D t1 : Nat) (hD : 0 < D) (hD31 : D < 2 ^ 31) (ht1 : 0 < t1) :
    ∀ (ticks : List Nat) (last : Nat) (s : Skin), t1 ≤ last →
      (∀ t ∈ ticks, last ≤ t ∧ t < 2 ^ 64) → ticks.Pairwise (· ≤ ·) →
      s.m_FadeDuration = D → s.m_FadeStartValue = 0 → s.m_FadeEndValue = 255 →
      ((s.m_ActiveFade = true ∧ s.m_FadeStartTime = t1) ∨
        (s.m_ActiveFade = false ∧ s.m_TransparencyValue = 255 ∧ t1 + D < last)) →
      ∃ vs, s.fadeRun ticks = some vs ∧
        List.Forall₂ (fun t v => fadeValue (t - t1) D 0 255 = some v) ticks vs := by
  intro ticks
  induction ticks with
  | nil =>
    intro last s _ _ _ _ _ _ _
    exact ⟨[], rfl, List.Forall₂.nil⟩
  | cons t rest ih =>
    intro last s h1 hall hpw hdur hsv hev hphase
    obtain ⟨r, hr, hval, rdur, rsv, rev, rphase⟩ := OnTimerFade_fading D t1 last t s hD hD31
      ht1 h1 (hall t (List.mem_cons_self _ _)).1 (hall t (List.mem_cons_self _ _)).2 hdur hsv
      hev hphase
    have hpw' := List.pairwise_cons.mp hpw
    obtain ⟨vs, hvs, hf⟩ := ih t r (le_trans h1 (hall t (List.mem_cons_self _ _)).1)
      (fun u hu => ⟨hpw'.1 u hu, (hall u (List.mem_cons_of_mem _ hu)).2⟩) hpw'.2 rdur rsv rev
      rphase
    refine ⟨r.m_TransparencyValue :: vs, ?_, List.Forall₂.cons hval hf⟩
    unfold fadeRun
    rw [hr, Option.some_bind, hvs]
    rfl

end Skin

/-- Two lists related by a relation that determines the second element are related by
`map`. -/
theorem forall₂_eq_map {α β : Type} (R : α → β → Prop) (f : α → β)
    (hR : ∀ a b, R a b → b = f a) (l : List α) (vs : List β) (h : List.Forall₂ R l vs) :
    vs = l.map f := by
  induction h with
  | nil => rfl
  | cons hab _ ih => rw [List.map_cons, ← ih, ← hR _ _ hab]

/-- C7 (amended): on a skin whose fade start time is 0, as it is whenever no fade is in
progress, and whose fade duration is `D` with `0 < D`, the ticks of the fade timer after
`FadeWindow(0, 255)`, at non-decreasing times below `2 ^ 64` of which the first, `t1`, is
not 0, all apply a transparency value; the values are between 0 and 255 and non-decreasing,
and the value of a tick at the time `t` is 255 exactly when `D` milliseconds or more have
passed since the first tick, `t1 + D ≤ t`. The time is counted from the first tick of the
timer, not from the call of `FadeWindow`. -/
theorem C7_fade_in_monotone_and_full_after_duration (s : Skin) (D t1 : Nat) (rest : List Nat)
    (hD : 0 < D) (hD31 : D < 2 ^ 31) (hdur : s.UpdateFadeDuration.m_FadeDuration = D)
    (hstart : s.m_FadeStartTime = 0) (ht1 : 0 < t1)
    (hsorted : (t1 :: rest).Pairwise (· ≤ ·)) (hrange : ∀ t ∈ t1 :: rest, t < 2 ^ 64) :
    ∃ vs, (s.FadeWindow 0 255).fadeRun (t1 :: rest) = some vs ∧
      List.Forall₂ (fun t v => 0 ≤ v ∧ v ≤ 255 ∧ (v = 255 ↔ t1 + D ≤ t)) (t1 :: rest) vs ∧
      ((s.FadeWindow 0 255).m_TransparencyValue :: vs).Pairwise (· ≤ ·) := by
  have hne : s.UpdateFadeDuration.m_FadeDuration ≠ 0 := by
    rw [hdur]
    exact_mod_cast Nat.pos_iff_ne_zero.mp hD
  obtain ⟨a1, a2, a3, a4, a5, a6⟩ := Skin.FadeWindow_arms s hne
  have hfirst : (s.FadeWindow 0 255).fadeRun (t1 :: rest) =
      ({ s.FadeWindow 0 255 with m_FadeStartTime := t1 } : Skin).fadeRun (t1 :: rest) := by
    unfold Skin.fadeRun
    rw [Skin.OnTimerFade_first _ t1 (by rw [a2, hstart]) (by omega) a1]
  obtain ⟨vs, hvs, hf⟩ := Skin.fadeRun_fading D t1 hD hD31 ht1 (t1 :: rest) t1
    ({ s.FadeWindow 0 255 with m_FadeStartTime := t1 } : Skin) (le_refl _)
    (fun t ht => ⟨by
      rcases List.mem_cons.mp ht with h | h
      · exact le_of_eq h.symm
      · exact (List.pairwise_cons.mp hsorted).1 t h, hrange t ht⟩)
    hsorted (by rw [← hdur, ← a3]) a4 a5 (Or.inl ⟨a1, rfl⟩)
  refine ⟨vs, by rw [hfirst, hvs], ?_, ?_⟩
  · refine List.Forall₂.imp ?_ hf
    intro t v htv
    obtain ⟨w, hw, w0, w1, wiff⟩ := fadeValue_spec D hD hD31 (t - t1)
    rw [htv] at hw
    obtain rfl := Option.some.inj hw
    exact ⟨w0, w1, by rw [wiff]; omega⟩
  · have hmap := forall₂_eq_map (fun t v => fadeValue (t - t1) D 0 255 = some v)
      (fun t => (fadeValue (t - t1) D 0 255).getD 0) (fun a b h => by simp [h]) _ _ hf
    rw [a6, List.pairwise_cons]
    constructor
    · intro v hv
      rw [hmap] at hv
      obtain ⟨t, -, rfl⟩ := List.mem_map.mp hv
      obtain ⟨w, hw, w0, -, -⟩ := fadeValue_spec D hD hD31 (t - t1)
      rw [hw]
      exact w0
    · rw [hmap, List.pairwise_map]
      refine List.Pairwise.imp ?_ hsorted
      intro a b hab
      obtain ⟨wa, ha, -⟩ := fadeValue_spec D hD hD31 (a - t1)
      obtain ⟨wb, hb, -⟩ := fadeValue_spec D hD hD31 (b - t1)
      rw [ha, hb]
      exact fadeValue_mono D hD hD31 (a - t1) (b - t1) (by omega) wa wb ha hb

/-- C7, at a concrete input: a fade of 250 milliseconds on a running skin, with ticks at
1000, 1010, 1125, 1249, 1250, 1251 and 1300. -/
theorem C7_fade_in_witness :
    ∃ vs, Skin.fadingIn.fadeRun [1000, 1010, 1125, 1249, 1250, 1251, 1300] = some vs ∧
      List.Forall₂ (fun t v => 0 ≤ v ∧ v ≤ 255 ∧ (v = 255 ↔ 1000 + 250 ≤ t))
        [1000, 1010, 1125, 1249, 1250, 1251, 1300] vs ∧
      (Skin.fadingIn.m_TransparencyValue :: vs).Pairwise (· ≤ ·) :=
  C7_fade_in_monotone_and_full_after_duration Skin.running 250 1000
    [1010, 1125, 1249, 1250, 1251, 1300] (by decide) (by decide) (by decide) (by decide)
    (by decide) (by decide) (by decide)

set_option maxRecDepth 8000 in
/-- C7 (counterexample): a fade of 250 milliseconds started by `FadeWindow(0, 255)`, which
arms the fade timer with an interval of 10 milliseconds, so that the first tick comes 10
milliseconds or more after the call. With the first tick at 1000 and ticks at 1240 and 1249,
250 milliseconds or more after the call, the transparency value is 244 and 253, not 255:
the elapsed time is counted from the first tick, not from the call. -/
theorem C7_not_full_after_duration_since_call :
    Call.setTimer .TIMER_FADE 10 ∈ Skin.fadingIn.calls ∧
    Skin.fadingIn.m_FadeDuration = 250 ∧
    Skin.fadingIn.fadeRun [1000, 1240, 1249] = some [0, 244, 253] := by
  decide

/-! ### Deactivation: the timers -/

namespace Skin

/-- No timer is cancelled by `FadeWindow`. -/
theorem FadeWindow_keeps_timers (s : Skin) (a b : Int) :
    ExtendsBy (fun c => c.cancelsTimer = false) s (s.FadeWindow a b) ∧
    (s.FadeWindow a b).timers.transition = s.timers.transition ∧
    (s.timers.fade = true → (s.FadeWindow a b).timers.fade = true) := by
  rw [ExtendsBy_iff]
  unfold FadeWindow UpdateFadeDuration
  simp only []
  split_ifs <;>
    simp [ShowWindow, UpdateWindowTransparency, SetTimer, call, Timers.put,
      Call.cancelsTimer, List.drop_append, List.drop_left]

/-- No timer is cancelled by `HideFade`. -/
theorem HideFade_keeps_timers (s : Skin) :
    ExtendsBy (fun c => c.cancelsTimer = false) s s.HideFade ∧
    s.HideFade.timers.transition = s.timers.transition ∧
    (s.timers.fade = true → s.HideFade.timers.fade = true) := by
  unfold HideFade
  simp only []
  split_ifs
  · exact FadeWindow_keeps_timers { s with m_Hidden := true } s.m_AlphaValue 0
  · exact ⟨ExtendsBy.refl _ _, rfl, fun h => h⟩

/-- C21 (amended): `Deactivate` on a skin that is not closing makes the state
`STATE_CLOSING` and arms the deactivation timer; it cancels no timer: the periodic
update, mouse-poll and transition timers are armed afterwards exactly if they were
before, the fade timer is armed if it was before, and no call of `KillTimer` is made. -/
theorem C21_deactivate_cancels_no_timer (s : Skin) (h : s.m_State ≠ .STATE_CLOSING) :
    s.Deactivate.m_State = .STATE_CLOSING ∧
    s.Deactivate.timers.deactivate = true ∧
    s.Deactivate.timers.meter = s.timers.meter ∧
    s.Deactivate.timers.mouse = s.timers.mouse ∧
    s.Deactivate.timers.transition = s.timers.transition ∧
    (s.timers.fade = true → s.Deactivate.timers.fade = true) ∧
    ExtendsBy (fun c => c.cancelsTimer = false) s s.Deactivate := by
  obtain ⟨d1, d2, d3, d4, -⟩ := Deactivate_facts s h
  refine ⟨d1, d4, d2, d3, ?_⟩
  have hu : ExtendsBy (fun c => c.cancelsTimer = false) s s.UpdateFadeDuration := by
    rw [ExtendsBy_iff]
    unfold UpdateFadeDuration
    split_ifs <;> simp [call, Call.cancelsTimer]
  obtain ⟨-, u2, u3⟩ := UpdateFadeDuration_quiet s
  have hne : ¬ s.UpdateFadeDuration.m_State = .STATE_CLOSING := by rw [u2]; exact h
  have key : ∀ v : Skin, v.timers = s.timers →
      ExtendsBy (fun c => c.cancelsTimer = false) s v →
      (v.HideFade.SetTimer .TIMER_DEACTIVATE (v.HideFade.m_FadeDuration + 50)).timers.transition
        = s.timers.transition ∧
      (s.timers.fade = true →
        (v.HideFade.SetTimer .TIMER_DEACTIVATE (v.HideFade.m_FadeDuration + 50)).timers.fade
          = true) ∧
      ExtendsBy (fun c => c.cancelsTimer = false) s
        (v.HideFade.SetTimer .TIMER_DEACTIVATE (v.HideFade.m_FadeDuration + 50)) := by
    intro v hv2 hv3
    obtain ⟨w1, w2, w3⟩ := HideFade_keeps_timers v
    generalize v.HideFade = w at w1 w2 w3 ⊢
    refine ⟨?_, ?_, ?_⟩
    · rw [← hv2, ← w2]; rfl
    · intro hf
      rw [← hv2] at hf
      exact w3 hf
    · refine (hv3.trans w1).trans ?_
      exact ⟨[.setTimer .TIMER_DEACTIVATE (w.m_FadeDuration + 50)], rfl,
        by simp [Call.cancelsTimer]⟩
  unfold Deactivate
  simp only [hne, if_false]
  refine key _ u3 (hu.trans ?_)
  exact ⟨[.removeSkin, .addUnmanagedSkin], by simp, by simp [Call.cancelsTimer]⟩

/-- C21, at a concrete input: the running skin `Skin.busy`, whose update, mouse-poll and
transition timers are armed. -/
theorem C21_deactivate_witness :
    Skin.busy.Deactivate.m_State = .STATE_CLOSING ∧
    Skin.busy.Deactivate.timers.deactivate = true ∧
    Skin.busy.Deactivate.timers.meter = Skin.busy.timers.meter ∧
    Skin.busy.Deactivate.timers.mouse = Skin.busy.timers.mouse ∧
    Skin.busy.Deactivate.timers.transition = Skin.busy.timers.transition ∧
    (Skin.busy.timers.fade = true → Skin.busy.Deactivate.timers.fade = true) ∧
    ExtendsBy (fun c => c.cancelsTimer = false) Skin.busy Skin.busy.Deactivate :=
  C21_deactivate_cancels_no_timer Skin.busy (by decide)

/-- C21 (counterexample): after `Deactivate` on the running skin `Skin.busy` the state is
`STATE_CLOSING` and the periodic update, mouse-poll and transition timers are still
armed; the tick of the update timer updates the measure `M` and the meter `A` of the
closing skin. -/
theorem C21_update_runs_on_closing_skin :
    Skin.busy.Deactivate.m_State = .STATE_CLOSING ∧
    Skin.busy.Deactivate.timers.meter = true ∧
    Skin.busy.Deactivate.timers.mouse = true ∧
    Skin.busy.Deactivate.timers.transition = true ∧
    ((Skin.busy.Deactivate.OnTimerMeter Interp.inert true).calls.drop
        Skin.busy.Deactivate.calls.length).filter
      (fun c => c.isMeasureUpdate || c.isMeterWork) =
      [.measureUpdate "M", .meterUpdate "A"] := by
  decide

/-- C22 (evaluation at the failing input): `Deactivate` on a visible running skin of fade
duration 250 ms starts the fade-out: the fade is active and its timer armed, and until
the first tick of the fade timer `m_FadeStartTime` is 0. The deactivation timer firing
in this state deletes the skin although the fade is active. After the first fade tick
the start time is not 0 and the handler leaves the skin and its timer alone. -/
theorem C22_deactivation_deletes_before_first_fade_tick :
    Skin.running.Deactivate.m_ActiveFade = true ∧
    Skin.running.Deactivate.timers.fade = true ∧
    Skin.running.Deactivate.m_FadeStartTime = 0 ∧
    Skin.running.Deactivate.OnTimerDeactivate.deleted = true ∧
    Call.deleteThis ∈ Skin.running.Deactivate.OnTimerDeactivate.calls ∧
    (Skin.running.Deactivate.OnTimerFade 1000).map
      (fun s => (s.m_ActiveFade, s.OnTimerDeactivate.deleted,
        s.OnTimerDeactivate.timers.deactivate)) = some (true, false, true) := by
  decide

end Skin

/-! ### Keeping a window on screen: the monitor found -/

/-- The inner loop finds the first active monitor that contains the point. -/
theorem screenAt_first (before after : List MonitorInfo) (m : MonitorInfo) (pt : Int × Int)
    (hb : ∀ mon ∈ before, ¬ (mon.active = true ∧ mon.screen.hasPoint pt = true))
    (ha : m.active = true) (hp : m.screen.hasPoint pt = true) :
    screenAt (before ++ m :: after) pt = some m.screen := by
  unfold screenAt
  induction before with
  | nil => simp [List.find?, ha, hp]
  | cons b rest ih =>
    have hb1 := hb b (List.mem_cons_self _ _)
    have hf : (b.active && b.screen.hasPoint pt) = false := by
      cases h1 : b.active <;> cases h2 : b.screen.hasPoint pt <;> simp_all
    simp only [List.cons_append, List.find?, hf]
    exact ih fun mon hmon => hb mon (List.mem_cons_of_mem _ hmon)

/-- The inner loop finds nothing when no active monitor contains the point. -/
theorem screenAt_none (monitors : List MonitorInfo) (pt : Int × Int)
    (h : ∀ m ∈ monitors, m.active = true → m.screen.hasPoint pt = false) :
    screenAt monitors pt = none := by
  unfold screenAt
  rw [Option.map_eq_none', List.find?_eq_none]
  intro m hm
  cases ha : m.active with
  | false => simp
  | true => simp [h m hm ha]

/-- The outer loop stops at the first test point that lies in an active monitor. -/
theorem firstScreen_first (monitors : List MonitorInfo) (pre post : List (Int × Int))
    (pt : Int × Int) (r : Rect)
    (hpre : ∀ p ∈ pre, ∀ m ∈ monitors, m.active = true → m.screen.hasPoint p = false)
    (hpt : screenAt monitors pt = some r) :
    firstScreen monitors (pre ++ pt :: post) = some r := by
  induction pre with
  | nil => simp [firstScreen, hpt]
  | cons p rest ih =>
    have h1 : screenAt monitors p = none :=
      screenAt_none monitors p (hpre p (List.mem_cons_self _ _))
    simp only [List.cons_append, firstScreen, h1]
    exact ih fun q hq => hpre q (List.mem_cons_of_mem _ hq)

/-- C23 (amended): `MapCoordsToScreen` tries the centre (the halves rounded toward zero),
then the corners top-left, bottom-right, bottom-left and top-right and, for each point,
the monitors in list order, skipping inactive ones. When `pt` is the first of these
points that lies in an active monitor and `m` the first active monitor of the list that
contains it, the result is the position clamped to the screen of `m`, and if the window
is not larger than that screen, the rectangle at the result lies inside it. -/
theorem C23_first_hit_selects_monitor (info : MultiMonitorInfo) (x y w h : Int)
    (pre post : List (Int × Int)) (pt : Int × Int) (before after : List MonitorInfo)
    (m : MonitorInfo)
    (hpts : [(x + Int.tdiv w 2, y + Int.tdiv h 2), (x, y), (x + w, y + h), (x, y + h),
      (x + w, y)] = pre ++ pt :: post)
    (hpre : ∀ p ∈ pre, ∀ mon ∈ info.monitors, mon.active = true →
      mon.screen.hasPoint p = false)
    (hmons : info.monitors = before ++ m :: after)
    (hbefore : ∀ mon ∈ before, ¬ (mon.active = true ∧ mon.screen.hasPoint pt = true))
    (hactive : m.active = true) (hhit : m.screen.hasPoint pt = true)
    (hw : w ≤ m.screen.right - m.screen.left) (hh : h ≤ m.screen.bottom - m.screen.top) :
    ∃ x' y', MapCoordsToScreen info x y w h = some (x', y') ∧
      x' = max (min x (m.screen.right - w)) m.screen.left ∧
      y' = max (min y (m.screen.bottom - h)) m.screen.top ∧
      m.screen.left ≤ x' ∧ x' + w ≤ m.screen.right ∧
      m.screen.top ≤ y' ∧ y' + h ≤ m.screen.bottom := by
  have hs : screenAt info.monitors pt = some m.screen := by
    rw [hmons]
    exact screenAt_first before after m pt hbefore hactive hhit
  have hf : firstScreen info.monitors (testPoints x y w h) = some m.screen := by
    unfold testPoints
    rw [hpts]
    exact firstScreen_first info.monitors pre post pt m.screen hpre hs
  refine ⟨_, _, ?_, rfl, rfl, ?_⟩
  · unfold MapCoordsToScreen
    rw [hf]
    rfl
  · omega

/-- C23, at a concrete input: on two monitors side by side, a 200 by 100 window at
`(3800, 500)` has its centre, `(3900, 550)`, in no monitor; its top-left corner is the
first test point in a monitor, the second one, and the window is moved to
`(3640, 500)`. -/
theorem C23_first_hit_witness :
    ∃ x' y', MapCoordsToScreen MultiMonitorInfo.pair 3800 500 200 100 = some (x', y') ∧
      x' = max (min 3800 ((MonitorInfo.fullHD 1920).screen.right - 200))
        (MonitorInfo.fullHD 1920).screen.left ∧
      y' = max (min 500 ((MonitorInfo.fullHD 1920).screen.bottom - 100))
        (MonitorInfo.fullHD 1920).screen.top ∧
      (MonitorInfo.fullHD 1920).screen.left ≤ x' ∧
      x' + 200 ≤ (MonitorInfo.fullHD 1920).screen.right ∧
      (MonitorInfo.fullHD 1920).screen.top ≤ y' ∧
      y' + 100 ≤ (MonitorInfo.fullHD 1920).screen.bottom :=
  C23_first_hit_selects_monitor MultiMonitorInfo.pair 3800 500 200 100 [(3900, 550)]
    [(4000, 600), (3800, 600), (4000, 500)] (3800, 500) [MonitorInfo.fullHD 0] []
    (MonitorInfo.fullHD 1920) (by decide) (by decide) (by decide) (by decide) (by decide)
    (by decide) (by decide) (by decide)

/-- C23 (counterexample): a 3000 by 100 window at `(0, 500)` on a single 1920 by 1080
monitor has its centre, `(1500, 550)`, in the monitor; it stays at `(0, 500)` and its
right edge, at 3000, is outside the screen bounds, which end at 1920. -/
theorem C23_wide_window_exceeds_screen :
    (MonitorInfo.fullHD 0).active = true ∧
    (MonitorInfo.fullHD 0).screen.hasPoint (0 + Int.tdiv 3000 2, 500 + Int.tdiv 100 2) = true ∧
    MapCoordsToScreen MultiMonitorInfo.single 0 500 3000 100 = some (0, 500) ∧
    (MonitorInfo.fullHD 0).screen.right = 1920 := by
  decide

/-! ### Keeping a window on screen: idempotence -/

/-- A result of the outer loop is the screen of an active monitor. -/
theorem firstScreen_some (monitors : List MonitorInfo) (pts : List (Int × Int)) (r : Rect)
    (h : firstScreen monitors pts = some r) :
    ∃ m ∈ monitors, m.active = true ∧ m.screen = r := by
  induction pts with
  | nil => exact Option.noConfusion h
  | cons pt rest ih =>
    unfold firstScreen at h
    cases hs : screenAt monitors pt with
    | none =>
      rw [hs] at h
      exact ih h
    | some r' =>
      rw [hs] at h
      obtain rfl := Option.some.inj h
      unfold screenAt at hs
      obtain ⟨m, hm, rfl⟩ := Option.map_eq_some'.mp hs
      have h1 := List.find?_some hm
      have h2 := List.mem_of_find?_eq_some hm
      simp only [Bool.and_eq_true] at h1
      exact ⟨m, h2, h1.1, rfl⟩

/-- A centre that lies in an active monitor is found, in a monitor with the same screen
rectangle when the screens of active monitors that share a point are equal. -/
theorem screenAt_of_mem (monitors : List MonitorInfo) (m : MonitorInfo) (pt : Int × Int)
    (hm : m ∈ monitors) (ha : m.active = true) (hp : m.screen.hasPoint pt = true)
    (hdisj : ∀ m1 ∈ monitors, ∀ m2 ∈ monitors, m1.active = true → m2.active = true →
      ∀ p, m1.screen.hasPoint p = true → m2.screen.hasPoint p = true →
        m1.screen = m2.screen) :
    screenAt monitors pt = some m.screen := by
  unfold screenAt
  cases hf : monitors.find? fun m => m.active && m.screen.hasPoint pt with
  | none =>
    rw [List.find?_eq_none] at hf
    have := hf m hm
    simp [ha, hp] at this
  | some m' =>
    have h1 := List.find?_some hf
    have h2 := List.mem_of_find?_eq_some hf
    simp only [Bool.and_eq_true] at h1
    rw [Option.map_some', hdisj m' h2 m hm h1.1 ha pt h1.2 hp]

/-- The centre of a window that lies inside a rectangle lies in the rectangle. -/
theorem centre_inside (r : Rect) (x y w h : Int) (hw : 1 ≤ w) (hh : 1 ≤ h)
    (h1 : r.left ≤ x) (h2 : x + w ≤ r.right) (h3 : r.top ≤ y) (h4 : y + h ≤ r.bottom) :
    r.hasPoint (x + Int.tdiv w 2, y + Int.tdiv h 2) = true := by
  have a1 : 0 ≤ Int.tdiv w 2 ∧ Int.tdiv w 2 < w := by
    rw [Int.tdiv_eq_ediv (by omega) (by norm_num)]
    omega
  have a2 : 0 ≤ Int.tdiv h 2 ∧ Int.tdiv h 2 < h := by
    rw [Int.tdiv_eq_ediv (by omega) (by norm_num)]
    omega
  unfold Rect.hasPoint
  simp only [ge_iff_le, Bool.and_eq_true, decide_eq_true_eq]
  omega

/-- A window inside the screen of an active monitor stays where it is. -/
theorem MapCoordsToScreen_inside (info : MultiMonitorInfo) (m : MonitorInfo)
    (x y w h : Int) (hm : m ∈ info.monitors) (ha : m.active = true) (hw : 1 ≤ w) (hh : 1 ≤ h)
    (h1 : m.screen.left ≤ x) (h2 : x + w ≤ m.screen.right) (h3 : m.screen.top ≤ y)
    (h4 : y + h ≤ m.screen.bottom)
    (hdisj : ∀ m1 ∈ info.monitors, ∀ m2 ∈ info.monitors, m1.active = true →
      m2.active = true → ∀ p, m1.screen.hasPoint p = true → m2.screen.hasPoint p = true →
        m1.screen = m2.screen) :
    MapCoordsToScreen info x y w h = some (x, y) := by
  have hc := centre_inside m.screen x y w h hw hh h1 h2 h3 h4
  have hs := screenAt_of_mem info.monitors m _ hm ha hc hdisj
  unfold MapCoordsToScreen testPoints
  simp only [firstScreen, hs, Rect.clamp]
  congr 1
  ext
  · simp only []
    omega
  · simp only []
    omega

/-- The clamp of a rectangle puts a window that is not larger inside it. -/
theorem clamp_inside (r : Rect) (x y w h : Int) (hw : w ≤ r.right - r.left)
    (hh : h ≤ r.bottom - r.top) :
    r.left ≤ (r.clamp x y w h).1 ∧ (r.clamp x y w h).1 + w ≤ r.right ∧
    r.top ≤ (r.clamp x y w h).2 ∧ (r.clamp x y w h).2 + h ≤ r.bottom := by
  simp only [Rect.clamp]
  omega

/-- C28: `MapCoordsToScreen` applied to its own result returns it unchanged, for a monitor
list in which the screens of two active monitors that share a point are equal (as they
are when the active screens are pairwise disjoint), with an active primary monitor whose
work area lies inside its screen rectangle, and a window of width and height at least 1
that is not larger than any active monitor's screen or the primary work area. -/
theorem C28_map_coords_idempotent (info : MultiMonitorInfo) (x y w h : Int)
    (primary : MonitorInfo) (hprim : info.monitorAt info.primary = some primary)
    (hpa : primary.active = true)
    (hwork : primary.screen.left ≤ primary.work.left ∧
      primary.work.right ≤ primary.screen.right ∧ primary.screen.top ≤ primary.work.top ∧
      primary.work.bottom ≤ primary.screen.bottom)
    (hdisj : ∀ m1 ∈ info.monitors, ∀ m2 ∈ info.monitors, m1.active = true →
      m2.active = true → ∀ p, m1.screen.hasPoint p = true → m2.screen.hasPoint p = true →
        m1.screen = m2.screen)
    (hw : 1 ≤ w) (hh : 1 ≤ h)
    (hfit : ∀ m ∈ info.monitors, m.active = true →
      w ≤ m.screen.right - m.screen.left ∧ h ≤ m.screen.bottom - m.screen.top)
    (hfitw : w ≤ primary.work.right - primary.work.left ∧
      h ≤ primary.work.bottom - primary.work.top) :
    ∃ x' y', MapCoordsToScreen info x y w h = some (x', y') ∧
      MapCoordsToScreen info x' y' w h = some (x', y') := by
  have hpm : primary ∈ info.monitors := by
    unfold MultiMonitorInfo.monitorAt at hprim
    split_ifs at hprim
    exact List.get?_mem hprim
  cases hf : firstScreen info.monitors (testPoints x y w h) with
  | some r =>
    obtain ⟨m, hm, ha, rfl⟩ := firstScreen_some info.monitors _ r hf
    obtain ⟨c1, c2, c3, c4⟩ := clamp_inside m.screen x y w h (hfit m hm ha).1 (hfit m hm ha).2
    refine ⟨(m.screen.clamp x y w h).1, (m.screen.clamp x y w h).2, ?_, ?_⟩
    · unfold MapCoordsToScreen
      rw [hf]
    · exact MapCoordsToScreen_inside info m _ _ w h hm ha hw hh c1 c2 c3 c4 hdisj
  | none =>
    obtain ⟨c1, c2, c3, c4⟩ := clamp_inside primary.work x y w h hfitw.1 hfitw.2
    refine ⟨(primary.work.clamp x y w h).1, (primary.work.clamp x y w h).2, ?_, ?_⟩
    · unfold MapCoordsToScreen
      rw [hf, hprim]
      rfl
    · exact MapCoordsToScreen_inside info primary _ _ w h hpm hpa hw hh (by omega) (by omega)
        (by omega) (by omega) hdisj

/-- C28, at a concrete input: a 200 by 100 window at `(3800, 500)` on two monitors side by
side. -/
theorem C28_map_coords_idempotent_witness :
    ∃ x' y', MapCoordsToScreen MultiMonitorInfo.pair 3800 500 200 100 = some (x', y') ∧
      MapCoordsToScreen MultiMonitorInfo.pair x' y' 200 100 = some (x', y') :=
  C28_map_coords_idempotent MultiMonitorInfo.pair 3800 500 200 100 (MonitorInfo.fullHD 0)
    (by decide) (by decide) (by decide)
    (by
      intro m1 h1 m2 h2 _ _ p p1 p2
      simp only [MultiMonitorInfo.pair, List.mem_cons, List.mem_singleton, List.not_mem_nil,
        or_false] at h1 h2
      rcases h1 with rfl | rfl <;> rcases h2 with rfl | rfl <;>
        simp only [MonitorInfo.fullHD, Rect.hasPoint, ge_iff_le, Bool.and_eq_true,
          decide_eq_true_eq] at p1 p2 ⊢ <;> omega)
    (by decide) (by decide)
    (by
      intro m hm _
      simp only [MultiMonitorInfo.pair, List.mem_cons, List.mem_singleton, List.not_mem_nil,
        or_false] at hm
      rcases hm with rfl | rfl <;> decide)
    (by decide)

/-! ### Drawing a segmented bitmap: segments outside the source rectangle -/

namespace Gfx

/-- C24 (evaluation at the failing inputs): `DrawBitmap` with a source rectangle that does
not meet a segment. If a segment rectangle holds edges, the source rectangle
`(0, 0, 100, 100)` of a bitmap four times the maximum size wide lies in the first segment
and ends left of the three others, which begin at 16384, 32768 and 49152; all four
segments are drawn, the three others with a source rectangle whose right edge is left of
its left edge. If a segment rectangle holds origin and extent, the source rectangle
`(20000, 0, 20100, 100)` of a bitmap twice the maximum size wide begins right of the
first segment, which ends at 16384; the first segment is drawn. -/
theorem C24_segment_outside_source_is_drawn :
    (segmentsByEdges.map fun rSeg => (RectF.ofInts 0 0 100 100).right.lt rSeg.left) =
      [false, true, true, true] ∧
    ((Canvas.ready.DrawBitmap 8 segmentsByEdges (RectF.ofInts 0 0 200 100)
        (RectF.ofInts 0 0 100 100)).map fun l => l.map fun d => d.segment) =
      some [0, 1, 2, 3] ∧
    (drawSources segmentsByEdges (RectF.ofInts 0 0 100 100)).map
      (fun r => r.right.lt r.left) = [false, true, true, true] ∧
    (RectF.ofInts 0 0 16384 100).right.lt (RectF.ofInts 20000 0 20100 100).left = true ∧
    ((Canvas.ready.DrawBitmap 8 segmentsByExtent (RectF.ofInts 0 0 200 100)
        (RectF.ofInts 20000 0 20100 100)).map fun l => l.map fun d => d.segment) =
      some [0] ∧
    (drawSources segmentsByExtent (RectF.ofInts 20000 0 20100 100)).map
      (fun r => r.right.lt r.left) = [true] := by
  decide

/-! ### Drawing a masked bitmap -/

/-- C25 (evaluation at the failing input): `DrawMaskedBitmap` of a 65536 by 100 bitmap in
four segments with a mask of the same layout onto the destination `(0, 0, 200, 100)`. The
destination sub-rectangle of the first bitmap segment has origin `(0, 0)` and size 50 by
100, that of the fourth mask segment has origin `(150, 0)` and size 50 by 100: they do
not overlap. The test does not skip the mask segment: every mask segment is filled for
every bitmap segment, sixteen fills. -/
theorem C25_mask_segment_without_overlap_is_filled :
    ((getRectSubRegion (Flt.ofInt 65536) (Flt.ofInt 100) (RectF.ofInts 0 0 16384 100)
        (RectF.ofInts 0 0 200 100)).map fun r => r.same (RectF.ofInts 0 0 50 100)) =
      some true ∧
    ((getRectSubRegion (Flt.ofInt 65536) (Flt.ofInt 100) (RectF.ofInts 49152 0 65536 100)
        (RectF.ofInts 0 0 200 100)).map fun r => r.same (RectF.ofInts 150 0 50 100)) =
      some true ∧
    ((getRectSubRegion (Flt.ofInt 65536) (Flt.ofInt 100) (RectF.ofInts 49152 0 65536 100)
        (RectF.ofInts 0 0 200 100)).bind fun rmDst =>
      (getRectSubRegion (Flt.ofInt 65536) (Flt.ofInt 100) (RectF.ofInts 0 0 16384 100)
        (RectF.ofInts 0 0 200 100)).bind fun rDst => maskSkipped rmDst rDst) = some false ∧
    ((Canvas.DrawMaskedBitmap (fun _ => .ok) (some D2DBitmap.wideByEdges)
        (some D2DBitmap.wideByEdges) (RectF.ofInts 0 0 200 100)
        (RectF.ofInts 0 0 65536 100)).map fun l => l.map fun f => (f.segment, f.mask)) =
      some [(0, 0), (0, 1), (0, 2), (0, 3), (1, 0), (1, 1), (1, 2), (1, 3),
        (2, 0), (2, 1), (2, 2), (2, 3), (3, 0), (3, 1), (3, 2), (3, 3)] := by
  decide

/-! ### The transform and the clip of a trimmed text -/

/-- C26 (evaluation at the failing input): after `SetTransform` with the scaling by 2 and
`ResetTransform`, the transform of the render target is the identity, the rotation by 0
degrees, and `m_CanUseAxisAlignClip` is false, so that `DrawTextW` takes the layer path.
`SetTransform` itself sets the flag as the claim says, and `DrawGeometry` leaves
transform and flag as they were. -/
theorem C26_reset_transform_keeps_stale_flag :
    (TransformState.after [.setTransform Matrix3x2F.double, .resetTransform]).transform =
      Matrix3x2F.Identity ∧
    Matrix3x2F.Identity.isQuarterTurn = true ∧
    (TransformState.after [.setTransform Matrix3x2F.double,
      .resetTransform]).m_CanUseAxisAlignClip = false ∧
    (TransformState.after [.setTransform Matrix3x2F.double,
      .resetTransform]).usesAxisAlignedClip = false ∧
    (∀ (s : TransformState) (matrix : Matrix3x2F),
      (s.SetTransform matrix).m_CanUseAxisAlignClip =
        (s.SetTransform matrix).transform.isQuarterTurn) ∧
    (∀ (s : TransformState) (shapeTransform : Matrix3x2F),
      s.DrawGeometry shapeTransform = s) := by
  refine ⟨by decide, by decide, by decide, by decide, fun s matrix => rfl, fun s m => rfl⟩

end Gfx

/-! ### The fade timer: the divisor of the interpolation -/

namespace Skin

/-- The interpolation with the duration 0 has no result: it divides by zero. -/
theorem fadeInterpolate_zero (elapsed : Nat) (startValue endValue : Int) :
    fadeInterpolate elapsed 0 startValue endValue = none := by
  have h : (Flt.ofIntD 0).m = 0 := by decide
  unfold fadeInterpolate
  simp [Flt.divAs, h]

/-- On the interpolation branch the handler divides by `m_FadeDuration`: with the duration
0 it has no result. -/
theorem OnTimerFade_zero_duration (ticks : Nat) (s : Skin)
    (h : s.fadeBranch ticks = .interpolated) (hd : s.m_FadeDuration = 0) :
    s.OnTimerFade ticks = none := by
  unfold fadeBranch at h
  unfold OnTimerFade
  cases ha : s.m_ActiveFade with
  | false => simp [ha] at h
  | true =>
    simp only [ha, Bool.not_true, Bool.false_eq_true, if_false] at h ⊢
    by_cases h0 : s.m_FadeStartTime = 0
    · simp only [h0, if_true] at h ⊢
      split_ifs at h with hgt
      rw [if_neg hgt]
      simp [hd, fadeInterpolate_zero]
    · simp only [h0, if_false] at h ⊢
      split_ifs at h with hgt
      rw [if_neg hgt]
      simp [hd, fadeInterpolate_zero]

/-- C29 (evaluation at the failing input): `FadeWindow(0, 255)` on a running skin of fade
duration 250 ms marks the fade active and arms the fade timer; the bang `!FadeDuration 0`
and a second `FadeWindow`, which calls `UpdateFadeDuration`, make the duration 0 and
leave the fade active and the timer armed. The first tick of the fade timer then takes
the interpolation branch with `m_FadeDuration = 0`: the quotient of the elapsed time 0
and the duration 0 is no number. -/
theorem C29_interpolation_divides_by_zero :
    Skin.fadeCutShort.m_ActiveFade = true ∧
    Skin.fadeCutShort.timers.fade = true ∧
    Skin.fadeCutShort.m_FadeDuration = 0 ∧
    Skin.fadeCutShort.fadeBranch 1000 = .interpolated ∧
    (Flt.ofIntD (toInt64 0)).divAs Format.double (Flt.ofIntD Skin.fadeCutShort.m_FadeDuration)
      = none ∧
    (Skin.fadeCutShort.OnTimerFade 1000).isNone = true := by
  decide

end Skin

/-! ### Window geometry: a suffix that names no active monitor -/

/-- The suffix that `WindowToScreen` accepts is the index that the option names, when that
index passes the test of lines 1906 and 1944. -/
theorem screenSuffix_eq (info : MultiMonitorInfo) (s : List Char) :
    screenSuffix info s = (suffixIndex s).bind fun screenIndex =>
      if screenIndex ≥ 0 && (screenIndex == 0 ||
          decide (screenIndex ≤ info.GetMonitorCount) &&
          (match info.monitors.get? (screenIndex - 1).toNat with
            | some m => m.active
            | none => false)) then some screenIndex else none := by
  unfold screenSuffix suffixIndex
  cases findLastOf '@' s with
  | none => rfl
  | some index =>
    simp only []
    by_cases h1 : flagAfterHash '@' s = true
    · rw [if_pos h1, if_pos h1]
      by_cases h2 : (!((s.drop (index + 1)).takeWhile (inSet "0123456789")).isEmpty) = true
      · rw [if_pos h2, if_pos h2]
        rfl
      · rw [if_neg h2, if_neg h2]
        rfl
    · rw [if_neg h1, if_neg h1]
      rfl

/-- A suffix that exceeds the monitor count or names an inactive monitor is not accepted. -/
theorem screenSuffix_ignored (info : MultiMonitorInfo) (s : List Char) (n : Int)
    (hn : suffixIndex s = some n)
    (hbad : info.GetMonitorCount < n ∨ ∃ m, info.monitorAt n = some m ∧ m.active = false) :
    screenSuffix info s = none := by
  rw [screenSuffix_eq, hn, Option.some_bind]
  have hc : (0 : Int) ≤ info.GetMonitorCount := by
    unfold MultiMonitorInfo.GetMonitorCount
    exact Int.natCast_nonneg _
  rcases hbad with hbig | ⟨m, hm, hina⟩
  · have h0 : (n == 0) = false := by
      rw [beq_eq_false_iff_ne]
      omega
    have h1 : decide (n ≤ info.GetMonitorCount) = false := by
      rw [decide_eq_false_iff_not]
      omega
    simp only [h0, h1, Bool.false_or, Bool.false_and, Bool.and_false, Bool.false_eq_true,
      if_false]
  · unfold MultiMonitorInfo.monitorAt at hm
    split_ifs at hm with h1
    have h0 : (n == 0) = false := by
      rw [beq_eq_false_iff_ne]
      omega
    simp only [h0, hm, hina, Bool.false_or, Bool.and_false, Bool.false_eq_true, if_false]

/-- The reads of the suffix test are inside the monitor list. -/
theorem suffixRead_range (info : MultiMonitorInfo) (s : List Char) (i : Int)
    (h : suffixRead info s = some i) : 0 ≤ i ∧ i < info.monitors.length := by
  unfold suffixRead at h
  cases hs : suffixIndex s with
  | none => rw [hs] at h; exact Option.noConfusion h
  | some n =>
    rw [hs, Option.some_bind] at h
    simp only [] at h
    split_ifs at h with hc
    obtain rfl := Option.some.inj h
    simp only [Bool.and_eq_true, decide_eq_true_eq, ge_iff_le, Bool.not_eq_true',
      beq_eq_false_iff_ne, MultiMonitorInfo.GetMonitorCount] at hc
    omega

namespace Placement

/-- C30 (amended): with the primary index within 1..monitor count, for all `WindowX` and
`WindowY` strings, `WindowToScreen` reads the monitor list only at indices inside it; and
an `@n` suffix of one option whose `n` exceeds the monitor count or names an inactive
monitor is ignored: that axis gets the screen of the other option's suffix, with the
screen-defined flag set, if the other option has an accepted suffix, and the primary
monitor with the flag clear if it has not. -/
theorem C30_invalid_suffix_is_ignored (info : MultiMonitorInfo) (x y : List Char)
    (hp : 1 ≤ info.primary ∧ info.primary ≤ info.GetMonitorCount) :
    (∀ i ∈ monitorReads info x y, 0 ≤ i ∧ i < info.monitors.length) ∧
    (∀ n, suffixIndex x = some n →
      (info.GetMonitorCount < n ∨ ∃ m, info.monitorAt n = some m ∧ m.active = false) →
      screenSuffix info x = none ∧
      (selectScreens info x y).1 =
        match screenSuffix info y with
        | some k => (k, true)
        | none => (info.primary, false)) ∧
    (∀ n, suffixIndex y = some n →
      (info.GetMonitorCount < n ∨ ∃ m, info.monitorAt n = some m ∧ m.active = false) →
      screenSuffix info y = none ∧
      (selectScreens info x y).2 =
        match screenSuffix info x with
        | some k => (k, true)
        | none => (info.primary, false)) := by
  have hcount : info.GetMonitorCount = info.monitors.length := rfl
  have hscreen : ∀ k, (k = (selectScreens info x y).1.1 ∨ k = (selectScreens info x y).2.1) →
      k ≠ 0 → 0 ≤ k - 1 ∧ k - 1 < info.monitors.length := by
    intro k hk hk0
    have hval : ∀ s j, screenSuffix info s = some j → j ≠ 0 →
        0 ≤ j - 1 ∧ j - 1 < info.monitors.length := by
      intro s j hj hj0
      obtain ⟨v1, -, v3⟩ := screenSuffix_valid info s j hj
      rcases v3 with v3 | ⟨v3, -⟩
      · exact absurd v3 hj0
      · omega
    rw [selectScreens_eq] at hk
    cases hx : screenSuffix info x with
    | none =>
      cases hy : screenSuffix info y with
      | none =>
        rw [hx, hy] at hk
        simp only [or_self] at hk
        subst hk
        omega
      | some b =>
        rw [hx, hy] at hk
        simp only [or_self] at hk
        subst hk
        exact hval y _ hy hk0
    | some a =>
      cases hy : screenSuffix info y with
      | none =>
        rw [hx, hy] at hk
        simp only [or_self] at hk
        subst hk
        exact hval x _ hx hk0
      | some b =>
        rw [hx, hy] at hk
        simp only [] at hk
        rcases hk with rfl | rfl
        · exact hval x _ hx hk0
        · exact hval y _ hy hk0
  refine ⟨?_, ?_, ?_⟩
  · intro i hi
    unfold monitorReads at hi
    simp only [List.mem_append, Option.mem_toList, Option.mem_def] at hi
    rcases hi with ((hi | hi) | hi) | hi
    · exact suffixRead_range info x i hi
    · exact suffixRead_range info y i hi
    · split_ifs at hi with h0
      · exact absurd hi (List.not_mem_nil _)
      · rw [List.mem_singleton] at hi
        subst hi
        exact hscreen _ (Or.inr rfl) h0
    · split_ifs at hi with h0
      · exact absurd hi (List.not_mem_nil _)
      · rw [List.mem_singleton] at hi
        subst hi
        exact hscreen _ (Or.inl rfl) h0
  · intro n hn hbad
    have hx := screenSuffix_ignored info x n hn hbad
    refine ⟨hx, ?_⟩
    rw [selectScreens_eq, hx]
    cases screenSuffix info y <;> rfl
  · intro n hn hbad
    have hy := screenSuffix_ignored info y n hn hbad
    refine ⟨hy, ?_⟩
    rw [selectScreens_eq, hy]
    cases screenSuffix info x <;> rfl

/-- C30, at a concrete input: `WindowX=100@5`, `WindowY=50` on two monitors. -/
theorem C30_invalid_suffix_witness :
    screenSuffix MultiMonitorInfo.pair "100@5".toList = none ∧
    (selectScreens MultiMonitorInfo.pair "100@5".toList "50".toList).1 =
      match screenSuffix MultiMonitorInfo.pair "50".toList with
      | some k => (k, true)
      | none => (MultiMonitorInfo.pair.primary, false) :=
  (C30_invalid_suffix_is_ignored MultiMonitorInfo.pair "100@5".toList "50".toList
    (by decide)).2.1 5 (by decide) (Or.inl (by decide))

/-- C30 (counterexample): `WindowX=100@5`, `WindowY=50@2` on two monitors, the first one
primary. The suffix `@5` exceeds the monitor count, yet the X axis does not resolve
against the primary monitor with the flag clear: it gets screen 2 from `WindowY`, with
the screen-defined flag set. -/
theorem C30_ignored_suffix_takes_other_screen :
    suffixIndex "100@5".toList = some 5 ∧
    MultiMonitorInfo.pair.GetMonitorCount = 2 ∧
    MultiMonitorInfo.pair.primary = 1 ∧
    selectScreens MultiMonitorInfo.pair "100@5".toList "50@2".toList =
      ((2, true), (2, true)) ∧
    ((Placement.ofOptions "100@5" "50@2" "0" "0" 200 100).WindowToScreen
      MultiMonitorInfo.pair).map (fun q => (q.m_WindowXScreen, q.m_WindowXScreenDefined,
        q.m_ScreenX)) = some (2, true, 2020) := by
  decide

end Placement

/-! ### `float` arithmetic on whole numbers -/

/-- The sum of two `float` numbers that are whole numbers, when the sum is below `2 ^ 24`
in absolute value, is the exact sum. -/
theorem add_int (a b : Flt) (i j : Int) (ha : a.value = i) (hb : b.value = j)
    (h : (i + j).natAbs < 2 ^ 24) : ∃ r, a.add b = some r ∧ r.value = ((i + j : Int) : ℚ) := by
  have hq : |(((i + j : Int) : ℚ)) * (2 : ℚ) ^ (0 : Int)| < (2 : ℚ) ^ (Format.single.emax : Int) := by
    rw [zpow_zero, mul_one]
    have h1 : |(((i + j : Int) : ℚ))| < 2 ^ 24 := by
      rw [← Int.cast_abs, Int.abs_eq_natAbs]
      exact_mod_cast h
    calc |(((i + j : Int) : ℚ))| < 2 ^ 24 := h1
      _ ≤ (2 : ℚ) ^ (Format.single.emax : Int) := by
        simp only [Format.single]
        norm_num
  obtain ⟨r, hr, hv⟩ := addAs_exact Format.single a b (i + j) 0 h (by decide)
    (by rw [ha, hb, zpow_zero, mul_one]; push_cast; ring) hq
  refine ⟨r, hr, ?_⟩
  rw [hv, ha, hb]
  push_cast
  ring

/-- The difference of two `float` numbers that are whole numbers, when it is below
`2 ^ 24` in absolute value, is the exact difference. -/
theorem sub_int (a b : Flt) (i j : Int) (ha : a.value = i) (hb : b.value = j)
    (h : (i - j).natAbs < 2 ^ 24) : ∃ r, a.sub b = some r ∧ r.value = ((i - j : Int) : ℚ) := by
  have hn : (⟨-b.m, b.e⟩ : Flt).value = ((-j : Int) : ℚ) := by
    have := hb
    unfold Flt.value at this ⊢
    push_cast
    rw [neg_mul, this]
  have := add_int a ⟨-b.m, b.e⟩ i (-j) ha hn (by rw [← sub_eq_add_neg]; exact h)
  rw [← sub_eq_add_neg] at this
  exact this

/-- The comparison of two `float` numbers that are whole numbers. -/
theorem lt_int (a b : Flt) (i j : Int) (ha : a.value = i) (hb : b.value = j) :
    a.lt b = decide (i < j) := by
  have := lt_iff a b
  rw [ha, hb] at this
  cases h : a.lt b with
  | true =>
    have h2 : (i : ℚ) < j := this.mp h
    have h3 : i < j := by exact_mod_cast h2
    simp [h3]
  | false =>
    have h3 : ¬ i < j := by
      intro hc
      have : (i : ℚ) < j := by exact_mod_cast hc
      rw [‹a.lt b = true ↔ (i : ℚ) < j›.mpr this] at h
      exact Bool.noConfusion h
    simp [h3]

/-! ### Tiling a bitmap -/

namespace Gfx

/-- The loop of `DrawTiledBitmap` ends when `y` has reached the bottom. -/
theorem tileLoop_done (fw fh : Flt) (dst : RectF) (B : Int) (hb : dst.bottom.value = B)
    (fx fy : Flt) (y : Int) (hy : fy.value = y) (y2 : ¬ y < B) (fuel : Nat) :
    tileLoop fw fh dst (fuel + 1) fx fy = some [] := by
  have hlt : fy.lt dst.bottom = false := by
    rw [lt_int fy dst.bottom y B hy hb]
    simp [y2]
  simp only [tileLoop, hlt, Bool.false_eq_true, if_false]

/-- One round of the loop of `DrawTiledBitmap` on whole numbers of at most `2 ^ 22` in
absolute value: the tile at `(x, y)`, one bitmap in size or clipped to the destination,
and the position of the next round. -/
theorem tileLoop_step (fw fh : Flt) (dst : RectF) (L T R B W H : Int)
    (hfw : fw.value = W) (hfh : fh.value = H) (hl : dst.left.value = L)
    (hr : dst.right.value = R) (hb : dst.bottom.value = B)
    (hW : 0 < W) (hH : 0 < H) (bL : -2 ^ 22 ≤ L) (bT : -2 ^ 22 ≤ T) (bR : R ≤ 2 ^ 22)
    (bB : B ≤ 2 ^ 22) (bW : W ≤ 2 ^ 22) (bH : H ≤ 2 ^ 22)
    (fx fy : Flt) (x y : Int) (hx : fx.value = x) (hy : fy.value = y)
    (x1 : L ≤ x) (x2 : x < R) (y1 : T ≤ y) (y2 : y < B) :
    ∃ (t : TileDraw) (nx ny : Flt),
      (∀ fuel, tileLoop fw fh dst (fuel + 1) fx fy =
        (tileLoop fw fh dst fuel nx ny).map fun l => t :: l) ∧
      t.isRect ⟨x, y, x + min W (R - x), y + min H (B - y)⟩ ∧
      ((x + W < R ∧ nx.value = ((x + W : Int) : ℚ) ∧ ny.value = y) ∨
        (R ≤ x + W ∧ nx.value = L ∧ ny.value = ((y + H : Int) : ℚ))) := by
  have hlt : fy.lt dst.bottom = true := by
    rw [lt_int fy dst.bottom y B hy hb]
    simp [y2]
  obtain ⟨dw, e_dw, v_dw⟩ := sub_int dst.right fx R x hr hx (by omega)
  obtain ⟨dh, e_dh, v_dh⟩ := sub_int dst.bottom fy B y hb hy (by omega)
  have v_w : (if fw.lt dw then fw else dw).value = ((min W (R - x) : Int) : ℚ) := by
    rw [lt_int fw dw W (R - x) hfw v_dw]
    by_cases h : W < R - x
    · simp only [h, decide_True, if_true, hfw, min_eq_left (le_of_lt h)]
    · simp only [h, decide_False, Bool.false_eq_true, if_false, v_dw,
        min_eq_right (not_lt.mp h)]
  have v_h : (if fh.lt dh then fh else dh).value = ((min H (B - y) : Int) : ℚ) := by
    rw [lt_int fh dh H (B - y) hfh v_dh]
    by_cases h : H < B - y
    · simp only [h, decide_True, if_true, hfh, min_eq_left (le_of_lt h)]
    · simp only [h, decide_False, Bool.false_eq_true, if_false, v_dh,
        min_eq_right (not_lt.mp h)]
  obtain ⟨right, e_right, v_right⟩ := add_int fx _ x (min W (R - x)) hx v_w (by omega)
  obtain ⟨bottom, e_bottom, v_bottom⟩ := add_int fy _ y (min H (B - y)) hy v_h (by omega)
  obtain ⟨x', e_x', v_x'⟩ := add_int fx fw x W hx hfw (by omega)
  have v0 : (⟨0, 0⟩ : Flt).value = 0 := by
    unfold Flt.value
    norm_num
  have hrect : TileDraw.isRect
      ⟨⟨fx, fy, right, bottom⟩, ⟨⟨0, 0⟩, ⟨0, 0⟩, if fw.lt dw then fw else dw,
        if fh.lt dh then fh else dh⟩⟩
      ⟨x, y, x + min W (R - x), y + min H (B - y)⟩ := by
    refine ⟨hx, hy, v_right, v_bottom, v0, v0, ?_, ?_⟩
    · rw [v_w]
      congr 1
      ring
    · rw [v_h]
      congr 1
      ring
  have hx'lt : x'.lt dst.right = decide (x + W < R) := lt_int x' dst.right (x + W) R v_x' hr
  by_cases hc : x + W < R
  · refine ⟨_, x', fy, ?_, hrect, Or.inl ⟨hc, v_x', hy⟩⟩
    intro fuel
    simp only [tileLoop, hlt, if_true, e_dw, e_dh, Option.some_bind, e_right, e_bottom, e_x',
      hx'lt, hc, decide_True, Bool.not_true, Bool.false_and, Bool.false_eq_true, if_false]
  · obtain ⟨y', e_y', v_y'⟩ := add_int fy fh y H hy hfh (by omega)
    refine ⟨_, dst.left, y', ?_, hrect, Or.inr ⟨not_lt.mp hc, hl, v_y'⟩⟩
    intro fuel
    simp only [tileLoop, hlt, if_true, e_dw, e_dh, Option.some_bind, e_right, e_bottom, e_x',
      hx'lt, hc, decide_False, Bool.not_false, Bool.true_and, e_y', Option.map_some']

end Gfx

namespace Gfx

/-- The tiles that the loop of `DrawTiledBitmap` draws from the position `(x, y)`, on whole
numbers of at most `2 ^ 22` in absolute value: the loop ends, and the tiles cover, each
point once, the rest of the row of `y` from `x` on and the rows below it. -/
theorem tileLoop_cover (fw fh : Flt) (dst : RectF) (L T R B W H : Int)
    (hfw : fw.value = W) (hfh : fh.value = H) (hl : dst.left.value = L)
    (hr : dst.right.value = R) (hb : dst.bottom.value = B)
    (hW : 0 < W) (hH : 0 < H) (bL : -2 ^ 22 ≤ L) (bT : -2 ^ 22 ≤ T) (bR : R ≤ 2 ^ 22)
    (bB : B ≤ 2 ^ 22) (bW : W ≤ 2 ^ 22) (bH : H ≤ 2 ^ 22) (hLR : L < R) :
    ∀ (fuel : Nat) (fx fy : Flt) (x y : Int), fx.value = x → fy.value = y → L ≤ x → x < R →
      T ≤ y → (y < B → (B - y) * (R - L) + (R - x) < (fuel : Int)) → 0 < fuel →
      ∃ tiles rects, tileLoop fw fh dst fuel fx fy = some tiles ∧
        List.Forall₂ TileDraw.isRect tiles rects ∧
        (∀ r ∈ rects, L ≤ r.left ∧ r.left < R ∧ T ≤ r.top ∧ r.top < B ∧
          r.right = r.left + min W (R - r.left) ∧ r.bottom = r.top + min H (B - r.top)) ∧
        ∀ px py : Int, rects.countP (fun r => r.hasPoint (px, py)) =
          if L ≤ px ∧ px < R ∧ py < B ∧ ((y ≤ py ∧ py < y + H ∧ x ≤ px) ∨ y + H ≤ py)
          then 1 else 0 := by
  intro fuel
  induction fuel with
  | zero =>
    intro fx fy x y _ _ _ _ _ _ h0
    exact absurd h0 (lt_irrefl 0)
  | succ fuel ih =>
    intro fx fy x y hx hy x1 x2 y1 hm _
    by_cases y2 : y < B
    · obtain ⟨t, nx, ny, heq, hrect, hnext⟩ := tileLoop_step fw fh dst L T R B W H hfw hfh hl hr
        hb hW hH bL bT bR bB bW bH fx fy x y hx hy x1 x2 y1 y2
      have hm' := hm y2
      push_cast at hm'
      have hP : 0 < (B - y) * (R - L) := mul_pos (by omega) (by omega)
      rcases hnext with ⟨hc, vx, vy⟩ | ⟨hc, vx, vy⟩
      · obtain ⟨tiles, rects, e1, e2, e3, e4⟩ := ih nx ny (x + W) y vx vy (by omega) hc y1
          (fun _ => by linarith) (by
            have : (0 : Int) < (fuel : Int) := by linarith
            exact_mod_cast this)
        refine ⟨t :: tiles, _ :: rects, by rw [heq, e1]; rfl, List.Forall₂.cons hrect e2, ?_, ?_⟩
        · intro r hr'
          rcases List.mem_cons.mp hr' with rfl | hr'
          · exact ⟨x1, x2, y1, y2, rfl, rfl⟩
          · exact e3 r hr'
        · intro px py
          rw [List.countP_cons, e4 px py]
          simp only [Rect.hasPoint, ge_iff_le, Bool.and_eq_true, decide_eq_true_eq]
          split_ifs <;> omega
      · have hH' : 0 ≤ (H - 1) * (R - L) := mul_nonneg (by omega) (by omega)
        obtain ⟨tiles, rects, e1, e2, e3, e4⟩ := ih nx ny L (y + H) vx vy (le_refl _) hLR
          (by omega) (fun _ => by nlinarith) (by
            have : (0 : Int) < (fuel : Int) := by nlinarith
            exact_mod_cast this)
        refine ⟨t :: tiles, _ :: rects, by rw [heq, e1]; rfl, List.Forall₂.cons hrect e2, ?_, ?_⟩
        · intro r hr'
          rcases List.mem_cons.mp hr' with rfl | hr'
          · exact ⟨x1, x2, y1, y2, rfl, rfl⟩
          · exact e3 r hr'
        · intro px py
          rw [List.countP_cons, e4 px py]
          simp only [Rect.hasPoint, ge_iff_le, Bool.and_eq_true, decide_eq_true_eq]
          split_ifs <;> omega
    · refine ⟨[], [], tileLoop_done fw fh dst B hb fx fy y hy y2 fuel, List.Forall₂.nil,
        fun r hr' => absurd hr' (List.not_mem_nil _), ?_⟩
      intro px py
      rw [List.countP_nil, if_neg]
      omega

end Gfx

namespace Gfx

/-- Related lists: to an element of the first list belongs one of the second. -/
theorem forall₂_mem_left {α β : Type} (R : α → β → Prop) (l : List α) (l' : List β)
    (h : List.Forall₂ R l l') (a : α) (ha : a ∈ l) : ∃ b ∈ l', R a b := by
  induction h with
  | nil => exact absurd ha (List.not_mem_nil _)
  | cons hab _ ih =>
    rcases List.mem_cons.mp ha with rfl | ha
    · exact ⟨_, List.mem_cons_self _ _, hab⟩
    · obtain ⟨b, hb, hr⟩ := ih ha
      exact ⟨b, List.mem_cons_of_mem _ hb, hr⟩

/-- A tile with whole-number edges holds a point exactly if it holds the point of the
whole parts. -/
theorem isRect_hasPoint (t : TileDraw) (r : Rect) (h : t.isRect r) (p q : ℚ) :
    t.dst.hasPoint p q = r.hasPoint (⌊p⌋, ⌊q⌋) := by
  obtain ⟨h1, h2, h3, h4, -⟩ := h
  unfold RectF.hasPoint Rect.hasPoint
  rw [h1, h2, h3, h4, Bool.eq_iff_iff]
  simp only [decide_eq_true_eq, Bool.and_eq_true, ge_iff_le]
  rw [Int.le_floor, Int.floor_lt, Int.le_floor, Int.floor_lt]
  tauto

/-- The tiles hold a point as often as their rectangles hold the point of its whole
parts. -/
theorem countP_tiles (tiles : List TileDraw) (rects : List Rect)
    (h : List.Forall₂ TileDraw.isRect tiles rects) (p q : ℚ) :
    (tiles.countP fun t => t.dst.hasPoint p q) =
      rects.countP fun r => r.hasPoint (⌊p⌋, ⌊q⌋) := by
  induction h with
  | nil => rfl
  | cons hab _ ih => rw [List.countP_cons, List.countP_cons, ih, isRect_hasPoint _ _ hab]

/-- C27 (amended): for a bitmap of width and height from 1 to `2 ^ 22` and a `dstRect` of
positive width and height whose edges are whole numbers from `-2 ^ 22` to `2 ^ 22`,
`DrawTiledBitmap` terminates (every `fuel` above the given bound gives the result); the
destination rectangles of its `DrawBitmap` calls hold every point of `dstRect` exactly
once and no other point; each call's source rectangle is `(0, 0, w, h)` with the size of
its destination, which is one bitmap, clipped to the right and bottom edge of
`dstRect`. -/
theorem C27_tiles_partition_destination (bitmap : D2DBitmap) (L T R B : Int)
    (srcRect : RectF) (fuel : Nat)
    (hW : 0 < bitmap.m_Width) (hH : 0 < bitmap.m_Height) (hLR : L < R) (hTB : T < B)
    (bL : -2 ^ 22 ≤ L) (bT : -2 ^ 22 ≤ T) (bR : R ≤ 2 ^ 22) (bB : B ≤ 2 ^ 22)
    (bW : bitmap.m_Width ≤ 2 ^ 22) (bH : bitmap.m_Height ≤ 2 ^ 22)
    (hfuel : (B - T) * (R - L) + (R - L) < (fuel : Int)) :
    ∃ tiles, Canvas.DrawTiledBitmap fuel bitmap (RectF.ofInts L T R B) srcRect = some tiles ∧
      (∀ t ∈ tiles, t.src.left.value = 0 ∧ t.src.top.value = 0 ∧
        t.src.right.value = t.dst.right.value - t.dst.left.value ∧
        t.src.bottom.value = t.dst.bottom.value - t.dst.top.value ∧
        t.src.right.value = min (bitmap.m_Width : ℚ) (R - t.dst.left.value) ∧
        t.src.bottom.value = min (bitmap.m_Height : ℚ) (B - t.dst.top.value)) ∧
      ∀ p q : ℚ, (tiles.countP fun t => t.dst.hasPoint p q) =
        if (L : ℚ) ≤ p ∧ p < R ∧ (T : ℚ) ≤ q ∧ q < B then 1 else 0 := by
  have vW : (Flt.ofInt bitmap.m_Width).value = ((bitmap.m_Width : Int) : ℚ) :=
    ofInt_exact _ (by omega)
  have vH : (Flt.ofInt bitmap.m_Height).value = ((bitmap.m_Height : Int) : ℚ) :=
    ofInt_exact _ (by omega)
  have vL : (Flt.ofInt L).value = L := ofInt_exact L (by omega)
  have vT : (Flt.ofInt T).value = T := ofInt_exact T (by omega)
  have vR : (Flt.ofInt R).value = R := ofInt_exact R (by omega)
  have vB : (Flt.ofInt B).value = B := ofInt_exact B (by omega)
  have hpos : 0 < (B - T) * (R - L) := mul_pos (by omega) (by omega)
  obtain ⟨tiles, rects, e1, e2, e3, e4⟩ := tileLoop_cover (Flt.ofInt bitmap.m_Width)
    (Flt.ofInt bitmap.m_Height) (RectF.ofInts L T R B) L T R B bitmap.m_Width bitmap.m_Height
    vW vH vL vR vB (by omega) (by omega) bL bT bR bB (by omega) (by omega) hLR fuel
    (Flt.ofInt L) (Flt.ofInt T) L T vL vT (le_refl _) hLR (le_refl _)
    (fun _ => by linarith) (by
      have : (0 : Int) < (fuel : Int) := by linarith
      exact_mod_cast this)
  refine ⟨tiles, e1, ?_, ?_⟩
  · intro t ht
    obtain ⟨r, hr, h1, h2, h3, h4, h5, h6, h7, h8⟩ := forall₂_mem_left _ _ _ e2 t ht
    obtain ⟨-, -, -, -, s5, s6⟩ := e3 r hr
    refine ⟨h5, h6, ?_, ?_, ?_, ?_⟩
    · rw [h7, h3, h1]
      push_cast
      ring
    · rw [h8, h4, h2]
      push_cast
      ring
    · rw [h7, h1, s5]
      push_cast
      ring_nf
    · rw [h8, h2, s6]
      push_cast
      ring_nf
  · intro p q
    rw [countP_tiles tiles rects e2 p q, e4 ⌊p⌋ ⌊q⌋]
    apply if_congr _ rfl rfl
    rw [← Int.le_floor, ← Int.floor_lt, ← Int.le_floor, ← Int.floor_lt]
    constructor <;> intro h <;> omega

/-- C27, at a concrete input: a 3 by 2 bitmap tiled over the rectangle from `(0, 0)` to
`(7, 3)`. -/
theorem C27_tiles_witness :
    ∃ tiles, Canvas.DrawTiledBitmap 100 (D2DBitmap.small 3 2) (RectF.ofInts 0 0 7 3)
        (RectF.ofInts 0 0 3 2) = some tiles ∧
      (∀ t ∈ tiles, t.src.left.value = 0 ∧ t.src.top.value = 0 ∧
        t.src.right.value = t.dst.right.value - t.dst.left.value ∧
        t.src.bottom.value = t.dst.bottom.value - t.dst.top.value ∧
        t.src.right.value = min (((D2DBitmap.small 3 2).m_Width : ℚ))
          (((7 : Int) : ℚ) - t.dst.left.value) ∧
        t.src.bottom.value = min (((D2DBitmap.small 3 2).m_Height : ℚ))
          (((3 : Int) : ℚ) - t.dst.top.value)) ∧
      ∀ p q : ℚ, (tiles.countP fun t => t.dst.hasPoint p q) =
        if ((0 : Int) : ℚ) ≤ p ∧ p < ((7 : Int) : ℚ) ∧ ((0 : Int) : ℚ) ≤ q ∧
          q < ((3 : Int) : ℚ) then 1 else 0 :=
  C27_tiles_partition_destination (D2DBitmap.small 3 2) 0 0 7 3 (RectF.ofInts 0 0 3 2) 100
    (by decide) (by decide) (by decide) (by decide) (by decide) (by decide) (by decide)
    (by decide) (by decide) (by decide) (by decide)

/-- The loop of `DrawTiledBitmap` for a 1 by 1 bitmap at `x = 2 ^ 24`: the `float` sum
`x + 1` is `x` again, so a round of the loop leads to the position it started from. -/
theorem tileLoop_stuck (fuel : Nat) :
    tileLoop (Flt.ofInt 1) (Flt.ofInt 1) RectF.farRight fuel ⟨8388608, 1⟩ ⟨0, 0⟩ = none := by
  have h1 : (⟨0, 0⟩ : Flt).lt RectF.farRight.bottom = true := by decide
  have h2 : RectF.farRight.right.sub ⟨8388608, 1⟩ = some ⟨8388608, -22⟩ := by decide
  have h3 : RectF.farRight.bottom.sub ⟨0, 0⟩ = some ⟨8388608, -23⟩ := by decide
  have h4 : (Flt.ofInt 1).lt ⟨8388608, -22⟩ = true := by decide
  have h5 : (Flt.ofInt 1).lt ⟨8388608, -23⟩ = false := by decide
  have h6 : (⟨8388608, 1⟩ : Flt).add (Flt.ofInt 1) = some ⟨8388608, 1⟩ := by decide
  have h7 : (⟨0, 0⟩ : Flt).add ⟨8388608, -23⟩ = some ⟨8388608, -23⟩ := by decide
  have h8 : (⟨8388608, 1⟩ : Flt).lt RectF.farRight.right = true := by decide
  induction fuel with
  | zero => rfl
  | succ n ih =>
    simp only [tileLoop, h1, if_true, h2, h3, Option.some_bind, h4, h5, Bool.false_eq_true,
      if_false, h6, h7, h8, Bool.not_true, Bool.false_and, ih, Option.map_none']

/-- C27 (counterexample): a 1 by 1 bitmap tiled over the rectangle from `(2 ^ 24, 0)` to
`(2 ^ 24 + 2, 1)`, of width 2 and height 1: `DrawTiledBitmap` does not terminate, no
amount of fuel gives a result. A 3 by 1 bitmap tiled over the rectangle from `(2 ^ 24, 0)`
to `(2 ^ 24 + 6, 1)` is drawn in two tiles, the first with a destination 4 wide (to
`2 ^ 24 + 4`) and a source 3 wide. -/
theorem C27_tiling_far_right_fails :
    (∀ fuel, Canvas.DrawTiledBitmap fuel (D2DBitmap.small 1 1) RectF.farRight
      (RectF.ofInts 0 0 1 1) = none) ∧
    ((Canvas.DrawTiledBitmap 50 (D2DBitmap.small 3 1) (RectF.ofInts 16777216 0 16777222 1)
        (RectF.ofInts 0 0 3 1)).map fun l => l.map fun t =>
          (t.dst.left.eq (Flt.ofInt 16777216), t.dst.right.eq (Flt.ofInt 16777220),
            t.src.right.eq (Flt.ofInt 3))) =
      some [(true, true, true), (false, false, false)] := by
  refine ⟨fun fuel => tileLoop_stuck fuel, by decide⟩

end Gfx

/-! ### Rounding: the error of an operation -/

namespace Placement

end Placement

/-! ### Window geometry: a position survives both conversions -/

namespace Placement

end Placement
